import Mathlib

/-!
# Value representation and lowering in `src/cgutils.cpp`

A shallow embedding of the parts of `cgutils.cpp` that decide how a value is
split into a pointer-free byte buffer plus a list of roots, how a field of
such a split value is located, how union discriminants are enumerated, and
how `isa`, boxing, root extraction and write barriers are lowered.

Code generation is embedded as functions that return the emitted
instructions; where the meaning of the emitted instructions matters (the
split / recombine copies) a small interpreter over byte memories runs them.
-/

namespace Cgutils

/-! ## Julia values -/

/-- A `jl_value_t*`: the null pointer, the built-in types this file names, any other
type, or an object that is not a type. Pointer equality in the source is equality
here. -/
inductive jl_value_t where
  | null
  /-- A `jl_uniontype_t` with components `a` and `b`. -/
  | uniontype (a b : jl_value_t)
  /-- The empty type `Union{}`, `jl_bottom_type`. -/
  | bottom_type
  /-- The concrete type `typeof(Union{})`, `jl_typeofbottom_type`. -/
  | typeofbottom_type
  /-- The abstract type `Type{Union{}}`, `jl_typeofbottom_type->super`. -/
  | typeofbottom_super
  | type_type
  | any_type
  | nothing_type
  | symbol_type
  | int8_type
  | uint8_type
  | bool_type
  | int32_type
  | int64_type
  | float16_type
  | float32_type
  | float64_type
  | bfloat16_type
  | uniontype_type
  | datatype_type
  | unionall_type
  /-- Any other type. -/
  | datatype (id : Nat)
  /-- An object that is not a type, such as `jl_nothing` or a constant. -/
  | object (id : Nat)
  deriving DecidableEq, Repr, Inhabited

/-! ## Datatype layouts -/

/-- Bytes in a pointer: `sizeof(void*)` on the 64-bit targets. -/
def sizeof_ptr : Nat := 8

/-- One field of a datatype: what `jl_field_offset`, `jl_field_size`,
`jl_field_isptr` return for it, and the two layout numbers of its declared type
that `allpointers(jl_field_type(typ, idx))` reads. -/
structure jl_fielddesc where
  offset : Nat
  size : Nat
  isptr : Bool
  ftype_size : Nat
  ftype_npointers : Nat
  /-- The declared type `jl_field_type(typ, idx)`. -/
  ftype : jl_value_t := jl_value_t.any_type
  /-- The flags `jl_field_isatomic(typ, idx)` and `jl_field_isconst(typ, idx)`. -/
  isatomic : Bool := false
  isconst : Bool := false
  deriving DecidableEq, Repr, Inhabited

/-- A `jl_datatype_t`: `jl_datatype_size`, `layout->first_ptr`, `layout->npointers`, the
pointer-offset table read by `jl_ptr_offset` (in words), the field descriptors, and
what the field accessors read of its type name. -/
structure jl_datatype_t where
  size : Nat
  first_ptr : Int
  npointers : Nat
  ptrs : List Nat
  fields : List jl_fielddesc
  /-- The count `name->n_uninitialized`. -/
  n_uninitialized : Nat := 0
  /-- The flag `name->mutabl`. -/
  mutabl : Bool := false
  /-- Whether `name->atomicfields` is not `NULL`. -/
  atomicfields : Bool := false
  /-- The alignment `jl_datatype_align`. -/
  align : Nat := 8
  /-- The datatype as a `jl_value_t*`. -/
  value : jl_value_t := jl_value_t.null
  deriving DecidableEq, Repr, Inhabited

/-- Entry `i` of the pointer-offset table, `jl_ptr_offset(typ, i)`, in words. -/
def jl_ptr_offset (typ : jl_datatype_t) (i : Nat) : Nat := typ.ptrs.getD i 0

/-- Descriptor of field `idx`. -/
def jl_field (typ : jl_datatype_t) (idx : Nat) : jl_fielddesc := typ.fields.getD idx default

def jl_field_offset (typ : jl_datatype_t) (idx : Nat) : Nat := (jl_field typ idx).offset

def jl_field_size (typ : jl_datatype_t) (idx : Nat) : Nat := (jl_field typ idx).size

def jl_field_isptr (typ : jl_datatype_t) (idx : Nat) : Bool := (jl_field typ idx).isptr

/-- The test `allpointers(typ)`: the object is nothing but pointers. -/
def allpointers (typ : jl_datatype_t) : Bool := typ.size == typ.npointers * sizeof_ptr

/-- The same test on the declared type of field `idx`,
`allpointers((jl_datatype_t*)jl_field_type(typ, idx))`. -/
def allpointers_field (typ : jl_datatype_t) (idx : Nat) : Bool :=
  (jl_field typ idx).ftype_size == (jl_field typ idx).ftype_npointers * sizeof_ptr

/-- The pair `(sizeof(split_value), n_pointers)` of `split_value_size`. -/
def split_value_size (typ : jl_datatype_t) : Nat × Nat :=
  let hasptr := decide (0 ≤ typ.first_ptr)
  let npointers := if hasptr then typ.npointers else 0
  let nodata := allpointers typ
  let dst_off := if nodata then 0 else typ.size
  (dst_off, npointers)

/-! ## Emitted copy instructions -/

/-- The instructions `split_value_into` and `recombine_value` emit. Offsets are
relative to the base pointers `dst` and `src` of the call. -/
inductive CopyInst where
  /-- The call `emit_memcpy(dst + dst_off, src + src_off, n)`. -/
  | memcpy (dst_off src_off n : Nat)
  /-- A pointer load from `src + src_off`, kept as `inline_roots[i]`. -/
  | load_root (i src_off : Nat)
  /-- The store of the all-ones word at `dst + dst_off`. -/
  | store_undef (dst_off : Nat)
  /-- The assignment `inline_roots[i] = x.inline_roots[i]`. -/
  | copy_root (i : Nat)
  /-- A store of `x.inline_roots[i]` to `dst + dst_off`. -/
  | store_root (i dst_off : Nat)
  /-- The call `emit_unbox_store(ctx, x, dst, ...)`, defined outside this file. -/
  | unbox_store
  deriving DecidableEq, Repr

/-- Iterations `i, i+1, ...` of the loop of `split_value_into` on a value in memory;
`rem = npointers - i`, so the test `last = (i == npointers)` is `rem = 0`. -/
def split_value_into_loop (typ : jl_datatype_t) (nodata : Bool) :
    Nat → Nat → Nat → Nat → List CopyInst
  | 0, _, dst_off, src_off =>
    let ptr := typ.size
    if ptr > src_off then [CopyInst.memcpy dst_off src_off (ptr - src_off)] else []
  | rem + 1, i, dst_off, src_off =>
    let ptr := jl_ptr_offset typ i * sizeof_ptr
    let cp := if ptr > src_off then [CopyInst.memcpy dst_off src_off (ptr - src_off)] else []
    let dst_off := if ptr > src_off then dst_off + (ptr - src_off) else dst_off
    let src_off := ptr + sizeof_ptr
    if !nodata then
      cp ++ [CopyInst.load_root i ptr, CopyInst.store_undef dst_off] ++
        split_value_into_loop typ nodata rem (i + 1) (dst_off + sizeof_ptr) src_off
    else
      cp ++ [CopyInst.load_root i ptr] ++
        split_value_into_loop typ nodata rem (i + 1) dst_off src_off

/-- The instructions of `split_value_into(ctx, x, ..., dst, ..., inline_roots)`:
`x_nroots` is `x.inline_roots.size()` and `nroots` the size of the destination
`inline_roots` array. -/
def split_value_into (typ : jl_datatype_t) (x_nroots nroots : Nat) : List CopyInst :=
  if x_nroots ≠ 0 then
    let sizes := split_value_size typ
    (if sizes.1 > 0 then [CopyInst.memcpy 0 0 sizes.1] else []) ++
      (List.range sizes.2).map CopyInst.copy_root
  else if nroots = 0 then
    [CopyInst.unbox_store]
  else
    let hasptr := decide (0 ≤ typ.first_ptr)
    let npointers := if hasptr then typ.npointers else 0
    let nodata := allpointers typ
    split_value_into_loop typ nodata npointers 0 0 0

/-- Iterations `i, i+1, ...` of the loop of `recombine_value`; `rem = npointers - i`. -/
def recombine_value_loop (typ : jl_datatype_t) (nodata : Bool) :
    Nat → Nat → Nat → Nat → List CopyInst
  | 0, _, dst_off, src_off =>
    let ptr := typ.size
    if ptr > dst_off then [CopyInst.memcpy dst_off src_off (ptr - dst_off)] else []
  | rem + 1, i, dst_off, src_off =>
    let ptr := jl_ptr_offset typ i * sizeof_ptr
    let cp := if ptr > dst_off then [CopyInst.memcpy dst_off src_off (ptr - dst_off)] else []
    let src_off := if ptr > dst_off then src_off + (ptr - dst_off) else src_off
    let dst_off := ptr + sizeof_ptr
    cp ++ [CopyInst.store_root i ptr] ++
      recombine_value_loop typ nodata rem (i + 1) dst_off (if !nodata then dst_off else src_off)

/-- The instructions of `recombine_value(ctx, x, dst, ...)` for a split `x`. -/
def recombine_value (typ : jl_datatype_t) : List CopyInst :=
  recombine_value_loop typ (allpointers typ) typ.npointers 0 0 0

/-! ## Locating a field of a split value -/

/-- Wrapping `size_t` addition. -/
def size_add (a b : Nat) : Nat := (a + b) % 2 ^ 64

/-- Wrapping `size_t` subtraction. -/
def size_sub (a b : Nat) : Nat := (a + (2 ^ 64 - b % 2 ^ 64)) % 2 ^ 64

/-- Conversion of a `size_t` to `ssize_t`. -/
def to_ssize (a : Nat) : Int :=
  if a % 2 ^ 64 < 2 ^ 63 then ((a % 2 ^ 64 : Nat) : Int) else ((a % 2 ^ 64 : Nat) : Int) - 2 ^ 64

/-- Iterations `i, i+1, ...` of the loop of `split_value_field` with the final
`return` after it; `rem = npointers - i`. -/
def split_value_field_loop (typ : jl_datatype_t) (idx : Nat) (nodata : Bool) :
    Nat → Nat → Nat → Nat → Int × Int
  | 0, _, dst_off, src_off =>
    (to_ssize (size_sub (size_add dst_off (jl_field_offset typ idx)) src_off), -1)
  | rem + 1, i, dst_off, src_off =>
    let fldoff := jl_field_offset typ idx
    let ptr := jl_ptr_offset typ i * sizeof_ptr
    if ptr ≥ fldoff then
      if ptr ≥ fldoff + jl_field_size typ idx then
        (to_ssize (size_sub (size_add dst_off fldoff) src_off), -1)
      else
        let onlyptr := jl_field_isptr typ idx || allpointers_field typ idx
        (if onlyptr then -1 else to_ssize (size_sub (size_add dst_off fldoff) src_off), (i : Int))
    else
      let dst_off := size_add dst_off (size_sub ptr src_off)
      let src_off := ptr + sizeof_ptr
      split_value_field_loop typ idx nodata rem (i + 1) (if !nodata then src_off else dst_off) src_off

/-- The pair `split_value_field(typ, idx)`: offset into the byte buffer and index
into the roots, either of them `-1` when absent. -/
def split_value_field (typ : jl_datatype_t) (idx : Nat) : Int × Int :=
  split_value_field_loop typ idx (allpointers typ) typ.npointers 0 0 0

/-! ## Running the emitted copies -/

/-- A byte memory addressed by offset from a base pointer. -/
abbrev Mem := Nat → Nat

/-- A pointer value, as the `sizeof_ptr` bytes a pointer load reads. -/
abbrev PtrVal := List Nat

def load_ptr (m : Mem) (off : Nat) : PtrVal := (List.range sizeof_ptr).map fun k => m (off + k)

def store_ptr (m : Mem) (off : Nat) (p : PtrVal) : Mem :=
  fun a => if off ≤ a ∧ a < off + sizeof_ptr then p.getD (a - off) 0 else m a

def do_memcpy (dst src : Mem) (dst_off src_off n : Nat) : Mem :=
  fun a => if dst_off ≤ a ∧ a < dst_off + n then src (src_off + (a - dst_off)) else dst a

/-- The all-ones word stored over a hoisted pointer slot. -/
def undef_word : PtrVal := List.replicate sizeof_ptr 255

/-- One emitted instruction run on the destination memory `st.1` and the
destination roots `st.2`, reading the source memory `src` and the source roots
`xroots`. `unbox_store` is not interpreted. -/
def CopyInst.run (src : Mem) (xroots : List PtrVal) :
    CopyInst → Mem × List PtrVal → Option (Mem × List PtrVal)
  | .memcpy d s n, st => some (do_memcpy st.1 src d s n, st.2)
  | .load_root i s, st => some (st.1, st.2.set i (load_ptr src s))
  | .store_undef d, st => some (store_ptr st.1 d undef_word, st.2)
  | .copy_root i, st => some (st.1, st.2.set i (xroots.getD i []))
  | .store_root i d, st => some (store_ptr st.1 d (xroots.getD i []), st.2)
  | .unbox_store, _ => none

def run_copies (src : Mem) (xroots : List PtrVal) :
    List CopyInst → Mem × List PtrVal → Option (Mem × List PtrVal)
  | [], st => some st
  | c :: cs, st => (c.run src xroots st).bind (run_copies src xroots cs)

/-- Running `split_value` on a value stored natively at `src`: a fresh roots
array of `split_value_size(typ).second` entries and the buffer `dst0`. -/
def split_value (typ : jl_datatype_t) (src dst0 : Mem) : Option (Mem × List PtrVal) :=
  let sizes := split_value_size typ
  run_copies src [] (split_value_into typ 0 sizes.2) (dst0, List.replicate sizes.2 [])

/-- Running `recombine_value` on the split value `(bits, roots)` into `dst0`. -/
def recombine (typ : jl_datatype_t) (bits : Mem) (roots : List PtrVal) (dst0 : Mem) :
    Option Mem :=
  (run_copies bits roots (recombine_value typ) (dst0, [])).map Prod.fst

/-! ## Well-formed layouts -/

/-- A layout with pointers as the runtime builds it: the pointer-offset table has
`npointers` entries, is increasing, and every pointer slot lies inside the object. -/
structure wf_layout (typ : jl_datatype_t) : Prop where
  first_ptr_nonneg : 0 ≤ typ.first_ptr
  npointers_pos : 0 < typ.npointers
  npointers_eq : typ.ptrs.length = typ.npointers
  increasing : typ.ptrs.Pairwise (· < ·)
  slot_inside : ∀ p ∈ typ.ptrs, p * sizeof_ptr + sizeof_ptr ≤ typ.size
  size_lt : typ.size < 2 ^ 32

/-- Fields agree with the pointer table: a field lies inside the object, a pointer
slot is wholly inside or wholly outside a field, and a pointer field is one slot. -/
structure wf_fields (typ : jl_datatype_t) : Prop where
  field_inside : ∀ f ∈ typ.fields, f.offset + f.size ≤ typ.size
  slot_in_or_out : ∀ f ∈ typ.fields, ∀ p ∈ typ.ptrs,
    (f.offset ≤ p * sizeof_ptr ∧ p * sizeof_ptr + sizeof_ptr ≤ f.offset + f.size) ∨
      p * sizeof_ptr + sizeof_ptr ≤ f.offset ∨ f.offset + f.size ≤ p * sizeof_ptr
  ptr_field : ∀ f ∈ typ.fields, f.isptr = true →
    f.size = sizeof_ptr ∧ ∃ p ∈ typ.ptrs, f.offset = p * sizeof_ptr

/-- Byte offset `a` lies in the slot of the pointer at word offset `p`. -/
def in_slot (p a : Nat) : Prop := p * sizeof_ptr ≤ a ∧ a < p * sizeof_ptr + sizeof_ptr

/-- The pointer slots that start inside field `idx`, in table order. -/
def field_ptrs (typ : jl_datatype_t) (idx : Nat) : List Nat :=
  typ.ptrs.filter fun p =>
    decide (jl_field_offset typ idx ≤ p * sizeof_ptr ∧
      p * sizeof_ptr < jl_field_offset typ idx + jl_field_size typ idx)

/-! ## Example layouts -/

/-- Layout of an immutable struct `(ref, Int64, (Int64, ref))`: 32 bytes, pointer
slots at words 0 and 3, the third field stored inline. -/
def example_mixed : jl_datatype_t :=
  { size := 32, first_ptr := 0, npointers := 2, ptrs := [0, 3], fields := [
      { offset := 0, size := 8, isptr := true, ftype_size := 0, ftype_npointers := 0 },
      { offset := 8, size := 8, isptr := false, ftype_size := 8, ftype_npointers := 0 },
      { offset := 16, size := 16, isptr := false, ftype_size := 16, ftype_npointers := 1 }] }

/-- Layout of an immutable struct `(ref, ref, Int64)`: two pointer fields and one
scalar field. -/
def example_two_refs : jl_datatype_t :=
  { size := 24, first_ptr := 0, npointers := 2, ptrs := [0, 1], fields := [
      { offset := 0, size := 8, isptr := true, ftype_size := 0, ftype_npointers := 0 },
      { offset := 8, size := 8, isptr := true, ftype_size := 0, ftype_npointers := 0 },
      { offset := 16, size := 8, isptr := false, ftype_size := 8, ftype_npointers := 0 }] }

/-- A native image whose byte at offset `a` is `a + 1`. -/
def example_image : Mem := fun a => a + 1

/-- A buffer of zero bytes. -/
def zero_mem : Mem := fun _ => 0

/-! ## Julia values and types -/

/-- The macro `jl_is_uniontype`. -/
def jl_is_uniontype : jl_value_t → Bool
  | .uniontype _ _ => true
  | _ => false

/-- The types at the leaves of a union tree, left to right. -/
def union_leaves : jl_value_t → List jl_value_t
  | .uniontype a b => union_leaves a ++ union_leaves b
  | t => [t]

/-- The limit on the number of variants of an unboxed union; an index keeps bit
`UNION_BOX_MARKER` free. -/
def UNION_BOX_MARKER : Nat := 0x80

/-- The function `for_each_uniontype_small(f, ty, counter)`, with `is_pointerfree`
for `jl_is_pointerfree`: the returned flag, the counter afterwards, and the calls
`f(index, type)` made, in order. -/
def for_each_uniontype_small (is_pointerfree : jl_value_t → Bool) :
    jl_value_t → Nat → Bool × Nat × List (Nat × jl_value_t)
  | .uniontype a b, counter =>
    if counter > 127 then (false, counter, [])
    else
      let ra := for_each_uniontype_small is_pointerfree a counter
      let rb := for_each_uniontype_small is_pointerfree b ra.2.1
      (ra.1 && rb.1, rb.2.1, ra.2.2 ++ rb.2.2)
  | ty, counter =>
    if counter > 127 then (false, counter, [])
    else if ty = jl_value_t.typeofbottom_super then
      (false, counter + 1, [(counter + 1, jl_value_t.typeofbottom_type)])
    else if is_pointerfree ty then
      (true, counter + 1, [(counter + 1, ty)])
    else (false, counter, [])

/-- The function `is_uniontype_allunboxed`. -/
def is_uniontype_allunboxed (is_pointerfree : jl_value_t → Bool) (typ : jl_value_t) : Bool :=
  (for_each_uniontype_small is_pointerfree typ 0).1

/-- The function `get_box_tindex(jt, ut)`: the callback keeps the index of the last
enumerated type equal to `jt`, starting from `0`. -/
def get_box_tindex (is_pointerfree : jl_value_t → Bool) (jt ut : jl_value_t) : Nat :=
  (for_each_uniontype_small is_pointerfree ut 0).2.2.foldl
    (fun new_idx c => if jt = c.2 then c.1 else new_idx) 0

/-- A pointer-free test for examples: every `datatype` with an even id is pointer-free. -/
def example_pointerfree : jl_value_t → Bool
  | .datatype id => id % 2 == 0
  | .typeofbottom_type => true
  | .int8_type => true
  | .uint8_type => true
  | .bool_type => true
  | _ => false

/-- The union `Union{T0, Union{T2, T4}}` of three pointer-free types. -/
def example_union : jl_value_t :=
  .uniontype (.datatype 0) (.uniontype (.datatype 2) (.datatype 4))

/-! ## The intermediate representation and the builder -/

/-- The address spaces of `AddressSpace`. -/
def AddressSpace.Generic : Nat := 0
def AddressSpace.Tracked : Nat := 10
def AddressSpace.Derived : Nat := 11
def AddressSpace.CalleeRooted : Nat := 12
def AddressSpace.Loaded : Nat := 13

mutual
/-- An IR type, as far as this file looks at one: `void`, an integer of some width, a
pointer in an address space, a floating point type, an array, a fixed vector, a literal
struct, or another first-class type known by an id. -/
inductive IRType where
  | void
  | int (bits : Nat)
  | ptr (addrspace : Nat)
  | other (id : Nat)
  | half
  | float
  | double
  | bfloat
  /-- The type `ArrayType::get(elem, n)`. -/
  | array (elem : IRType) (n : Nat)
  /-- The type `FixedVectorType::get(elem, n)`. -/
  | vector (elem : IRType) (n : Nat)
  /-- The type `StructType::get(ctxt, members)`. -/
  | struct (members : IRTypes)
/-- The member types of a literal struct, in order. -/
inductive IRTypes where
  | nil
  | cons (head : IRType) (tail : IRTypes)
end

deriving instance DecidableEq for IRType, IRTypes

deriving instance Repr for IRType, IRTypes

instance : Inhabited IRType := ⟨IRType.void⟩

instance : Inhabited IRTypes := ⟨IRTypes.nil⟩

/-- The members of a struct as a list. -/
def IRTypes.toList : IRTypes → List IRType
  | .nil => []
  | .cons t ts => t :: ts.toList

/-- The member sequence that holds the types of a list. -/
def IRTypes.ofList : List IRType → IRTypes
  | [] => .nil
  | t :: ts => .cons t (IRTypes.ofList ts)

/-- The type `T_pjlvalue`. -/
def T_pjlvalue : IRType := .ptr AddressSpace.Generic

/-- The type `T_prjlvalue`. -/
def T_prjlvalue : IRType := .ptr AddressSpace.Tracked

/-- The type `T_size` of the 64-bit targets. -/
def T_size : IRType := .int 64

/-- An IR value (`llvm::Value*`, not null): the result of an emitted instruction, a
value that existed before, or a constant. -/
inductive Value where
  /-- The result of the emitted instruction numbered `id`. -/
  | reg (id : Nat) (ty : IRType)
  /-- A value defined before the function at hand runs. -/
  | arg (id : Nat) (ty : IRType)
  | undef (ty : IRType)
  /-- The constant `ConstantInt::get(iN, v)`. -/
  | const_int (bits v : Nat)
  /-- The constant `Constant::getNullValue(ty)`. -/
  | null_value (ty : IRType)
  /-- A global that holds the text `s`. -/
  | string_global (s : String)
  deriving DecidableEq, Repr, Inhabited

def Value.getType : Value → IRType
  | .reg _ ty => ty
  | .arg _ ty => ty
  | .undef ty => ty
  | .const_int bits _ => .int bits
  | .null_value ty => ty
  | .string_global _ => .ptr AddressSpace.Generic

/-- The test `isa<ConstantInt>`. -/
def Value.isConstantInt : Value → Bool
  | .const_int _ _ => true
  | _ => false

/-- The atomic orderings of `llvm::AtomicOrdering`. -/
inductive AtomicOrdering where
  | NotAtomic
  | Unordered
  | Monotonic
  | Acquire
  | Release
  | AcquireRelease
  | SequentiallyConsistent
  deriving DecidableEq, Repr, Inhabited

/-- An emitted instruction. `dst` numbers the instruction; its result is
`Value.reg dst ty`. A call of a builder method is recorded as an instruction whether or
not the builder would fold it to a constant. -/
inductive Inst where
  /-- The load from the global slot of the object `p` that `literal_pointer_val` emits. -/
  | load_literal (dst : Nat) (p : jl_value_t)
  | addrspacecast (dst : Nat) (v : Value) (ty : IRType)
  | ptrtoint (dst : Nat) (v : Value)
  | inttoptr (dst : Nat) (v : Value)
  | icmp_eq (dst : Nat) (a b : Value)
  | icmp_ne (dst : Nat) (a b : Value)
  | icmp_ult (dst : Nat) (a b : Value)
  | sub (dst : Nat) (a b : Value)
  /-- The instruction `add nuw`. -/
  | add_nuw (dst : Nat) (a b : Value)
  | select (dst : Nat) (cond a b : Value)
  | alloca (dst : Nat) (ty : IRType)
  | extractelement (dst : Nat) (vec idx : Value)
  /-- The instruction `getelementptr inbounds ty, ptr, idx`. -/
  | gep (dst : Nat) (ty : IRType) (ptr idx : Value)
  | and_ (dst : Nat) (a b : Value)
  | or_ (dst : Nat) (a b : Value)
  | not_ (dst : Nat) (a : Value)
  | zext (dst : Nat) (a : Value) (ty : IRType)
  | trunc (dst : Nat) (a : Value) (ty : IRType)
  | extractvalue (dst : Nat) (agg : Value) (idx : Nat)
  | load (dst : Nat) (ty : IRType) (ptr : Value) (align : Nat) (order : AtomicOrdering)
  | store (v ptr : Value) (align : Nat) (order : AtomicOrdering)
  | atomicrmw_xchg (dst : Nat) (ptr v : Value) (align : Nat) (order : AtomicOrdering)
  | cmpxchg (dst : Nat) (ptr cmp new : Value) (align : Nat) (order failorder : AtomicOrdering)
  | fence (order : AtomicOrdering)
  /-- A call of the runtime function `fn`. -/
  | call (dst : Nat) (fn : String) (args : List Value)
  | phi (dst : Nat) (ty : IRType) (n : Nat)
  /-- The later `addIncoming(v, bb)` on a phi node. -/
  | add_incoming (phi v : Value) (bb : Nat)
  | br (bb : Nat)
  | cond_br (cond : Value) (iftrue iffalse : Nat)
  | unreachable
  /-- Everything a helper that is not looked into emits; `dst` numbers its result. -/
  | helper (dst : Nat) (name : String) (args : List Value)
  | add (dst : Nat) (a b : Value)
  /-- The instruction `mul`, with or without `nuw nsw`. -/
  | mul (dst : Nat) (a b : Value)
  | icmp_uge (dst : Nat) (a b : Value)
  /-- The instruction `getelementptr i8, ptr, idx`, not `inbounds`. -/
  | gep_i8 (dst : Nat) (ptr idx : Value)
  deriving DecidableEq, Repr, Inhabited

/-- The state of the `IRBuilder` and the function under construction: the next unused
number for instructions and blocks, the basic blocks created so far with their names,
the block of the insertion point, and the instructions emitted so far, each with the
block it went into. -/
structure BuilderState where
  next : Nat
  blocks : List (Nat × String)
  cur : Nat
  code : List (Nat × Inst)
  deriving DecidableEq, Repr, Inhabited

/-- A code generation step. -/
def Builder (α : Type) : Type := BuilderState → α × BuilderState

def Builder.pure {α : Type} (a : α) : Builder α := fun s => (a, s)

def Builder.bind {α β : Type} (m : Builder α) (f : α → Builder β) : Builder β :=
  fun s => f (m s).1 (m s).2

instance : Monad Builder where
  pure := Builder.pure
  bind := Builder.bind

/-- A state to start from in examples: one entry block and nothing emitted. -/
def BuilderState.init : BuilderState := { next := 1, blocks := [(0, "top")], cur := 0, code := [] }

/-- The instructions a step appends to the code. -/
def Builder.emitted {α : Type} (m : Builder α) (s : BuilderState) : List (Nat × Inst) :=
  (m s).2.code.drop s.code.length

/-- Appends `f dst` at the insertion point, `dst` a fresh number, and gives `dst`. -/
def insert_inst (f : Nat → Inst) : Builder Nat := fun s =>
  (s.next, { s with next := s.next + 1, code := s.code ++ [(s.cur, f s.next)] })

/-- Appends an instruction that yields a value of type `ty`. -/
def insert_val (ty : IRType) (f : Nat → Inst) : Builder Value := do
  let dst ← insert_inst f
  return Value.reg dst ty

/-- Appends an instruction without a result. -/
def insert_void (i : Inst) : Builder Unit := fun s =>
  ((), { s with code := s.code ++ [(s.cur, i)] })

/-- The call `BasicBlock::Create(..., name, ...)`. -/
def BasicBlock_Create (name : String) : Builder Nat := fun s =>
  (s.next, { s with next := s.next + 1, blocks := s.blocks ++ [(s.next, name)] })

def SetInsertPoint (bb : Nat) : Builder Unit := fun s => ((), { s with cur := bb })

def GetInsertBlock : Builder Nat := fun s => (s.cur, s)

/-- What a helper that is not looked into emits and returns. -/
def emit_helper (name : String) (ty : IRType) (args : List Value) : Builder Value :=
  insert_val ty fun dst => Inst.helper dst name args

def CreateAddrSpaceCast (v : Value) (ty : IRType) : Builder Value :=
  insert_val ty fun dst => Inst.addrspacecast dst v ty

def CreateICmpEQ (a b : Value) : Builder Value :=
  insert_val (.int 1) fun dst => Inst.icmp_eq dst a b

def CreateICmpNE (a b : Value) : Builder Value :=
  insert_val (.int 1) fun dst => Inst.icmp_ne dst a b

def CreateAnd (a b : Value) : Builder Value :=
  insert_val a.getType fun dst => Inst.and_ dst a b

def CreateOr (a b : Value) : Builder Value :=
  insert_val a.getType fun dst => Inst.or_ dst a b

def CreateNot (a : Value) : Builder Value :=
  insert_val a.getType fun dst => Inst.not_ dst a

def CreateZExt (a : Value) (ty : IRType) : Builder Value :=
  insert_val ty fun dst => Inst.zext dst a ty

def CreateTrunc (a : Value) (ty : IRType) : Builder Value :=
  insert_val ty fun dst => Inst.trunc dst a ty

def CreatePtrToInt (v : Value) : Builder Value :=
  insert_val T_size fun dst => Inst.ptrtoint dst v

def CreateCall (ty : IRType) (fn : String) (args : List Value) : Builder Value :=
  insert_val ty fun dst => Inst.call dst fn args

def CreatePHI (ty : IRType) (n : Nat) : Builder Value :=
  insert_val ty fun dst => Inst.phi dst ty n

def addIncoming (phi v : Value) (bb : Nat) : Builder Unit :=
  insert_void (Inst.add_incoming phi v bb)

def CreateBr (bb : Nat) : Builder Unit := insert_void (Inst.br bb)

def CreateCondBr (c : Value) (t f : Nat) : Builder Unit := insert_void (Inst.cond_br c t f)

def CreateUnreachable : Builder Unit := insert_void Inst.unreachable

/-! ## Value representations -/

/-- The value representation `jl_cgval_t`. Null `Value*` members are `none`; a null
`constant` is `jl_value_t.null`; `tbaa` and `promotion_point` are kept as present or
absent. -/
structure jl_cgval_t where
  V : Option Value
  Vboxed : Option Value
  TIndex : Option Value
  inline_roots : List Value
  constant : jl_value_t
  typ : jl_value_t
  isboxed : Bool
  isghost : Bool
  tbaa : Option Nat
  promotion_point : Option Nat
  deriving DecidableEq, Repr, Inhabited

/-- The member `ispointer()`. -/
def jl_cgval_t.ispointer (x : jl_cgval_t) : Bool := x.tbaa.isSome

/-- The IR values a representation carries, passed to helpers that take the
representation. -/
def jl_cgval_t.operands (x : jl_cgval_t) : List Value :=
  x.V.toList ++ x.Vboxed.toList ++ x.TIndex.toList ++ x.inline_roots

/-- The objects `jl_nothing`, `jl_true`, `jl_false` and `jl_undefref_exception`. -/
def jl_nothing : jl_value_t := .object 0
def jl_true : jl_value_t := .object 1
def jl_false : jl_value_t := .object 2
def jl_undefref_exception : jl_value_t := .object 3

/-- The codegen context `jl_codectx_t`, as the answers of the runtime and of the
parts of the compiler outside `cgutils.cpp` that the functions below ask for. -/
structure jl_codectx_t where
  jl_isa : jl_value_t → jl_value_t → Bool
  jl_subtype : jl_value_t → jl_value_t → Bool
  jl_is_not_broken_subtype : jl_value_t → jl_value_t → Bool
  jl_type_intersection : jl_value_t → jl_value_t → jl_value_t
  jl_is_type_type : jl_value_t → Bool
  jl_pointer_egal : jl_value_t → Bool
  jl_tparam0 : jl_value_t → jl_value_t
  jl_has_intersect_type_not_kind : jl_value_t → Bool
  jl_is_concrete_type : jl_value_t → Bool
  jl_is_concrete_immutable : jl_value_t → Bool
  jl_unwrap_unionall : jl_value_t → jl_value_t
  jl_is_datatype : jl_value_t → Bool
  jl_is_datatype_singleton : jl_value_t → Bool
  jl_is_pointerfree : jl_value_t → Bool
  /-- The flag `dt->name->abstract`. -/
  name_abstract : jl_value_t → Bool
  /-- The type `dt->name->wrapper`. -/
  name_wrapper : jl_value_t → jl_value_t
  /-- The object `dt->name`. -/
  name : jl_value_t → jl_value_t
  /-- The field `dt->smalltag`. -/
  smalltag : jl_value_t → Nat
  is_uniquerep_Type : jl_value_t → Bool
  /-- The result of `julia_type_to_llvm(ctx, jt)`. -/
  julia_type_to_llvm : jl_value_t → IRType
  /-- Whether `_boxed_special(ctx, vinfo, t)` returns a box. -/
  boxed_special : jl_cgval_t → IRType → Bool
  /-- The number of values `ExtractTrackedValues` extracts for a value of the type. -/
  tracked_count : jl_value_t → Nat
  julia_alignment : jl_value_t → Nat
  jl_datatype_size : jl_value_t → Nat
  jl_type_hasptr : jl_value_t → Bool
  /-- The count `CountTrackedPointers(elty).count`. -/
  CountTrackedPointers : IRType → Nat
  /-- The layout flags `haspadding` and `isbitsegal` of a concrete type. -/
  haspadding : jl_value_t → Bool
  isbitsegal : jl_value_t → Bool
  /-- The feature test `JL_FEAT_TEST(ctx, gcstack_arg)`. -/
  gcstack_arg : Bool
  /-- The value `ctx.pgcstack`. -/
  pgcstack : Value
  jl_apply_cmpswap_type : jl_value_t → jl_value_t
  jl_apply_modify_type : jl_value_t → jl_value_t
  /-- The representations that `ghostValue`, `mark_julia_const`, `mark_julia_type`,
  `mark_julia_slot`, `update_julia_type`, the constructor `jl_cgval_t(V, typ, tindex)`
  and `emit_new_struct` return. -/
  ghostValue : jl_value_t → jl_cgval_t
  mark_julia_const : jl_value_t → jl_cgval_t
  mark_julia_type : Value → Bool → jl_value_t → jl_cgval_t
  mark_julia_slot : Option Value → jl_value_t → jl_cgval_t
  update_julia_type : jl_cgval_t → jl_value_t → jl_cgval_t
  cgval_of_value : Value → jl_value_t → jl_cgval_t
  new_struct : jl_value_t → List jl_cgval_t → Value → jl_cgval_t
  /-- The option `jl_options.check_bounds`. -/
  check_bounds : Nat := 0
  jl_has_free_typevars : jl_value_t → Bool := fun _ => false
  jl_is_vecelement_type : jl_value_t → Bool := fun _ => false
  /-- The test `jl_field_isdefined(v, idx)` on a constant `v`, as a flag. -/
  jl_field_isdefined : jl_value_t → Nat → Bool := fun _ _ => true
  /-- The count `((jl_datatype_t*)jt)->layout->npointers`. -/
  layout_npointers : jl_value_t → Nat := fun _ => 0
  /-- The constant `MAX_ATOMIC_SIZE`. -/
  MAX_ATOMIC_SIZE : Nat := 16
  /-- The results `(union_max, fsz, al)` of `jl_islayout_inline(ty, &fsz, &al)`. -/
  jl_islayout_inline : jl_value_t → Nat × Nat × Nat := fun _ => (0, 0, 0)
  /-- The index `convert_struct_offset(ctx, T, byte_offset)` of the data layout. -/
  convert_struct_offset : IRType → Nat → Nat := fun _ _ => 0
  dereferenceable_size : jl_value_t → Nat := fun _ => 0
  /-- The size of a type in bits, `jl_datatype_nbits(jt)`. -/
  jl_datatype_nbits : jl_value_t → Nat := fun _ => 0
  jl_is_primitivetype : jl_value_t → Bool := fun _ => false
  jl_is_structtype : jl_value_t → Bool := fun _ => false
  /-- The test `jst->layout && jl_is_layout_opaque(jst->layout)`. -/
  jl_is_layout_opaque : jl_value_t → Bool := fun _ => false
  jl_is_array_type : jl_value_t → Bool := fun _ => false
  jl_is_genericmemory_type : jl_value_t → Bool := fun _ => false
  jl_is_genericmemoryref_type : jl_value_t → Bool := fun _ => false
  /-- The flags `arrayelem_isboxed` and `arrayelem_isunion` and the size of the layout of
  `jl_field_type_concrete(jst, 1)`. -/
  memoryref_layout : jl_value_t → Bool × Bool × Nat := fun _ => (false, false, 0)
  jl_is_tuple_type : jl_value_t → Bool := fun _ => false
  jl_struct_try_layout : jl_value_t → Bool := fun _ => true
  /-- The datatype behind a `jl_value_t*`: the cast `(jl_datatype_t*)jt`. -/
  datatype : jl_value_t → jl_datatype_t := fun _ => default
  jl_special_vector_alignment : Nat → jl_value_t → Nat := fun _ _ => 0
  /-- The constant `MAX_ALIGN`. -/
  MAX_ALIGN : Nat := 8
  jl_is_cpointer_type : jl_value_t → Bool := fun _ => false
  jl_is_llvmpointer_type : jl_value_t → Bool := fun _ => false
  /-- The address space `jl_tparam1(bt)` of an `LLVMPtr` type, absent when it is neither
  an `Int32` nor an `Int64`. -/
  llvmpointer_addrspace : jl_value_t → Option Nat := fun _ => none

/-! ## Pointer casts and literals -/

def track_pjlvalue (V : Value) : Builder Value := CreateAddrSpaceCast V T_prjlvalue

def maybe_decay_untracked (V : Value) : Builder Value :=
  if V.getType = T_pjlvalue then CreateAddrSpaceCast V T_prjlvalue else pure V

def decay_derived (V : Value) : Builder Value :=
  if V.getType = IRType.ptr AddressSpace.Derived then pure V
  else CreateAddrSpaceCast V (.ptr AddressSpace.Derived)

def mark_callee_rooted (V : Value) : Builder Value :=
  CreateAddrSpaceCast V (.ptr AddressSpace.CalleeRooted)

def stringConstPtr (txt : String) : Builder Value :=
  CreateAddrSpaceCast (Value.string_global txt) (.ptr AddressSpace.Generic)

def literal_pointer_val (p : jl_value_t) : Builder Value :=
  if p = jl_value_t.null then pure (Value.null_value T_pjlvalue)
  else insert_val T_pjlvalue fun dst => Inst.load_literal dst p

def emit_tagfrom (ctx : jl_codectx_t) (dt : jl_value_t) : Builder Value :=
  if ctx.smalltag dt ≠ 0 then pure (Value.const_int 64 (ctx.smalltag dt <<< 4))
  else do
    let p ← literal_pointer_val dt
    CreatePtrToInt p

/-- The call `emit_typeof(ctx, p, maybenull, justtag)` on a value representation; not
looked into. -/
def emit_typeof (p : jl_cgval_t) (_maybenull justtag : Bool) : Builder Value :=
  emit_helper "emit_typeof" (if justtag then T_size else T_prjlvalue) p.operands

/-- The call `emit_typeof(ctx, v, maybenull, justtag)` on a boxed pointer; not looked
into. -/
def emit_typeof_boxed (v : Value) (_maybenull justtag : Bool) : Builder Value :=
  emit_helper "emit_typeof" (if justtag then T_size else T_prjlvalue) [v]

/-- The call `emit_datatype_name(ctx, dt)`; not looked into. -/
def emit_datatype_name (dt : Value) : Builder Value :=
  emit_helper "emit_datatype_name" T_pjlvalue [dt]

def null_pointer_cmp (v : Value) : Builder Value := do
  let n ← CreateAddrSpaceCast (Value.null_value (.ptr 0)) v.getType
  CreateICmpNE v n

/-- The overload of `emit_guarded_test` with one default value `defval`. -/
def emit_guarded_test (ifnot : Option Value) (defval : Value) (func : Builder Value) :
    Builder Value :=
  match ifnot with
  | none => func
  | some (Value.const_int _ v) => if v = 0 then pure defval else func
  | some c => do
    let currBB ← GetInsertBlock
    let passBB ← BasicBlock_Create "guard_pass"
    let exitBB ← BasicBlock_Create "guard_exit"
    CreateCondBr c passBB exitBB
    SetInsertPoint passBB
    let res ← func
    let passBB ← GetInsertBlock
    CreateBr exitBB
    SetInsertPoint exitBB
    let phi ← CreatePHI defval.getType 2
    addIncoming phi defval currBB
    addIncoming phi res passBB
    return phi

/-! ## Boxing -/

/-- The function `boxed(ctx, vinfo, is_promotable)`. The result is a `Value*`, which
is `vinfo.V` itself for a boxed representation. `box_union`, `_boxed_special`,
`emit_allocobj`, `init_bits_cgval` and the promotion of a stack slot are not looked
into. -/
def boxed (ctx : jl_codectx_t) (vinfo : jl_cgval_t) (is_promotable : Bool) :
    Builder (Option Value) :=
  let jt := vinfo.typ
  if jt = jl_value_t.bottom_type ∨ jt = jl_value_t.null then
    pure (some (Value.undef T_prjlvalue))
  else if vinfo.constant ≠ jl_value_t.null then do
    let p ← literal_pointer_val vinfo.constant
    let r ← track_pjlvalue p
    return some r
  else if jt = jl_value_t.nothing_type then do
    let p ← literal_pointer_val jl_nothing
    let r ← track_pjlvalue p
    return some r
  else if vinfo.isboxed then
    pure vinfo.V
  else if vinfo.TIndex.isSome then do
    let box ← emit_helper "box_union" T_prjlvalue vinfo.operands
    return some box
  else
    let t := ctx.julia_type_to_llvm jt
    if ctx.boxed_special vinfo t then do
      let box ← emit_helper "_boxed_special" T_prjlvalue vinfo.operands
      return some box
    else
      let do_promote := vinfo.promotion_point.isSome
      if do_promote && is_promotable && vinfo.inline_roots.isEmpty then do
        let box ← emit_helper "emit_allocobj_at_promotion_point" T_prjlvalue vinfo.operands
        return some box
      else do
        let box ← emit_helper "emit_allocobj" T_prjlvalue []
        let _ ← emit_helper "init_bits_cgval" .void (box :: vinfo.operands)
        return some box

/-! ## Roots of a value -/

/-- The values `emit_unbox` and `ExtractTrackedValues` produce in `get_gc_roots_for`,
`n` of them; not looked into. -/
def extract_tracked_values (x : jl_cgval_t) : Nat → Builder (List Value)
  | 0 => pure []
  | n + 1 => do
    let v ← emit_helper "ExtractTrackedValues" T_prjlvalue x.operands
    let vs ← extract_tracked_values x n
    return v :: vs

/-- The function `get_gc_roots_for(ctx, x, inlined)`. -/
def get_gc_roots_for (ctx : jl_codectx_t) (x : jl_cgval_t) (inlined : Bool) :
    Builder (List Value) :=
  if x.constant ≠ jl_value_t.null ∨ x.typ = jl_value_t.bottom_type then
    pure []
  else if !inlined && x.Vboxed.isSome then
    pure x.Vboxed.toList
  else if !x.inline_roots.isEmpty then
    pure x.inline_roots
  else if !inlined && x.ispointer then
    pure x.V.toList
  else if ctx.jl_is_concrete_immutable x.typ && !ctx.jl_is_pointerfree x.typ then
    extract_tracked_values x (ctx.tracked_count x.typ)
  else
    pure []

/-! ## Type errors and `isa` -/

def just_emit_type_error (ctx : jl_codectx_t) (x : jl_cgval_t) (type : Value)
    (msg : String) : Builder Unit := do
  let msg_val ← stringConstPtr msg
  let t ← maybe_decay_untracked type
  let b ← boxed ctx x false
  let r ← mark_callee_rooted (b.getD (Value.undef T_prjlvalue))
  let _ ← CreateCall .void "jltypeerror_func" [msg_val, t, r]
  return ()

def emit_type_error (ctx : jl_codectx_t) (x : jl_cgval_t) (type : Value) (msg : String) :
    Builder Unit := do
  just_emit_type_error ctx x type msg
  CreateUnreachable
  let cont ← BasicBlock_Create "after_type_error"
  SetInsertPoint cont

/-- The function `_can_optimize_isa(type, counter)`: the answer and the counter
afterwards. -/
def _can_optimize_isa (ctx : jl_codectx_t) : jl_value_t → Nat → Bool × Nat
  | .uniontype a b, counter =>
    if counter > 127 then (false, counter)
    else
      let ra := _can_optimize_isa ctx a (counter + 1)
      if ra.1 then _can_optimize_isa ctx b ra.2 else (false, ra.2)
  | type, counter =>
    if counter > 127 then (false, counter)
    else if type = jl_value_t.type_type then (true, counter)
    else if ctx.jl_is_type_type type && ctx.jl_pointer_egal type then (true, counter)
    else if ctx.jl_has_intersect_type_not_kind type then (false, counter)
    else if ctx.jl_is_concrete_type type then (true, counter)
    else
      let dt := ctx.jl_unwrap_unionall type
      if ctx.jl_is_datatype dt && !ctx.name_abstract dt &&
          ctx.jl_subtype (ctx.name_wrapper dt) type then (true, counter)
      else (false, counter)

/-- The function `can_optimize_isa_union(type)` on the union of `a` and `b`. -/
def can_optimize_isa_union (ctx : jl_codectx_t) (a b : jl_value_t) : Bool :=
  let ra := _can_optimize_isa ctx a 1
  if ra.1 then (_can_optimize_isa ctx b ra.2).1 else false

/-- The function `emit_exactly_isa(ctx, arg, dt, could_be_null)`. -/
def emit_exactly_isa (ctx : jl_codectx_t) (arg : jl_cgval_t) (dt : jl_value_t)
    (could_be_null : Bool) : Builder Value :=
  match arg.TIndex with
  | some TIndex =>
    let tindex := get_box_tindex ctx.jl_is_pointerfree dt arg.typ
    if tindex > 0 then do
      let xtindex ← CreateAnd TIndex (Value.const_int 8 (0xff - UNION_BOX_MARKER))
      let isa ← CreateICmpEQ xtindex (Value.const_int 8 (tindex % 256))
      return isa
    else
      match arg.Vboxed with
      | some Vboxed => do
        let isboxed ← CreateICmpEQ TIndex (Value.const_int 8 UNION_BOX_MARKER)
        let isboxed ←
          if could_be_null then do
            let nn ← null_pointer_cmp Vboxed
            let n ← CreateNot nn
            CreateAnd isboxed n
          else pure isboxed
        let currBB ← GetInsertBlock
        let isaBB ← BasicBlock_Create "isa"
        let postBB ← BasicBlock_Create "post_isa"
        CreateCondBr isboxed isaBB postBB
        SetInsertPoint isaBB
        let istype_boxed ←
          if ctx.is_uniquerep_Type dt then do
            let a ← decay_derived Vboxed
            let p ← literal_pointer_val (ctx.jl_tparam0 dt)
            let b ← decay_derived p
            CreateICmpEQ a b
          else do
            let a ← emit_typeof_boxed Vboxed false true
            let b ← emit_tagfrom ctx dt
            CreateICmpEQ a b
        CreateBr postBB
        let isaBB ← GetInsertBlock
        SetInsertPoint postBB
        let istype ← CreatePHI (.int 1) 2
        addIncoming istype (Value.const_int 1 0) currBB
        addIncoming istype istype_boxed isaBB
        return istype
      | none => pure (Value.const_int 1 0)
  | none => do
    let isnull ←
      if could_be_null && arg.isboxed then do
        let c ← null_pointer_cmp (arg.Vboxed.getD (Value.undef T_prjlvalue))
        pure (some c)
      else pure none
    emit_guarded_test isnull (Value.const_int 1 0) do
      let a ← emit_typeof arg false true
      let b ← emit_tagfrom ctx dt
      CreateICmpEQ a b

/-- The first part of `emit_isa`: the compile-time answer `known_isa`, if any, and
`intersected_type` after the swap of the abstract `Type{Union{}}` for the concrete
`typeof(Union{})`. -/
def emit_isa_known (ctx : jl_codectx_t) (x : jl_cgval_t) (type : jl_value_t) :
    Option Bool × jl_value_t :=
  let r : Option Bool × jl_value_t :=
    if x.constant ≠ jl_value_t.null then
      (some (ctx.jl_isa x.constant type), type)
    else if ctx.jl_is_not_broken_subtype x.typ type && ctx.jl_subtype x.typ type then
      (some true, type)
    else
      let intersected_type := ctx.jl_type_intersection x.typ type
      (if intersected_type = jl_value_t.bottom_type then some false else none,
        intersected_type)
  (r.1, if r.2 = jl_value_t.typeofbottom_super then jl_value_t.typeofbottom_type else r.2)

/-- The result of `emit_isa`: the `i1` value and the flag `handled_msg`. `none` only
when the nesting allowance of the model below ran out. -/
abbrev IsaResult := Option (Value × Bool)

/-- The function `emit_isa_union(ctx, x, type, bbs)`, with `isa` for the call of
`emit_isa` on a leaf; returns the entries added to `bbs`, or `none` when a leaf
gave none. -/
def emit_isa_union (isa : jl_value_t → Builder IsaResult) :
    jl_value_t → Builder (Option (List ((Nat × Nat) × Value)))
  | .uniontype a b => do
    let ra ← emit_isa_union isa a
    let rb ← emit_isa_union isa b
    match ra, rb with
    | some la, some lb => return some (la ++ lb)
    | _, _ => return none
  | type => do
    let enter ← GetInsertBlock
    let v ← isa type
    let exit ← GetInsertBlock
    let isaBB ← BasicBlock_Create "isa"
    SetInsertPoint isaBB
    match v with
    | some r => return some [((enter, exit), r.1)]
    | none => return none

/-- The loop of `emit_isa` that ends the blocks of a union test: entry `i` of `bbs`
branches to `currBB` when its test holds and to the next entry otherwise. -/
def emit_isa_union_branches (currBB : Nat) (res : Value) :
    List ((Nat × Nat) × Value) → Builder Unit
  | [] => pure ()
  | [last] => do
    SetInsertPoint last.1.2
    CreateBr currBB
    addIncoming res last.2 last.1.2
  | bb :: next :: rest => do
    SetInsertPoint bb.1.2
    CreateCondBr bb.2 currBB next.1.1
    addIncoming res (Value.const_int 1 1) bb.1.2
    emit_isa_union_branches currBB res (next :: rest)

/-- The body of `emit_isa(ctx, x, type, msg)`; `recur` is `emit_isa` itself for the
leaves of a union, absent when the nesting allowance ran out. A `Twine` message is a
string, trivially empty when it is `""`. -/
def emit_isa_body (ctx : jl_codectx_t)
    (recur : Option (jl_value_t → Builder IsaResult))
    (x : jl_cgval_t) (type : jl_value_t) (msg : String) : Builder IsaResult :=
  let known_isa := (emit_isa_known ctx x type).1
  let intersected_type := (emit_isa_known ctx x type).2
  match known_isa with
  | some known => do
    if !known && msg ≠ "" then
      let t ← literal_pointer_val type
      emit_type_error ctx x t msg
    return some (Value.const_int 1 (if known then 1 else 0), true)
  | none =>
    if ctx.jl_is_type_type intersected_type && ctx.jl_pointer_egal intersected_type then do
      let p ← literal_pointer_val (ctx.jl_tparam0 intersected_type)
      let ptr ← track_pjlvalue p
      let b ← boxed ctx x false
      let r ← CreateICmpEQ (b.getD (Value.undef T_prjlvalue)) ptr
      return some (r, false)
    else if intersected_type = jl_value_t.type_type then do
      let typ ← emit_typeof x false true
      let t1 ← emit_tagfrom ctx jl_value_t.uniontype_type
      let c1 ← CreateICmpEQ typ t1
      let t2 ← emit_tagfrom ctx jl_value_t.datatype_type
      let c2 ← CreateICmpEQ typ t2
      let o1 ← CreateOr c1 c2
      let t3 ← emit_tagfrom ctx jl_value_t.unionall_type
      let c3 ← CreateICmpEQ typ t3
      let t4 ← emit_tagfrom ctx jl_value_t.typeofbottom_type
      let c4 ← CreateICmpEQ typ t4
      let o2 ← CreateOr c3 c4
      let val ← CreateOr o1 o2
      return some (val, false)
    else if ctx.jl_has_intersect_type_not_kind type ||
        ctx.jl_has_intersect_type_not_kind intersected_type then do
      let vx ← boxed ctx x false
      let p ← literal_pointer_val type
      let vtyp ← track_pjlvalue p
      if msg = "typeassert" then
        let _ ← CreateCall .void "jltypeassert_func" [vx.getD (Value.undef T_prjlvalue), vtyp]
        return some (Value.const_int 1 1, true)
      else
        let c ← CreateCall (.int 32) "jlisa_func" [vx.getD (Value.undef T_prjlvalue), vtyp]
        let r ← CreateICmpNE c (Value.const_int 32 0)
        return some (r, false)
    else if ctx.jl_is_concrete_type intersected_type then do
      let r ← emit_exactly_isa ctx x intersected_type false
      return some (r, false)
    else
      let dt := ctx.jl_unwrap_unionall intersected_type
      if ctx.jl_is_datatype dt && !ctx.name_abstract dt &&
          ctx.jl_subtype (ctx.name_wrapper dt) type then do
        let t ← emit_typeof x false false
        let n ← emit_datatype_name t
        let p ← literal_pointer_val (ctx.name dt)
        let r ← CreateICmpEQ n p
        return some (r, false)
      else
        match intersected_type with
        | .uniontype a b =>
          if can_optimize_isa_union ctx a b then
            match recur with
            | none => pure none
            | some isa => do
              let bbs ← emit_isa_union isa (.uniontype a b)
              match bbs with
              | none => return none
              | some bbs =>
                let currBB ← GetInsertBlock
                let res ← CreatePHI (.int 1) bbs.length
                emit_isa_union_branches currBB res bbs
                SetInsertPoint currBB
                return some (res, false)
          else do
            let t ← emit_typeof x false false
            let p ← literal_pointer_val type
            let vtyp ← track_pjlvalue p
            let c ← CreateCall (.int 32) "jlsubtype_func" [t, vtyp]
            let r ← CreateICmpNE c (Value.const_int 32 0)
            return some (r, false)
        | _ => do
          let t ← emit_typeof x false false
          let p ← literal_pointer_val type
          let vtyp ← track_pjlvalue p
          let c ← CreateCall (.int 32) "jlsubtype_func" [t, vtyp]
          let r ← CreateICmpNE c (Value.const_int 32 0)
          return some (r, false)

/-- The function `emit_isa(ctx, x, type, msg)`; the first argument bounds how deep
`emit_isa` may call itself through `emit_isa_union`. -/
def emit_isa (ctx : jl_codectx_t) : Nat → jl_cgval_t → jl_value_t → String → Builder IsaResult
  | 0, x, type, msg => emit_isa_body ctx none x type msg
  | depth + 1, x, type, msg =>
    emit_isa_body ctx (some fun t => emit_isa ctx depth x t "") x type msg

/-- The function `emit_typecheck(ctx, x, type, msg)`; the flag tells whether
`emit_isa` gave a result. -/
def emit_typecheck (ctx : jl_codectx_t) (depth : Nat) (x : jl_cgval_t) (type : jl_value_t)
    (msg : String) : Builder Bool := do
  let r ← emit_isa ctx depth x type msg
  match r with
  | none => return false
  | some (istype, handled_msg) =>
    if !handled_msg then
      let failBB ← BasicBlock_Create "fail"
      let passBB ← BasicBlock_Create "pass"
      CreateCondBr istype passBB failBB
      SetInsertPoint failBB
      let t ← literal_pointer_val type
      just_emit_type_error ctx x t msg
      CreateUnreachable
      SetInsertPoint passBB
    return true

/-! ## Write barriers -/

/-- The function `type_is_permalloc(typ)`. -/
def type_is_permalloc (ctx : jl_codectx_t) (typ : jl_value_t) : Bool :=
  if ctx.jl_is_datatype typ && ctx.jl_is_datatype_singleton typ then true
  else
    typ = jl_value_t.symbol_type || typ = jl_value_t.int8_type || typ = jl_value_t.uint8_type

/-- The loop of `emit_write_barrier` that decays every pointer. -/
def decay_ptrs : List Value → Builder (List Value)
  | [] => pure []
  | p :: ps => do
    let d ← maybe_decay_untracked p
    let ds ← decay_ptrs ps
    return d :: ds

/-- The function `emit_write_barrier(ctx, parent, ptrs)`. -/
def emit_write_barrier (parent : Value) (ptrs : List Value) : Builder Unit :=
  if ptrs.isEmpty then pure ()
  else do
    let p ← maybe_decay_untracked parent
    let ds ← decay_ptrs ptrs
    let _ ← CreateCall .void "jl_write_barrier_func" (p :: ds)
    return ()

/-! ## Example context and representations -/

/-- A small type lattice for examples: `Union{}` below every type, `Any` above every
type, every other type related to itself only. -/
def example_subtype (a b : jl_value_t) : Bool :=
  a = jl_value_t.bottom_type || a = b || b = jl_value_t.any_type

/-- The type of an object in the examples: `object n` is an instance of
`datatype n`. -/
def example_isa (c t : jl_value_t) : Bool :=
  match c with
  | .object n => t = jl_value_t.datatype n || t = jl_value_t.any_type
  | _ => false

def example_intersection (a b : jl_value_t) : jl_value_t :=
  if example_subtype a b then a else if example_subtype b a then b
  else jl_value_t.bottom_type

/-- A representation for examples: a boxed value `Value.arg 0` of type `Any`. -/
def example_boxed : jl_cgval_t :=
  { V := some (Value.arg 0 T_prjlvalue), Vboxed := some (Value.arg 0 T_prjlvalue),
    TIndex := none, inline_roots := [], constant := jl_value_t.null,
    typ := jl_value_t.any_type, isboxed := true, isghost := false, tbaa := some 0,
    promotion_point := none }

/-- A context for examples over the small lattice. -/
def example_ctx : jl_codectx_t :=
  { jl_isa := example_isa
    jl_subtype := example_subtype
    jl_is_not_broken_subtype := fun _ _ => true
    jl_type_intersection := example_intersection
    jl_is_type_type := fun _ => false
    jl_pointer_egal := fun _ => false
    jl_tparam0 := fun t => t
    jl_has_intersect_type_not_kind := fun _ => false
    jl_is_concrete_type := fun t => match t with
      | .datatype _ => true
      | _ => false
    jl_is_concrete_immutable := fun t => match t with
      | .datatype _ => true
      | _ => false
    jl_unwrap_unionall := fun t => t
    jl_is_datatype := fun t => match t with
      | .datatype _ => true
      | .any_type => true
      | .symbol_type => true
      | .int8_type => true
      | .uint8_type => true
      | .nothing_type => true
      | _ => false
    jl_is_datatype_singleton := fun t => t = jl_value_t.nothing_type
    jl_is_pointerfree := example_pointerfree
    name_abstract := fun t => t = jl_value_t.any_type
    name_wrapper := fun t => t
    name := fun t => t
    smalltag := fun _ => 0
    is_uniquerep_Type := fun _ => false
    julia_type_to_llvm := fun _ => IRType.other 0
    boxed_special := fun _ _ => false
    tracked_count := fun _ => 0
    julia_alignment := fun _ => 8
    jl_datatype_size := fun _ => 8
    jl_type_hasptr := fun _ => false
    CountTrackedPointers := fun _ => 0
    haspadding := fun _ => false
    isbitsegal := fun _ => true
    gcstack_arg := false
    pgcstack := Value.arg 100 (.ptr 0)
    jl_apply_cmpswap_type := fun t => t
    jl_apply_modify_type := fun t => t
    ghostValue := fun t =>
      { example_boxed with
        V := none, Vboxed := none, typ := t, isboxed := false, isghost := true, tbaa := none }
    mark_julia_const := fun c =>
      { example_boxed with V := none, Vboxed := none, constant := c }
    mark_julia_type := fun v isboxed t =>
      { example_boxed with
        V := some v, Vboxed := if isboxed then some v else none, typ := t, isboxed := isboxed }
    mark_julia_slot := fun v t =>
      { example_boxed with V := v, Vboxed := none, typ := t, isboxed := false }
    update_julia_type := fun x t => { x with typ := t }
    cgval_of_value := fun v t =>
      { example_boxed with
        V := some v, Vboxed := none, typ := t, isboxed := false, tbaa := none }
    new_struct := fun t _ v =>
      { example_boxed with V := some v, Vboxed := none, typ := t, isboxed := false } }

/-- The constant object `object 7` as `mark_julia_const` represents it: flagged
boxed, with no IR value. -/
def example_const : jl_cgval_t :=
  { example_boxed with
    V := none, Vboxed := none, constant := jl_value_t.object 7, typ := jl_value_t.datatype 7 }

/-- A boxed value whose static type is `Nothing`. -/
def example_boxed_nothing : jl_cgval_t :=
  { example_boxed with typ := jl_value_t.nothing_type }

/-- An unreachable value: a representation of static type `Union{}`, with no IR
value. -/
def example_bottom : jl_cgval_t :=
  { example_boxed with
    V := none, Vboxed := none, typ := jl_value_t.bottom_type, isboxed := false,
    isghost := true, tbaa := none }

/-- A boxed value of the concrete type `datatype 1`. -/
def example_boxed_T1 : jl_cgval_t :=
  { example_boxed with typ := jl_value_t.datatype 1 }

/-- The split representation of a struct `(ref, ref, Int64)`: a byte buffer and the
two roots. -/
def example_split : jl_cgval_t :=
  { V := some (Value.arg 0 (.ptr 0)), Vboxed := none, TIndex := none,
    inline_roots := [Value.arg 1 T_prjlvalue, Value.arg 2 T_prjlvalue],
    constant := jl_value_t.null, typ := jl_value_t.datatype 9, isboxed := false,
    isghost := false, tbaa := some 0, promotion_point := none }

/-- The values `ExtractTrackedValues(agg, ...)` extracts from an aggregate, `n` of
them; not looked into. -/
def ExtractTrackedValues (agg : Value) : Nat → Builder (List Value)
  | 0 => pure []
  | n + 1 => do
    let v ← emit_helper "ExtractTrackedValues" T_prjlvalue [agg]
    let vs ← ExtractTrackedValues agg n
    return v :: vs

/-- The function `emit_write_multibarrier(ctx, parent, agg, jltype)`. -/
def emit_write_multibarrier_agg (ctx : jl_codectx_t) (parent agg : Value)
    (jltype : jl_value_t) : Builder Unit := do
  let ptrs ← ExtractTrackedValues agg (ctx.tracked_count jltype)
  emit_write_barrier parent ptrs

/-- The function `emit_write_multibarrier(ctx, parent, x)`. -/
def emit_write_multibarrier (ctx : jl_codectx_t) (parent : Value) (x : jl_cgval_t) :
    Builder Unit := do
  let ptrs ← get_gc_roots_for ctx x true
  emit_write_barrier parent ptrs

/-- The predicate `isStrongerThanMonotonic` of LLVM. -/
def isStrongerThanMonotonic : AtomicOrdering → Bool
  | .NotAtomic => false
  | .Unordered => false
  | .Monotonic => false
  | _ => true

/-- The number `(unsigned)Order` of an ordering. -/
def AtomicOrdering.toNat : AtomicOrdering → Nat
  | .NotAtomic => 0
  | .Unordered => 1
  | .Monotonic => 2
  | .Acquire => 4
  | .Release => 5
  | .AcquireRelease => 6
  | .SequentiallyConsistent => 7

/-- The function `PowerOf2Ceil` of LLVM. -/
def PowerOf2Ceil (n : Nat) : Nat := if n = 0 then 0 else 2 ^ Nat.clog 2 n

def IRType.isIntegerTy : IRType → Bool
  | .int _ => true
  | _ => false

def IRType.isIntOrPtrTy : IRType → Bool
  | .int _ => true
  | .ptr _ => true
  | _ => false

def CreateLoad (ty : IRType) (ptr : Value) (align : Nat) (order : AtomicOrdering) :
    Builder Value :=
  insert_val ty fun dst => Inst.load dst ty ptr align order

def CreateStore (v ptr : Value) (align : Nat) (order : AtomicOrdering) : Builder Unit :=
  insert_void (Inst.store v ptr align order)

def CreateExtractValue (agg : Value) (idx : Nat) (ty : IRType) : Builder Value :=
  insert_val ty fun dst => Inst.extractvalue dst agg idx

def CreateIsNull (v : Value) : Builder Value := CreateICmpEQ v (Value.null_value v.getType)

def CreateIsNotNull (v : Value) : Builder Value := CreateICmpNE v (Value.null_value v.getType)

def CreateFence (order : AtomicOrdering) : Builder Unit := insert_void (Inst.fence order)

/-- The calls `emit_unbox`, `emit_unbox_store`, `emit_static_alloca`,
`emit_lockstate_value`, `emit_f_is`, `extract_first_ptr`, `null_load_check`,
`emit_new_struct`, `emit_invoke`/`emit_jlcall` and `emit_modifyhelper`; not looked
into. -/
def emit_unbox (ty : IRType) (x : jl_cgval_t) : Builder Value :=
  emit_helper "emit_unbox" ty x.operands

def emit_unbox_store (x : jl_cgval_t) (dest : Value) : Builder Unit := do
  let _ ← emit_helper "emit_unbox_store" .void (dest :: x.operands)
  return ()

def emit_static_alloca (_ty : IRType) (_align : Nat) : Builder Value :=
  emit_helper "emit_static_alloca" (.ptr 0) []

def emit_lockstate_value (strct : Value) (newstate : Bool) : Builder Unit := do
  let _ ← emit_helper (if newstate then "emit_lockstate_value(true)"
    else "emit_lockstate_value(false)") .void [strct]
  return ()

def emit_f_is (a b : jl_cgval_t) (nullcheck1 : Option Value) : Builder Value :=
  emit_helper "emit_f_is" (.int 1) (a.operands ++ b.operands ++ nullcheck1.toList)

def extract_first_ptr (v : Value) : Builder Value :=
  emit_helper "extract_first_ptr" T_prjlvalue [v]

def null_load_check (v : Value) : Builder Unit := do
  let _ ← emit_helper "null_load_check" .void [v]
  return ()

def emit_new_struct (ctx : jl_codectx_t) (ty : jl_value_t) (argv : List jl_cgval_t) :
    Builder jl_cgval_t := do
  let v ← emit_helper "emit_new_struct" (ctx.julia_type_to_llvm ty)
    (argv.map jl_cgval_t.operands).flatten
  return ctx.new_struct ty argv v

/-- What `typed_store` computes before it emits the store: lines 2333 to 2371. -/
structure typed_store_setup_t where
  elty : IRType
  realelty : IRType
  FailOrder : AtomicOrdering
  nb : Nat
  intcast : Option Value
  intcast_eltyp : Option IRType
  tracked_pointers : Bool
  r : Option Value
  deriving DecidableEq, Repr, Inhabited

/-- Lines 2333 to 2371 of `typed_store`. -/
def typed_store_setup (ctx : jl_codectx_t) (rhs : jl_cgval_t) (jltype : jl_value_t)
    (aliasscope isboxed : Bool) (Order FailOrder : AtomicOrdering) (alignment : Nat)
    (elty : IRType) (issetfield isreplacefield isswapfield issetfieldonce : Bool) :
    Builder typed_store_setup_t := do
  let FailOrder :=
    if FailOrder = AtomicOrdering.AcquireRelease then AtomicOrdering.Acquire else FailOrder
  let FailOrder :=
    if FailOrder = AtomicOrdering.Release then AtomicOrdering.Monotonic else FailOrder
  let nb := if isboxed then sizeof_ptr else ctx.jl_datatype_size jltype
  let mut elty := elty
  let mut intcast : Option Value := none
  let mut intcast_eltyp : Option IRType := none
  let tracked_pointers := isboxed || decide (ctx.CountTrackedPointers elty > 0)
  if !isboxed && Order ≠ AtomicOrdering.NotAtomic && !elty.isIntOrPtrTy then
    intcast_eltyp := some elty
    elty := IRType.int (8 * nb)
    if !issetfield then
      let a ← emit_static_alloca elty alignment
      intcast := some a
  let realelty := elty
  if Order ≠ AtomicOrdering.NotAtomic && elty.isIntegerTy then
    let nb2 := PowerOf2Ceil nb
    if nb ≠ nb2 then
      elty := IRType.int (8 * nb2)
  let mut r : Option Value := none
  if issetfield || isswapfield || isreplacefield || issetfieldonce then
    if isboxed then
      r := (← boxed ctx rhs false)
    else if let some ic := intcast then
      emit_unbox_store rhs ic
      r := some (← CreateLoad realelty ic 0 AtomicOrdering.NotAtomic)
    else if aliasscope || Order ≠ AtomicOrdering.NotAtomic ||
        (tracked_pointers && rhs.inline_roots.isEmpty) then
      r := some (← emit_unbox realelty rhs)
    if realelty ≠ elty then
      r := some (← CreateZExt (r.getD (Value.undef realelty)) elty)
  return { elty := elty, realelty := realelty, FailOrder := FailOrder, nb := nb,
           intcast := intcast, intcast_eltyp := intcast_eltyp,
           tracked_pointers := tracked_pointers, r := r }

/-- The lambda `newval` of `typed_store`, on the current `cmpop` and `rhs`; `none`
when the nesting allowance of `emit_isa` ran out. -/
def typed_store_newval (ctx : jl_codectx_t) (depth : Nat) (modifyop : Option jl_cgval_t)
    (jltype : jl_value_t) (fname : String) (cmpop lhs rhs : jl_cgval_t) :
    Builder (Option jl_cgval_t) := do
  let argv := cmpop.operands ++ lhs.operands ++ rhs.operands
  let callval ←
    match modifyop with
    | some op => emit_helper "emit_invoke" T_prjlvalue (op.operands ++ argv)
    | none => emit_helper "emit_jlcall" T_prjlvalue argv
  let ret := ctx.mark_julia_type callval true jl_value_t.any_type
  let ok ← emit_typecheck ctx depth ret jltype fname
  if ok then
    return some (ctx.update_julia_type ret jltype)
  else
    return none

/-- What `typed_store` holds when it reaches the write barrier: the value to store as
an IR value `r` (null when the store went through memory), the loaded old value
`instr`, the flag `Success`, and the representations `oldval` and `rhs`. -/
structure typed_store_exchange_t where
  r : Option Value
  instr : Option Value
  Success : Option Value
  oldval : jl_cgval_t
  rhs : jl_cgval_t
  deriving DecidableEq, Repr, Inhabited

/-- Lines 2380 to 2403 of `typed_store`: a plain store, after a plain load for a
non-atomic swap. -/
def typed_store_plain (ptr : Value) (rhs : jl_cgval_t) (isboxed : Bool)
    (Order : AtomicOrdering) (alignment : Nat) (isswapfield : Bool)
    (su : typed_store_setup_t) : Builder typed_store_exchange_t := do
  let mut instr : Option Value := none
  if isswapfield then
    let load ← CreateLoad su.elty ptr alignment
      (if isboxed then AtomicOrdering.Unordered else AtomicOrdering.NotAtomic)
    instr := some load
  match su.r with
  | some r =>
    CreateStore r ptr alignment
      (if Order = AtomicOrdering.NotAtomic && isboxed then AtomicOrdering.Release else Order)
  | none => emit_unbox_store rhs ptr
  return { r := su.r, instr := instr, Success := none, oldval := rhs, rhs := rhs }

/-- Lines 2404 to 2414 of `typed_store`: an atomic swap. -/
def typed_store_swap (ptr : Value) (rhs : jl_cgval_t) (Order : AtomicOrdering)
    (alignment : Nat) (su : typed_store_setup_t) : Builder typed_store_exchange_t := do
  let Order := if Order = AtomicOrdering.Unordered then AtomicOrdering.Monotonic else Order
  let store ← insert_val su.elty fun dst =>
    Inst.atomicrmw_xchg dst ptr (su.r.getD (Value.undef su.elty)) alignment Order
  return { r := su.r, instr := some store, Success := none, oldval := rhs, rhs := rhs }

/-- Lines 2415 to 2454 of `typed_store`: the `julia.atomicmodify` intrinsic. -/
def typed_store_atomicmodify (ctx : jl_codectx_t) (ptr : Value) (rhs cmpop : jl_cgval_t)
    (jltype : jl_value_t) (isboxed : Bool) (Order : AtomicOrdering)
    (modifyop : jl_cgval_t) (su : typed_store_setup_t) : Builder typed_store_exchange_t := do
  let Order := if Order = AtomicOrdering.Unordered then AtomicOrdering.Monotonic else Order
  let mut rhs := rhs
  if ctx.jl_is_pointerfree rhs.typ && !rhs.isghost &&
      (rhs.constant ≠ jl_value_t.null || rhs.isboxed || rhs.ispointer) then
    let v ← emit_unbox (ctx.julia_type_to_llvm rhs.typ) rhs
    rhs := ctx.cgval_of_value v rhs.typ
  let op ← emit_helper "emit_modifyhelper" (.ptr 0)
    (cmpop.operands ++ modifyop.operands ++ rhs.operands)
  let Args := [ptr, op, Value.const_int 8 Order.toNat, Value.const_int 8 1] ++
    rhs.V.toList ++ rhs.Vboxed.toList ++ rhs.TIndex.toList ++ rhs.inline_roots ++
    (if ctx.gcstack_arg then [ctx.pgcstack] else [])
  let oldnew ← CreateCall (.other 0) "julia.atomicmodify" Args
  let v0 ← CreateExtractValue oldnew 0 su.elty
  let oldval := ctx.mark_julia_type v0 isboxed jltype
  let v1 ← CreateExtractValue oldnew 1 su.elty
  rhs := ctx.mark_julia_type v1 isboxed jltype
  return { r := su.r, instr := none, Success := none, oldval := oldval, rhs := rhs }

/-- What lines 2458 to 2523 of `typed_store` set: the comparand. -/
structure typed_store_compare_t where
  cmpop : jl_cgval_t
  Compare : Option Value
  needloop : Bool
  Succ : Option Value
  Current : Option Value
  instr : Option Value
  deriving DecidableEq, Repr, Inhabited

/-- Lines 2458 to 2523 of `typed_store`: the value to compare with, and whether a
retry loop is needed. -/
def typed_store_cas_compare (ctx : jl_codectx_t) (depth : Nat) (ptr : Value)
    (cmpop : jl_cgval_t) (jltype : jl_value_t) (isboxed : Bool) (Order : AtomicOrdering)
    (alignment : Nat) (isreplacefield isswapfield issetfieldonce : Bool)
    (su : typed_store_setup_t) (DoneBB : Nat) : Builder (Option typed_store_compare_t) := do
  let undef := Value.undef su.elty
  let mut cmpop := cmpop
  let mut needloop := false
  let mut Succ : Option Value := none
  let mut Current : Option Value := none
  let mut Compare : Option Value := none
  let mut instr : Option Value := none
  if isreplacefield then
    if Order = AtomicOrdering.NotAtomic then
      needloop := false
    else if !isboxed then
      needloop := ctx.haspadding jltype || !ctx.isbitsegal jltype
      let some (SameType, _) ← emit_isa ctx depth cmpop jltype "" | return none
      if SameType ≠ Value.const_int 1 1 then
        let SkipBB ← BasicBlock_Create "skip_xchg"
        let BB ← BasicBlock_Create "ok_xchg"
        CreateCondBr SameType BB SkipBB
        SetInsertPoint SkipBB
        let load ← CreateLoad su.elty ptr alignment
          (if su.FailOrder = AtomicOrdering.NotAtomic && isboxed then AtomicOrdering.Monotonic
            else su.FailOrder)
        instr := some load
        CreateBr DoneBB
        SetInsertPoint DoneBB
        let succ ← CreatePHI (.int 1) 2
        addIncoming succ (Value.const_int 1 0) SkipBB
        let current ← CreatePHI load.getType 2
        addIncoming current load SkipBB
        Succ := some succ
        Current := some current
        SetInsertPoint BB
      cmpop := ctx.update_julia_type cmpop jltype
      if let some ic := su.intcast then
        emit_unbox_store cmpop ic
        Compare := some (← CreateLoad su.realelty ic 0 AtomicOrdering.NotAtomic)
      else
        Compare := some (← emit_unbox su.realelty cmpop)
      if su.realelty ≠ su.elty then
        Compare := some (← CreateZExt (Compare.getD undef) su.elty)
    else if cmpop.isboxed || cmpop.constant ≠ jl_value_t.null ||
        ctx.jl_pointer_egal jltype then
      Compare := (← boxed ctx cmpop false)
      needloop := !ctx.jl_pointer_egal jltype && !ctx.jl_pointer_egal cmpop.typ
      if needloop && !cmpop.isboxed then
        cmpop := ctx.mark_julia_type (Compare.getD undef) true cmpop.typ
    else
      Compare := some (Value.null_value T_prjlvalue)
      needloop := true
  else if issetfieldonce then
    needloop := !isboxed && Order ≠ AtomicOrdering.NotAtomic && decide (su.nb > sizeof_ptr)
    if Order ≠ AtomicOrdering.NotAtomic then
      Compare := some (Value.null_value su.elty)
  else
    let cur ← CreateLoad su.elty ptr alignment
      (if Order = AtomicOrdering.NotAtomic && !isboxed then Order
        else AtomicOrdering.Monotonic)
    Compare := some cur
    needloop := !isswapfield || Order ≠ AtomicOrdering.NotAtomic
  return some { cmpop := cmpop, Compare := Compare, needloop := needloop, Succ := Succ,
                Current := Current, instr := instr }

/-- Lines 2524 to 2534 of `typed_store`: the head of the retry loop; gives `BB`,
`CmpPhi` and the new `Compare`. -/
def typed_store_cas_loop (su : typed_store_setup_t) (needloop : Bool)
    (Compare : Option Value) : Builder (Option Nat × Option Value × Option Value) := do
  if needloop then
    let From ← GetInsertBlock
    let bb ← BasicBlock_Create "xchg"
    CreateBr bb
    SetInsertPoint bb
    let phi ← CreatePHI su.elty 2
    addIncoming phi (Compare.getD (Value.undef su.elty)) From
    return (some bb, some phi, some phi)
  else
    return (none, none, Compare)

/-- What lines 2535 to 2574 of `typed_store` set: the new value of a modifyfield. -/
structure typed_store_modify_t where
  rhs : jl_cgval_t
  r : Option Value
  cmpop : jl_cgval_t
  oldval : jl_cgval_t
  deriving DecidableEq, Repr, Inhabited

/-- Lines 2536 to 2555 of `typed_store`: the value read by a modifyfield, as the IR
value `realCompare` and as the representation `oldval`. -/
def typed_store_modify_read (ctx : jl_codectx_t) (jltype : jl_value_t) (isboxed : Bool)
    (needlock : Option Value) (maybe_null_if_boxed : Bool) (su : typed_store_setup_t)
    (Compare : Option Value) : Builder (Value × jl_cgval_t) := do
  if let some nl := needlock then
    emit_lockstate_value nl false
  let mut realCompare := Compare.getD (Value.undef su.elty)
  if su.realelty ≠ su.elty then
    realCompare ← CreateTrunc realCompare su.realelty
  if let some ic := su.intcast then
    CreateStore realCompare ic 0 AtomicOrdering.NotAtomic
    if su.tracked_pointers then
      realCompare ← CreateLoad (su.intcast_eltyp.getD su.elty) ic 0 AtomicOrdering.NotAtomic
  if maybe_null_if_boxed && su.tracked_pointers then
    let first_ptr ← if isboxed then pure realCompare else extract_first_ptr realCompare
    null_load_check first_ptr
  let oldval :=
    if su.intcast.isSome && !su.tracked_pointers then ctx.mark_julia_slot su.intcast jltype
    else ctx.mark_julia_type realCompare isboxed jltype
  return (realCompare, oldval)

/-- Lines 2557 to 2570 of `typed_store`: the new value of a modifyfield as the IR
value `r`. -/
def typed_store_modify_unbox (ctx : jl_codectx_t) (rhs : jl_cgval_t) (isboxed : Bool)
    (Order : AtomicOrdering) (su : typed_store_setup_t) (realCompare : Value) :
    Builder (Option Value) := do
  let mut r := su.r
  if isboxed then
    r := (← boxed ctx rhs false)
  else if let some ic := su.intcast then
    emit_unbox_store rhs ic
    r := some (← CreateLoad su.realelty ic 0 AtomicOrdering.NotAtomic)
    if !su.tracked_pointers then
      CreateStore realCompare ic 0 AtomicOrdering.NotAtomic
  else if Order ≠ AtomicOrdering.NotAtomic ||
      (su.tracked_pointers && rhs.inline_roots.isEmpty) then
    r := some (← emit_unbox su.realelty rhs)
  if su.realelty ≠ su.elty then
    r := some (← CreateZExt (r.getD (Value.undef su.elty)) su.elty)
  return r

/-- Lines 2535 to 2574 of `typed_store`: for a modifyfield, the call of the user
function on the value read and the unboxing of its result. -/
def typed_store_cas_modify (ctx : jl_codectx_t) (depth : Nat) (rhs cmpop : jl_cgval_t)
    (jltype : jl_value_t) (isboxed : Bool) (Order : AtomicOrdering)
    (needlock : Option Value) (ismodifyfield maybe_null_if_boxed : Bool)
    (modifyop : Option jl_cgval_t) (fname : String) (su : typed_store_setup_t)
    (Compare : Option Value) : Builder (Option typed_store_modify_t) := do
  if ismodifyfield then
    let (realCompare, oldval) ← typed_store_modify_read ctx jltype isboxed needlock
      maybe_null_if_boxed su Compare
    let some rhs ← typed_store_newval ctx depth modifyop jltype fname cmpop oldval rhs
      | return none
    let r ← typed_store_modify_unbox ctx rhs isboxed Order su realCompare
    if let some nl := needlock then
      emit_lockstate_value nl true
    return some { rhs := rhs, r := r, cmpop := oldval, oldval := oldval }
  else
    return some { rhs := rhs, r := su.r, cmpop := cmpop, oldval := rhs }

/-- Lines 2575 to 2667 of `typed_store`: the load, test and store of a non-atomic
exchange, or the `cmpxchg` of an atomic one; gives `instr`, `Success` and `oldval`. -/
def typed_store_cas_xchg (ctx : jl_codectx_t) (ptr : Value) (jltype : jl_value_t)
    (isboxed : Bool) (Order : AtomicOrdering) (alignment : Nat)
    (isreplacefield ismodifyfield issetfieldonce maybe_null_if_boxed : Bool)
    (su : typed_store_setup_t) (DoneBB : Nat) (needloop : Bool) (BB : Option Nat)
    (CmpPhi Compare : Option Value) (m : typed_store_modify_t) :
    Builder (Option Value × Option Value × jl_cgval_t) := do
  let undef := Value.undef su.elty
  if Order = AtomicOrdering.NotAtomic then
    let load ← CreateLoad su.elty ptr alignment
      (if isboxed then AtomicOrdering.Monotonic else AtomicOrdering.NotAtomic)
    let mut first_ptr : Option Value := none
    if maybe_null_if_boxed && !ismodifyfield then
      first_ptr := some (← if isboxed then pure load else extract_first_ptr load)
    let oldval := ctx.mark_julia_type load isboxed jltype
    let Success ←
      if issetfieldonce then CreateIsNull (first_ptr.getD undef)
      else emit_f_is oldval m.cmpop first_ptr
    if needloop && ismodifyfield then
      addIncoming (CmpPhi.getD undef) load (← GetInsertBlock)
    let XchgBB ← BasicBlock_Create "xchg"
    CreateCondBr Success XchgBB (if needloop && ismodifyfield then BB.getD 0 else DoneBB)
    SetInsertPoint XchgBB
    match m.r with
    | some rv => CreateStore rv ptr alignment AtomicOrdering.NotAtomic
    | none => emit_unbox_store m.rhs ptr
    CreateBr DoneBB
    return (some load, some Success, oldval)
  else
    let Order := if Order = AtomicOrdering.Unordered then AtomicOrdering.Monotonic else Order
    let Order :=
      if Order = AtomicOrdering.Monotonic && isboxed then AtomicOrdering.Release else Order
    let FailOrder :=
      if !isreplacefield && !issetfieldonce then AtomicOrdering.Monotonic
      else if su.FailOrder = AtomicOrdering.Unordered then AtomicOrdering.Monotonic
      else su.FailOrder
    let store ← insert_val (.other 1) fun dst =>
      Inst.cmpxchg dst ptr (Compare.getD undef) (m.r.getD undef) alignment Order FailOrder
    let instr ← CreateExtractValue store 0 su.elty
    let Success ← CreateExtractValue store 1 (.int 1)
    let mut Done := Success
    let mut oldval := m.oldval
    if (isreplacefield || issetfieldonce) && needloop then
      let mut realinstr := instr
      if su.realelty ≠ su.elty then
        realinstr ← CreateTrunc realinstr su.realelty
      if let some ic := su.intcast then
        CreateStore realinstr ic 0 AtomicOrdering.NotAtomic
        oldval := ctx.mark_julia_slot su.intcast jltype
        if maybe_null_if_boxed then
          realinstr ← CreateLoad (su.intcast_eltyp.getD su.elty) ic 0 AtomicOrdering.NotAtomic
      else
        oldval := ctx.mark_julia_type realinstr isboxed jltype
      if issetfieldonce then
        let fp ← extract_first_ptr realinstr
        Done ← CreateIsNotNull fp
      else
        let ns ← CreateNot Success
        let ri := realinstr
        let ov := oldval
        let d ← emit_guarded_test (some ns) (Value.const_int 1 0) do
          let first_ptr ←
            if maybe_null_if_boxed then
              if isboxed then pure (some ri)
              else do
                let p ← extract_first_ptr ri
                pure (some p)
            else pure none
          emit_f_is ov m.cmpop first_ptr
        Done ← CreateNot d
    if needloop then
      CreateCondBr Done DoneBB (BB.getD 0)
    else
      CreateBr DoneBB
    if needloop then
      addIncoming (CmpPhi.getD undef) instr (← GetInsertBlock)
    return (some instr, some Success, oldval)

/-- Lines 2455 to 2676 of `typed_store`: the compare-and-exchange lowerings of
replacefield, modifyfield, swapfield and setfieldonce. -/
def typed_store_cas (ctx : jl_codectx_t) (depth : Nat) (ptr : Value)
    (rhs cmpop : jl_cgval_t) (jltype : jl_value_t) (isboxed : Bool) (Order : AtomicOrdering)
    (alignment : Nat) (needlock : Option Value)
    (isreplacefield isswapfield ismodifyfield issetfieldonce maybe_null_if_boxed : Bool)
    (modifyop : Option jl_cgval_t) (fname : String) (su : typed_store_setup_t) :
    Builder (Option typed_store_exchange_t) := do
  let undef := Value.undef su.elty
  let DoneBB ← BasicBlock_Create "done_xchg"
  let some c ← typed_store_cas_compare ctx depth ptr cmpop jltype isboxed Order alignment
      isreplacefield isswapfield issetfieldonce su DoneBB
    | return none
  let (BB, CmpPhi, Compare) ← typed_store_cas_loop su c.needloop c.Compare
  let some m ← typed_store_cas_modify ctx depth rhs c.cmpop jltype isboxed Order needlock
      ismodifyfield maybe_null_if_boxed modifyop fname su Compare
    | return none
  let (instr0, Success0, oldval) ← typed_store_cas_xchg ctx ptr jltype isboxed Order
    alignment isreplacefield ismodifyfield issetfieldonce maybe_null_if_boxed su DoneBB
    c.needloop BB CmpPhi Compare m
  let mut instr := instr0
  let mut Success := Success0
  if let some succ := c.Succ then
    let bb ← GetInsertBlock
    addIncoming (c.Current.getD undef) (instr.getD undef) bb
    instr := c.Current
    addIncoming succ (Success.getD undef) bb
    Success := c.Succ
  SetInsertPoint DoneBB
  return some { r := m.r, instr := instr, Success := Success, oldval := oldval,
                rhs := m.rhs }

/-- Lines 2376 to 2678 of `typed_store`: locking, and the store in one of its four
lowerings. -/
def typed_store_exchange (ctx : jl_codectx_t) (depth : Nat) (ptr : Value)
    (rhs cmpop : jl_cgval_t) (jltype : jl_value_t) (isboxed : Bool) (Order : AtomicOrdering)
    (alignment : Nat) (needlock : Option Value)
    (issetfield isreplacefield isswapfield ismodifyfield issetfieldonce
      maybe_null_if_boxed : Bool)
    (modifyop : Option jl_cgval_t) (fname : String) (su : typed_store_setup_t) :
    Builder (Option typed_store_exchange_t) := do
  if let some nl := needlock then
    emit_lockstate_value nl true
  let ex ←
    if issetfield || (Order = AtomicOrdering.NotAtomic && isswapfield) then do
      let e ← typed_store_plain ptr rhs isboxed Order alignment isswapfield su
      pure (some e)
    else if isswapfield then do
      let e ← typed_store_swap ptr rhs Order alignment su
      pure (some e)
    else if ismodifyfield && modifyop.isSome && needlock.isNone &&
        Order ≠ AtomicOrdering.NotAtomic && !isboxed && su.realelty = su.elty &&
        su.intcast.isNone && su.elty.isIntegerTy && !ctx.jl_type_hasptr jltype then do
      let e ← typed_store_atomicmodify ctx ptr rhs cmpop jltype isboxed Order
        (modifyop.getD rhs) su
      pure (some e)
    else
      typed_store_cas ctx depth ptr rhs cmpop jltype isboxed Order alignment needlock
        isreplacefield isswapfield ismodifyfield issetfieldonce maybe_null_if_boxed
        modifyop fname su
  if let some nl := needlock then
    emit_lockstate_value nl false
  return ex

/-- Lines 2679 to 2712 of `typed_store`: the write barrier. -/
def typed_store_barrier (ctx : jl_codectx_t) (parent : Option Value) (isboxed : Bool)
    (isreplacefield issetfieldonce : Bool) (su : typed_store_setup_t)
    (ex : typed_store_exchange_t) : Builder Unit := do
  if let some parent := parent then
    if su.tracked_pointers && (!isboxed || !type_is_permalloc ctx ex.rhs.typ) then
      let mut DoneBB : Option Nat := none
      if isreplacefield || issetfieldonce then
        let BB ← BasicBlock_Create "xchg_wb"
        let d ← BasicBlock_Create "done_xchg_wb"
        CreateCondBr (ex.Success.getD (Value.undef (.int 1))) BB d
        SetInsertPoint BB
        DoneBB := some d
      match ex.r with
      | some r0 =>
        let mut r := r0
        if su.realelty ≠ su.elty then
          r ← CreateTrunc r su.realelty
        if let some ic := su.intcast then
          CreateStore r ic 0 AtomicOrdering.NotAtomic
          r ← CreateLoad (su.intcast_eltyp.getD su.elty) ic 0 AtomicOrdering.NotAtomic
        else if !isboxed && su.intcast_eltyp.isSome then
          r ← emit_unbox (su.intcast_eltyp.getD su.elty) ex.rhs
        if !isboxed then
          emit_write_multibarrier_agg ctx parent r ex.rhs.typ
        else
          emit_write_barrier parent [r]
      | none => emit_write_multibarrier ctx parent ex.rhs
      if let some d := DoneBB then
        CreateBr d
        SetInsertPoint d

/-- Lines 2713 to 2745 of `typed_store`: the representation returned. -/
def typed_store_result (ctx : jl_codectx_t) (jltype : jl_value_t) (isboxed : Bool)
    (issetfield isreplacefield ismodifyfield issetfieldonce maybe_null_if_boxed : Bool)
    (su : typed_store_setup_t) (ex : typed_store_exchange_t) : Builder jl_cgval_t := do
  if ismodifyfield then
    emit_new_struct ctx (ctx.jl_apply_modify_type jltype) [ex.oldval, ex.rhs]
  else if issetfieldonce then
    return ctx.mark_julia_type (ex.Success.getD (Value.undef (.int 1))) false
      jl_value_t.bool_type
  else if !issetfield then
    let mut instr := ex.instr.getD (Value.undef su.elty)
    if su.realelty ≠ su.elty then
      instr ← CreateTrunc instr su.realelty
    if let some ic := su.intcast then
      CreateStore instr ic 0 AtomicOrdering.NotAtomic
      if su.tracked_pointers then
        instr ← CreateLoad (su.intcast_eltyp.getD su.elty) ic 0 AtomicOrdering.NotAtomic
    if maybe_null_if_boxed && su.tracked_pointers then
      let first_ptr ← if isboxed then pure instr else extract_first_ptr instr
      null_load_check first_ptr
    let oldval :=
      if su.intcast.isSome && !su.tracked_pointers then ctx.mark_julia_slot su.intcast jltype
      else ctx.mark_julia_type instr isboxed jltype
    if isreplacefield then
      let Success ← CreateZExt (ex.Success.getD (Value.undef (.int 1))) (.int 8)
      emit_new_struct ctx (ctx.jl_apply_cmpswap_type jltype)
        [oldval, ctx.mark_julia_type Success false jl_value_t.bool_type]
    else
      return oldval
  else
    return ex.oldval

/-- Lines 2305 to 2332 of `typed_store`: a store that stores nothing. -/
def typed_store_ghost (ctx : jl_codectx_t) (depth : Nat) (rhs cmpop : jl_cgval_t)
    (jltype : jl_value_t) (Order : AtomicOrdering)
    (issetfield isreplacefield isswapfield ismodifyfield : Bool)
    (modifyop : Option jl_cgval_t) (fname : String) : Builder (Option jl_cgval_t) := do
  if isStrongerThanMonotonic Order then
    CreateFence Order
  if issetfield then
    return some rhs
  else if isreplacefield then
    let Success ← emit_f_is cmpop (ctx.ghostValue jltype) none
    let Success ← CreateZExt Success (.int 8)
    let res ← emit_new_struct ctx (ctx.jl_apply_cmpswap_type jltype)
      [ctx.ghostValue jltype, ctx.mark_julia_type Success false jl_value_t.bool_type]
    return some res
  else if isswapfield then
    return some (ctx.ghostValue jltype)
  else if ismodifyfield then
    let oldval := ctx.ghostValue jltype
    let some nv ← typed_store_newval ctx depth modifyop jltype fname cmpop oldval rhs
      | return none
    let res ← emit_new_struct ctx (ctx.jl_apply_modify_type jltype) [oldval, nv]
    return some res
  else
    return some (ctx.mark_julia_const jl_false)

/-- The function `typed_store`. The flag `aliasscope` tells whether the alias scope is
set; `none` is returned only when the nesting allowance of `emit_isa` ran out. -/
def typed_store (ctx : jl_codectx_t) (depth : Nat) (ptr : Value) (rhs cmpop : jl_cgval_t)
    (jltype : jl_value_t) (aliasscope : Bool) (parent : Option Value) (isboxed : Bool)
    (Order FailOrder : AtomicOrdering) (alignment : Nat) (needlock : Option Value)
    (issetfield isreplacefield isswapfield ismodifyfield issetfieldonce
      maybe_null_if_boxed : Bool)
    (modifyop : Option jl_cgval_t) (fname : String) : Builder (Option jl_cgval_t) := do
  let alignment :=
    if isboxed then sizeof_ptr
    else if alignment = 0 then ctx.julia_alignment jltype else alignment
  let elty := if isboxed then T_prjlvalue else ctx.julia_type_to_llvm jltype
  if elty = IRType.void || (issetfieldonce && !maybe_null_if_boxed) ||
      (issetfieldonce && !isboxed && !ctx.jl_type_hasptr jltype) then
    typed_store_ghost ctx depth rhs cmpop jltype Order issetfield isreplacefield
      isswapfield ismodifyfield modifyop fname
  else
    let su ← typed_store_setup ctx rhs jltype aliasscope isboxed Order FailOrder alignment
      elty issetfield isreplacefield isswapfield issetfieldonce
    let some ex ← typed_store_exchange ctx depth ptr rhs cmpop jltype isboxed Order
        alignment needlock issetfield isreplacefield isswapfield ismodifyfield
        issetfieldonce maybe_null_if_boxed modifyop fname su
      | return none
    typed_store_barrier ctx parent isboxed isreplacefield issetfieldonce su ex
    let oldval ← typed_store_result ctx jltype isboxed issetfield isreplacefield
      ismodifyfield issetfieldonce maybe_null_if_boxed su ex
    return some oldval

/-! ## Errors and bounds checks -/

def CreateSub (a b : Value) : Builder Value :=
  insert_val a.getType fun dst => Inst.sub dst a b

def CreateNUWAdd (a b : Value) : Builder Value :=
  insert_val a.getType fun dst => Inst.add_nuw dst a b

def CreateICmpULT (a b : Value) : Builder Value :=
  insert_val (.int 1) fun dst => Inst.icmp_ult dst a b

def CreateSelect (c a b : Value) : Builder Value :=
  insert_val a.getType fun dst => Inst.select dst c a b

def CreateAlloca (ty : IRType) : Builder Value :=
  insert_val (.ptr 0) fun dst => Inst.alloca dst ty

def CreateExtractElement (vec idx : Value) (ty : IRType) : Builder Value :=
  insert_val ty fun dst => Inst.extractelement dst vec idx

def CreateInBoundsGEP (ty : IRType) (ptr idx : Value) : Builder Value :=
  insert_val ptr.getType fun dst => Inst.gep dst ty ptr idx

def CreateAdd (a b : Value) : Builder Value :=
  insert_val a.getType fun dst => Inst.add dst a b

/-- The call `CreateMul(a, b)`, also with the flags `nuw` and `nsw`. -/
def CreateMul (a b : Value) : Builder Value :=
  insert_val a.getType fun dst => Inst.mul dst a b

def CreateICmpUGE (a b : Value) : Builder Value :=
  insert_val (.int 1) fun dst => Inst.icmp_uge dst a b

/-- The call `CreateGEP(getInt8Ty, ptr, idx)`. -/
def CreateGEP_i8 (ptr idx : Value) : Builder Value :=
  insert_val ptr.getType fun dst => Inst.gep_i8 dst ptr idx

/-- The function `just_emit_error(ctx, F, txt)`; `F` is given by its name. -/
def just_emit_error (F : String) (txt : String) : Builder Unit := do
  let msg ← stringConstPtr txt
  let _ ← CreateCall .void F [msg]
  return ()

/-- The function `emit_error(ctx, F, txt)`. -/
def emit_error (F : String) (txt : String) : Builder Unit := do
  just_emit_error F txt
  CreateUnreachable
  let cont ← BasicBlock_Create "after_error"
  SetInsertPoint cont

/-- The function `emit_atomic_error(ctx, msg)`. -/
def emit_atomic_error (msg : String) : Builder Unit :=
  emit_error "jlatomicerror_func" msg

/-- The function `raise_exception(ctx, exc, contBB)`. -/
def raise_exception (exc : Value) (contBB : Option Nat) : Builder Unit := do
  let e ← mark_callee_rooted exc
  let _ ← CreateCall .void "jlthrow_func" [e]
  CreateUnreachable
  let cont ←
    match contBB with
    | none => BasicBlock_Create "after_throw"
    | some bb => pure bb
  SetInsertPoint cont

/-- The function `raise_exception_unless(ctx, cond, exc)`. -/
def raise_exception_unless (cond exc : Value) : Builder Unit := do
  let failBB ← BasicBlock_Create "fail"
  let passBB ← BasicBlock_Create "pass"
  CreateCondBr cond passBB failBB
  SetInsertPoint failBB
  raise_exception exc (some passBB)

/-- The function `null_pointer_check(ctx, v, nullcheck)`. The result is the new
`*nullcheck` when `nullcheck` is not null (`has_nullcheck`). -/
def null_pointer_check (v : Value) (has_nullcheck : Bool) : Builder (Option Value) :=
  if has_nullcheck then pure (some v)
  else do
    let c ← null_pointer_cmp v
    let e ← literal_pointer_val jl_undefref_exception
    raise_exception_unless c e
    return none

/-- The values of `jl_options.check_bounds`. -/
def JL_OPTIONS_CHECK_BOUNDS_DEFAULT : Nat := 0
def JL_OPTIONS_CHECK_BOUNDS_ON : Nat := 1
def JL_OPTIONS_CHECK_BOUNDS_OFF : Nat := 2

/-- The function `bounds_check_enabled(ctx, inbounds)`, with `CHECK_BOUNDS` 1. -/
def bounds_check_enabled (ctx : jl_codectx_t) (inbounds : jl_value_t) : Bool :=
  if ctx.check_bounds = JL_OPTIONS_CHECK_BOUNDS_ON then true
  else if ctx.check_bounds = JL_OPTIONS_CHECK_BOUNDS_OFF then false
  else if inbounds = jl_false then false
  else true

/-- The call `value_to_pointer(ctx, v)`: the value moved to a stack slot; not looked
into. The result is a pointer with no inline roots, as its callers assert. -/
def value_to_pointer (ctx : jl_codectx_t) (v : jl_cgval_t) : Builder jl_cgval_t := do
  let p ← emit_helper "value_to_pointer" (.ptr 0) v.operands
  return { ctx.mark_julia_slot (some p) v.typ with tbaa := some 0, inline_roots := [] }

/-- The pointer `a` that the fail block of `emit_bounds_check` hands to
`jluboundserror_func` for an unboxed value. -/
def emit_bounds_error_arg (ctx : jl_codectx_t) (ainfo : jl_cgval_t) : Builder Value := do
  let a := ainfo.V.getD (Value.undef (.ptr 0))
  if ainfo.isghost then
    return Value.null_value (.ptr 0)
  else if !ainfo.inline_roots.isEmpty then
    let p ← value_to_pointer ctx ainfo
    return p.V.getD (Value.undef (.ptr 0))
  else if !ainfo.ispointer then
    let tempSpace ← CreateAlloca a.getType
    CreateStore a tempSpace 0 AtomicOrdering.NotAtomic
    return tempSpace
  else
    return a

/-- The call of the bounds error in the fail block of `emit_bounds_check`. -/
def emit_bounds_error (ctx : jl_codectx_t) (ainfo : jl_cgval_t) (ty : jl_value_t)
    (i len : Value) : Builder Unit :=
  if ty = jl_value_t.null then do
    let _ ← CreateCall .void "jlvboundserror_func"
      [ainfo.V.getD (Value.undef (.ptr 0)), len, i]
    return ()
  else if ainfo.isboxed then do
    let b ← boxed ctx ainfo false
    let r ← mark_callee_rooted (b.getD (Value.undef T_prjlvalue))
    let _ ← CreateCall .void "jlboundserror_func" [r, i]
    return ()
  else do
    let a ← emit_bounds_error_arg ctx ainfo
    let d ← decay_derived a
    let t ← literal_pointer_val ty
    let _ ← CreateCall .void "jluboundserror_func" [d, t, i]
    return ()

/-- The function `emit_bounds_check(ctx, ainfo, ty, i, len, boundscheck)`; a null `ty`
is `jl_value_t.null`. -/
def emit_bounds_check (ctx : jl_codectx_t) (ainfo : jl_cgval_t) (ty : jl_value_t)
    (i len : Value) (boundscheck : jl_value_t) : Builder Value := do
  let im1 ← CreateSub i (Value.const_int 64 1)
  if bounds_check_enabled ctx boundscheck then
    let ok ← CreateICmpULT im1 len
    let failBB ← BasicBlock_Create "fail"
    let passBB ← BasicBlock_Create "pass"
    CreateCondBr ok passBB failBB
    SetInsertPoint failBB
    emit_bounds_error ctx ainfo ty i len
    CreateUnreachable
    SetInsertPoint passBB
  return im1
/-! ## Running emitted code -/

/-- The state the emitted code runs on: the values of the instructions run so far
(`reg`), of the values defined before (`arg`), the elements of aggregate values
(`aggr`), the memory by address, the addresses of the objects `literal_pointer_val`
loads, the next free stack address, the calls made so far, and the block run before
the current one. -/
structure Machine where
  reg : Nat → Nat
  arg : Nat → Nat
  aggr : Value → Nat → Nat
  mem : Nat → Nat
  literal : jl_value_t → Nat
  sp : Nat
  calls : List (String × List Nat)
  prev : Nat

/-- The value an operand has. A null pointer is 0; an undefined value and the address
of a global text are taken as 0 too. -/
def Value.eval (m : Machine) : Value → Nat
  | .reg id _ => m.reg id
  | .arg id _ => m.arg id
  | .const_int bits v => v % 2 ^ bits
  | .undef _ => 0
  | .null_value _ => 0
  | .string_global _ => 0

/-- The bit width of an integer operand; pointers have the width of `T_size`. -/
def Value.width (v : Value) : Nat :=
  match v.getType with
  | .int bits => bits
  | _ => 64

def Machine.set (m : Machine) (dst v : Nat) : Machine :=
  { m with reg := fun r => if r = dst then v else m.reg r }

/-- The incoming value of the phi node `dst` for the predecessor `m.prev`: the first
`addIncoming` for it in the code. -/
def phi_value (code : List (Nat × Inst)) (m : Machine) (dst : Nat) : Nat :=
  match code.find? fun x =>
      match x.2 with
      | .add_incoming (.reg d _) _ bb => d == dst && bb == m.prev
      | _ => false with
  | some (_, .add_incoming _ v _) => v.eval m
  | _ => 0

/-- One instruction that is not a terminator. A helper that is not looked into has no
meaning here. Orderings and alignments do not matter on one thread. -/
def Inst.exec (code : List (Nat × Inst)) (m : Machine) : Inst → Option Machine
  | .load_literal dst p => some (m.set dst (m.literal p))
  | .addrspacecast dst v _ => some (m.set dst (v.eval m))
  | .ptrtoint dst v => some (m.set dst (v.eval m))
  | .inttoptr dst v => some (m.set dst (v.eval m))
  | .icmp_eq dst a b => some (m.set dst (if a.eval m = b.eval m then 1 else 0))
  | .icmp_ne dst a b => some (m.set dst (if a.eval m = b.eval m then 0 else 1))
  | .icmp_ult dst a b => some (m.set dst (if a.eval m < b.eval m then 1 else 0))
  | .sub dst a b =>
    some (m.set dst ((a.eval m + 2 ^ a.width - b.eval m % 2 ^ a.width) % 2 ^ a.width))
  | .add_nuw dst a b => some (m.set dst ((a.eval m + b.eval m) % 2 ^ a.width))
  | .and_ dst a b => some (m.set dst (a.eval m &&& b.eval m))
  | .or_ dst a b => some (m.set dst (a.eval m ||| b.eval m))
  | .not_ dst a => some (m.set dst (2 ^ a.width - 1 - a.eval m % 2 ^ a.width))
  | .zext dst a _ => some (m.set dst (a.eval m))
  | .trunc dst a ty =>
    some (m.set dst (match ty with
      | .int bits => a.eval m % 2 ^ bits
      | _ => a.eval m))
  | .select dst c a b => some (m.set dst (if c.eval m ≠ 0 then a.eval m else b.eval m))
  | .extractvalue dst agg idx => some (m.set dst (m.aggr agg idx))
  | .extractelement dst vec idx => some (m.set dst (m.aggr vec (idx.eval m)))
  | .gep dst _ ptr idx => some (m.set dst (ptr.eval m + idx.eval m))
  | .alloca dst _ => some { m.set dst m.sp with sp := m.sp + 1 }
  | .load dst _ ptr _ _ => some (m.set dst (m.mem (ptr.eval m)))
  | .store v ptr _ _ =>
    some { m with mem := fun a => if a = ptr.eval m then v.eval m else m.mem a }
  | .atomicrmw_xchg dst ptr v _ _ =>
    some { m.set dst (m.mem (ptr.eval m)) with
      mem := fun a => if a = ptr.eval m then v.eval m else m.mem a }
  | .cmpxchg dst ptr cmp new _ _ _ =>
    let old := m.mem (ptr.eval m)
    let ok := decide (old = cmp.eval m)
    some { m with
      aggr := fun v k =>
        match v with
        | .reg d _ => if d = dst then (if k = 0 then old else if ok then 1 else 0)
          else m.aggr v k
        | _ => m.aggr v k
      mem := fun a => if a = ptr.eval m ∧ ok = true then new.eval m else m.mem a }
  | .fence _ => some m
  | .call dst fn args =>
    some { m.set dst 0 with calls := m.calls ++ [(fn, args.map fun a => a.eval m)] }
  | .phi dst _ _ => some (m.set dst (phi_value code m dst))
  | .add_incoming _ _ _ => some m
  | .br _ => none
  | .cond_br _ _ _ => none
  | .unreachable => none
  | .helper _ _ _ => none
  | .add dst a b => some (m.set dst ((a.eval m + b.eval m) % 2 ^ a.width))
  | .mul dst a b => some (m.set dst ((a.eval m * b.eval m) % 2 ^ a.width))
  | .icmp_uge dst a b => some (m.set dst (if a.eval m ≥ b.eval m then 1 else 0))
  | .gep_i8 dst ptr idx => some (m.set dst ((ptr.eval m + idx.eval m) % 2 ^ 64))

/-- How a run of emitted code ends. -/
inductive Outcome where
  /-- The end of what was emitted into the block `blk`, the insertion point. -/
  | fell (blk : Nat) (m : Machine)
  /-- An `unreachable`. -/
  | trapped (m : Machine)
  /-- An instruction without a meaning here. -/
  | stuck
  /-- The allowance of blocks ran out. -/
  | timeout

/-- The instructions emitted into the block `blk`, in order. -/
def block_insts (code : List (Nat × Inst)) (blk : Nat) : List Inst :=
  (code.filter fun x => x.1 == blk).map Prod.snd

/-- Runs the instructions of one block: the block left for and the state there, or the
outcome when the run ends in the block. -/
def run_block (code : List (Nat × Inst)) (blk : Nat) :
    List Inst → Machine → Outcome ⊕ (Nat × Machine)
  | [], m => .inl (.fell blk m)
  | .br bb :: _, m => .inr (bb, m)
  | .cond_br c t f :: _, m => .inr (if c.eval m ≠ 0 then t else f, m)
  | .unreachable :: _, m => .inl (.trapped m)
  | i :: rest, m =>
    match i.exec code m with
    | none => .inl .stuck
    | some m1 => run_block code blk rest m1

/-- Runs the code from the start of block `blk`, through at most `fuel` blocks. -/
def run (code : List (Nat × Inst)) : Nat → Nat → Machine → Outcome
  | 0, _, _ => .timeout
  | fuel + 1, blk, m =>
    match run_block code blk (block_insts code blk) m with
    | .inl o => o
    | .inr (bb, m1) => run code fuel bb { m1 with prev := blk }

/-- A machine state for examples: every value defined before holds `i`, memory and
registers hold 0, objects sit at address 16. -/
def example_machine (i : Nat) : Machine :=
  { reg := fun _ => 0, arg := fun _ => i, aggr := fun _ k => k, mem := fun _ => 0,
    literal := fun _ => 16, sp := 1024, calls := [], prev := 0 }
/-! ## Shapes of emitted code -/

/-- The step `m` only appends instructions, all of them into the block of the insertion
point and each with the property `P`; it moves neither the insertion point nor the
list of blocks, and numbers go up. -/
structure Builder.Straight {α : Type} (P : Inst → Prop) (m : Builder α) : Prop where
  out : ∀ s, ∃ l : List Inst, (m s).2.code = s.code ++ l.map (fun i => (s.cur, i)) ∧
    (m s).2.cur = s.cur ∧ (m s).2.blocks = s.blocks ∧ s.next ≤ (m s).2.next ∧
    ∀ i ∈ l, P i

/-- The step `m` only appends instructions, each with the property `P`, and numbers go
up. -/
structure Builder.EmitsOnly {α : Type} (P : Inst → Prop) (m : Builder α) : Prop where
  out : ∀ s, ∃ l : List (Nat × Inst), (m s).2.code = s.code ++ l ∧
    s.next ≤ (m s).2.next ∧ ∀ x ∈ l, P x.2

/-- The instruction is a call of a runtime function. -/
def Inst.is_call : Inst → Bool
  | .call _ _ _ => true
  | _ => false

/-- The names of the runtime functions that raise a bounds error. -/
def bounds_error_funcs : List String :=
  ["jlvboundserror_func", "jlboundserror_func", "jluboundserror_func"]

/-! ## Memory orders -/

/-- The enum `jl_memory_order` of `julia.h`. -/
inductive jl_memory_order where
  | unspecified
  | invalid
  | notatomic
  | unordered
  | monotonic
  | consume
  | acquire
  | release
  | acq_rel
  | seq_cst
  deriving DecidableEq, Repr, Inhabited

/-- The value of an enumerator of `jl_memory_order`. -/
def jl_memory_order.toInt : jl_memory_order → Int
  | .unspecified => -2
  | .invalid => -1
  | .notatomic => 0
  | .unordered => 1
  | .monotonic => 2
  | .consume => 3
  | .acquire => 4
  | .release => 5
  | .acq_rel => 6
  | .seq_cst => 7

/-- The function `get_llvm_atomic_order(order)`; `none` where it aborts. -/
def get_llvm_atomic_order : jl_memory_order → Option AtomicOrdering
  | .notatomic => some .NotAtomic
  | .unordered => some .Unordered
  | .monotonic => some .Monotonic
  | .acquire => some .Acquire
  | .release => some .Release
  | .acq_rel => some .AcquireRelease
  | .seq_cst => some .SequentiallyConsistent
  | _ => none

/-! ## Reading a field -/

def jl_datatype_nfields (stt : jl_datatype_t) : Nat := stt.fields.length

def jl_field_type (stt : jl_datatype_t) (idx : Nat) : jl_value_t := (jl_field stt idx).ftype

def jl_field_isatomic (stt : jl_datatype_t) (idx : Nat) : Bool := (jl_field stt idx).isatomic

def jl_field_isconst (stt : jl_datatype_t) (idx : Nat) : Bool := (jl_field stt idx).isconst

/-- The macro `jl_is_immutable`. -/
def jl_is_immutable (stt : jl_datatype_t) : Bool := !stt.mutabl

/-- The constant `JL_HEAP_ALIGNMENT` of the 64-bit targets. -/
def JL_HEAP_ALIGNMENT : Nat := 16

/-- The function `jl_field_align(dt, i)`, on `unsigned`. -/
def jl_field_align (dt : jl_datatype_t) (i : Nat) : Nat :=
  let al := (jl_field_offset dt i ||| 16) % 2 ^ 32
  let al := al &&& ((2 ^ 32 - al) % 2 ^ 32)
  min al (min (dt.align % 2 ^ 32) (JL_HEAP_ALIGNMENT % 2 ^ 32))

/-- The default-constructed representation `jl_cgval_t()`: an undefined value of type
`Union{}`. -/
def jl_cgval_empty : jl_cgval_t :=
  { V := some (Value.undef .void), Vboxed := none, TIndex := none, inline_roots := [],
    constant := jl_value_t.null, typ := jl_value_t.bottom_type, isboxed := false,
    isghost := true, tbaa := none, promotion_point := none }

/-- The function `field_may_be_null(strct, stt, idx)`. -/
def field_may_be_null (ctx : jl_codectx_t) (strct : jl_cgval_t) (stt : jl_datatype_t)
    (idx : Nat) : Bool :=
  let nfields := jl_datatype_nfields stt
  if idx < size_sub nfields (stt.n_uninitialized % 2 ^ 32) then false
  else if !jl_field_isptr stt idx && !ctx.jl_type_hasptr (jl_field_type stt idx) then false
  else if strct.constant ≠ jl_value_t.null ∧
      (jl_is_immutable stt || jl_field_isconst stt idx) = true ∧
      ctx.jl_field_isdefined strct.constant idx = true then false
  else true

/-- The loop of the overload `field_may_be_null(strct, stt)` from iteration `i` on,
`rem` iterations left. -/
def field_may_be_null_loop (ctx : jl_codectx_t) (strct : jl_cgval_t) (stt : jl_datatype_t)
    (nfields : Nat) : Nat → Nat → Bool
  | 0, _ => false
  | rem + 1, i =>
    let idx := size_sub (size_sub nfields i) 1
    if field_may_be_null ctx strct stt idx then true
    else field_may_be_null_loop ctx strct stt nfields rem (i + 1)

/-- The overload `field_may_be_null(strct, stt)`. -/
def field_may_be_null_any (ctx : jl_codectx_t) (strct : jl_cgval_t) (stt : jl_datatype_t) :
    Bool :=
  field_may_be_null_loop ctx strct stt (jl_datatype_nfields stt)
    (stt.n_uninitialized % 2 ^ 32) 0

/-- The test `isa<VectorType>`. -/
def IRType.isVectorTy : IRType → Bool
  | .vector _ _ => true
  | _ => false

/-- The test `isa<ArrayType>`. -/
def IRType.isArrayTy : IRType → Bool
  | .array _ _ => true
  | _ => false

/-- The test `isa<StructType>`. -/
def IRType.isStructTy : IRType → Bool
  | .struct _ => true
  | _ => false

/-- The type of member `i` of an aggregate type. -/
def IRType.getElementType (t : IRType) (i : Nat) : IRType :=
  match t with
  | .array elem _ => elem
  | .vector elem _ => elem
  | .struct ms => ms.toList.getD i .void
  | _ => .void

def IRType.getBitWidth : IRType → Nat
  | .int bits => bits
  | _ => 0

/-- The function `maybe_decay_tracked(ctx, V)`. -/
def maybe_decay_tracked (V : Value) : Builder Value :=
  if V.getType ≠ IRType.ptr AddressSpace.Tracked then pure V
  else CreateAddrSpaceCast V (.ptr AddressSpace.Derived)

/-- The call `emit_ptrgep(ctx, base, byte_offset)`; not looked into. -/
def emit_ptrgep (base : Value) (byte_offset : Nat) : Builder Value :=
  emit_helper "emit_ptrgep" base.getType [base, Value.const_int 64 byte_offset]

/-- The function `data_pointer(ctx, x)`; the pointer to a constant is not looked
into. -/
def data_pointer (x : jl_cgval_t) : Builder (Option Value) :=
  if x.constant ≠ jl_value_t.null then do
    let p ← emit_helper "data_pointer of a constant" (.ptr 0) []
    return some p
  else
    match x.V with
    | none => pure none
    | some v => do
      let d ← maybe_decay_tracked v
      return some d

/-- The call `typed_load(ctx, ptr, idx_0based, jltype, tbaa, aliasscope, isboxed, Order,
maybe_null_if_boxed, alignment, nullcheck)`; not looked into. The result is the value
loaded and the new `*nullcheck`. -/
def typed_load (ctx : jl_codectx_t) (ptr : Option Value) (idx_0based : Option Value)
    (jltype : jl_value_t) (isboxed : Bool) (_Order : AtomicOrdering)
    (maybe_null_if_boxed : Bool) (_alignment : Nat) (has_nullcheck : Bool) :
    Builder (jl_cgval_t × Option Value) := do
  let v ← emit_helper (if maybe_null_if_boxed then "typed_load(maybe_null)" else "typed_load")
    (if isboxed then T_prjlvalue else ctx.julia_type_to_llvm jltype)
    (ptr.toList ++ idx_0based.toList)
  return (ctx.mark_julia_type v isboxed jltype,
    if has_nullcheck && maybe_null_if_boxed then some v else none)

/-- The call `emit_unionload(ctx, addr, ptindex, jfty, fsz, al, tbaa, mutabl, union_max,
tbaa_ptindex)`; not looked into. -/
def emit_unionload (ctx : jl_codectx_t) (addr : Option Value) (ptindex : Value)
    (jfty : jl_value_t) : Builder jl_cgval_t := do
  let tindex ← emit_helper "emit_unionload" (.int 8) (addr.toList ++ [ptindex])
  return { ctx.mark_julia_slot addr jfty with TIndex := some tindex }

/-- The function `best_field_tbaa`, as far as whether the result is null. -/
def best_field_tbaa (strct : jl_cgval_t) : Option Nat := strct.tbaa

/-- The branch of `emit_getfield_knownidx` for a value with inline roots. -/
def emit_getfield_knownidx_roots (ctx : jl_codectx_t) (strct : jl_cgval_t) (idx : Nat)
    (jt : jl_datatype_t) (maybe_null has_nullcheck : Bool) :
    Builder (jl_cgval_t × Option Value) := do
  let jfty := jl_field_type jt idx
  let tbaa := best_field_tbaa strct
  let offsets := split_value_field jt idx
  let hasptr := decide (0 ≤ offsets.2)
  let roots : List Value :=
    if hasptr then
      (strct.inline_roots.drop offsets.2.toNat).take
        (if jl_field_isptr jt idx then 1 else ctx.layout_npointers jfty)
    else []
  let mut nullcheck : Option Value := none
  if hasptr && maybe_null then
    nullcheck ← null_pointer_check (roots.headD (Value.undef T_prjlvalue)) has_nullcheck
  if jl_field_isptr jt idx then
    return (ctx.mark_julia_type (roots.headD (Value.undef T_prjlvalue)) true jfty, nullcheck)
  else
    let addr ←
      if offsets.1 < 0 then pure none
      else if offsets.1 = 0 then pure strct.V
      else do
        let p ← emit_ptrgep (strct.V.getD (Value.undef (.ptr 0))) offsets.1.toNat
        pure (some p)
    if jl_is_uniontype jfty then
      let fsz1 := size_sub (jl_field_size jt idx) 1
      let ptindex ← emit_ptrgep (addr.getD (Value.undef (.ptr 0))) fsz1
      let r ← emit_unionload ctx addr ptindex jfty
      return (r, nullcheck)
    else if jfty = jl_value_t.bool_type then
      let r ← typed_load ctx addr none jfty false AtomicOrdering.NotAtomic maybe_null
        (jl_field_align jt idx) has_nullcheck
      return (r.1, if r.2.isSome then r.2 else nullcheck)
    else
      return ({ ctx.mark_julia_slot addr jfty with tbaa := tbaa, inline_roots := roots },
        nullcheck)

/-- The branch of `emit_getfield_knownidx` for a value behind a pointer. `needlock` is
the boxed struct when the field is read under its lock; `order` is the memory order
after an unspecified one was replaced. -/
def emit_getfield_knownidx_pointer (ctx : jl_codectx_t) (strct : jl_cgval_t) (idx : Nat)
    (jt : jl_datatype_t) (order : jl_memory_order) (needlock : Option Value)
    (maybe_null has_nullcheck : Bool) : Builder (jl_cgval_t × Option Value) := do
  let jfty := jl_field_type jt idx
  let byte_offset := jl_field_offset jt idx
  let tbaa := best_field_tbaa strct
  let staddr0 ← data_pointer strct
  let staddr := staddr0.getD (Value.undef (.ptr 0))
  let addr ← if byte_offset = 0 then pure staddr else emit_ptrgep staddr byte_offset
  if jl_field_isptr jt idx then
    let Load ← CreateLoad T_prjlvalue addr sizeof_ptr
      (if order.toInt ≤ jl_memory_order.notatomic.toInt then AtomicOrdering.Unordered
        else (get_llvm_atomic_order order).getD AtomicOrdering.NotAtomic)
    let mut nullcheck : Option Value := none
    if maybe_null then
      nullcheck ← null_pointer_check Load has_nullcheck
    return (ctx.mark_julia_type Load true jfty, nullcheck)
  else if jl_is_uniontype jfty then
    let fsz1 := size_sub (jl_field_size jt idx) 1
    let ptindex ← emit_ptrgep staddr (size_add byte_offset fsz1)
    let val ← emit_unionload ctx (some addr) ptindex jfty
    return (val, none)
  else if jl_field_isconst jt idx && !(maybe_null && (decide (jfty = jl_value_t.bool_type) ||
      decide (ctx.layout_npointers jfty ≠ 0))) then
    return ({ ctx.mark_julia_slot (some addr) jfty with tbaa := tbaa }, none)
  else
    let align := jl_field_align jt idx
    if let some nl := needlock then
      emit_lockstate_value nl true
    let ret ← typed_load ctx (some addr) none jfty false
      (if needlock.isSome then AtomicOrdering.NotAtomic
        else (get_llvm_atomic_order order).getD AtomicOrdering.NotAtomic)
      maybe_null align has_nullcheck
    if let some nl := needlock then
      emit_lockstate_value nl false
    return ret

/-- The spill of the bytes of an inline union field of an unboxed struct to the stack
slot `lv`: the loop over the `align`-sized words, from word `i` on, `rem` words left. -/
def emit_getfield_union_words (obj lv : Value) (st_idx align : Nat) :
    Nat → Nat → Builder Unit
  | 0, _ => pure ()
  | rem + 1, i => do
    let fldv ← CreateExtractValue obj (st_idx + i) (obj.getType.getElementType (st_idx + i))
    let fldp ← emit_ptrgep lv (i * align)
    CreateStore fldv fldp align AtomicOrdering.NotAtomic
    emit_getfield_union_words obj lv st_idx align rem (i + 1)

/-- The loop over the remaining bytes up to the selector. -/
def emit_getfield_union_bytes (obj staddr : Value) (st_idx : Nat) : Nat → Nat → Builder Unit
  | 0, _ => pure ()
  | rem + 1, i => do
    let fldv ← CreateExtractValue obj (st_idx + i) (obj.getType.getElementType (st_idx + i))
    let fldp ← emit_ptrgep staddr i
    CreateStore fldv fldp 1 AtomicOrdering.NotAtomic
    emit_getfield_union_bytes obj staddr st_idx rem (i + 1)

/-- Conversion of an `unsigned` to `int`. -/
def to_int (a : Nat) : Int :=
  if a % 2 ^ 32 < 2 ^ 31 then ((a % 2 ^ 32 : Nat) : Int) else ((a % 2 ^ 32 : Nat) : Int) - 2 ^ 32

/-- The branch of `emit_getfield_knownidx` for an unboxed struct `obj` held in an IR
value. -/
def emit_getfield_knownidx_unboxed (ctx : jl_codectx_t) (obj : Value) (idx : Nat)
    (jt : jl_datatype_t) (maybe_null has_nullcheck : Bool) :
    Builder (jl_cgval_t × Option Value) := do
  let jfty := jl_field_type jt idx
  let byte_offset := jl_field_offset jt idx
  let T := obj.getType
  if !ctx.jl_is_vecelement_type jt.value && !T.isVectorTy && !jl_field_isptr jt idx &&
      jl_is_uniontype jfty then
    let fsz : Int := to_int ((jl_field_size jt idx + (2 ^ 32 - 1)) % 2 ^ 32)
    let ptindex := ctx.convert_struct_offset T ((byte_offset + fsz.toNat) % 2 ^ 32)
    let mut lv : Option Value := none
    if fsz > 0 then
      let st_idx := ctx.convert_struct_offset T byte_offset
      let align := ((T.getElementType st_idx).getBitWidth + 7) / 8
      let slot ← emit_static_alloca (.int 8) align
      emit_getfield_union_words obj slot st_idx align (fsz.toNat / align) 0
      let i := fsz.toNat / align
      let n := (ptindex + (2 ^ 32 - st_idx % 2 ^ 32)) % 2 ^ 32
      if i < n then
        let staddr ← emit_ptrgep slot (i * align)
        emit_getfield_union_bytes obj staddr st_idx (n - i) i
      lv := some slot
    let tindex0 ← CreateExtractValue obj ptindex (.int 8)
    let tindex ← CreateNUWAdd (Value.const_int 8 1) tindex0
    return ({ ctx.mark_julia_slot lv jfty with TIndex := some tindex }, none)
  else
    let fldv ←
      if ctx.jl_is_vecelement_type jt.value then pure obj
      else if T.isVectorTy then
        CreateExtractElement obj (Value.const_int 32 idx) (T.getElementType idx)
      else
        let st_idx := if T.isArrayTy then idx else ctx.convert_struct_offset T byte_offset
        CreateExtractValue obj st_idx (T.getElementType st_idx)
    let mut nullcheck : Option Value := none
    if maybe_null then
      let first_ptr ←
        if jl_field_isptr jt idx then pure (some fldv)
        else if ctx.CountTrackedPointers fldv.getType = 0 then pure none
        else do
          let p ← extract_first_ptr fldv
          pure (some p)
      if let some p := first_ptr then
        nullcheck ← null_pointer_check p has_nullcheck
    return (ctx.mark_julia_type fldv (jl_field_isptr jt idx) jfty, nullcheck)

mutual
/-- The test `Type::isEmptyTy` of LLVM: an array of no or of empty elements, or a struct
of empty members. -/
def IRType.isEmptyTy : IRType → Bool
  | .array elem n => n == 0 || elem.isEmptyTy
  | .struct ms => ms.allEmpty
  | _ => false
/-- Every member is an empty type. -/
def IRTypes.allEmpty : IRTypes → Bool
  | .nil => true
  | .cons t ts => t.isEmptyTy && ts.allEmpty
end

/-- The helper `type_is_ghost(ty)`: the void type or an empty type. -/
def type_is_ghost (ty : IRType) : Bool := ty = IRType.void || ty.isEmptyTy

/-- The function `emit_getfield_knownidx(ctx, strct, idx, jt, order, nullcheck)`. The
result is the value of the field and the new `*nullcheck`; `has_nullcheck` tells
whether `nullcheck` is not null. -/
def emit_getfield_knownidx (ctx : jl_codectx_t) (strct : jl_cgval_t) (idx : Nat)
    (jt : jl_datatype_t) (order : jl_memory_order) (has_nullcheck : Bool) :
    Builder (jl_cgval_t × Option Value) := do
  let jfty := jl_field_type jt idx
  let isatomic := jl_field_isatomic jt idx
  if !isatomic && order ≠ jl_memory_order.notatomic &&
      order ≠ jl_memory_order.unspecified then
    emit_atomic_error "getfield: non-atomic field cannot be accessed atomically"
    return (jl_cgval_empty, none)
  else if isatomic && order = jl_memory_order.notatomic then
    emit_atomic_error "getfield: atomic field cannot be accessed non-atomically"
    return (jl_cgval_empty, none)
  else
    let order :=
      if order = jl_memory_order.unspecified then
        (if isatomic then jl_memory_order.unordered else jl_memory_order.notatomic)
      else order
    if jfty = jl_value_t.bottom_type then
      let e ← literal_pointer_val jl_undefref_exception
      raise_exception e none
      return (jl_cgval_empty, none)
    else if type_is_ghost (ctx.julia_type_to_llvm jfty) then
      return (ctx.ghostValue jfty, none)
    else
      let mut needlock : Option Value := none
      if isatomic && !jl_field_isptr jt idx &&
          decide (ctx.jl_datatype_size jfty > ctx.MAX_ATOMIC_SIZE) then
        needlock ← boxed ctx strct false
      let maybe_null := field_may_be_null ctx strct jt idx
      if !strct.inline_roots.isEmpty then
        emit_getfield_knownidx_roots ctx strct idx jt maybe_null has_nullcheck
      else if strct.ispointer then
        emit_getfield_knownidx_pointer ctx strct idx jt order needlock maybe_null
          has_nullcheck
      else
        match strct.V with
        | some (Value.undef _) => return (jl_cgval_empty, none)
        | some obj =>
          emit_getfield_knownidx_unboxed ctx obj idx jt maybe_null has_nullcheck
        | none => return (jl_cgval_empty, none)

/-- The instruction is a call of the atomic-usage error `jlatomicerror_func`. -/
def Inst.is_atomic_error : Inst → Bool
  | .call _ fn _ => fn == "jlatomicerror_func"
  | _ => false

/-- The instruction is a conditional branch. -/
def Inst.is_cond_br : Inst → Bool
  | .cond_br _ _ _ => true
  | _ => false

/-- A mutable struct with one reference field that a constructor may leave
uninitialized. -/
def example_mutable_ref : jl_datatype_t :=
  { size := 8
    first_ptr := 0
    npointers := 1
    ptrs := [0]
    fields := [{ offset := 0, size := 8, isptr := true, ftype_size := 0, ftype_npointers := 0 }]
    n_uninitialized := 1
    mutabl := true
    value := jl_value_t.datatype 1 }

/-! ## Reading a field by a dynamic index -/

/-- The function `is_datatype_all_pointers(dt)`. -/
def is_datatype_all_pointers (dt : jl_datatype_t) : Bool :=
  (List.range (jl_datatype_nfields dt)).all fun i => jl_field_isptr dt i

/-- The field types `jl_get_fieldtypes(stt)`, also `stt->types`. -/
def jl_get_fieldtypes (stt : jl_datatype_t) : List jl_value_t :=
  stt.fields.map fun f => f.ftype

/-- The function `is_tupletype_homogeneous(t, allow_va)` for `allow_va` false. -/
def is_tupletype_homogeneous (ctx : jl_codectx_t) (t : List jl_value_t) : Bool :=
  match t with
  | [] => true
  | t0 :: rest =>
    if !ctx.jl_is_concrete_type t0 then false
    else rest.all fun ti => decide (t0 = ti)

/-- The loop of `emit_getfield_unknownidx` that selects among the elements of an
unboxed struct `V`: iterations `i, i + 1, ...`, `rem` of them left; `fld` is the value
selected so far. The comparison is emitted before the extraction. -/
def emit_getfield_select_loop (V idx : Value) : Nat → Nat → Value → Builder Value
  | 0, _, fld => pure fld
  | rem + 1, i, fld => do
    let c ← CreateICmpEQ idx (Value.const_int idx.width i)
    let e ← CreateExtractValue V i (V.getType.getElementType i)
    let f ← CreateSelect c e fld
    emit_getfield_select_loop V idx rem (i + 1) f

/-- The part of `emit_getfield_unknownidx` that reads a field of a value in memory
(boxed or on the stack) of a type without atomic fields. -/
def emit_getfield_unknownidx_memory (ctx : jl_codectx_t) (strct : jl_cgval_t) (idx : Value)
    (stt : jl_datatype_t) (inbounds : jl_value_t) (order : jl_memory_order)
    (maybe_null : Bool) : Builder (Option jl_cgval_t) := do
  let nfields := jl_datatype_nfields stt
  let idx0 := emit_bounds_check ctx strct stt.value idx (Value.const_int 64 nfields) inbounds
  if order ≠ jl_memory_order.notatomic && order ≠ jl_memory_order.unspecified then
    emit_atomic_error "getfield: non-atomic field cannot be accessed atomically"
    return some jl_cgval_empty
  else if is_datatype_all_pointers stt then
    let data ← data_pointer strct
    let i0 ← idx0
    let fldptr ← CreateInBoundsGEP T_prjlvalue (data.getD (Value.undef (.ptr 0))) i0
    let fld ← CreateLoad T_prjlvalue fldptr sizeof_ptr AtomicOrdering.Unordered
    if maybe_null then
      let _ ← null_pointer_check fld false
    return some (ctx.mark_julia_type fld true jl_value_t.any_type)
  else if is_tupletype_homogeneous ctx (jl_get_fieldtypes stt) then
    let jft := (jl_get_fieldtypes stt).headD jl_value_t.null
    let i0 ← idx0
    let ptr ← data_pointer strct
    if !stt.mutabl && !(maybe_null && (decide (jft = jl_value_t.bool_type) ||
        decide (ctx.layout_npointers jft ≠ 0))) then
      let fty := ctx.julia_type_to_llvm jft
      let addr ← CreateInBoundsGEP fty (ptr.getD (Value.undef (.ptr 0))) i0
      return some { ctx.mark_julia_slot (some addr) jft with tbaa := strct.tbaa }
    else
      let r ← typed_load ctx ptr (some i0) jft false AtomicOrdering.NotAtomic maybe_null 0
        false
      return some r.1
  else if strct.isboxed then
    let i1 ← CreateSub idx (Value.const_int 64 1)
    let b ← boxed ctx strct false
    let fld ← CreateCall T_prjlvalue "jlgetnthfieldchecked_func"
      [b.getD (Value.undef T_prjlvalue), i1]
    return some (ctx.mark_julia_type fld true jl_value_t.any_type)
  else
    return none

/-- The part of `emit_getfield_unknownidx` for two or more fields. -/
def emit_getfield_unknownidx_many (ctx : jl_codectx_t) (strct : jl_cgval_t) (idx : Value)
    (stt : jl_datatype_t) (inbounds : jl_value_t) (order : jl_memory_order)
    (maybe_null : Bool) : Builder (Option jl_cgval_t) := do
  let nfields := jl_datatype_nfields stt
  let idx0 := fun (x : jl_cgval_t) =>
    emit_bounds_check ctx x stt.value idx (Value.const_int 64 nfields) inbounds
  let maybeatomic := stt.atomicfields
  let memory := fun (x : jl_cgval_t) =>
    if x.inline_roots.isEmpty && x.ispointer && !maybeatomic then
      emit_getfield_unknownidx_memory ctx x idx stt inbounds order maybe_null
    else pure none
  if strct.inline_roots.isEmpty && !strct.ispointer then
    let isboxed := is_datatype_all_pointers stt
    let types := jl_get_fieldtypes stt
    let issame := is_tupletype_homogeneous ctx types
    let V := strct.V.getD (Value.undef .void)
    let jft := if issame then types.headD jl_value_t.null else jl_value_t.any_type
    if issame && strct.isghost then
      let _ ← idx0 strct
      return some (ctx.ghostValue jft)
    else if issame && V.getType.isVectorTy then
      let i0 ← idx0 strct
      let i32 ← CreateTrunc i0 (.int 32)
      let fld ← CreateExtractElement V i32 (V.getType.getElementType 0)
      return some (ctx.mark_julia_type fld isboxed jft)
    else if issame && !V.getType.isArrayTy then
      return none
    else if issame && !isboxed && decide (nfields > 3) then
      let p ← value_to_pointer ctx strct
      memory p
    else if isboxed || issame then
      let i0 ← idx0 strct
      let fld0 ← CreateExtractValue V 0 (V.getType.getElementType 0)
      let fld ← emit_getfield_select_loop V i0 (nfields - 1) 1 fld0
      if isboxed && maybe_null then
        let _ ← null_pointer_check fld false
      return some (ctx.mark_julia_type fld isboxed jft)
    else
      memory strct
  else
    memory strct

/-- The function `emit_getfield_unknownidx(ctx, ret, strct, idx, stt, inbounds, order)`:
`some ret` when it returns true and `none` when it returns false. The branch that is
`llvm_unreachable` gives `none`. -/
def emit_getfield_unknownidx (ctx : jl_codectx_t) (strct : jl_cgval_t) (idx : Value)
    (stt : jl_datatype_t) (inbounds : jl_value_t) (order : jl_memory_order) :
    Builder (Option jl_cgval_t) := do
  let nfields := jl_datatype_nfields stt
  let maybe_null := field_may_be_null_any ctx strct stt
  if nfields = 0 then
    let _ ← emit_bounds_check ctx strct stt.value idx (Value.const_int 64 nfields) inbounds
    return some jl_cgval_empty
  else if nfields = 1 then
    if ctx.jl_has_free_typevars (jl_field_type stt 0) then
      return none
    else
      let _ ← emit_bounds_check ctx strct stt.value idx (Value.const_int 64 nfields)
        inbounds
      let r ← emit_getfield_knownidx ctx strct 0 stt order false
      return some r.1
  else
    emit_getfield_unknownidx_many ctx strct idx stt inbounds order maybe_null


/-- The instruction is one of the select chain: an extraction from an aggregate, an
equality comparison or a select. -/
def Inst.is_select_chain : Inst → Bool
  | .extractvalue _ _ _ => true
  | .icmp_eq _ _ _ => true
  | .select _ _ _ _ => true
  | _ => false

def Inst.is_select : Inst → Bool
  | .select _ _ _ _ => true
  | _ => false

/-- A homogeneous tuple of three `Int64` held unboxed. -/
def example_ntuple3 : jl_datatype_t :=
  { size := 24
    first_ptr := -1
    npointers := 0
    ptrs := []
    fields := [
      { offset := 0, size := 8, isptr := false, ftype_size := 8, ftype_npointers := 0,
        ftype := jl_value_t.int64_type },
      { offset := 8, size := 8, isptr := false, ftype_size := 8, ftype_npointers := 0,
        ftype := jl_value_t.int64_type },
      { offset := 16, size := 8, isptr := false, ftype_size := 8, ftype_npointers := 0,
        ftype := jl_value_t.int64_type }]
    value := jl_value_t.datatype 3 }

/-- The unboxed representation of a value of `example_ntuple3`: the IR value
`Value.arg 7` of type `[3 x i64]`. -/
def example_unboxed3 : jl_cgval_t :=
  { V := some (Value.arg 7 (.array (.int 64) 3)), Vboxed := none, TIndex := none,
    inline_roots := [], constant := jl_value_t.null, typ := jl_value_t.datatype 3,
    isboxed := false, isghost := false, tbaa := none, promotion_point := none }

/-- The instruction reads or writes memory or makes a stack slot. -/
def Inst.is_memory : Inst → Bool
  | .load _ _ _ _ _ => true
  | .load_literal _ _ => true
  | .store _ _ _ _ => true
  | .alloca _ _ => true
  | .atomicrmw_xchg _ _ _ _ _ => true
  | .cmpxchg _ _ _ _ _ _ _ => true
  | _ => false

/-- The context `example_ctx` in which `Int64` is a concrete type. -/
def example_ints_ctx : jl_codectx_t :=
  { example_ctx with
    jl_is_concrete_type := fun t => match t with
      | .datatype _ => true
      | .int64_type => true
      | _ => false }


/-- The instruction is no compare-exchange, or one with the failure ordering `X`. -/
def Inst.cmpxchg_fail_is (X : AtomicOrdering) : Inst → Bool
  | .cmpxchg _ _ _ _ _ _ failorder => decide (failorder = X)
  | _ => true


/-- The step `m` gives a result with the property `Q` from every state. -/
structure Builder.Returns {α : Type} (Q : α → Prop) (m : Builder α) : Prop where
  out : ∀ s, Q (m s).1

/-! ## Mapping Julia types to IR types -/

/-- Why a mapping gives no type: the nesting allowance of the model ran out, or the code
stops (`abort()` after `assert(0)`, or `jl_error`). -/
inductive Stop where
  | fuel
  | abort
  deriving DecidableEq, Repr, Inhabited

/-- The map `ctx->llvmtypes` of the code generation parameters; absent when `ctx` is
null. -/
abbrev llvmtypes_t := Option (List (jl_value_t × IRType))

/-- The function `bitstype_to_llvm(bt, ctxt, llvmcall)`. -/
def bitstype_to_llvm (ctx : jl_codectx_t) (bt : jl_value_t) (llvmcall : Bool) :
    Except Stop IRType :=
  if bt = jl_value_t.bool_type then pure (if llvmcall then .int 1 else .int 8)
  else if bt = jl_value_t.int32_type then pure (.int 32)
  else if bt = jl_value_t.int64_type then pure (.int 64)
  else if bt = jl_value_t.float16_type then pure .half
  else if bt = jl_value_t.float32_type then pure .float
  else if bt = jl_value_t.float64_type then pure .double
  else if bt = jl_value_t.bfloat16_type then pure .bfloat
  else if ctx.jl_is_cpointer_type bt then pure (.ptr 0)
  else if ctx.jl_is_llvmpointer_type bt then
    match ctx.llvmpointer_addrspace bt with
    | some as => pure (.ptr as)
    | none => throw Stop.abort
  else pure (.int (ctx.jl_datatype_size bt * 8))

/-- The function `get_memoryref_type(ctxt, T_size, layout, AS)` for `AS` 0, on the flags
of the layout. -/
def get_memoryref_type (T_size : IRType) (layout : Bool × Bool × Nat) : IRType :=
  let isboxed := layout.1
  let isunion := layout.2.1
  let isghost := layout.2.2 = 0
  if isboxed then .struct (IRTypes.ofList [.ptr 0, T_prjlvalue])
  else if isunion || isghost then .struct (IRTypes.ofList [T_size, T_prjlvalue])
  else .struct (IRTypes.ofList [.ptr 0, T_prjlvalue])

/-- The variables of the loop of `_julia_struct_to_llvm` over the fields; a null
`jlasttype` or `lasttype` is `none`. -/
structure struct_loop_t where
  latypes : List IRType
  isarray : Bool
  isvector : Bool
  jlasttype : Option jl_value_t
  lasttype : Option IRType
  allghost : Bool
  deriving DecidableEq, Repr, Inhabited

/-- The variables before the loop: lines 773 to 778. -/
def struct_loop_t.init : struct_loop_t :=
  { latypes := [], isarray := true, isvector := true, jlasttype := none, lasttype := none,
    allghost := true }

/-- The members pushed for a field of inline union type, lines 799 to 818:
`fsz1 = jl_field_size(jst, i) - 1` in `size_t`, `NumATy` and `remainder` in
`unsigned`. -/
def _julia_struct_to_llvm_union (ctx : jl_codectx_t) (field_size al : Nat) : List IRType :=
  let fsz1 := (field_size + 2 ^ 64 - 1) % 2 ^ 64
  (if fsz1 > 0 then
    (if al > ctx.MAX_ALIGN then [IRType.array (.vector (.int 8) al) 0] else []) ++
      (let al := if al > ctx.MAX_ALIGN then ctx.MAX_ALIGN else al
       let NumATy := (fsz1 / al) % 2 ^ 32
       let remainder := (fsz1 % al) % 2 ^ 32
       List.replicate NumATy (IRType.int (8 * al)) ++ List.replicate remainder (IRType.int 8))
  else []) ++ [IRType.int 8]

/-- The end of one round of the loop, lines 829 to 835, for a field whose IR type is
`lty`. -/
def _julia_struct_to_llvm_push (st : struct_loop_t) (lty : IRType) : struct_loop_t :=
  { st with
    isarray := if st.lasttype.isSome && st.lasttype ≠ some lty then false else st.isarray
    lasttype := some lty
    allghost := if !type_is_ghost lty then false else st.allghost
    latypes := if !type_is_ghost lty then st.latypes ++ [lty] else st.latypes }

/-- One round of the loop of `_julia_struct_to_llvm`, lines 780 to 836, on field `i`;
`recur` is `_julia_struct_to_llvm` itself, absent when the nesting allowance ran out. -/
def _julia_struct_to_llvm_field (ctx : jl_codectx_t)
    (recur : Option (llvmtypes_t → jl_value_t → Bool →
      Except Stop ((IRType × Bool) × llvmtypes_t)))
    (jst : jl_datatype_t) (llvmcall : Bool) (st : struct_loop_t) (llvmtypes : llvmtypes_t)
    (i : Nat) : Except Stop (struct_loop_t × llvmtypes_t) :=
  let ty := jl_field_type jst i
  let st := { st with
    isvector := if st.jlasttype.isSome && st.jlasttype ≠ some ty then false else st.isvector
    jlasttype := some ty }
  if jl_field_isatomic jst i then throw Stop.abort
  else if jl_field_isptr jst i then
    pure (_julia_struct_to_llvm_push { st with isvector := false } T_prjlvalue, llvmtypes)
  else if jl_is_uniontype ty then
    pure ({ st with
      latypes := st.latypes ++
        _julia_struct_to_llvm_union ctx (jl_field_size jst i) (ctx.jl_islayout_inline ty).2.2
      isarray := false
      allghost := false }, llvmtypes)
  else
    match recur with
    | none => throw Stop.fuel
    | some r => do
      let res ← r llvmtypes ty llvmcall
      pure (_julia_struct_to_llvm_push st res.1.1, res.2)

/-- The loop of `_julia_struct_to_llvm` over the fields with the indices given. -/
def _julia_struct_to_llvm_fields (ctx : jl_codectx_t)
    (recur : Option (llvmtypes_t → jl_value_t → Bool →
      Except Stop ((IRType × Bool) × llvmtypes_t)))
    (jst : jl_datatype_t) (llvmcall : Bool) :
    List Nat → struct_loop_t → llvmtypes_t → Except Stop (struct_loop_t × llvmtypes_t)
  | [], st, llvmtypes => pure (st, llvmtypes)
  | i :: rest, st, llvmtypes => do
    let r ← _julia_struct_to_llvm_field ctx recur jst llvmcall st llvmtypes i
    _julia_struct_to_llvm_fields ctx recur jst llvmcall rest r.1 r.2

/-- The choice of `struct_decl` after the loop: lines 837 to 862. -/
def _julia_struct_to_llvm_decl (ctx : jl_codectx_t) (jt : jl_value_t) (jst : jl_datatype_t)
    (isTuple llvmcall : Bool) (ntypes : Nat) (st : struct_loop_t) : IRType :=
  let lasttype := st.lasttype.getD IRType.void
  if st.allghost then IRType.void
  else if ctx.jl_is_vecelement_type jt && !jl_is_uniontype (jl_field_type jst 0) then
    st.latypes.headD IRType.void
  else if st.isarray && !type_is_ghost lasttype then
    if isTuple && st.isvector &&
        decide (ctx.jl_special_vector_alignment ntypes (st.jlasttype.getD jl_value_t.null) ≠ 0)
    then IRType.vector lasttype ntypes
    else if isTuple || !llvmcall then IRType.array lasttype ntypes
    else IRType.struct (IRTypes.ofList st.latypes)
  else IRType.struct (IRTypes.ofList st.latypes)

/-- The body of `_julia_struct_to_llvm(ctx, ctxt, jt, isboxed, llvmcall)`: the IR type,
the flag `*isboxed` and the map `ctx->llvmtypes` afterwards. -/
def _julia_struct_to_llvm_body (ctx : jl_codectx_t)
    (recur : Option (llvmtypes_t → jl_value_t → Bool →
      Except Stop ((IRType × Bool) × llvmtypes_t)))
    (llvmtypes : llvmtypes_t) (jt : jl_value_t) (llvmcall : Bool) :
    Except Stop ((IRType × Bool) × llvmtypes_t) :=
  if jt = jl_value_t.bottom_type ∨ jt = jl_value_t.typeofbottom_type ∨
      jt = jl_value_t.typeofbottom_super then
    pure ((IRType.void, false), llvmtypes)
  else if ctx.jl_is_primitivetype jt then do
    let t ← bitstype_to_llvm ctx jt llvmcall
    pure ((t, false), llvmtypes)
  else if ctx.jl_is_structtype jt && !ctx.jl_is_layout_opaque jt && !ctx.jl_is_array_type jt &&
      !ctx.jl_is_genericmemory_type jt then
    if ctx.jl_is_genericmemoryref_type jt then do
      let T_size ← bitstype_to_llvm ctx jl_value_t.int64_type false
      pure ((get_memoryref_type T_size (ctx.memoryref_layout jt), false), llvmtypes)
    else
      let jst := ctx.datatype jt
      let isTuple := ctx.jl_is_tuple_type jt
      let ntypes := jl_datatype_nfields jst
      if !ctx.jl_struct_try_layout jt then throw Stop.abort
      else if ntypes = 0 || ctx.jl_datatype_nbits jt = 0 then
        pure ((IRType.void, false), llvmtypes)
      else
        let cached : Option IRType :=
          if llvmcall then none else llvmtypes.bind fun m => m.lookup jt
        match cached with
        | some struct_decl => pure ((struct_decl, false), llvmtypes)
        | none => do
          let r ← _julia_struct_to_llvm_fields ctx recur jst llvmcall (List.range ntypes)
            struct_loop_t.init llvmtypes
          let struct_decl := _julia_struct_to_llvm_decl ctx jt jst isTuple llvmcall ntypes r.1
          let llvmtypes :=
            if llvmcall then r.2 else r.2.map fun m => (jt, struct_decl) :: m
          pure ((struct_decl, false), llvmtypes)
  else
    pure ((T_prjlvalue, true), llvmtypes)

/-- The function `_julia_struct_to_llvm(ctx, ctxt, jt, isboxed, llvmcall)`; the first
argument bounds how deep it may call itself for the types of the fields. -/
def _julia_struct_to_llvm (ctx : jl_codectx_t) :
    Nat → llvmtypes_t → jl_value_t → Bool → Except Stop ((IRType × Bool) × llvmtypes_t)
  | 0, llvmtypes, jt, llvmcall => _julia_struct_to_llvm_body ctx none llvmtypes jt llvmcall
  | depth + 1, llvmtypes, jt, llvmcall =>
    _julia_struct_to_llvm_body ctx (some (_julia_struct_to_llvm ctx depth)) llvmtypes jt
      llvmcall

/-- The function `_julia_type_to_llvm(ctx, ctxt, jt, isboxed)`: the IR type, the flag
`*isboxed` and the map `ctx->llvmtypes` afterwards. -/
def _julia_type_to_llvm (ctx : jl_codectx_t) (depth : Nat) (llvmtypes : llvmtypes_t)
    (jt : jl_value_t) : Except Stop ((IRType × Bool) × llvmtypes_t) :=
  if jt = jl_value_t.bottom_type ∨ jt = jl_value_t.typeofbottom_type ∨
      jt = jl_value_t.typeofbottom_super then
    pure ((IRType.void, false), llvmtypes)
  else if ctx.jl_is_concrete_immutable jt then
    if ctx.jl_datatype_nbits jt = 0 then pure ((IRType.void, false), llvmtypes)
    else _julia_struct_to_llvm ctx depth llvmtypes jt false
  else
    pure ((T_prjlvalue, true), llvmtypes)


/-- The size in bytes of an integer IR type of a whole number of bytes. -/
def IRType.int_bytes : IRType → Nat
  | .int bits => bits / 8
  | _ => 0

/-- A struct of an `Int64` and a field of the inline union type
`Union{Int64, Int8}`: field 1 starts at offset 8 and reserves 9 bytes, the selector
byte included. -/
def example_union_field : jl_datatype_t :=
  { size := 24
    first_ptr := -1
    npointers := 0
    ptrs := []
    fields := [
      { offset := 0, size := 8, isptr := false, ftype_size := 8, ftype_npointers := 0,
        ftype := jl_value_t.int64_type },
      { offset := 8, size := 9, isptr := false, ftype_size := 9, ftype_npointers := 0,
        ftype := jl_value_t.uniontype jl_value_t.int64_type jl_value_t.int8_type }]
    value := jl_value_t.datatype 5 }

/-- The context `example_ctx` with the answers of the runtime on the types of the
examples: `Int64` and `Int8` are primitive types, the union `Union{Int64, Int8}` is
stored inline with 8 bytes of data aligned to 8, `datatype 3` is a tuple of three
`Int64`, `datatype 5` is `example_union_field` and `datatype 6` a struct of two
references. -/
def example_types_ctx : jl_codectx_t :=
  { example_ctx with
    jl_is_concrete_immutable := fun t => match t with
      | .datatype _ => true
      | .int64_type => true
      | .int8_type => true
      | _ => false
    jl_datatype_nbits := fun t => match t with
      | .int64_type => 64
      | .int8_type => 8
      | .datatype 3 => 192
      | .datatype 5 => 192
      | .datatype 6 => 128
      | _ => 0
    jl_is_primitivetype := fun t => match t with
      | .int64_type => true
      | .int8_type => true
      | _ => false
    jl_is_structtype := fun t => match t with
      | .datatype _ => true
      | _ => false
    jl_is_tuple_type := fun t => match t with
      | .datatype 3 => true
      | _ => false
    datatype := fun t => match t with
      | .datatype 3 => example_ntuple3
      | .datatype 5 => example_union_field
      | .datatype 6 =>
        { size := 16, first_ptr := 0, npointers := 2, ptrs := [0, 1], fields := [
            { offset := 0, size := 8, isptr := true, ftype_size := 0, ftype_npointers := 0 },
            { offset := 8, size := 8, isptr := true, ftype_size := 0, ftype_npointers := 0 }],
          value := jl_value_t.datatype 6 }
      | _ => default
    jl_datatype_size := fun t => match t with
      | .int8_type => 1
      | _ => 8
    jl_islayout_inline := fun t => match t with
      | .uniontype _ _ => (2, 8, 8)
      | _ => (0, 0, 0) }


/-! ## Arrays, vectors and structs in `_julia_struct_to_llvm` -/

/-- The context `example_types_ctx` in which the type `datatype 8` is a
`VecElement{Int64}`: a struct of one `Int64` field. -/
def example_vecelement_ctx : jl_codectx_t :=
  { example_types_ctx with
    jl_is_vecelement_type := fun t => t = jl_value_t.datatype 8
    jl_datatype_nbits := fun t =>
      if t = jl_value_t.datatype 8 then 64 else example_types_ctx.jl_datatype_nbits t
    datatype := fun t =>
      if t = jl_value_t.datatype 8 then
        { size := 8, first_ptr := -1, npointers := 0, ptrs := [], fields := [
            { offset := 0, size := 8, isptr := false, ftype_size := 8, ftype_npointers := 0,
              ftype := jl_value_t.int64_type }],
          value := jl_value_t.datatype 8 }
      else example_types_ctx.datatype t }

/-- The right-nested union `Union{T(2n), Union{..., Union{T2, T0}}}` of the `n + 1`
distinct concrete, pointer-free types `T0`, `T2`, ..., `T(2n)`. -/
def example_union_chain : Nat → jl_value_t
  | 0 => .datatype 0
  | n + 1 => .uniontype (.datatype (2 * (n + 1))) (example_union_chain n)

/-- The step `m` only appends instructions, one of them at least with the property
`P`. -/
structure Builder.EmitsSome {α : Type} (P : Inst → Prop) (m : Builder α) : Prop where
  out : ∀ s, ∃ l : List (Nat × Inst), (m s).2.code = s.code ++ l ∧
    s.next ≤ (m s).2.next ∧ ∃ x ∈ l, P x.2

/-- The instruction is a call of one of the runtime type tests `jl_isa`,
`jl_typeassert` and `jl_subtype`. -/
def Inst.is_runtime_isa : Inst → Bool
  | .call _ fn _ => fn = "jlisa_func" || fn = "jltypeassert_func" || fn = "jlsubtype_func"
  | _ => false

/-- The tests under which `emit_isa` lowers the test of the type `t` inline, when the
intersected type is `t` itself: the unique-instance pointer compare, the kind check, the
exact tag compare and the type-name compare, in the order and under the guards of
`emit_isa`. -/
def emit_isa_inline (ctx : jl_codectx_t) (t : jl_value_t) : Bool :=
  (ctx.jl_is_type_type t && ctx.jl_pointer_egal t) ||
    decide (t = jl_value_t.type_type) ||
    (!ctx.jl_has_intersect_type_not_kind t &&
      (ctx.jl_is_concrete_type t ||
        (ctx.jl_is_datatype (ctx.jl_unwrap_unionall t) &&
          !ctx.name_abstract (ctx.jl_unwrap_unionall t) &&
          ctx.jl_subtype (ctx.name_wrapper (ctx.jl_unwrap_unionall t)) t)))

/-- A context for examples in which `datatype 7` is an abstract type, a datatype that
is not concrete and whose type name is abstract, and `datatype 9` is a type that
intersects `Type` in more than the kinds, such as `Type{<:Integer}`. -/
def example_abstract_ctx : jl_codectx_t :=
  { example_ctx with
    jl_is_concrete_type := fun t => match t with
      | .datatype 7 => false
      | .datatype 9 => false
      | .datatype _ => true
      | _ => false
    jl_has_intersect_type_not_kind := fun t => t = jl_value_t.datatype 9
    name_abstract := fun t => t = jl_value_t.any_type || t = jl_value_t.datatype 7 }

/-- The bytes of the destination buffer an emitted instruction writes: offset and
length. `unbox_store` is not looked into. -/
def CopyInst.dst_bytes : CopyInst → Option (Nat × Nat)
  | .memcpy d _ n => some (d, n)
  | .store_undef d => some (d, sizeof_ptr)
  | .store_root _ d => some (d, sizeof_ptr)
  | _ => none

/-- The slot of the destination roots an emitted instruction fills. -/
def CopyInst.root_slot : CopyInst → Option Nat
  | .load_root i _ => some i
  | .copy_root i => some i
  | _ => none

/-- The pairs `(dst_off, src_off)` at the head of the iterations `i, i+1, ...` of the
loop of `split_value_field`, in order; `rem = npointers - i`. -/
def split_value_field_cursors (typ : jl_datatype_t) (idx : Nat) (nodata : Bool) :
    Nat → Nat → Nat → Nat → List (Nat × Nat)
  | 0, _, _, _ => []
  | rem + 1, i, dst_off, src_off =>
    let fldoff := jl_field_offset typ idx
    let ptr := jl_ptr_offset typ i * sizeof_ptr
    (dst_off, src_off) ::
      (if ptr ≥ fldoff then []
      else
        let dst_off := size_add dst_off (size_sub ptr src_off)
        let src_off := ptr + sizeof_ptr
        split_value_field_cursors typ idx nodata rem (i + 1)
          (if !nodata then src_off else dst_off) src_off)

/-! ## The size of a `GenericMemory` -/

/-- The layout `jl_datatype_layout_t` of a `GenericMemory` type, as far as the memory
functions read it: the element size and the flags of the elements. -/
structure jl_datatype_layout_t where
  size : Nat
  arrayelem_isboxed : Bool := false
  arrayelem_isunion : Bool := false
  deriving DecidableEq, Repr, Inhabited

/-- The runtime's view of the layouts: `sty->layout` of a datatype, absent when it is
`NULL`, and `jl_field_type_concrete(sty, i)`. -/
structure jl_layouts_t where
  layout : jl_value_t → Option jl_datatype_layout_t
  jl_field_type_concrete : jl_value_t → Nat → jl_value_t

/-- The function `genericmemoryype_constelsize(typ)`; a datatype reached through
`jl_field_type_concrete` is taken to have a layout. -/
def genericmemoryype_constelsize (ctx : jl_codectx_t) (rt : jl_layouts_t)
    (typ : jl_value_t) : Int :=
  let sty := ctx.jl_unwrap_unionall typ
  if ctx.jl_is_datatype sty && !ctx.jl_has_free_typevars sty && (rt.layout sty).isSome then
    let sty := if ctx.jl_is_array_type sty then rt.jl_field_type_concrete sty 0 else sty
    let sty := if ctx.jl_is_genericmemoryref_type sty then rt.jl_field_type_concrete sty 1
      else sty
    (((rt.layout sty).getD default).size : Int)
  else -1

/-- The constant `INTPTR_MAX` of the 64-bit targets. -/
def INTPTR_MAX : Int := 2 ^ 63 - 1

/-- The function `genericmemoryype_maxsize(ty)`. -/
def genericmemoryype_maxsize (ctx : jl_codectx_t) (rt : jl_layouts_t) (ty : jl_value_t) :
    Int :=
  let elsz := genericmemoryype_constelsize ctx rt ty
  if elsz ≤ 1 then INTPTR_MAX
  else Int.tdiv INTPTR_MAX elsz

/-- The bits of a signed 64-bit number. -/
def of_ssize (a : Int) : Nat := (a % 2 ^ 64).toNat

/-- The intrinsic `llvm.smul.with.overflow.i64`: the wrapped product and the overflow
bit. -/
def smul_with_overflow (a b : Nat) : Nat × Bool :=
  let p := to_ssize a * to_ssize b
  (of_ssize p, decide (p < -(2 ^ 63) ∨ 2 ^ 63 ≤ p))

/-- The intrinsic `llvm.sadd.with.overflow.i64`. -/
def sadd_with_overflow (a b : Nat) : Nat × Bool :=
  let p := to_ssize a + to_ssize b
  (of_ssize p, decide (p < -(2 ^ 63) ∨ 2 ^ 63 ≤ p))

/-- The size validation of `emit_memorynew`: the value of `overflow` that the emitted
instructions compute from the element count `nel_unboxed`, before `CreateNot` and
`error_unless`; the count passes when it is false. -/
def emit_memorynew_overflow (layout : jl_datatype_layout_t) (nel_unboxed : Nat) : Bool :=
  let elsz := if layout.arrayelem_isboxed then sizeof_ptr else layout.size
  let prod_with_overflow := smul_with_overflow nel_unboxed (elsz % 2 ^ 64)
  let nbytes := prod_with_overflow.1
  let overflow := prod_with_overflow.2
  let add_with_overflow := sadd_with_overflow nel_unboxed nbytes
  let nbytes := if layout.arrayelem_isunion then add_with_overflow.1 else nbytes
  let overflow := if layout.arrayelem_isunion then overflow || add_with_overflow.2
    else overflow
  let negnel := decide (to_ssize nel_unboxed < 0)
  let overflow := overflow || negnel
  let cg_typemax_int := ((2 ^ 64 - 1) >>> 1) - 1
  let tobignel :=
    decide (to_ssize cg_typemax_int < to_ssize (if elsz = 0 then nel_unboxed else nbytes))
  overflow || tobignel

/-- The size validation of `emit_const_len_memorynew` for a count `nel` other than 0:
the value of `overflow`; the count passes when it is false. -/
def emit_const_len_memorynew_overflow (layout : jl_datatype_layout_t) (nel : Nat) : Bool :=
  let elsz := if layout.arrayelem_isboxed then sizeof_ptr else layout.size
  let nbytes := (nel * elsz) % 2 ^ 64
  let overflow := decide (2 ^ 64 ≤ nel * elsz)
  let overflow := if layout.arrayelem_isunion then overflow || decide (2 ^ 64 ≤ nbytes + nel)
    else overflow
  let nbytes := if layout.arrayelem_isunion then (nbytes + nel) % 2 ^ 64 else nbytes
  overflow || (decide (INTPTR_MAX < (nel : Int) + 1) || decide (INTPTR_MAX < (nbytes : Int) + 1))

/-- Layouts for examples: `datatype 11` is a `GenericMemory` of 2-byte elements, such as
`Memory{Int16}`. -/
def example_layouts : jl_layouts_t :=
  { layout := fun t => match t with
      | .datatype 11 => some { size := 2 }
      | _ => none
    jl_field_type_concrete := fun t _ => t }

/-! ## Indexing a memory reference -/

/-- The type `T_jlgenericmemory`: the length and the data pointer. -/
def T_jlgenericmemory : IRType := .struct (IRTypes.ofList [T_size, .ptr 0])

/-- The call `CreateStructGEP(ty, ptr, idx)`. -/
def CreateStructGEP (ty : IRType) (ptr : Value) (idx : Nat) : Builder Value :=
  insert_val ptr.getType fun dst => Inst.gep dst ty ptr (Value.const_int 32 idx)

/-- The function `emit_genericmemorylen(ctx, addr, typ)`; the range
`[0, genericmemoryype_maxsize(typ))` it attaches to the load is not kept. -/
def emit_genericmemorylen (addr : Value) (_typ : jl_value_t) : Builder Value := do
  let addr ← decay_derived addr
  let addr ← CreateStructGEP T_jlgenericmemory addr 0
  CreateLoad T_size addr 8 AtomicOrdering.NotAtomic

/-- The function `emit_genericmemoryptr(ctx, mem, layout, AS)`. -/
def emit_genericmemoryptr (mem : Value) (AS : Nat) : Builder Value := do
  let addr ← decay_derived mem
  let addr ← CreateStructGEP T_jlgenericmemory addr 1
  let LI ← CreateLoad (.ptr 0) addr 8 AtomicOrdering.NotAtomic
  if AS ≠ 0 then CreateCall (.ptr AS) "gc_loaded_func" [mem, LI]
  else pure LI

/-- The end of a bounds check of `emit_memoryref`: the branch on `inbound`, the block
"oob" with the call of `jl_bounds_error`, and the block "idxend" to go on in. -/
def emit_memoryref_oob (ctx : jl_codectx_t) (ref : jl_cgval_t) (i inbound : Value)
    (failBB endBB : Nat) : Builder Unit := do
  CreateCondBr inbound endBB failBB
  SetInsertPoint failBB
  let b ← boxed ctx ref false
  let r ← mark_callee_rooted (b.getD (Value.undef T_prjlvalue))
  let _ ← CreateCall .void "jlboundserror_func" [r, i]
  CreateUnreachable
  SetInsertPoint endBB

/-- The function `emit_memoryref(ctx, ref, idx, inbounds, layout)` from the computation
of `offset` to that of `newdata`, the bounds check included: `data` and `mem` are the two
members of the reference, `i` is the unboxed index and `elsz` the value of
`emit_genericmemoryelsize`. Operands of one call are emitted left to right. -/
def emit_memoryref_newdata (ctx : jl_codectx_t) (ref : jl_cgval_t) (data mem i elsz : Value)
    (inbounds : jl_value_t) (layout : jl_datatype_layout_t) : Builder Value := do
  let offset ← CreateSub i (Value.const_int 64 1)
  let bc := bounds_check_enabled ctx inbounds
  let isboxed := layout.arrayelem_isboxed
  let isunion := layout.arrayelem_isunion
  let isghost := layout.size == 0
  if (!isboxed && isunion) || isghost then
    let newdata ← CreateAdd data offset
    if bc then
      let failBB ← BasicBlock_Create "oob"
      let endBB ← BasicBlock_Create "idxend"
      let mlen ← emit_genericmemorylen mem ref.typ
      let inbound ← CreateICmpULT newdata mlen
      emit_memoryref_oob ctx ref i inbound failBB endBB
    return newdata
  else
    let ovflw ← (if bc then do
        let mlen ← emit_genericmemorylen mem ref.typ
        let a ← CreateAdd offset mlen
        let b ← CreateNUWAdd mlen mlen
        let o ← CreateICmpUGE a b
        pure (some o)
      else pure none)
    let boffset ← CreateMul offset elsz
    let newdata ← CreateGEP_i8 data boffset
    if bc then
      let failBB ← BasicBlock_Create "oob"
      let endBB ← BasicBlock_Create "idxend"
      let mlen ← emit_genericmemorylen mem ref.typ
      let mptr ← emit_genericmemoryptr mem 0
      let pn ← CreatePtrToInt newdata
      let pm ← CreatePtrToInt mptr
      let bidx0 ← CreateSub pn pm
      let blen ← CreateMul mlen elsz
      let inbound ← CreateICmpULT bidx0 blen
      let no ← CreateNot (ovflw.getD (Value.undef (.int 1)))
      let inbound ← CreateAnd no inbound
      emit_memoryref_oob ctx ref i inbound failBB endBB
    return newdata


/-- The instructions that `emit_memoryref_newdata` emits before the branch of an enabled
bounds check on a memory with stored elements, numbered from `n`; the numbers `n + 9` and
`n + 10` go to the blocks "oob" and "idxend". -/
def emit_memoryref_check_insts (n : Nat) (data mem i elsz : Value) : List Inst :=
  [Inst.sub n i (Value.const_int 64 1),
    Inst.addrspacecast (n + 1) mem (.ptr AddressSpace.Derived),
    Inst.gep (n + 2) T_jlgenericmemory (Value.reg (n + 1) (.ptr AddressSpace.Derived))
      (Value.const_int 32 0),
    Inst.load (n + 3) T_size (Value.reg (n + 2) (.ptr AddressSpace.Derived)) 8
      AtomicOrdering.NotAtomic,
    Inst.add (n + 4) (Value.reg n T_size) (Value.reg (n + 3) T_size),
    Inst.add_nuw (n + 5) (Value.reg (n + 3) T_size) (Value.reg (n + 3) T_size),
    Inst.icmp_uge (n + 6) (Value.reg (n + 4) T_size) (Value.reg (n + 5) T_size),
    Inst.mul (n + 7) (Value.reg n T_size) elsz,
    Inst.gep_i8 (n + 8) data (Value.reg (n + 7) T_size),
    Inst.addrspacecast (n + 11) mem (.ptr AddressSpace.Derived),
    Inst.gep (n + 12) T_jlgenericmemory (Value.reg (n + 11) (.ptr AddressSpace.Derived))
      (Value.const_int 32 0),
    Inst.load (n + 13) T_size (Value.reg (n + 12) (.ptr AddressSpace.Derived)) 8
      AtomicOrdering.NotAtomic,
    Inst.addrspacecast (n + 14) mem (.ptr AddressSpace.Derived),
    Inst.gep (n + 15) T_jlgenericmemory (Value.reg (n + 14) (.ptr AddressSpace.Derived))
      (Value.const_int 32 1),
    Inst.load (n + 16) (.ptr 0) (Value.reg (n + 15) (.ptr AddressSpace.Derived)) 8
      AtomicOrdering.NotAtomic,
    Inst.ptrtoint (n + 17) (Value.reg (n + 8) data.getType),
    Inst.ptrtoint (n + 18) (Value.reg (n + 16) (.ptr 0)),
    Inst.sub (n + 19) (Value.reg (n + 17) T_size) (Value.reg (n + 18) T_size),
    Inst.mul (n + 20) (Value.reg (n + 13) T_size) elsz,
    Inst.icmp_ult (n + 21) (Value.reg (n + 19) T_size) (Value.reg (n + 20) T_size),
    Inst.not_ (n + 22) (Value.reg (n + 6) (.int 1)),
    Inst.and_ (n + 23) (Value.reg (n + 22) (.int 1)) (Value.reg (n + 21) (.int 1))]

/-- A machine state for examples: a memory object at address 512 with length 4 and data
pointer 4096; the value defined before with number 1 is the data pointer of a reference
16 bytes into the data, number 2 the memory object, number 3 the index 2. -/
def example_memory_machine : Machine :=
  { reg := fun _ => 0
    arg := fun k => if k = 1 then 4112 else if k = 2 then 512 else if k = 3 then 2 else 0
    aggr := fun _ k => k
    mem := fun a => if a = 512 then 4 else if a = 513 then 4096 else 0
    literal := fun _ => 16
    sp := 1024
    calls := []
    prev := 0 }

/-! ## Boxing an unboxed value and reading it back -/

/-- What an unboxed value representation holds when the emitted code runs: the bytes of
a register value, the memory of a stack slot, or the byte buffer and the roots of a
split value. -/
inductive unboxed_repr where
  | register (bits : Mem)
  | slot (mem : Mem)
  | split (bits : Mem) (roots : List PtrVal)

/-- The representation `vinfo` is of the kind of `x`: split when it has `inline_roots`,
else a stack slot when `ispointer()`, else a register value. -/
def unboxed_repr.kind_of (x : unboxed_repr) (vinfo : jl_cgval_t) : Prop :=
  match x with
  | .register _ => vinfo.inline_roots = [] ∧ vinfo.ispointer = false
  | .slot _ => vinfo.inline_roots = [] ∧ vinfo.ispointer = true
  | .split _ roots => vinfo.inline_roots ≠ [] ∧ roots.length = vinfo.inline_roots.length

/-- The representation holds the value with the native image `image`: a register and a
stack slot hold its `jl_datatype_size` bytes, a split value is what `split_value_into`
makes of it. -/
def unboxed_repr.holds (typ : jl_datatype_t) (image : Mem) : unboxed_repr → Prop
  | .register bits => ∀ a, a < typ.size → bits a = image a
  | .slot mem => ∀ a, a < typ.size → mem a = image a
  | .split bits roots => ∃ dst0, split_value typ image dst0 = some (bits, roots)

/-- Modelled from the spec: the run of `emit_unbox_store(ctx, x, dest, ...)`, which is
defined outside this file. Boxing "copies the unboxed bits (plus any `inline_roots`)"
into the destination: the bytes of a register value or of a stack slot are copied, and
a split value is put together by `recombine_value`. -/
def emit_unbox_store_run (typ : jl_datatype_t) (x : unboxed_repr) (dest : Mem) :
    Option Mem :=
  match x with
  | .register bits => some (do_memcpy dest bits 0 0 typ.size)
  | .slot mem => some (do_memcpy dest mem 0 0 typ.size)
  | .split bits roots => recombine typ bits roots dest

/-- The run of `init_bits_cgval(ctx, newv, v)` on the object `newv`: the call of
`emit_unbox_store` with the object as destination. -/
def init_bits_cgval_run (typ : jl_datatype_t) (v : unboxed_repr) (newv : Mem) : Option Mem :=
  emit_unbox_store_run typ v newv

/-- Modelled from the spec: the run of `emit_unbox(ctx, to, x, jt)` on a boxed `x`,
defined outside this file. Unboxing is the "inverse" of boxing: it reads the
`jl_datatype_size` bytes of the object. -/
def emit_unbox_run (typ : jl_datatype_t) (obj : Mem) : List Nat :=
  (List.range typ.size).map obj

/-- A value representation for examples: an unboxed register value of type
`datatype 3`. -/
def example_unboxed_register : jl_cgval_t :=
  { V := some (Value.arg 7 (.array (.int 64) 3)), Vboxed := none, TIndex := none,
    inline_roots := [], constant := jl_value_t.null, typ := jl_value_t.datatype 3,
    isboxed := false, isghost := false, tbaa := none, promotion_point := none }

/-! ## A replacefield on a field that is not defined -/

/-- The context `example_ctx` in which the objects of type `Symbol` are equal only when
they are the same object. -/
def example_egal_ctx : jl_codectx_t :=
  { example_ctx with jl_pointer_egal := fun t => t = jl_value_t.symbol_type }

/-- A boxed comparand of type `Symbol`, the pointer `arg 12`. -/
def example_boxed_symbol : jl_cgval_t :=
  { example_boxed with
    V := some (Value.arg 12 T_prjlvalue), Vboxed := some (Value.arg 12 T_prjlvalue),
    typ := jl_value_t.symbol_type }

/-- A machine state in which the value `arg k` is `100 + 8 * k` and all memory is zero:
the field at the address `arg 10`, which is 180, holds the null pointer, so it is not
defined. -/
def example_undef_field_machine : Machine :=
  { reg := fun _ => 0, arg := fun k => 100 + 8 * k, aggr := fun _ _ => 0, mem := fun _ => 0,
    literal := fun _ => 16, sp := 1024, calls := [], prev := 0 }

/-- The code `typed_store` emits for an atomic replacefield of the boxed field of type
`Any` at `arg 10` of the parent `arg 11`, a field that may be undefined, with the boxed
new value `example_boxed_T1` and the comparand `cmpop`. -/
def example_replacefield (cmpop : jl_cgval_t) : List (Nat × Inst) :=
  (typed_store example_egal_ctx 0 (Value.arg 10 (.ptr 0)) example_boxed_T1 cmpop
      jl_value_t.any_type false (some (Value.arg 11 T_prjlvalue)) true
      AtomicOrdering.SequentiallyConsistent AtomicOrdering.SequentiallyConsistent 8 none
      false true false false false true none "replacefield!").emitted BuilderState.init

/-! # Lemmas and theorems -/

/-! ## Facts about the pointer table -/

theorem jl_ptr_offset_mem (typ : jl_datatype_t) (i : Nat) (hi : i < typ.ptrs.length) :
    jl_ptr_offset typ i ∈ typ.ptrs := by
  unfold jl_ptr_offset
  rw [List.getD_eq_getElem _ _ hi]
  exact List.getElem_mem hi

theorem jl_ptr_offset_lt (typ : jl_datatype_t) (h : typ.ptrs.Pairwise (· < ·)) (i j : Nat)
    (hij : i < j) (hj : j < typ.ptrs.length) : jl_ptr_offset typ i < jl_ptr_offset typ j := by
  unfold jl_ptr_offset
  rw [List.getD_eq_getElem _ _ hj, List.getD_eq_getElem _ _ (lt_trans hij hj)]
  exact List.pairwise_iff_getElem.mp h i j (lt_trans hij hj) hj hij

theorem jl_ptr_offset_gap (typ : jl_datatype_t) (h : typ.ptrs.Pairwise (· < ·)) (i d : Nat)
    (hj : i + d < typ.ptrs.length) : jl_ptr_offset typ i + d ≤ jl_ptr_offset typ (i + d) := by
  induction d with
  | zero => simp
  | succ d ih =>
    have h1 := ih (by omega)
    have h2 := jl_ptr_offset_lt typ h (i + d) (i + (d + 1)) (by omega) hj
    omega

/-- In an object that is nothing but pointers, slot `i` is word `i`. -/
theorem jl_ptr_offset_allpointers (typ : jl_datatype_t) (hwf : wf_layout typ)
    (hall : allpointers typ = true) (i : Nat) (hi : i < typ.npointers) :
    jl_ptr_offset typ i = i := by
  have hlen := hwf.npointers_eq
  have hlo := jl_ptr_offset_gap typ hwf.increasing 0 i (by omega)
  have hhi := jl_ptr_offset_gap typ hwf.increasing i (typ.npointers - 1 - i) (by omega)
  have hlast := hwf.slot_inside _ (jl_ptr_offset_mem typ (typ.npointers - 1) (by omega))
  have hsz : typ.size = typ.npointers * sizeof_ptr := by simpa [allpointers] using hall
  have he : i + (typ.npointers - 1 - i) = typ.npointers - 1 := by omega
  rw [he] at hhi
  rw [Nat.zero_add] at hlo
  simp only [sizeof_ptr] at hlast hsz
  omega

/-! ## Running the split and recombine loops -/

theorem run_copies_append (src : Mem) (xr : List PtrVal) (l1 l2 : List CopyInst)
    (st : Mem × List PtrVal) :
    run_copies src xr (l1 ++ l2) st =
      (run_copies src xr l1 st).bind (run_copies src xr l2) := by
  induction l1 generalizing st with
  | nil => simp [run_copies]
  | cons c cs ih =>
    simp only [List.cons_append, run_copies]
    cases h : c.run src xr st with
    | none => simp
    | some st1 => simp [ih]

/-- The optional `emit_memcpy` at the head of an iteration: a copy of
`ptr - off` bytes, which is no copy at all when `ptr = off`. -/
theorem run_copies_gap (src : Mem) (xr : List PtrVal) (d s ptr off : Nat) (h : off ≤ ptr)
    (st : Mem × List PtrVal) :
    run_copies src xr (if ptr > off then [CopyInst.memcpy d s (ptr - off)] else []) st =
      some (do_memcpy st.1 src d s (ptr - off), st.2) := by
  by_cases hp : ptr > off
  · simp [hp, run_copies, CopyInst.run]
  · have h0 : ptr - off = 0 := by omega
    have hm : do_memcpy st.1 src d s 0 = st.1 := by
      funext a
      simp [do_memcpy]
    simp [hp, run_copies, h0, hm]

theorem split_loop_data (typ : jl_datatype_t) (hwf : wf_layout typ) (src : Mem)
    (xr : List PtrVal) :
    ∀ (rem i off : Nat) (st : Mem × List PtrVal), i + rem = typ.npointers →
      (i = 0 → off = 0) →
      (0 < i → off = jl_ptr_offset typ (i - 1) * sizeof_ptr + sizeof_ptr) →
      ∃ st', run_copies src xr (split_value_into_loop typ false rem i off off) st = some st' ∧
        st'.2.length = st.2.length ∧
        (∀ a, a < off → st'.1 a = st.1 a) ∧
        (∀ a, typ.size ≤ a → st'.1 a = st.1 a) ∧
        (∀ a, off ≤ a → a < typ.size →
          (∀ j, i ≤ j → j < typ.npointers → ¬ in_slot (jl_ptr_offset typ j) a) →
          st'.1 a = src a) ∧
        (∀ j, j < i → st'.2.getD j [] = st.2.getD j []) ∧
        (∀ j, i ≤ j → j < typ.npointers → j < st.2.length →
          st'.2.getD j [] = load_ptr src (jl_ptr_offset typ j * sizeof_ptr)) := by
  have hlen := hwf.npointers_eq
  have hpos := hwf.npointers_pos
  intro rem
  induction rem with
  | zero =>
    intro i off st hi h0 h1
    have hin : i = typ.npointers := by omega
    have hoff : off ≤ typ.size := by
      have := hwf.slot_inside _ (jl_ptr_offset_mem typ (i - 1) (by omega))
      have := h1 (by omega)
      omega
    refine ⟨(do_memcpy st.1 src off off (typ.size - off), st.2), ?_, rfl, ?_, ?_, ?_, ?_, ?_⟩
    · simp only [split_value_into_loop]
      exact run_copies_gap src xr off off typ.size off hoff st
    · intro a ha
      simp only [do_memcpy]
      rw [if_neg (by omega)]
    · intro a ha
      simp only [do_memcpy]
      rw [if_neg (by omega)]
    · intro a ha1 ha2 _
      simp only [do_memcpy]
      rw [if_pos (by omega)]
      congr 1
      omega
    · intro j _
      rfl
    · intro j hj1 hj2
      omega
  | succ rem ih =>
    intro i off st hi h0 h1
    have hptr : off ≤ jl_ptr_offset typ i * sizeof_ptr := by
      rcases Nat.eq_zero_or_pos i with hz | hz
      · rw [h0 hz]
        exact Nat.zero_le _
      · have := jl_ptr_offset_lt typ hwf.increasing (i - 1) i (by omega) (by omega)
        have := h1 hz
        simp only [sizeof_ptr] at *
        omega
    have hslot := hwf.slot_inside _ (jl_ptr_offset_mem typ i (by omega))
    have hd : (if jl_ptr_offset typ i * sizeof_ptr > off
        then off + (jl_ptr_offset typ i * sizeof_ptr - off) else off) =
        jl_ptr_offset typ i * sizeof_ptr := by
      split <;> omega
    obtain ⟨st', hrun, hl, hlo, hhi, hmid, hr1, hr2⟩ :=
      ih (i + 1) (jl_ptr_offset typ i * sizeof_ptr + sizeof_ptr)
        (store_ptr (do_memcpy st.1 src off off (jl_ptr_offset typ i * sizeof_ptr - off))
          (jl_ptr_offset typ i * sizeof_ptr) undef_word,
          st.2.set i (load_ptr src (jl_ptr_offset typ i * sizeof_ptr)))
        (by omega) (by omega) (by intro _; simp)
    refine ⟨st', ?_, ?_, ?_, ?_, ?_, ?_, ?_⟩
    · simp only [split_value_into_loop, Bool.not_false, if_true, hd]
      rw [run_copies_append, run_copies_append, run_copies_gap src xr off off _ off hptr st]
      simpa [run_copies, CopyInst.run] using hrun
    · rw [hl]
      simp
    · intro a ha
      rw [hlo a (by omega)]
      simp only [store_ptr, do_memcpy]
      rw [if_neg (by omega), if_neg (by omega)]
    · intro a ha
      rw [hhi a ha]
      simp only [store_ptr, do_memcpy]
      rw [if_neg (by omega), if_neg (by omega)]
    · intro a ha1 ha2 hns
      by_cases hlt : a < jl_ptr_offset typ i * sizeof_ptr + sizeof_ptr
      · have hni := hns i (le_refl _) (by omega)
        simp only [in_slot] at hni
        rw [hlo a hlt]
        simp only [store_ptr, do_memcpy]
        rw [if_neg (by omega), if_pos (by omega)]
        congr 1
        omega
      · exact hmid a (by omega) ha2 (fun j hj1 hj2 => hns j (by omega) hj2)
    · intro j hj
      rw [hr1 j (by omega)]
      simp only [List.getD_eq_getElem?_getD]
      rw [List.getElem?_set_ne (by omega)]
    · intro j hj1 hj2 hj3
      rcases Nat.eq_or_lt_of_le hj1 with he | hlt
      · subst he
        rw [hr1 i (by omega)]
        simp only [List.getD_eq_getElem?_getD]
        rw [List.getElem?_set_self hj3]
        rfl
      · exact hr2 j (by omega) hj2 (by simpa using hj3)

theorem split_loop_nodata (typ : jl_datatype_t) (hwf : wf_layout typ)
    (hall : allpointers typ = true) (src : Mem) (xr : List PtrVal) :
    ∀ (rem i : Nat) (st : Mem × List PtrVal), i + rem = typ.npointers →
      ∃ st', run_copies src xr
          (split_value_into_loop typ true rem i 0 (i * sizeof_ptr)) st = some st' ∧
        st'.2.length = st.2.length ∧
        st'.1 = st.1 ∧
        (∀ j, j < i → st'.2.getD j [] = st.2.getD j []) ∧
        (∀ j, i ≤ j → j < typ.npointers → j < st.2.length →
          st'.2.getD j [] = load_ptr src (jl_ptr_offset typ j * sizeof_ptr)) := by
  have hsz : typ.size = typ.npointers * sizeof_ptr := by simpa [allpointers] using hall
  intro rem
  induction rem with
  | zero =>
    intro i st hi
    have hin : i = typ.npointers := by omega
    refine ⟨st, ?_, rfl, rfl, fun _ _ => rfl, ?_⟩
    · simp only [split_value_into_loop]
      rw [if_neg (by rw [hsz, hin]; omega)]
      rfl
    · intro j hj1 hj2
      omega
  | succ rem ih =>
    intro i st hi
    have hp := jl_ptr_offset_allpointers typ hwf hall i (by omega)
    obtain ⟨st', hrun, hl, hm, hr1, hr2⟩ :=
      ih (i + 1) (st.1, st.2.set i (load_ptr src (i * sizeof_ptr))) (by omega)
    refine ⟨st', ?_, ?_, ?_, ?_, ?_⟩
    · simp only [split_value_into_loop, hp, Bool.not_true, gt_iff_lt, lt_self_iff_false,
        if_false, List.nil_append, Bool.false_eq_true]
      rw [run_copies_append]
      have he : i * sizeof_ptr + sizeof_ptr = (i + 1) * sizeof_ptr := by ring
      rw [he]
      simpa [run_copies, CopyInst.run] using hrun
    · rw [hl]
      simp
    · rw [hm]
    · intro j hj
      rw [hr1 j (by omega)]
      simp only [List.getD_eq_getElem?_getD]
      rw [List.getElem?_set_ne (by omega)]
    · intro j hj1 hj2 hj3
      rcases Nat.eq_or_lt_of_le hj1 with he | hlt
      · subst he
        rw [hr1 i (by omega)]
        simp only [List.getD_eq_getElem?_getD]
        rw [List.getElem?_set_self hj3, hp]
        rfl
      · exact hr2 j (by omega) hj2 (by simpa using hj3)

theorem recombine_loop_data (typ : jl_datatype_t) (hwf : wf_layout typ) (bits : Mem)
    (roots : List PtrVal) :
    ∀ (rem i off : Nat) (st : Mem × List PtrVal), i + rem = typ.npointers →
      (i = 0 → off = 0) →
      (0 < i → off = jl_ptr_offset typ (i - 1) * sizeof_ptr + sizeof_ptr) →
      ∃ st', run_copies bits roots (recombine_value_loop typ false rem i off off) st = some st' ∧
        (∀ a, a < off → st'.1 a = st.1 a) ∧
        (∀ a, typ.size ≤ a → st'.1 a = st.1 a) ∧
        (∀ a, off ≤ a → a < typ.size →
          (∀ j, i ≤ j → j < typ.npointers → ¬ in_slot (jl_ptr_offset typ j) a) →
          st'.1 a = bits a) ∧
        (∀ j a, i ≤ j → j < typ.npointers → in_slot (jl_ptr_offset typ j) a →
          st'.1 a = (roots.getD j []).getD (a - jl_ptr_offset typ j * sizeof_ptr) 0) := by
  have hlen := hwf.npointers_eq
  have hpos := hwf.npointers_pos
  intro rem
  induction rem with
  | zero =>
    intro i off st hi h0 h1
    have hin : i = typ.npointers := by omega
    have hoff : off ≤ typ.size := by
      have := hwf.slot_inside _ (jl_ptr_offset_mem typ (i - 1) (by omega))
      have := h1 (by omega)
      omega
    refine ⟨(do_memcpy st.1 bits off off (typ.size - off), st.2), ?_, ?_, ?_, ?_, ?_⟩
    · simp only [recombine_value_loop]
      exact run_copies_gap bits roots off off typ.size off hoff st
    · intro a ha
      simp only [do_memcpy]
      rw [if_neg (by omega)]
    · intro a ha
      simp only [do_memcpy]
      rw [if_neg (by omega)]
    · intro a ha1 ha2 _
      simp only [do_memcpy]
      rw [if_pos (by omega)]
      congr 1
      omega
    · intro j a hj1 hj2
      omega
  | succ rem ih =>
    intro i off st hi h0 h1
    have hptr : off ≤ jl_ptr_offset typ i * sizeof_ptr := by
      rcases Nat.eq_zero_or_pos i with hz | hz
      · rw [h0 hz]
        exact Nat.zero_le _
      · have := jl_ptr_offset_lt typ hwf.increasing (i - 1) i (by omega) (by omega)
        have := h1 hz
        simp only [sizeof_ptr] at *
        omega
    have hslot := hwf.slot_inside _ (jl_ptr_offset_mem typ i (by omega))
    obtain ⟨st', hrun, hlo, hhi, hmid, hr⟩ :=
      ih (i + 1) (jl_ptr_offset typ i * sizeof_ptr + sizeof_ptr)
        (store_ptr (do_memcpy st.1 bits off off (jl_ptr_offset typ i * sizeof_ptr - off))
          (jl_ptr_offset typ i * sizeof_ptr) (roots.getD i []), st.2)
        (by omega) (by omega) (by intro _; simp)
    refine ⟨st', ?_, ?_, ?_, ?_, ?_⟩
    · simp only [recombine_value_loop, Bool.not_false, if_true]
      rw [run_copies_append, run_copies_append, run_copies_gap bits roots off off _ off hptr st]
      simpa [run_copies, CopyInst.run] using hrun
    · intro a ha
      rw [hlo a (by omega)]
      simp only [store_ptr, do_memcpy]
      rw [if_neg (by omega), if_neg (by omega)]
    · intro a ha
      rw [hhi a ha]
      simp only [store_ptr, do_memcpy]
      rw [if_neg (by omega), if_neg (by omega)]
    · intro a ha1 ha2 hns
      by_cases hlt : a < jl_ptr_offset typ i * sizeof_ptr + sizeof_ptr
      · have hni := hns i (le_refl _) (by omega)
        simp only [in_slot] at hni
        rw [hlo a hlt]
        simp only [store_ptr, do_memcpy]
        rw [if_neg (by omega), if_pos (by omega)]
        congr 1
        omega
      · exact hmid a (by omega) ha2 (fun j hj1 hj2 => hns j (by omega) hj2)
    · intro j a hj1 hj2 hin
      rcases Nat.eq_or_lt_of_le hj1 with he | hlt
      · subst he
        simp only [in_slot] at hin
        rw [hlo a (by omega)]
        simp only [store_ptr]
        rw [if_pos (by omega)]
      · exact hr j a (by omega) hj2 hin

theorem recombine_loop_nodata (typ : jl_datatype_t) (hwf : wf_layout typ)
    (hall : allpointers typ = true) (bits : Mem) (roots : List PtrVal) :
    ∀ (rem i : Nat) (st : Mem × List PtrVal), i + rem = typ.npointers →
      ∃ st', run_copies bits roots
          (recombine_value_loop typ true rem i (i * sizeof_ptr) 0) st = some st' ∧
        (∀ a, a < i * sizeof_ptr → st'.1 a = st.1 a) ∧
        (∀ a, typ.size ≤ a → st'.1 a = st.1 a) ∧
        (∀ j a, i ≤ j → j < typ.npointers → in_slot j a →
          st'.1 a = (roots.getD j []).getD (a - j * sizeof_ptr) 0) := by
  have hsz : typ.size = typ.npointers * sizeof_ptr := by simpa [allpointers] using hall
  intro rem
  induction rem with
  | zero =>
    intro i st hi
    have hin : i = typ.npointers := by omega
    refine ⟨st, ?_, fun _ _ => rfl, fun _ _ => rfl, ?_⟩
    · simp only [recombine_value_loop]
      rw [if_neg (by rw [hsz, hin]; omega)]
      rfl
    · intro j a hj1 hj2
      omega
  | succ rem ih =>
    intro i st hi
    have hp := jl_ptr_offset_allpointers typ hwf hall i (by omega)
    obtain ⟨st', hrun, hlo, hhi, hr⟩ :=
      ih (i + 1) (store_ptr st.1 (i * sizeof_ptr) (roots.getD i []), st.2) (by omega)
    have hle : (i + 1) * sizeof_ptr ≤ typ.size := by
      rw [hsz]
      exact Nat.mul_le_mul_right _ (by omega)
    have he : i * sizeof_ptr + sizeof_ptr = (i + 1) * sizeof_ptr := by ring
    refine ⟨st', ?_, ?_, ?_, ?_⟩
    · simp only [recombine_value_loop, hp, Bool.not_true, gt_iff_lt, lt_self_iff_false,
        if_false, List.nil_append, Bool.false_eq_true]
      rw [run_copies_append, he]
      simpa [run_copies, CopyInst.run] using hrun
    · intro a ha
      rw [hlo a (by omega)]
      simp only [store_ptr]
      rw [if_neg (by omega)]
    · intro a ha
      rw [hhi a ha]
      simp only [store_ptr]
      rw [if_neg (by omega)]
    · intro j a hj1 hj2 hin
      rcases Nat.eq_or_lt_of_le hj1 with he2 | hlt
      · subst he2
        simp only [in_slot] at hin
        rw [hlo a (by omega)]
        simp only [store_ptr]
        rw [if_pos (by omega)]
      · exact hr j a (by omega) hj2 hin

theorem load_ptr_getD (m : Mem) (off k : Nat) (hk : k < sizeof_ptr) :
    (load_ptr m off).getD k 0 = m (off + k) := by
  unfold load_ptr
  rw [List.getD_eq_getElem _ _ (by simpa using hk)]
  simp

/-- What `split_value` leaves in the byte buffer and the roots. -/
theorem split_value_spec (typ : jl_datatype_t) (hwf : wf_layout typ) (src dst0 : Mem) :
    ∃ bits roots, split_value typ src dst0 = some (bits, roots) ∧
      roots.length = typ.npointers ∧
      (∀ j, j < typ.npointers →
        roots.getD j [] = load_ptr src (jl_ptr_offset typ j * sizeof_ptr)) ∧
      (∀ a, typ.size ≤ a → bits a = dst0 a) ∧
      (allpointers typ = true → bits = dst0) ∧
      (allpointers typ = false → ∀ a, a < typ.size →
        (∀ j, j < typ.npointers → ¬ in_slot (jl_ptr_offset typ j) a) → bits a = src a) := by
  have hfp : decide (0 ≤ typ.first_ptr) = true := by simpa using hwf.first_ptr_nonneg
  have hpos := hwf.npointers_pos
  have hne : typ.npointers ≠ 0 := by omega
  cases hall : allpointers typ with
  | true =>
    obtain ⟨st', hrun, hl, hm, _, hr⟩ := split_loop_nodata typ hwf hall src [] typ.npointers 0
      (dst0, List.replicate typ.npointers []) (by omega)
    refine ⟨st'.1, st'.2, ?_, ?_, ?_, ?_, ?_, ?_⟩
    · simp only [split_value, split_value_into, split_value_size, hfp, if_true, hall, hne,
        ne_eq, not_true_eq_false, if_false]
      simpa using hrun
    · simpa using hl
    · intro j hj
      exact hr j (Nat.zero_le _) hj (by simpa using hj)
    · intro a _
      rw [hm]
    · intro _
      exact hm
    · intro h
      cases h
  | false =>
    obtain ⟨st', hrun, hl, _, hhi, hmid, _, hr⟩ := split_loop_data typ hwf src []
      typ.npointers 0 0 (dst0, List.replicate typ.npointers []) (by omega) (fun _ => rfl)
      (by intro h; omega)
    refine ⟨st'.1, st'.2, ?_, ?_, ?_, ?_, ?_, ?_⟩
    · simp only [split_value, split_value_into, split_value_size, hfp, if_true, hall, hne,
        ne_eq, not_true_eq_false, if_false]
      simpa using hrun
    · simpa using hl
    · intro j hj
      exact hr j (Nat.zero_le _) hj (by simpa using hj)
    · intro a ha
      exact hhi a ha
    · intro h
      cases h
    · intro _ a ha hns
      exact hmid a (Nat.zero_le _) ha (fun j _ hj => hns j hj)

/-- What `recombine_value` writes to the destination. -/
theorem recombine_spec (typ : jl_datatype_t) (hwf : wf_layout typ) (bits : Mem)
    (roots : List PtrVal) (out0 : Mem) :
    ∃ out, recombine typ bits roots out0 = some out ∧
      (∀ a, typ.size ≤ a → out a = out0 a) ∧
      (∀ j a, j < typ.npointers → in_slot (jl_ptr_offset typ j) a →
        out a = (roots.getD j []).getD (a - jl_ptr_offset typ j * sizeof_ptr) 0) ∧
      (∀ a, a < typ.size →
        (∀ j, j < typ.npointers → ¬ in_slot (jl_ptr_offset typ j) a) →
        allpointers typ = false → out a = bits a) := by
  cases hall : allpointers typ with
  | true =>
    obtain ⟨st', hrun, _, hhi, hr⟩ := recombine_loop_nodata typ hwf hall bits roots
      typ.npointers 0 (out0, []) (by omega)
    refine ⟨st'.1, ?_, hhi, ?_, ?_⟩
    · simp only [recombine, recombine_value, hall]
      rw [Nat.zero_mul] at hrun
      rw [hrun]
      rfl
    · intro j a hj hin
      rw [jl_ptr_offset_allpointers typ hwf hall j hj] at hin ⊢
      exact hr j a (Nat.zero_le _) hj hin
    · intro a _ _ h
      cases h
  | false =>
    obtain ⟨st', hrun, _, hhi, hmid, hr⟩ := recombine_loop_data typ hwf bits roots
      typ.npointers 0 0 (out0, []) (by omega) (fun _ => rfl)
      (by intro h; omega)
    refine ⟨st'.1, ?_, hhi, ?_, ?_⟩
    · simp only [recombine, recombine_value, hall]
      rw [hrun]
      rfl
    · intro j a hj hin
      exact hr j a (Nat.zero_le _) hj hin
    · intro a ha hns _
      exact hmid a (Nat.zero_le _) ha (fun j _ hj => hns j hj)

/-- In an object that is nothing but pointers every byte lies in a pointer slot. -/
theorem allpointers_in_slot (typ : jl_datatype_t) (hwf : wf_layout typ)
    (hall : allpointers typ = true) (a : Nat) (ha : a < typ.size) :
    ∃ j, j < typ.npointers ∧ in_slot (jl_ptr_offset typ j) a := by
  have hsz : typ.size = typ.npointers * sizeof_ptr := by simpa [allpointers] using hall
  simp only [sizeof_ptr] at hsz
  refine ⟨a / 8, by omega, ?_⟩
  rw [jl_ptr_offset_allpointers typ hwf hall (a / 8) (by omega)]
  simp only [in_slot, sizeof_ptr]
  omega

theorem to_ssize_sub_add (off x : Nat) (ho : off < 2 ^ 32) (hx : x < 2 ^ 32) :
    to_ssize (size_sub (size_add off x) off) = (x : Int) := by
  simp only [to_ssize, size_sub, size_add]
  norm_num at ho hx ⊢
  split <;> omega

/-- The root index returned by the loop of `split_value_field`: `-1` when no pointer
slot starts inside the field, else the index of the first one that does. -/
theorem split_value_field_loop_second (typ : jl_datatype_t) (idx : Nat) (nodata : Bool)
    (hlen : typ.ptrs.length = typ.npointers) (hinc : typ.ptrs.Pairwise (· < ·)) :
    ∀ (rem i d s : Nat), i + rem = typ.npointers →
      (∀ j, j < i → jl_ptr_offset typ j * sizeof_ptr < jl_field_offset typ idx) →
      ((split_value_field_loop typ idx nodata rem i d s).2 = -1 ∧
        ∀ j, j < typ.npointers →
          jl_ptr_offset typ j * sizeof_ptr < jl_field_offset typ idx ∨
          jl_field_offset typ idx + jl_field_size typ idx ≤ jl_ptr_offset typ j * sizeof_ptr) ∨
      (∃ j, i ≤ j ∧ j < typ.npointers ∧
        (split_value_field_loop typ idx nodata rem i d s).2 = (j : Int) ∧
        (∀ j', j' < j → jl_ptr_offset typ j' * sizeof_ptr < jl_field_offset typ idx) ∧
        jl_field_offset typ idx ≤ jl_ptr_offset typ j * sizeof_ptr ∧
        jl_ptr_offset typ j * sizeof_ptr < jl_field_offset typ idx + jl_field_size typ idx) := by
  intro rem
  induction rem with
  | zero =>
    intro i d s hi hlt
    left
    refine ⟨rfl, fun j hj => Or.inl (hlt j (by omega))⟩
  | succ rem ih =>
    intro i d s hi hlt
    by_cases h1 : jl_ptr_offset typ i * sizeof_ptr ≥ jl_field_offset typ idx
    · by_cases h2 : jl_ptr_offset typ i * sizeof_ptr ≥
          jl_field_offset typ idx + jl_field_size typ idx
      · left
        simp only [split_value_field_loop, h1, h2, if_true]
        refine ⟨trivial, fun j hj => ?_⟩
        by_cases hji : j < i
        · exact Or.inl (hlt j hji)
        · right
          rcases Nat.eq_or_lt_of_le (Nat.le_of_not_lt hji) with he | hl
          · rw [← he]
            exact h2
          · have := jl_ptr_offset_lt typ hinc i j hl (by omega)
            simp only [sizeof_ptr] at *
            omega
      · right
        refine ⟨i, le_refl _, by omega, ?_, hlt, h1, by omega⟩
        simp only [split_value_field_loop, h1, h2, if_true, if_false]
    · simp only [split_value_field_loop, h1, if_false]
      rcases ih (i + 1) _ _ (by omega) (fun j hj => by
        rcases Nat.eq_or_lt_of_le (Nat.le_of_lt_succ hj) with he | hl
        · rw [he]
          omega
        · exact hlt j hl) with h | ⟨j, hj1, hj2, hj3, hj4⟩
      · exact Or.inl h
      · exact Or.inr ⟨j, by omega, hj2, hj3, hj4⟩

/-- The buffer offset returned by the loop of `split_value_field` when the type is
not all pointers: the native field offset, or `-1` for a field that is only pointers. -/
theorem split_value_field_loop_first (typ : jl_datatype_t) (idx : Nat)
    (hsz : typ.size < 2 ^ 32) (hin : ∀ p ∈ typ.ptrs, p * sizeof_ptr + sizeof_ptr ≤ typ.size)
    (hlen : typ.ptrs.length = typ.npointers)
    (hf : jl_field_offset typ idx < 2 ^ 32) :
    ∀ (rem i off : Nat), i + rem = typ.npointers → off ≤ typ.size →
      ((split_value_field_loop typ idx false rem i off off).2 = -1 →
        (split_value_field_loop typ idx false rem i off off).1 = (jl_field_offset typ idx : Int)) ∧
      ((split_value_field_loop typ idx false rem i off off).2 ≠ -1 →
        (split_value_field_loop typ idx false rem i off off).1 =
          if (jl_field_isptr typ idx || allpointers_field typ idx) = true then -1
          else (jl_field_offset typ idx : Int)) := by
  intro rem
  induction rem with
  | zero =>
    intro i off hi ho
    simp only [split_value_field_loop]
    refine ⟨fun _ => to_ssize_sub_add off _ (by omega) hf, fun h => absurd rfl h⟩
  | succ rem ih =>
    intro i off hi ho
    by_cases h1 : jl_ptr_offset typ i * sizeof_ptr ≥ jl_field_offset typ idx
    · by_cases h2 : jl_ptr_offset typ i * sizeof_ptr ≥
          jl_field_offset typ idx + jl_field_size typ idx
      · simp only [split_value_field_loop, h1, h2, if_true]
        refine ⟨fun _ => to_ssize_sub_add off _ (by omega) hf, fun h => absurd rfl h⟩
      · simp only [split_value_field_loop, h1, h2, if_true, if_false]
        constructor
        · intro h
          omega
        · intro _
          split
          · rfl
          · exact to_ssize_sub_add off _ (by omega) hf
    · simp only [split_value_field_loop, h1, if_false, Bool.not_false, if_true]
      exact ih (i + 1) _ (by omega) (hin _ (jl_ptr_offset_mem typ i (by omega)))

/-- In an increasing table the entries inside a byte range are consecutive: entry `k`
of the filtered table is entry `j0 + k` of the table, `j0` the first entry at or after
the start of the range. -/
theorem filter_range_getD (lo hi : Nat) :
    ∀ (l : List Nat) (j0 : Nat), l.Pairwise (· < ·) →
      (∀ j', j' < j0 → l.getD j' 0 * 8 < lo) →
      (j0 < l.length → lo ≤ l.getD j0 0 * 8) →
      ∀ k, k < (l.filter fun p => decide (lo ≤ p * 8 ∧ p * 8 < hi)).length →
        j0 + k < l.length ∧
        (l.filter fun p => decide (lo ≤ p * 8 ∧ p * 8 < hi)).getD k 0 = l.getD (j0 + k) 0 := by
  intro l
  induction l with
  | nil =>
    intro j0 _ _ _ k hk
    simp at hk
  | cons x t ih =>
    intro j0 hp h1 h2 k hk
    rw [List.pairwise_cons] at hp
    cases j0 with
    | zero =>
      have hx : lo ≤ x * 8 := by simpa using h2 (by simp)
      by_cases hxh : x * 8 < hi
      · have hfx : decide (lo ≤ x * 8 ∧ x * 8 < hi) = true := by simp [hx, hxh]
        rw [@List.filter_cons_of_pos ℕ (fun p => decide (lo ≤ p * 8 ∧ p * 8 < hi)) x t hfx] at hk ⊢
        cases k with
        | zero => simp
        | succ k =>
          have := ih 0 hp.2 (fun j' hj' => absurd hj' (Nat.not_lt_zero _))
            (fun h0 => by
              have hm : t.getD 0 0 ∈ t := by
                rw [List.getD_eq_getElem _ _ h0]
                exact List.getElem_mem h0
              have := hp.1 _ hm
              omega) k (by simpa using hk)
          simp only [Nat.zero_add] at this ⊢
          simpa using this
      · have hnil : (t.filter fun p => decide (lo ≤ p * 8 ∧ p * 8 < hi)) = [] := by
          rw [List.filter_eq_nil_iff]
          intro y hy
          have := hp.1 y hy
          simp only [decide_eq_true_eq, not_and, not_lt]
          intro _
          omega
        have hfx : ¬ (decide (lo ≤ x * 8 ∧ x * 8 < hi) = true) := by simp [hxh]
        rw [@List.filter_cons_of_neg ℕ (fun p => decide (lo ≤ p * 8 ∧ p * 8 < hi)) x t hfx, hnil] at hk
        simp at hk
    | succ j =>
      have hx : x * 8 < lo := by simpa using h1 0 (by omega)
      have hfx : ¬ (decide (lo ≤ x * 8 ∧ x * 8 < hi) = true) := by
        simp only [decide_eq_true_eq, not_and, not_lt]
        intro h
        omega
      rw [@List.filter_cons_of_neg ℕ (fun p => decide (lo ≤ p * 8 ∧ p * 8 < hi)) x t hfx] at hk ⊢
      have := ih j hp.2 (fun j' hj' => by simpa using h1 (j' + 1) (by omega))
        (fun hj => by simpa using h2 (by simpa using hj)) k hk
      refine ⟨by have := this.1; simp only [List.length_cons]; omega, ?_⟩
      rw [this.2]
      have he : j + 1 + k = (j + k) + 1 := by omega
      rw [he]
      simp

/-- A field in which no pointer slot starts contains no byte of a pointer slot. -/
theorem field_free_no_slot (typ : jl_datatype_t) (hwff : wf_fields typ) (idx : Nat)
    (hidx : idx < typ.fields.length) (hfree : field_ptrs typ idx = []) (k : Nat)
    (hk : k < jl_field_size typ idx) (j : Nat) (hj : j < typ.ptrs.length) :
    ¬ in_slot (jl_ptr_offset typ j) (jl_field_offset typ idx + k) := by
  have hmemf : jl_field typ idx ∈ typ.fields := by
    unfold jl_field
    rw [List.getD_eq_getElem _ _ hidx]
    exact List.getElem_mem hidx
  have hmemp := jl_ptr_offset_mem typ j hj
  have hio := hwff.slot_in_or_out _ hmemf _ hmemp
  have hnot := (List.filter_eq_nil_iff.mp hfree) _ hmemp
  simp only [decide_eq_true_eq, not_and, not_lt, jl_field_offset, jl_field_size] at hnot hk ⊢
  simp only [in_slot, jl_field_offset]
  intro ⟨h1, h2⟩
  rcases hio with h | h | h
  · have := hnot h.1
    simp only [sizeof_ptr] at *
    omega
  · omega
  · omega

theorem example_mixed_wf : wf_layout example_mixed :=
  ⟨by decide, by decide, by decide, by decide, by decide, by decide⟩

theorem example_mixed_wf_fields : wf_fields example_mixed :=
  ⟨by decide, by decide, by decide⟩

/-! ## Split values and their fields -/

/-- C2: for a well-formed layout with pointers and any native byte image `src`,
running `recombine_value` on the byte buffer and roots that `split_value_into`
produced from `src` writes the image back: every byte below `jl_datatype_size` of
the destination equals the byte of `src` at the same offset (pointer words
included), and nothing past the object is written. -/
theorem recombine_value_restores_image (typ : jl_datatype_t) (hwf : wf_layout typ)
    (src dst0 out0 : Mem) :
    ∃ bits roots out, split_value typ src dst0 = some (bits, roots) ∧
      recombine typ bits roots out0 = some out ∧
      (∀ a, a < typ.size → out a = src a) ∧
      (∀ a, typ.size ≤ a → out a = out0 a) := by
  obtain ⟨bits, roots, hs, _, hroots, _, _, hbits⟩ := split_value_spec typ hwf src dst0
  obtain ⟨out, hr, hhi, hptr, hdata⟩ := recombine_spec typ hwf bits roots out0
  refine ⟨bits, roots, out, hs, hr, ?_, hhi⟩
  intro a ha
  by_cases hslot : ∃ j, j < typ.npointers ∧ in_slot (jl_ptr_offset typ j) a
  · obtain ⟨j, hj, hin⟩ := hslot
    rw [hptr j a hj hin, hroots j hj]
    simp only [in_slot] at hin
    rw [load_ptr_getD _ _ _ (by omega)]
    congr 1
    omega
  · have hns : ∀ j, j < typ.npointers → ¬ in_slot (jl_ptr_offset typ j) a :=
      fun j hj hin => hslot ⟨j, hj, hin⟩
    cases hall : allpointers typ with
    | true =>
      obtain ⟨j, hj, hin⟩ := allpointers_in_slot typ hwf hall a ha
      exact absurd hin (hns j hj)
    | false =>
      rw [hdata a ha hns hall, hbits hall a ha hns]

theorem recombine_value_restores_image_witness :
    wf_layout example_mixed ∧
    ∃ bits roots out, split_value example_mixed example_image zero_mem = some (bits, roots) ∧
      recombine example_mixed bits roots zero_mem = some out ∧
      (∀ a, a < example_mixed.size → out a = example_image a) ∧
      (∀ a, example_mixed.size ≤ a → out a = zero_mem a) :=
  ⟨example_mixed_wf,
    recombine_value_restores_image example_mixed example_mixed_wf example_image zero_mem zero_mem⟩

theorem jl_field_mem (typ : jl_datatype_t) (idx : Nat) (hidx : idx < typ.fields.length) :
    jl_field typ idx ∈ typ.fields := by
  unfold jl_field
  rw [List.getD_eq_getElem _ _ hidx]
  exact List.getElem_mem hidx

/-- C1: for a well-formed layout with pointers and every field index `idx`, the
location `split_value_field(typ, idx) = (first, second)` read in the split
representation that `split_value_into` produced from a native image `src` gives what
the native image holds at `jl_field_offset(typ, idx)`: a pointer field is
`roots[second]`; a pointer-free field has `second = -1` and its bytes are the buffer's
bytes at `first`; an inline field containing pointers has its `k`-th pointer at
`roots[second + k]`; and whenever `first` is not `-1` the non-pointer bytes of the
field are the buffer's bytes at `first`. -/
theorem split_value_field_reads_native (typ : jl_datatype_t) (hwf : wf_layout typ)
    (hwff : wf_fields typ) (src dst0 : Mem) (idx : Nat) (hidx : idx < typ.fields.length) :
    ∃ bits roots, split_value typ src dst0 = some (bits, roots) ∧
      (jl_field_isptr typ idx = true →
        ∃ j : Nat, (split_value_field typ idx).2 = (j : Int) ∧
          roots.getD j [] = load_ptr src (jl_field_offset typ idx)) ∧
      (field_ptrs typ idx = [] →
        (split_value_field typ idx).2 = -1 ∧
        ∀ k, k < jl_field_size typ idx →
          ∃ b : Nat, (split_value_field typ idx).1 = (b : Int) ∧
            bits (b + k) = src (jl_field_offset typ idx + k)) ∧
      (jl_field_isptr typ idx = false → field_ptrs typ idx ≠ [] →
        ∃ j : Nat, (split_value_field typ idx).2 = (j : Int) ∧
          ∀ k, k < (field_ptrs typ idx).length →
            roots.getD (j + k) [] =
              load_ptr src ((field_ptrs typ idx).getD k 0 * sizeof_ptr)) ∧
      (∀ k, k < jl_field_size typ idx → (split_value_field typ idx).1 ≠ -1 →
        (∀ j, j < typ.npointers →
          ¬ in_slot (jl_ptr_offset typ j) (jl_field_offset typ idx + k)) →
        ∃ b : Nat, (split_value_field typ idx).1 = (b : Int) ∧
          bits (b + k) = src (jl_field_offset typ idx + k)) := by
  obtain ⟨bits, roots, hs, _, hroots, _, _, hbits⟩ := split_value_spec typ hwf src dst0
  have hlen := hwf.npointers_eq
  have hmemf := jl_field_mem typ idx hidx
  have hfin := hwff.field_inside _ hmemf
  have hsz := hwf.size_lt
  have hfo : jl_field_offset typ idx < 2 ^ 32 := by
    simp only [jl_field_offset]
    omega
  have hsecond := split_value_field_loop_second typ idx (allpointers typ) hlen hwf.increasing
    typ.npointers 0 0 0 (by omega) (fun j hj => absurd hj (Nat.not_lt_zero _))
  have hfirst := split_value_field_loop_first typ idx hsz hwf.slot_inside hlen hfo
    typ.npointers 0 0 (by omega) (Nat.zero_le _)
  -- a slot that starts inside the field is listed by `field_ptrs`
  have hmemfp : ∀ j, j < typ.npointers →
      jl_field_offset typ idx ≤ jl_ptr_offset typ j * sizeof_ptr →
      jl_ptr_offset typ j * sizeof_ptr < jl_field_offset typ idx + jl_field_size typ idx →
      jl_ptr_offset typ j ∈ field_ptrs typ idx := by
    intro j hj h1 h2
    unfold field_ptrs
    rw [List.mem_filter]
    exact ⟨jl_ptr_offset_mem typ j (by omega), by simp [h1, h2]⟩
  -- the bytes of the field outside pointer slots, when the buffer offset is native
  have hbytes : ∀ k, k < jl_field_size typ idx →
      (∀ j, j < typ.npointers →
        ¬ in_slot (jl_ptr_offset typ j) (jl_field_offset typ idx + k)) →
      allpointers typ = false ∧
        bits (jl_field_offset typ idx + k) = src (jl_field_offset typ idx + k) := by
    intro k hk hns
    have hlt : jl_field_offset typ idx + k < typ.size := by
      simp only [jl_field_offset, jl_field_size] at hk ⊢
      omega
    cases hall : allpointers typ with
    | true =>
      obtain ⟨j, hj, hin⟩ := allpointers_in_slot typ hwf hall _ hlt
      exact absurd hin (hns j hj)
    | false => exact ⟨rfl, hbits hall _ hlt hns⟩
  refine ⟨bits, roots, hs, ?_, ?_, ?_, ?_⟩
  · intro hisptr
    obtain ⟨hsize, p, hp, hoff⟩ := hwff.ptr_field _ hmemf hisptr
    obtain ⟨j0, hj0, hpj0⟩ := List.mem_iff_getElem.mp hp
    have hpj : jl_ptr_offset typ j0 = p := by
      unfold jl_ptr_offset
      rw [List.getD_eq_getElem _ _ hj0]
      exact hpj0
    have hoff8 : jl_field_offset typ idx = p * 8 := hoff
    have hsize8 : jl_field_size typ idx = 8 := hsize
    rcases hsecond with ⟨_, hnone⟩ | ⟨j, _, hj, hj2, _, hlo, hhi⟩
    · have := hnone j0 (by omega)
      rw [hpj, hoff8, hsize8] at this
      simp only [sizeof_ptr] at this
      omega
    · refine ⟨j, hj2, ?_⟩
      rw [hroots j hj]
      congr 1
      rw [hoff8] at hlo
      rw [hoff8, hsize8] at hhi
      rw [hoff8]
      simp only [sizeof_ptr] at hlo hhi ⊢
      omega
  · intro hfree
    have hsec : (split_value_field typ idx).2 = -1 := by
      rcases hsecond with ⟨h, _⟩ | ⟨j, _, hj, _, _, hlo, hhi⟩
      · exact h
      · have := hmemfp j hj hlo hhi
        rw [hfree] at this
        simp at this
    refine ⟨hsec, fun k hk => ?_⟩
    have hns := fun j (hj : j < typ.npointers) =>
      field_free_no_slot typ hwff idx hidx hfree k hk j (by omega)
    obtain ⟨hall, hb⟩ := hbytes k hk hns
    refine ⟨jl_field_offset typ idx, ?_, hb⟩
    unfold split_value_field at hsec ⊢
    rw [hall] at hsec ⊢
    exact hfirst.1 hsec
  · intro _ hne
    rcases hsecond with ⟨_, hnone⟩ | ⟨j, _, hj, hj2, hbefore, hlo, hhi⟩
    · exfalso
      apply hne
      unfold field_ptrs
      rw [List.filter_eq_nil_iff]
      intro p hp
      obtain ⟨j0, hj0, hpj0⟩ := List.mem_iff_getElem.mp hp
      have hpj : jl_ptr_offset typ j0 = p := by
        unfold jl_ptr_offset
        rw [List.getD_eq_getElem _ _ hj0]
        exact hpj0
      have := hnone j0 (by omega)
      rw [hpj] at this
      simp only [decide_eq_true_eq, not_and, not_lt]
      intro _
      omega
    · refine ⟨j, hj2, fun k hk => ?_⟩
      have := filter_range_getD (jl_field_offset typ idx)
        (jl_field_offset typ idx + jl_field_size typ idx) typ.ptrs j hwf.increasing
        (fun j' hj' => hbefore j' hj') (fun _ => hlo) k hk
      rw [hroots (j + k) (by omega)]
      unfold field_ptrs
      simp only [sizeof_ptr]
      rw [this.2]
      rfl
  · intro k hk hne hns
    obtain ⟨hall, hb⟩ := hbytes k hk hns
    refine ⟨jl_field_offset typ idx, ?_, hb⟩
    unfold split_value_field at hne ⊢
    rw [hall] at hne ⊢
    by_cases hsec : (split_value_field_loop typ idx false typ.npointers 0 0 0).2 = -1
    · exact hfirst.1 hsec
    · have := hfirst.2 hsec
      rw [this] at hne ⊢
      split at hne
      · exact absurd rfl hne
      · rw [if_neg (by assumption)]

theorem split_value_field_reads_native_witness :
    (wf_layout example_mixed ∧ wf_fields example_mixed ∧ 2 < example_mixed.fields.length) ∧
    ∃ bits roots, split_value example_mixed example_image zero_mem = some (bits, roots) ∧
      (jl_field_isptr example_mixed 2 = true →
        ∃ j : Nat, (split_value_field example_mixed 2).2 = (j : Int) ∧
          roots.getD j [] = load_ptr example_image (jl_field_offset example_mixed 2)) ∧
      (field_ptrs example_mixed 2 = [] →
        (split_value_field example_mixed 2).2 = -1 ∧
        ∀ k, k < jl_field_size example_mixed 2 →
          ∃ b : Nat, (split_value_field example_mixed 2).1 = (b : Int) ∧
            bits (b + k) = example_image (jl_field_offset example_mixed 2 + k)) ∧
      (jl_field_isptr example_mixed 2 = false → field_ptrs example_mixed 2 ≠ [] →
        ∃ j : Nat, (split_value_field example_mixed 2).2 = (j : Int) ∧
          ∀ k, k < (field_ptrs example_mixed 2).length →
            roots.getD (j + k) [] =
              load_ptr example_image ((field_ptrs example_mixed 2).getD k 0 * sizeof_ptr)) ∧
      (∀ k, k < jl_field_size example_mixed 2 → (split_value_field example_mixed 2).1 ≠ -1 →
        (∀ j, j < example_mixed.npointers →
          ¬ in_slot (jl_ptr_offset example_mixed j) (jl_field_offset example_mixed 2 + k)) →
        ∃ b : Nat, (split_value_field example_mixed 2).1 = (b : Int) ∧
          bits (b + k) = example_image (jl_field_offset example_mixed 2 + k)) :=
  ⟨⟨example_mixed_wf, example_mixed_wf_fields, by decide⟩,
    split_value_field_reads_native example_mixed example_mixed_wf example_mixed_wf_fields
      example_image zero_mem 2 (by decide)⟩

/-! ## Union discriminants -/

theorem union_leaves_length_pos (ty : jl_value_t) : 0 < (union_leaves ty).length := by
  induction ty with
  | uniontype a b iha _ =>
    simp only [union_leaves, List.length_append]
    omega
  | _ => simp [union_leaves]

/-- With room for every leaf below the cap, `for_each_uniontype_small` over
pointer-free leaves numbers the leaves consecutively from `counter + 1`. -/
theorem for_each_uniontype_small_zip (pf : jl_value_t → Bool) :
    ∀ (ty : jl_value_t) (c : Nat), c + (union_leaves ty).length ≤ 128 →
      (∀ l ∈ union_leaves ty, pf l = true ∧ l ≠ jl_value_t.typeofbottom_super) →
      for_each_uniontype_small pf ty c =
        (true, c + (union_leaves ty).length,
          List.zip (List.range' (c + 1) (union_leaves ty).length) (union_leaves ty)) := by
  intro ty
  induction ty with
  | uniontype a b iha ihb =>
    intro c hlen hpf
    simp only [union_leaves, List.length_append, List.mem_append] at hlen hpf
    have hla := union_leaves_length_pos a
    have hlb := union_leaves_length_pos b
    have ha := iha c (by omega) (fun l hl => hpf l (Or.inl hl))
    have hb := ihb (c + (union_leaves a).length) (by omega) (fun l hl => hpf l (Or.inr hl))
    have hc : ¬ c > 127 := by omega
    simp only [for_each_uniontype_small, hc, if_false, ha, hb, union_leaves,
      List.length_append, Bool.and_self]
    have hr : List.range' (c + 1) ((union_leaves a).length + (union_leaves b).length) =
        List.range' (c + 1) (union_leaves a).length ++
          List.range' (c + (union_leaves a).length + 1) (union_leaves b).length := by
      have he : c + (union_leaves a).length + 1 = c + 1 + (union_leaves a).length := by omega
      rw [he, List.range'_append_1, Nat.add_comm (union_leaves b).length]
    rw [hr, List.zip_append (by simp)]
    simp [Nat.add_assoc]
  | _ =>
    intro c hlen hpf
    simp only [union_leaves, List.length_singleton, List.mem_singleton, forall_eq] at hlen hpf
    have hc : ¬ c > 127 := by omega
    simp [for_each_uniontype_small, hc, hpf.1, union_leaves] at hpf ⊢

/-- The callback of `get_box_tindex` leaves the index alone on types other than `jt`. -/
theorem get_box_tindex_foldl_not_mem (jt : jl_value_t) :
    ∀ (cs : List (Nat × jl_value_t)) (init : Nat), jt ∉ cs.map Prod.snd →
      cs.foldl (fun new_idx c => if jt = c.2 then c.1 else new_idx) init = init := by
  intro cs
  induction cs with
  | nil => intro init _; rfl
  | cons c t ih =>
    intro init h
    simp only [List.map_cons, List.mem_cons, not_or] at h
    simp only [List.foldl_cons, if_neg h.1]
    exact ih init h.2

/-- Over distinct types the callback of `get_box_tindex` ends on the index enumerated
with `jt`. -/
theorem get_box_tindex_foldl_mem (jt : jl_value_t) :
    ∀ (cs : List (Nat × jl_value_t)) (init idx : Nat), (cs.map Prod.snd).Nodup →
      (idx, jt) ∈ cs →
      cs.foldl (fun new_idx c => if jt = c.2 then c.1 else new_idx) init = idx := by
  intro cs
  induction cs with
  | nil => intro init idx _ h; simp at h
  | cons c t ih =>
    intro init idx hnd hmem
    simp only [List.map_cons, List.nodup_cons] at hnd
    simp only [List.foldl_cons]
    rcases List.mem_cons.mp hmem with he | ht
    · have h2 : jt = c.2 := by rw [← he]
      have h1 : c.1 = idx := by rw [← he]
      rw [if_pos h2, h1]
      exact get_box_tindex_foldl_not_mem jt t idx (by rw [h2]; exact hnd.1)
    · have hne : jt ≠ c.2 := by
        intro h
        apply hnd.1
        rw [← h]
        exact List.mem_map.mpr ⟨(idx, jt), ht, rfl⟩
      rw [if_neg hne]
      exact ih init idx hnd.2 ht

theorem zip_range_mem (ls : List jl_value_t) (K : Nat) (h1 : 1 ≤ K) (h2 : K ≤ ls.length) :
    (K, ls.getD (K - 1) jl_value_t.null) ∈ List.zip (List.range' 1 ls.length) ls := by
  rw [List.mem_iff_getElem]
  refine ⟨K - 1, by simp; omega, ?_⟩
  rw [List.getElem_zip, List.getD_eq_getElem _ _ (by omega)]
  simp only [List.getElem_range', Nat.one_mul, Prod.mk.injEq, and_true]
  omega

/-- C7: for a union type whose leaves are `N ≤ 127` distinct pointer-free concrete
types (so none of them is the abstract `Type{Union{}}`), `for_each_uniontype_small`
started at counter `0` calls its callback exactly `N` times, with the indices
`1, ..., N` on the leaves in left-to-right order, and returns `true`; hence
`get_box_tindex` of the `K`-th leaf is `K` for `1 ≤ K ≤ N`, and `get_box_tindex`
is `0` exactly on the types that are not a leaf. -/
theorem for_each_uniontype_small_enumerates (pf : jl_value_t → Bool) (ut : jl_value_t)
    (hN : (union_leaves ut).length ≤ 127) (hnd : (union_leaves ut).Nodup)
    (hpf : ∀ l ∈ union_leaves ut, pf l = true ∧ l ≠ jl_value_t.typeofbottom_super) :
    for_each_uniontype_small pf ut 0 =
        (true, (union_leaves ut).length,
          List.zip (List.range' 1 (union_leaves ut).length) (union_leaves ut)) ∧
      (∀ K, 1 ≤ K → K ≤ (union_leaves ut).length →
        get_box_tindex pf ((union_leaves ut).getD (K - 1) jl_value_t.null) ut = K) ∧
      (∀ jt, get_box_tindex pf jt ut = 0 ↔ jt ∉ union_leaves ut) := by
  have hz := for_each_uniontype_small_zip pf ut 0 (by omega) hpf
  simp only [Nat.zero_add] at hz
  have hsnd : (List.zip (List.range' 1 (union_leaves ut).length) (union_leaves ut)).map
      Prod.snd = union_leaves ut := by
    rw [List.map_snd_zip]
    simp
  have hK : ∀ K, 1 ≤ K → K ≤ (union_leaves ut).length →
      get_box_tindex pf ((union_leaves ut).getD (K - 1) jl_value_t.null) ut = K := by
    intro K h1 h2
    unfold get_box_tindex
    rw [hz]
    exact get_box_tindex_foldl_mem _ _ 0 K (by rw [hsnd]; exact hnd)
      (zip_range_mem (union_leaves ut) K h1 h2)
  refine ⟨hz, hK, fun jt => ⟨fun h0 hmem => ?_, fun hnot => ?_⟩⟩
  · obtain ⟨i, hi, hget⟩ := List.mem_iff_getElem.mp hmem
    have := hK (i + 1) (by omega) (by omega)
    rw [Nat.add_sub_cancel, List.getD_eq_getElem _ _ hi, hget, h0] at this
    omega
  · unfold get_box_tindex
    rw [hz]
    exact get_box_tindex_foldl_not_mem jt _ 0 (by rw [hsnd]; exact hnot)

theorem for_each_uniontype_small_enumerates_witness :
    ((union_leaves example_union).length ≤ 127 ∧ (union_leaves example_union).Nodup ∧
      ∀ l ∈ union_leaves example_union,
        example_pointerfree l = true ∧ l ≠ jl_value_t.typeofbottom_super) ∧
    (for_each_uniontype_small example_pointerfree example_union 0 =
        (true, (union_leaves example_union).length,
          List.zip (List.range' 1 (union_leaves example_union).length)
            (union_leaves example_union)) ∧
      (∀ K, 1 ≤ K → K ≤ (union_leaves example_union).length →
        get_box_tindex example_pointerfree
          ((union_leaves example_union).getD (K - 1) jl_value_t.null) example_union = K) ∧
      (∀ jt, get_box_tindex example_pointerfree jt example_union = 0 ↔
        jt ∉ union_leaves example_union)) :=
  ⟨⟨by decide, by decide, by decide⟩,
    for_each_uniontype_small_enumerates example_pointerfree example_union
      (by decide) (by decide) (by decide)⟩

/-! ## The builder -/

theorem Builder.bind_apply {α β : Type} (m : Builder α) (f : α → Builder β)
    (s : BuilderState) : (m >>= f) s = f (m s).1 (m s).2 := rfl

theorem Builder.pure_apply {α : Type} (a : α) (s : BuilderState) :
    (Pure.pure a : Builder α) s = (a, s) := rfl

/-! ## Boxing and roots -/

/-- C3 (amended): for every value representation with `isboxed` set that carries no
constant and whose type is none of bottom, NULL and `Nothing`, `boxed` returns the
representation's own pointer `V` and emits nothing: the builder state is unchanged. -/
theorem boxed_of_isboxed (ctx : jl_codectx_t) (vinfo : jl_cgval_t) (is_promotable : Bool)
    (s : BuilderState) (hboxed : vinfo.isboxed = true)
    (hconst : vinfo.constant = jl_value_t.null)
    (hbot : vinfo.typ ≠ jl_value_t.bottom_type) (hnull : vinfo.typ ≠ jl_value_t.null)
    (hnothing : vinfo.typ ≠ jl_value_t.nothing_type) :
    boxed ctx vinfo is_promotable s = (vinfo.V, s) := by
  simp only [boxed, hboxed, hconst, hbot, hnull, hnothing, ne_eq, not_true_eq_false, or_self, if_false, if_true]
  rfl

theorem boxed_of_isboxed_witness :
    (example_boxed.isboxed = true ∧ example_boxed.constant = jl_value_t.null ∧
      example_boxed.typ ≠ jl_value_t.bottom_type ∧ example_boxed.typ ≠ jl_value_t.null ∧
      example_boxed.typ ≠ jl_value_t.nothing_type) ∧
    boxed example_ctx example_boxed false BuilderState.init =
      (example_boxed.V, BuilderState.init) :=
  ⟨⟨rfl, rfl, by decide, by decide, by decide⟩,
    boxed_of_isboxed example_ctx example_boxed false BuilderState.init rfl rfl
      (by decide) (by decide) (by decide)⟩

/-- C3 fails as stated: the constant `example_const` and the boxed value
`example_boxed_nothing` of type `Nothing` both have `isboxed` set, yet `boxed` does not
return their `V`: it emits the load of a literal pointer and a cast and returns the
cast. -/
theorem boxed_of_isboxed_counterexample :
    (example_const.isboxed = true ∧
      boxed example_ctx example_const false BuilderState.init =
        (some (Value.reg 2 T_prjlvalue),
          { next := 3, blocks := [(0, "top")], cur := 0,
            code := [(0, Inst.load_literal 1 (jl_value_t.object 7)),
              (0, Inst.addrspacecast 2 (Value.reg 1 T_pjlvalue) T_prjlvalue)] }) ∧
      (boxed example_ctx example_const false BuilderState.init).1 ≠ example_const.V) ∧
    (example_boxed_nothing.isboxed = true ∧
      boxed example_ctx example_boxed_nothing false BuilderState.init =
        (some (Value.reg 2 T_prjlvalue),
          { next := 3, blocks := [(0, "top")], cur := 0,
            code := [(0, Inst.load_literal 1 jl_nothing),
              (0, Inst.addrspacecast 2 (Value.reg 1 T_pjlvalue) T_prjlvalue)] }) ∧
      (boxed example_ctx example_boxed_nothing false BuilderState.init).1 ≠
        example_boxed_nothing.V) := by
  refine ⟨⟨rfl, rfl, ?_⟩, ⟨rfl, rfl, ?_⟩⟩
  · decide
  · decide

/-- C9: for a representation that is not a constant, not of type bottom, has no boxed
pointer and has a non-empty `inline_roots`, `get_gc_roots_for` returns exactly
`inline_roots` (same length, same order, nothing filtered) and emits nothing, for
both values of `inlined`; nothing else of the representation (its bytes `V`, its
type) enters the result. -/
theorem get_gc_roots_for_split (ctx : jl_codectx_t) (x : jl_cgval_t) (inlined : Bool)
    (s : BuilderState) (hconst : x.constant = jl_value_t.null)
    (hbot : x.typ ≠ jl_value_t.bottom_type) (hroots : x.inline_roots ≠ [])
    (hboxed : x.Vboxed = none) :
    get_gc_roots_for ctx x inlined s = (x.inline_roots, s) := by
  have hne : x.inline_roots.isEmpty = false := by
    cases h : x.inline_roots with
    | nil => exact absurd h hroots
    | cons _ _ => rfl
  simp only [get_gc_roots_for, hconst, hbot, hne, hboxed, ne_eq, not_true_eq_false, or_self,
    if_false, Option.isSome_none, Bool.and_false, Bool.false_eq_true, Bool.not_false, if_true]
  rfl

theorem get_gc_roots_for_split_witness :
    (example_split.constant = jl_value_t.null ∧
      example_split.typ ≠ jl_value_t.bottom_type ∧ example_split.inline_roots ≠ [] ∧
      example_split.Vboxed = none) ∧
    (split_value_size example_two_refs).2 = 2 ∧
    get_gc_roots_for example_ctx example_split true BuilderState.init =
      ([Value.arg 1 T_prjlvalue, Value.arg 2 T_prjlvalue], BuilderState.init) ∧
    get_gc_roots_for example_ctx example_split false BuilderState.init =
      ([Value.arg 1 T_prjlvalue, Value.arg 2 T_prjlvalue], BuilderState.init) :=
  ⟨⟨rfl, by decide, by decide, rfl⟩, by decide,
    get_gc_roots_for_split example_ctx example_split true BuilderState.init rfl
      (by decide) (by decide) rfl,
    get_gc_roots_for_split example_ctx example_split false BuilderState.init rfl
      (by decide) (by decide) rfl⟩

/-! ## Type tests -/

/-- When `known_isa` is set, `emit_isa` does not reach its lowering code: it emits the
type error when the answer is `false` and a message was given, and returns the
constant. -/
theorem emit_isa_of_known (ctx : jl_codectx_t) (depth : Nat) (x : jl_cgval_t)
    (type : jl_value_t) (msg : String) (known : Bool)
    (h : (emit_isa_known ctx x type).1 = some known) :
    emit_isa ctx depth x type msg =
      (do
        if !known && msg ≠ "" then
          let t ← literal_pointer_val type
          emit_type_error ctx x t msg
        return some (Value.const_int 1 (if known then 1 else 0), true)) := by
  cases depth <;> simp only [emit_isa, emit_isa_body, h]

/-- C4: for every value whose static type is a compile-time-provable, non-broken
subtype of the test type, `emit_isa` returns the constant `true` with
`handled = true` and emits nothing (the builder state is unchanged, so no runtime call
is emitted), for every message. For a value that carries a constant the code asks
`jl_isa` of the constant; the constant is an instance of the static type and
non-broken subtyping is sound for `jl_isa`. -/
theorem emit_isa_subtype_true (ctx : jl_codectx_t) (depth : Nat) (x : jl_cgval_t)
    (type : jl_value_t) (msg : String) (s : BuilderState)
    (hnb : ctx.jl_is_not_broken_subtype x.typ type = true)
    (hsub : ctx.jl_subtype x.typ type = true)
    (hconst : x.constant ≠ jl_value_t.null → ctx.jl_isa x.constant x.typ = true)
    (hsound : ∀ c a b, ctx.jl_isa c a = true → ctx.jl_is_not_broken_subtype a b = true →
      ctx.jl_subtype a b = true → ctx.jl_isa c b = true) :
    emit_isa ctx depth x type msg s = (some (Value.const_int 1 1, true), s) := by
  have hk : (emit_isa_known ctx x type).1 = some true := by
    by_cases hc : x.constant = jl_value_t.null
    · simp [emit_isa_known, hc, hnb, hsub]
    · simp [emit_isa_known, hc, hsound _ _ _ (hconst hc) hnb hsub]
  rw [emit_isa_of_known ctx depth x type msg true hk]
  rfl

theorem emit_isa_subtype_true_witness :
    (example_ctx.jl_is_not_broken_subtype example_boxed_T1.typ jl_value_t.any_type = true ∧
      example_ctx.jl_subtype example_boxed_T1.typ jl_value_t.any_type = true) ∧
    emit_isa example_ctx 1 example_boxed_T1 jl_value_t.any_type "typeassert"
        BuilderState.init =
      (some (Value.const_int 1 1, true), BuilderState.init) :=
  ⟨⟨rfl, rfl⟩,
    emit_isa_subtype_true example_ctx 1 example_boxed_T1 jl_value_t.any_type "typeassert"
      BuilderState.init rfl rfl (fun h => absurd rfl h)
      (by
        intro c a b h1 _ h3
        cases c <;> simp [example_ctx, example_isa] at h1 ⊢
        simp only [example_ctx, example_subtype, Bool.or_eq_true, decide_eq_true_eq] at h3
        rcases h1 with h1 | h1 <;> rcases h3 with (h3 | h3) | h3 <;> simp_all)⟩

/-- C5 fails as stated: the static type `Union{}` of the unreachable value
`example_bottom` has an empty intersection with the test type `datatype 5`, yet
`emit_isa` answers the constant `true`, because `Union{}` is a subtype of the test type
and the subtype test comes first. -/
theorem emit_isa_empty_intersection_counterexample :
    example_ctx.jl_type_intersection example_bottom.typ (jl_value_t.datatype 5) =
        jl_value_t.bottom_type ∧
      emit_isa example_ctx 1 example_bottom (jl_value_t.datatype 5) "" BuilderState.init =
        (some (Value.const_int 1 1, true), BuilderState.init) :=
  ⟨by decide, rfl⟩

/-- C5 (amended): for every value and test type whose static-type intersection is the
empty type, and whose static type is not itself a compile-time-provable (non-broken)
subtype of the test type, `emit_isa` returns the compile-time constant `false`, with
`handled = true`. For a value that carries a constant the code asks `jl_isa` of the
constant; the constant is an instance of the static type and no object is an instance
of two types with an empty intersection. -/
theorem emit_isa_empty_intersection_false (ctx : jl_codectx_t) (depth : Nat)
    (x : jl_cgval_t) (type : jl_value_t) (msg : String) (s : BuilderState)
    (hint : ctx.jl_type_intersection x.typ type = jl_value_t.bottom_type)
    (hnsub : (ctx.jl_is_not_broken_subtype x.typ type && ctx.jl_subtype x.typ type) = false)
    (hconst : x.constant ≠ jl_value_t.null → ctx.jl_isa x.constant x.typ = true)
    (hsound : ∀ c a b, ctx.jl_isa c a = true → ctx.jl_isa c b = true →
      ctx.jl_type_intersection a b ≠ jl_value_t.bottom_type) :
    (emit_isa ctx depth x type msg s).1 = some (Value.const_int 1 0, true) := by
  have hk : (emit_isa_known ctx x type).1 = some false := by
    by_cases hc : x.constant = jl_value_t.null
    · simp [emit_isa_known, hc, hnsub, hint]
    · have hf : ctx.jl_isa x.constant type = false := by
        cases h : ctx.jl_isa x.constant type with
        | false => rfl
        | true => exact absurd hint (hsound _ _ _ (hconst hc) h)
      simp [emit_isa_known, hc, hf]
  rw [emit_isa_of_known ctx depth x type msg false hk]
  by_cases hm : msg = ""
  · simp only [hm, ne_eq, not_true_eq_false, decide_False, Bool.and_false, Bool.false_eq_true,
      if_false]
    rfl
  · simp only [hm, ne_eq, not_false_eq_true, decide_True, Bool.not_false, Bool.and_self,
      if_true]
    rfl

theorem emit_isa_empty_intersection_false_witness :
    (example_ctx.jl_type_intersection example_boxed_T1.typ (jl_value_t.datatype 5) =
        jl_value_t.bottom_type ∧
      (example_ctx.jl_is_not_broken_subtype example_boxed_T1.typ (jl_value_t.datatype 5) &&
        example_ctx.jl_subtype example_boxed_T1.typ (jl_value_t.datatype 5)) = false) ∧
    (emit_isa example_ctx 1 example_boxed_T1 (jl_value_t.datatype 5) "" BuilderState.init).1 =
      some (Value.const_int 1 0, true) :=
  ⟨⟨by decide, by decide⟩,
    emit_isa_empty_intersection_false example_ctx 1 example_boxed_T1 (jl_value_t.datatype 5)
      "" BuilderState.init (by decide) (by decide) (fun h => absurd rfl h)
      (by
        intro c a b h1 h2
        cases c <;> simp [example_ctx, example_isa] at h1 h2
        rcases h1 with h1 | h1 <;> rcases h2 with h2 | h2 <;> subst h1 <;> subst h2 <;>
          simp [example_ctx, example_intersection, example_subtype])⟩

/-- C6: whenever `emit_isa` decides at compile time that the answer is `false`:
with an empty message it emits nothing (no error call) and returns `false` with
`handled = true`; with a non-empty message it prepares the three arguments (the
message text, the test type, the boxed value) and then appends to the current block
exactly the call of `jltypeerror_func` and `unreachable`, with no branch of its own,
moves on to a fresh block `after_type_error`, and returns `false` with
`handled = true`. In both cases `emit_typecheck` emits what `emit_isa` emitted and no
check of its own. -/
theorem emit_isa_known_false (ctx : jl_codectx_t) (depth : Nat) (x : jl_cgval_t)
    (type : jl_value_t) (msg : String) (s : BuilderState)
    (hk : (emit_isa_known ctx x type).1 = some false) :
    (msg = "" →
      emit_isa ctx depth x type msg s = (some (Value.const_int 1 0, true), s) ∧
      emit_typecheck ctx depth x type msg s = (true, s)) ∧
    (msg ≠ "" →
      ∀ (args : List Value) (s1 : BuilderState),
        (do
          let t ← literal_pointer_val type
          let msg_val ← stringConstPtr msg
          let t ← maybe_decay_untracked t
          let b ← boxed ctx x false
          let r ← mark_callee_rooted (b.getD (Value.undef T_prjlvalue))
          return [msg_val, t, r]) s = (args, s1) →
        emit_isa ctx depth x type msg s =
          (some (Value.const_int 1 0, true),
            { next := s1.next + 2
              blocks := s1.blocks ++ [(s1.next + 1, "after_type_error")]
              cur := s1.next + 1
              code := s1.code ++ [(s1.cur, Inst.call s1.next "jltypeerror_func" args),
                (s1.cur, Inst.unreachable)] }) ∧
        emit_typecheck ctx depth x type msg s =
          (true, (emit_isa ctx depth x type msg s).2)) := by
  have he := emit_isa_of_known ctx depth x type msg false hk
  constructor
  · intro hm
    have h1 : emit_isa ctx depth x type msg s = (some (Value.const_int 1 0, true), s) := by
      rw [he]
      simp only [hm, ne_eq, not_true_eq_false, decide_False, Bool.and_false,
        Bool.false_eq_true, if_false]
      rfl
    refine ⟨h1, ?_⟩
    show (emit_isa ctx depth x type msg >>= _) s = _
    rw [Builder.bind_apply, h1]
    rfl
  · intro hm args s1 hprep
    have h1 : emit_isa ctx depth x type msg s =
        (some (Value.const_int 1 0, true),
          { next := s1.next + 2
            blocks := s1.blocks ++ [(s1.next + 1, "after_type_error")]
            cur := s1.next + 1
            code := s1.code ++ [(s1.cur, Inst.call s1.next "jltypeerror_func" args),
              (s1.cur, Inst.unreachable)] }) := by
      rw [he]
      simp only [hm, ne_eq, not_false_eq_true, decide_True, Bool.not_false, Bool.and_self,
        if_true]
      have ha : args = ((do
          let t ← literal_pointer_val type
          let msg_val ← stringConstPtr msg
          let t ← maybe_decay_untracked t
          let b ← boxed ctx x false
          let r ← mark_callee_rooted (b.getD (Value.undef T_prjlvalue))
          return [msg_val, t, r]) s).1 := by rw [hprep]
      have hs : s1 = ((do
          let t ← literal_pointer_val type
          let msg_val ← stringConstPtr msg
          let t ← maybe_decay_untracked t
          let b ← boxed ctx x false
          let r ← mark_callee_rooted (b.getD (Value.undef T_prjlvalue))
          return [msg_val, t, r]) s).2 := by rw [hprep]
      rw [ha, hs]
      simp only [Builder.bind_apply, emit_type_error, just_emit_type_error, CreateCall,
        insert_val, insert_inst, CreateUnreachable, insert_void, BasicBlock_Create,
        SetInsertPoint, List.append_assoc, List.cons_append, List.nil_append,
        Builder.pure_apply, Bool.false_eq_true, if_false]
    refine ⟨h1, ?_⟩
    show (emit_isa ctx depth x type msg >>= _) s = _
    rw [Builder.bind_apply, h1]
    rfl

theorem emit_isa_known_false_witness :
    (emit_isa_known example_ctx example_boxed_T1 (jl_value_t.datatype 5)).1 = some false ∧
    emit_isa example_ctx 1 example_boxed_T1 (jl_value_t.datatype 5) "typeassert"
        BuilderState.init =
      (some (Value.const_int 1 0, true),
        { next := 7
          blocks := [(0, "top"), (6, "after_type_error")]
          cur := 6
          code := [(0, Inst.load_literal 1 (jl_value_t.datatype 5)),
            (0, Inst.addrspacecast 2 (Value.string_global "typeassert") (.ptr 0)),
            (0, Inst.addrspacecast 3 (Value.reg 1 T_pjlvalue) T_prjlvalue),
            (0, Inst.addrspacecast 4 (Value.arg 0 T_prjlvalue) (.ptr 12)),
            (0, Inst.call 5 "jltypeerror_func"
              [Value.reg 2 (.ptr 0), Value.reg 3 T_prjlvalue, Value.reg 4 (.ptr 12)]),
            (0, Inst.unreachable)] }) :=
  ⟨by decide,
    ((emit_isa_known_false example_ctx 1 example_boxed_T1 (jl_value_t.datatype 5)
      "typeassert" BuilderState.init (by decide)).2 (by decide)
      [Value.reg 2 (.ptr 0), Value.reg 3 T_prjlvalue, Value.reg 4 (.ptr 12)]
      { next := 5
        blocks := [(0, "top")]
        cur := 0
        code := [(0, Inst.load_literal 1 (jl_value_t.datatype 5)),
          (0, Inst.addrspacecast 2 (Value.string_global "typeassert") (.ptr 0)),
          (0, Inst.addrspacecast 3 (Value.reg 1 T_pjlvalue) T_prjlvalue),
          (0, Inst.addrspacecast 4 (Value.arg 0 T_prjlvalue) (.ptr 12))] }
      rfl).1⟩

/-- For a boxed field the setup of `typed_store` keeps the pointer type, uses no
integer cast and boxes the value to store. -/
theorem typed_store_setup_boxed (ctx : jl_codectx_t) (rhs : jl_cgval_t) (jltype : jl_value_t)
    (aliasscope : Bool) (Order FailOrder : AtomicOrdering) (alignment : Nat)
    (issetfield isreplacefield isswapfield issetfieldonce : Bool) (s : BuilderState) :
    let su := (typed_store_setup ctx rhs jltype aliasscope true Order FailOrder alignment
      T_prjlvalue issetfield isreplacefield isswapfield issetfieldonce s).1
    su.tracked_pointers = true ∧ su.intcast = none ∧ su.intcast_eltyp = none ∧
      su.realelty = su.elty ∧
      su.r = if (issetfield || isswapfield || isreplacefield || issetfieldonce) = true
        then (boxed ctx rhs false s).1 else none := by
  by_cases hm : (issetfield || isswapfield || isreplacefield || issetfieldonce) = true
  · simp [typed_store_setup, hm, Builder.bind_apply, Builder.pure_apply, T_prjlvalue,
      IRType.isIntegerTy]
  · simp [typed_store_setup, hm, Builder.bind_apply, Builder.pure_apply, T_prjlvalue,
      IRType.isIntegerTy]

theorem typed_store_newval_some (ctx : jl_codectx_t) (depth : Nat)
    (modifyop : Option jl_cgval_t) (jltype : jl_value_t) (fname : String)
    (cmpop lhs rhs : jl_cgval_t) (s : BuilderState) (nv : jl_cgval_t)
    (h : (typed_store_newval ctx depth modifyop jltype fname cmpop lhs rhs s).1 = some nv) :
    ∃ v, nv = ctx.update_julia_type (ctx.mark_julia_type v true jl_value_t.any_type)
      jltype := by
  simp only [typed_store_newval, Builder.bind_apply] at h
  split at h <;> simp only [Builder.bind_apply] at h <;> split at h <;>
    simp only [Builder.pure_apply, Option.some.injEq, reduceCtorEq] at h <;>
    exact ⟨_, h.symm⟩

theorem typed_store_modify_unbox_boxed (ctx : jl_codectx_t) (rhs : jl_cgval_t)
    (Order : AtomicOrdering) (su : typed_store_setup_t) (realCompare : Value)
    (s : BuilderState) (hsu : su.realelty = su.elty) :
    (typed_store_modify_unbox ctx rhs true Order su realCompare s).1 =
      (boxed ctx rhs false s).1 := by
  simp [typed_store_modify_unbox, hsu, Builder.bind_apply, Builder.pure_apply]

/-- The new value of a modifyfield on a boxed field: without a modifyfield nothing
changes; with one, the value to store is the result of the user function, boxed. -/
theorem typed_store_cas_modify_boxed (ctx : jl_codectx_t) (depth : Nat)
    (rhs cmpop : jl_cgval_t) (jltype : jl_value_t) (Order : AtomicOrdering)
    (needlock : Option Value) (ismodifyfield maybe_null_if_boxed : Bool)
    (modifyop : Option jl_cgval_t) (fname : String) (su : typed_store_setup_t)
    (Compare : Option Value) (s : BuilderState) (m : typed_store_modify_t)
    (hsu : su.realelty = su.elty)
    (h : (typed_store_cas_modify ctx depth rhs cmpop jltype true Order needlock ismodifyfield
      maybe_null_if_boxed modifyop fname su Compare s).1 = some m) :
    (ismodifyfield = false ∧ m.rhs = rhs ∧ m.r = su.r) ∨
    (ismodifyfield = true ∧ ∃ v t,
      m.rhs = ctx.update_julia_type (ctx.mark_julia_type v true jl_value_t.any_type) jltype ∧
      m.r = (boxed ctx m.rhs false t).1) := by
  cases ismodifyfield with
  | false =>
    left
    simp only [typed_store_cas_modify, Bool.false_eq_true, if_false, Builder.pure_apply,
      Option.some.injEq] at h
    subst h
    exact ⟨rfl, rfl, rfl⟩
  | true =>
    right
    refine ⟨rfl, ?_⟩
    simp only [typed_store_cas_modify, if_true, Builder.bind_apply] at h
    generalize typed_store_modify_read ctx jltype true needlock maybe_null_if_boxed su
      Compare s = rd at h
    cases hnv : (typed_store_newval ctx depth modifyop jltype fname cmpop rd.1.2 rhs rd.2).1 with
    | none =>
      rw [hnv] at h
      simp [Builder.pure_apply] at h
    | some nv =>
      rw [hnv] at h
      obtain ⟨v, hv⟩ := typed_store_newval_some _ _ _ _ _ _ _ _ _ _ hnv
      cases needlock <;>
        simp only [Builder.bind_apply, Builder.pure_apply, Option.some.injEq] at h <;>
        subst h <;>
        exact ⟨v, _, hv, typed_store_modify_unbox_boxed _ _ _ _ _ _ hsu⟩

/-- The compare-and-exchange lowering hands on the value to store that its
modifyfield part computed. -/
theorem typed_store_cas_some (ctx : jl_codectx_t) (depth : Nat) (ptr : Value)
    (rhs cmpop : jl_cgval_t) (jltype : jl_value_t) (isboxed : Bool) (Order : AtomicOrdering)
    (alignment : Nat) (needlock : Option Value)
    (isreplacefield isswapfield ismodifyfield issetfieldonce maybe_null_if_boxed : Bool)
    (modifyop : Option jl_cgval_t) (fname : String) (su : typed_store_setup_t)
    (s : BuilderState) (ex : typed_store_exchange_t)
    (h : (typed_store_cas ctx depth ptr rhs cmpop jltype isboxed Order alignment needlock
      isreplacefield isswapfield ismodifyfield issetfieldonce maybe_null_if_boxed modifyop
      fname su s).1 = some ex) :
    ∃ m cmpop' Compare t,
      (typed_store_cas_modify ctx depth rhs cmpop' jltype isboxed Order needlock
        ismodifyfield maybe_null_if_boxed modifyop fname su Compare t).1 = some m ∧
      ex.r = m.r ∧ ex.rhs = m.rhs := by
  simp only [typed_store_cas, Builder.bind_apply] at h
  generalize BasicBlock_Create "done_xchg" s = b at h
  cases hc : (typed_store_cas_compare ctx depth ptr cmpop jltype isboxed Order alignment
      isreplacefield isswapfield issetfieldonce su b.1 b.2).1 with
  | none =>
    rw [hc] at h
    simp [Builder.pure_apply] at h
  | some c =>
    rw [hc] at h
    simp only [Builder.bind_apply] at h
    generalize (typed_store_cas_compare ctx depth ptr cmpop jltype isboxed Order alignment
      isreplacefield isswapfield issetfieldonce su b.1 b.2).2 = s1 at h
    generalize typed_store_cas_loop su c.needloop c.Compare s1 = lp at h
    cases hm : (typed_store_cas_modify ctx depth rhs c.cmpop jltype isboxed Order needlock
        ismodifyfield maybe_null_if_boxed modifyop fname su lp.1.2.2 lp.2).1 with
    | none =>
      rw [hm] at h
      simp [Builder.pure_apply] at h
    | some m =>
      rw [hm] at h
      refine ⟨m, c.cmpop, lp.1.2.2, lp.2, hm, ?_⟩
      simp only [Builder.bind_apply] at h
      cases hs : c.Succ <;> rw [hs] at h <;>
        simp only [Builder.bind_apply, Builder.pure_apply, Option.some.injEq] at h <;>
        subst h <;> exact ⟨rfl, rfl⟩

/-- Through the store of `typed_store` into a boxed field the value to store stays
the given `rhs`, boxed in the setup, unless a modifyfield replaces it by the boxed
result of the user function. -/
theorem typed_store_exchange_boxed (ctx : jl_codectx_t) (depth : Nat) (ptr : Value)
    (rhs cmpop : jl_cgval_t) (jltype : jl_value_t) (Order : AtomicOrdering)
    (alignment : Nat) (needlock : Option Value)
    (issetfield isreplacefield isswapfield ismodifyfield issetfieldonce
      maybe_null_if_boxed : Bool)
    (modifyop : Option jl_cgval_t) (fname : String) (su : typed_store_setup_t)
    (s : BuilderState) (ex : typed_store_exchange_t) (hsu : su.realelty = su.elty)
    (hmode : (issetfield || isswapfield || isreplacefield || issetfieldonce ||
      ismodifyfield) = true)
    (h : (typed_store_exchange ctx depth ptr rhs cmpop jltype true Order alignment needlock
      issetfield isreplacefield isswapfield ismodifyfield issetfieldonce
      maybe_null_if_boxed modifyop fname su s).1 = some ex) :
    (ex.rhs = rhs ∧ ex.r = su.r ∧
      (issetfield || isswapfield || isreplacefield || issetfieldonce) = true) ∨
    (ismodifyfield = true ∧ ∃ v t,
      ex.rhs = ctx.update_julia_type (ctx.mark_julia_type v true jl_value_t.any_type) jltype ∧
      ex.r = (boxed ctx ex.rhs false t).1) := by
  simp only [typed_store_exchange, Builder.bind_apply] at h
  by_cases h1 : (issetfield || (decide (Order = AtomicOrdering.NotAtomic) && isswapfield)) = true
  · left
    rw [if_pos h1] at h
    have hm4 : (issetfield || isswapfield || isreplacefield || issetfieldonce) = true := by
      cases issetfield <;> cases isswapfield <;> simp_all
    cases isswapfield <;> cases needlock <;> cases hr : su.r <;>
      simp only [typed_store_plain, hr, Builder.bind_apply, Builder.pure_apply,
        Option.some.injEq, Bool.false_eq_true, if_false, if_true] at h <;>
      subst h <;> exact ⟨rfl, rfl, hm4⟩
  · rw [if_neg h1] at h
    by_cases h2 : isswapfield = true
    · left
      rw [if_pos h2] at h
      have hm4 : (issetfield || isswapfield || isreplacefield || issetfieldonce) = true := by
        simp [h2]
      cases needlock <;>
        simp only [typed_store_swap, Builder.bind_apply, Builder.pure_apply, insert_val,
          Option.some.injEq] at h <;>
        subst h <;> exact ⟨rfl, rfl, hm4⟩
    · rw [if_neg h2] at h
      have h3 : ¬ ((ismodifyfield && modifyop.isSome && needlock.isNone &&
          decide (Order ≠ AtomicOrdering.NotAtomic) && !true && decide (su.realelty = su.elty) &&
          su.intcast.isNone && su.elty.isIntegerTy && !ctx.jl_type_hasptr jltype) = true) := by
        simp
      rw [if_neg h3] at h
      have hcas : ∃ t, (typed_store_cas ctx depth ptr rhs cmpop jltype true Order
          alignment needlock isreplacefield isswapfield ismodifyfield issetfieldonce
          maybe_null_if_boxed modifyop fname su t).1 = some ex := by
        cases needlock with
        | none =>
          exact ⟨s, by simpa only [Builder.bind_apply, Builder.pure_apply] using h⟩
        | some nl =>
          exact ⟨(emit_lockstate_value nl true s).2,
            by simpa only [Builder.bind_apply, Builder.pure_apply] using h⟩
      obtain ⟨t, hexo⟩ := hcas
      obtain ⟨m, cmpop', Compare, t', hm, hr, hrhs⟩ := typed_store_cas_some ctx depth ptr rhs
        cmpop jltype true Order alignment needlock isreplacefield isswapfield ismodifyfield
        issetfieldonce maybe_null_if_boxed modifyop fname su t ex hexo
      rcases typed_store_cas_modify_boxed ctx depth rhs cmpop' jltype Order needlock
        ismodifyfield maybe_null_if_boxed modifyop fname su Compare t' m hsu hm with
        ⟨hf, hm1, hm2⟩ | ⟨ht, v, t2, hm1, hm2⟩
      · left
        refine ⟨by rw [hrhs, hm1], by rw [hr, hm2], ?_⟩
        rw [hf] at hmode
        simpa using hmode
      · right
        refine ⟨ht, v, t2, by rw [hrhs, hm1], by rw [hr, hrhs, hm2]⟩
/-- The code `emit_write_barrier` appends for one pointer: at most two address space
casts and then the call of the write barrier on the parent and the pointer. -/
theorem emit_write_barrier_code (p r : Value) (s : BuilderState) :
    ∃ pre n, (emit_write_barrier p [r] s).2.code = s.code ++ (pre ++
      [(s.cur, Inst.call n "jl_write_barrier_func"
        [(maybe_decay_untracked p s).1,
          (maybe_decay_untracked r (maybe_decay_untracked p s).2).1])]) := by
  by_cases hp : p.getType = T_pjlvalue <;> by_cases hr : r.getType = T_pjlvalue <;>
    simp only [emit_write_barrier, decay_ptrs, maybe_decay_untracked, hp, hr, if_true,
      if_false, List.isEmpty_cons, Bool.false_eq_true, Builder.bind_apply,
      Builder.pure_apply, CreateCall, CreateAddrSpaceCast, insert_val, insert_inst,
      List.append_assoc, List.cons_append, List.nil_append]
  · exact ⟨[_, _], _, rfl⟩
  · exact ⟨[_], _, rfl⟩
  · exact ⟨[_], _, rfl⟩
  · exact ⟨[], _, rfl⟩

/-- With a permanently allocated static type the barrier stage of `typed_store` on a
boxed field emits nothing. -/
theorem typed_store_barrier_permalloc (ctx : jl_codectx_t) (p : Value)
    (isreplacefield issetfieldonce : Bool) (su : typed_store_setup_t)
    (ex : typed_store_exchange_t) (s : BuilderState)
    (hperm : type_is_permalloc ctx ex.rhs.typ = true) :
    typed_store_barrier ctx (some p) true isreplacefield issetfieldonce su ex s = ((), s) := by
  simp only [typed_store_barrier, hperm, Bool.not_true, Bool.or_self, Bool.and_false,
    Bool.false_eq_true, if_false]
  rfl

/-- Without a permanently allocated static type the barrier stage of `typed_store` on a
boxed field calls the write barrier on the parent and the stored pointer. -/
theorem typed_store_barrier_emits (ctx : jl_codectx_t) (p r : Value)
    (isreplacefield issetfieldonce : Bool) (su : typed_store_setup_t)
    (ex : typed_store_exchange_t) (s : BuilderState)
    (htp : su.tracked_pointers = true) (hic : su.intcast = none)
    (hre : su.realelty = su.elty)
    (hperm : type_is_permalloc ctx ex.rhs.typ = false) (hr : ex.r = some r) :
    ∃ blk n sa sb, (blk, Inst.call n "jl_write_barrier_func"
        [(maybe_decay_untracked p sa).1, (maybe_decay_untracked r sb).1]) ∈
      (typed_store_barrier ctx (some p) true isreplacefield issetfieldonce su ex).emitted
        s := by
  by_cases hx : (isreplacefield || issetfieldonce) = true
  · obtain ⟨S, hS⟩ : ∃ S : BuilderState, S = ⟨s.next + 1 + 1,
        s.blocks ++ [(s.next, "xchg_wb")] ++ [(s.next + 1, "done_xchg_wb")], s.next,
        s.code ++ [(s.cur, Inst.cond_br (ex.Success.getD (Value.undef (.int 1)))
          s.next (s.next + 1))]⟩ := ⟨_, rfl⟩
    obtain ⟨pre, n, hc⟩ := emit_write_barrier_code p r S
    have hcode : S.code = s.code ++ [(s.cur, Inst.cond_br
        (ex.Success.getD (Value.undef (.int 1))) s.next (s.next + 1))] := by rw [hS]
    refine ⟨S.cur, n, S, (maybe_decay_untracked p S).2, ?_⟩
    simp only [Builder.emitted, typed_store_barrier, htp, hic, hre, hperm, hr, hx,
      Builder.bind_apply, Builder.pure_apply, Bool.not_true, Bool.not_false, Bool.or_true,
      Bool.and_true, Bool.false_eq_true, if_true, if_false, ne_eq, not_true_eq_false,
      CreateBr, CreateCondBr, SetInsertPoint, BasicBlock_Create, insert_void,
      Bool.false_and, ← hS]
    simp only [hc, hcode, List.append_assoc, List.drop_left]
    simp only [List.mem_append, List.mem_cons, List.mem_singleton, true_or, or_true]
  · obtain ⟨pre, n, hc⟩ := emit_write_barrier_code p r s
    refine ⟨s.cur, n, s, (maybe_decay_untracked p s).2, ?_⟩
    simp only [Builder.emitted, typed_store_barrier, htp, hic, hre, hperm, hr, hx,
      Builder.bind_apply, Builder.pure_apply, Bool.not_true, Bool.not_false, Bool.or_true,
      Bool.and_true, Bool.false_eq_true, if_true, if_false, ne_eq, not_true_eq_false,
      CreateBr, CreateCondBr, SetInsertPoint, BasicBlock_Create, insert_void,
      Bool.false_and, hc, List.append_assoc, List.drop_left]
    simp only [List.mem_append, List.mem_cons, List.mem_singleton, true_or, or_true]

/-- On a boxed field the compare stage of the exchange always gives a result. -/
theorem typed_store_cas_compare_boxed (ctx : jl_codectx_t) (depth : Nat) (ptr : Value)
    (cmpop : jl_cgval_t) (jltype : jl_value_t) (Order : AtomicOrdering) (alignment : Nat)
    (isreplacefield isswapfield issetfieldonce : Bool) (su : typed_store_setup_t)
    (DoneBB : Nat) (s : BuilderState) :
    ∃ c, (typed_store_cas_compare ctx depth ptr cmpop jltype true Order alignment
      isreplacefield isswapfield issetfieldonce su DoneBB s).1 = some c := by
  cases isreplacefield <;> cases issetfieldonce <;>
    by_cases hO : Order = AtomicOrdering.NotAtomic <;>
    simp only [typed_store_cas_compare, hO, Builder.bind_apply, Builder.pure_apply,
      Bool.false_eq_true, if_false, if_true, Bool.not_true, ne_eq, not_true_eq_false,
      not_false_eq_true] <;>
    first
    | exact ⟨_, rfl⟩
    | (split <;> first
        | exact ⟨_, rfl⟩
        | (split <;> exact ⟨_, rfl⟩))

/-- The flag of `emit_typecheck` is set whenever `emit_isa` gave a result. -/
theorem emit_typecheck_ok (ctx : jl_codectx_t) (depth : Nat) (x : jl_cgval_t)
    (type : jl_value_t) (msg : String) (s : BuilderState)
    (h : (emit_isa ctx depth x type msg s).1 ≠ none) :
    (emit_typecheck ctx depth x type msg s).1 = true := by
  simp only [emit_typecheck, Builder.bind_apply]
  cases hr : (emit_isa ctx depth x type msg s).1 with
  | none => exact absurd hr h
  | some r =>
    obtain ⟨istype, handled⟩ := r
    cases handled <;> simp only [Builder.bind_apply, Builder.pure_apply, Bool.not_true,
      Bool.not_false, Bool.false_eq_true, if_false, if_true]

/-- The value a modifyfield stores is computed whenever the type check of the result
of the user function is. -/
theorem typed_store_newval_total (ctx : jl_codectx_t) (depth : Nat)
    (modifyop : Option jl_cgval_t) (jltype : jl_value_t) (fname : String)
    (cmpop lhs rhs : jl_cgval_t) (s : BuilderState)
    (hfuel : ∀ x t, (emit_isa ctx depth x jltype fname t).1 ≠ none) :
    ∃ nv, (typed_store_newval ctx depth modifyop jltype fname cmpop lhs rhs s).1 =
      some nv := by
  have hok : ∀ x t, (emit_typecheck ctx depth x jltype fname t).1 = true :=
    fun x t => emit_typecheck_ok ctx depth x jltype fname t (hfuel x t)
  cases modifyop <;>
    simp only [typed_store_newval, Builder.bind_apply, hok, if_true, Builder.pure_apply] <;>
    exact ⟨_, rfl⟩

/-- The new value stage of the exchange on a boxed field gives a result, for a
modifyfield provided the type check of the result of the user function does. -/
theorem typed_store_cas_modify_total (ctx : jl_codectx_t) (depth : Nat)
    (rhs cmpop : jl_cgval_t) (jltype : jl_value_t) (Order : AtomicOrdering)
    (needlock : Option Value) (ismodifyfield maybe_null_if_boxed : Bool)
    (modifyop : Option jl_cgval_t) (fname : String) (su : typed_store_setup_t)
    (Compare : Option Value) (s : BuilderState)
    (hfuel : ismodifyfield = true →
      ∀ x t, (emit_isa ctx depth x jltype fname t).1 ≠ none) :
    ∃ m, (typed_store_cas_modify ctx depth rhs cmpop jltype true Order needlock
      ismodifyfield maybe_null_if_boxed modifyop fname su Compare s).1 = some m := by
  cases ismodifyfield with
  | false =>
    simp only [typed_store_cas_modify, Bool.false_eq_true, if_false, Builder.pure_apply]
    exact ⟨_, rfl⟩
  | true =>
    simp only [typed_store_cas_modify, if_true, Builder.bind_apply]
    generalize typed_store_modify_read ctx jltype true needlock maybe_null_if_boxed su
      Compare s = rd
    obtain ⟨nv, hnv⟩ := typed_store_newval_total ctx depth modifyop jltype fname cmpop
      rd.1.2 rhs rd.2 (hfuel rfl)
    rw [hnv]
    cases needlock <;>
      simp only [Builder.bind_apply, Builder.pure_apply] <;> exact ⟨_, rfl⟩

/-- The compare-and-exchange lowering on a boxed field gives a result, for a
modifyfield provided the type check of the result of the user function does. -/
theorem typed_store_cas_total (ctx : jl_codectx_t) (depth : Nat) (ptr : Value)
    (rhs cmpop : jl_cgval_t) (jltype : jl_value_t) (Order : AtomicOrdering)
    (alignment : Nat) (needlock : Option Value)
    (isreplacefield isswapfield ismodifyfield issetfieldonce maybe_null_if_boxed : Bool)
    (modifyop : Option jl_cgval_t) (fname : String) (su : typed_store_setup_t)
    (s : BuilderState)
    (hfuel : ismodifyfield = true →
      ∀ x t, (emit_isa ctx depth x jltype fname t).1 ≠ none) :
    ∃ ex, (typed_store_cas ctx depth ptr rhs cmpop jltype true Order alignment needlock
      isreplacefield isswapfield ismodifyfield issetfieldonce maybe_null_if_boxed modifyop
      fname su s).1 = some ex := by
  simp only [typed_store_cas, Builder.bind_apply]
  generalize BasicBlock_Create "done_xchg" s = b
  obtain ⟨c, hc⟩ := typed_store_cas_compare_boxed ctx depth ptr cmpop jltype Order
    alignment isreplacefield isswapfield issetfieldonce su b.1 b.2
  rw [hc]
  simp only [Builder.bind_apply]
  generalize (typed_store_cas_compare ctx depth ptr cmpop jltype true Order alignment
    isreplacefield isswapfield issetfieldonce su b.1 b.2).2 = s1
  generalize typed_store_cas_loop su c.needloop c.Compare s1 = lp
  obtain ⟨m, hm⟩ := typed_store_cas_modify_total ctx depth rhs c.cmpop jltype Order
    needlock ismodifyfield maybe_null_if_boxed modifyop fname su lp.1.2.2 lp.2 hfuel
  rw [hm]
  simp only [Builder.bind_apply]
  cases hs : c.Succ <;>
    simp only [Builder.bind_apply, Builder.pure_apply] <;> exact ⟨_, rfl⟩

/-- The exchange stage of `typed_store` on a boxed field gives a result, for a
modifyfield provided the type check of the result of the user function does. -/
theorem typed_store_exchange_total (ctx : jl_codectx_t) (depth : Nat) (ptr : Value)
    (rhs cmpop : jl_cgval_t) (jltype : jl_value_t) (Order : AtomicOrdering)
    (alignment : Nat) (needlock : Option Value)
    (issetfield isreplacefield isswapfield ismodifyfield issetfieldonce
      maybe_null_if_boxed : Bool)
    (modifyop : Option jl_cgval_t) (fname : String) (su : typed_store_setup_t)
    (s : BuilderState)
    (hfuel : ismodifyfield = true →
      ∀ x t, (emit_isa ctx depth x jltype fname t).1 ≠ none) :
    ∃ ex, (typed_store_exchange ctx depth ptr rhs cmpop jltype true Order alignment
      needlock issetfield isreplacefield isswapfield ismodifyfield issetfieldonce
      maybe_null_if_boxed modifyop fname su s).1 = some ex := by
  simp only [typed_store_exchange, Builder.bind_apply]
  by_cases h1 : (issetfield || (decide (Order = AtomicOrdering.NotAtomic) && isswapfield)) = true
  · rw [if_pos h1]
    cases needlock <;>
      simp only [Builder.bind_apply, Builder.pure_apply] <;> exact ⟨_, rfl⟩
  · rw [if_neg h1]
    by_cases h2 : isswapfield = true
    · rw [if_pos h2]
      cases needlock <;>
        simp only [Builder.bind_apply, Builder.pure_apply] <;> exact ⟨_, rfl⟩
    · rw [if_neg h2]
      have h3 : ¬ ((ismodifyfield && modifyop.isSome && needlock.isNone &&
          decide (Order ≠ AtomicOrdering.NotAtomic) && !true && decide (su.realelty = su.elty) &&
          su.intcast.isNone && su.elty.isIntegerTy && !ctx.jl_type_hasptr jltype) = true) := by
        simp
      rw [if_neg h3]
      cases needlock with
      | none =>
        simp only [Builder.bind_apply, Builder.pure_apply]
        exact typed_store_cas_total ctx depth ptr rhs cmpop jltype Order alignment none
          isreplacefield isswapfield ismodifyfield issetfieldonce maybe_null_if_boxed
          modifyop fname su s hfuel
      | some nl =>
        simp only [Builder.bind_apply, Builder.pure_apply]
        exact typed_store_cas_total ctx depth ptr rhs cmpop jltype Order alignment (some nl)
          isreplacefield isswapfield ismodifyfield issetfieldonce maybe_null_if_boxed
          modifyop fname su _ hfuel

/-- C10: `type_is_permalloc` holds exactly of the singleton datatypes, `Symbol`, `Int8`
and `UInt8`; and a `typed_store` into a boxed field of a parent object `p`, in one of
its five modes and not the setfieldonce that stores nothing, runs its setup and its
exchange, which hand on the pointer `r` that `boxed` gives for the value to store
(`rhs` itself unless a modifyfield computes it), and then: when the static type of the
value to store is not permanently allocated, the barrier stage calls
`jl_write_barrier_func` on the parent and `r`, each after `maybe_decay_untracked`; when
it is, the barrier stage emits nothing and leaves the builder unchanged. The whole
`typed_store` returns what the result stage gives after that. Assumed: `boxed` gives a
pointer for the value to store, and for a modifyfield the nesting allowance of
`emit_isa` is enough for the type check of the new value. -/
theorem typed_store_write_barrier (ctx : jl_codectx_t) (depth : Nat) (ptr : Value)
    (rhs cmpop : jl_cgval_t) (jltype : jl_value_t) (aliasscope : Bool) (p : Value)
    (Order FailOrder : AtomicOrdering) (alignment : Nat) (needlock : Option Value)
    (issetfield isreplacefield isswapfield ismodifyfield issetfieldonce
      maybe_null_if_boxed : Bool)
    (modifyop : Option jl_cgval_t) (fname : String) (s : BuilderState)
    (hgo : (issetfieldonce && !maybe_null_if_boxed) = false)
    (hmode : (issetfield || isswapfield || isreplacefield || issetfieldonce ||
      ismodifyfield) = true)
    (hbox : ∀ x t, (x = rhs ∨ ∃ v, x = ctx.update_julia_type
      (ctx.mark_julia_type v true jl_value_t.any_type) jltype) →
      (boxed ctx x false t).1 ≠ none)
    (hfuel : ismodifyfield = true →
      ∀ x t, (emit_isa ctx depth x jltype fname t).1 ≠ none) :
    (∀ t, type_is_permalloc ctx t = true ↔
      ((ctx.jl_is_datatype t = true ∧ ctx.jl_is_datatype_singleton t = true) ∨
        t = jl_value_t.symbol_type ∨ t = jl_value_t.int8_type ∨
        t = jl_value_t.uint8_type)) ∧
    ∃ su ex s1 s2,
      typed_store_setup ctx rhs jltype aliasscope true Order FailOrder sizeof_ptr
        T_prjlvalue issetfield isreplacefield isswapfield issetfieldonce s = (su, s1) ∧
      typed_store_exchange ctx depth ptr rhs cmpop jltype true Order sizeof_ptr needlock
        issetfield isreplacefield isswapfield ismodifyfield issetfieldonce
        maybe_null_if_boxed modifyop fname su s1 = (some ex, s2) ∧
      (ismodifyfield = false → ex.rhs = rhs) ∧
      (∃ r t, ex.r = some r ∧ (boxed ctx ex.rhs false t).1 = some r ∧
        (type_is_permalloc ctx ex.rhs.typ = false →
          ∃ blk n sa sb, (blk, Inst.call n "jl_write_barrier_func"
              [(maybe_decay_untracked p sa).1, (maybe_decay_untracked r sb).1]) ∈
            (typed_store_barrier ctx (some p) true isreplacefield issetfieldonce su
              ex).emitted s2)) ∧
      (type_is_permalloc ctx ex.rhs.typ = true →
        typed_store_barrier ctx (some p) true isreplacefield issetfieldonce su ex s2 =
          ((), s2)) ∧
      typed_store ctx depth ptr rhs cmpop jltype aliasscope (some p) true Order FailOrder
        alignment needlock issetfield isreplacefield isswapfield ismodifyfield
        issetfieldonce maybe_null_if_boxed modifyop fname s =
        (typed_store_result ctx jltype true issetfield isreplacefield ismodifyfield
          issetfieldonce maybe_null_if_boxed su ex
          (typed_store_barrier ctx (some p) true isreplacefield issetfieldonce su ex
            s2).2).map some id := by
  refine ⟨?_, ?_⟩
  · intro t
    by_cases h : (ctx.jl_is_datatype t && ctx.jl_is_datatype_singleton t) = true
    · simp only [type_is_permalloc, h, if_true, true_iff]
      left
      simpa using h
    · simp only [type_is_permalloc, h, if_false, Bool.false_eq_true, Bool.or_eq_true,
        decide_eq_true_eq]
      simp only [Bool.and_eq_true] at h
      tauto
  · obtain ⟨htp, hic, -, hre, hsr⟩ := typed_store_setup_boxed ctx rhs jltype aliasscope
      Order FailOrder sizeof_ptr issetfield isreplacefield isswapfield issetfieldonce s
    have hcond : (decide (T_prjlvalue = IRType.void) ||
        (issetfieldonce && !maybe_null_if_boxed) ||
        (issetfieldonce && !true && !ctx.jl_type_hasptr jltype)) = false := by
      simp [hgo, T_prjlvalue]
    have hts : ∀ ex s2, typed_store_exchange ctx depth ptr rhs cmpop jltype true Order
        sizeof_ptr needlock issetfield isreplacefield isswapfield ismodifyfield
        issetfieldonce maybe_null_if_boxed modifyop fname
        (typed_store_setup ctx rhs jltype aliasscope true Order FailOrder sizeof_ptr
          T_prjlvalue issetfield isreplacefield isswapfield issetfieldonce s).1
        (typed_store_setup ctx rhs jltype aliasscope true Order FailOrder sizeof_ptr
          T_prjlvalue issetfield isreplacefield isswapfield issetfieldonce s).2 =
          (some ex, s2) →
        typed_store ctx depth ptr rhs cmpop jltype aliasscope (some p) true Order FailOrder
          alignment needlock issetfield isreplacefield isswapfield ismodifyfield
          issetfieldonce maybe_null_if_boxed modifyop fname s =
          (typed_store_result ctx jltype true issetfield isreplacefield ismodifyfield
            issetfieldonce maybe_null_if_boxed
            (typed_store_setup ctx rhs jltype aliasscope true Order FailOrder sizeof_ptr
              T_prjlvalue issetfield isreplacefield isswapfield issetfieldonce s).1 ex
            (typed_store_barrier ctx (some p) true isreplacefield issetfieldonce
              (typed_store_setup ctx rhs jltype aliasscope true Order FailOrder sizeof_ptr
                T_prjlvalue issetfield isreplacefield isswapfield issetfieldonce s).1 ex
              s2).2).map some id := by
      intro ex s2 hexr
      simp only [typed_store, if_true, hcond, Bool.false_eq_true, if_false,
        Builder.bind_apply, hexr, Builder.pure_apply, Prod.map, id]
    generalize typed_store_setup ctx rhs jltype aliasscope true Order FailOrder sizeof_ptr
      T_prjlvalue issetfield isreplacefield isswapfield issetfieldonce s = sus
      at htp hic hre hsr hts
    obtain ⟨su, s1⟩ := sus
    simp only at htp hic hre hsr hts
    obtain ⟨ex, hex1⟩ := typed_store_exchange_total ctx depth ptr rhs cmpop jltype Order
      sizeof_ptr needlock issetfield isreplacefield isswapfield ismodifyfield issetfieldonce
      maybe_null_if_boxed modifyop fname su s1 hfuel
    have hexr : typed_store_exchange ctx depth ptr rhs cmpop jltype true Order sizeof_ptr
        needlock issetfield isreplacefield isswapfield ismodifyfield issetfieldonce
        maybe_null_if_boxed modifyop fname su s1 = (some ex, (typed_store_exchange ctx depth
          ptr rhs cmpop jltype true Order sizeof_ptr needlock issetfield isreplacefield
          isswapfield ismodifyfield issetfieldonce maybe_null_if_boxed modifyop fname su
          s1).2) := Prod.ext hex1 rfl
    have hrt : ∃ r t, ex.r = some r ∧ (boxed ctx ex.rhs false t).1 = some r ∧
        (ismodifyfield = false → ex.rhs = rhs) := by
      rcases typed_store_exchange_boxed ctx depth ptr rhs cmpop jltype Order sizeof_ptr
        needlock issetfield isreplacefield isswapfield ismodifyfield issetfieldonce
        maybe_null_if_boxed modifyop fname su s1 ex hre hmode hex1 with
        ⟨h1, h2, h3⟩ | ⟨hm, v, t, h1, h2⟩
      · rw [hsr, if_pos h3] at h2
        cases hb : (boxed ctx rhs false s).1 with
        | none => exact absurd hb (hbox rhs s (Or.inl rfl))
        | some r =>
          refine ⟨r, s, by rw [h2, hb], by rw [h1, hb], fun _ => h1⟩
      · cases hb : (boxed ctx ex.rhs false t).1 with
        | none => exact absurd hb (hbox ex.rhs t (Or.inr ⟨v, h1⟩))
        | some r =>
          refine ⟨r, t, by rw [h2, hb], hb, fun hf => ?_⟩
          rw [hm] at hf
          exact absurd hf (by decide)
    obtain ⟨r, t, hr, hb, hrhs⟩ := hrt
    exact ⟨su, ex, s1, _, rfl, hexr, hrhs,
      ⟨r, t, hr, hb, fun hperm => typed_store_barrier_emits ctx p r isreplacefield
        issetfieldonce su ex _ htp hic hre hperm hr⟩,
      fun hperm => typed_store_barrier_permalloc ctx p isreplacefield issetfieldonce
        su ex _ hperm, hts ex _ hexr⟩

/-- The theorem of C10 at a setfield of the boxed value `example_boxed_T1` into a field
of the parent `Value.arg 11`: the store is followed by the call of the write barrier. -/
theorem typed_store_write_barrier_witness :
    ((false && !false) = false ∧
      (true || false || false || false || false) = true ∧
      (∀ x t, (x = example_boxed_T1 ∨ ∃ v, x = example_ctx.update_julia_type
        (example_ctx.mark_julia_type v true jl_value_t.any_type) jl_value_t.any_type) →
        (boxed example_ctx x false t).1 ≠ none) ∧
      (false = true → ∀ x t,
        (emit_isa example_ctx 0 x jl_value_t.any_type "setfield!" t).1 ≠ none)) ∧
    type_is_permalloc example_ctx example_boxed_T1.typ = false ∧
    typed_store example_ctx 0 (Value.arg 10 (.ptr 0)) example_boxed_T1 example_boxed
      jl_value_t.any_type false (some (Value.arg 11 T_prjlvalue)) true
      AtomicOrdering.Release AtomicOrdering.NotAtomic 8 none true false false false false
      false none "setfield!" BuilderState.init =
      (some example_boxed_T1,
        { next := 2
          blocks := [(0, "top")]
          cur := 0
          code := [(0, Inst.store (Value.arg 0 T_prjlvalue) (Value.arg 10 (.ptr 0)) 8
              AtomicOrdering.Release),
            (0, Inst.call 1 "jl_write_barrier_func"
              [Value.arg 11 T_prjlvalue, Value.arg 0 T_prjlvalue])] }) ∧
    ((∀ t, type_is_permalloc example_ctx t = true ↔
      ((example_ctx.jl_is_datatype t = true ∧
          example_ctx.jl_is_datatype_singleton t = true) ∨
        t = jl_value_t.symbol_type ∨ t = jl_value_t.int8_type ∨
        t = jl_value_t.uint8_type)) ∧
    ∃ su ex s1 s2,
      typed_store_setup example_ctx example_boxed_T1 jl_value_t.any_type false true
        AtomicOrdering.Release AtomicOrdering.NotAtomic sizeof_ptr T_prjlvalue true false
        false false BuilderState.init = (su, s1) ∧
      typed_store_exchange example_ctx 0 (Value.arg 10 (.ptr 0)) example_boxed_T1
        example_boxed jl_value_t.any_type true AtomicOrdering.Release sizeof_ptr none true
        false false false false false none "setfield!" su s1 = (some ex, s2) ∧
      (false = false → ex.rhs = example_boxed_T1) ∧
      (∃ r t, ex.r = some r ∧ (boxed example_ctx ex.rhs false t).1 = some r ∧
        (type_is_permalloc example_ctx ex.rhs.typ = false →
          ∃ blk n sa sb, (blk, Inst.call n "jl_write_barrier_func"
              [(maybe_decay_untracked (Value.arg 11 T_prjlvalue) sa).1,
                (maybe_decay_untracked r sb).1]) ∈
            (typed_store_barrier example_ctx (some (Value.arg 11 T_prjlvalue)) true false
              false su ex).emitted s2)) ∧
      (type_is_permalloc example_ctx ex.rhs.typ = true →
        typed_store_barrier example_ctx (some (Value.arg 11 T_prjlvalue)) true false false
          su ex s2 = ((), s2)) ∧
      typed_store example_ctx 0 (Value.arg 10 (.ptr 0)) example_boxed_T1 example_boxed
        jl_value_t.any_type false (some (Value.arg 11 T_prjlvalue)) true
        AtomicOrdering.Release AtomicOrdering.NotAtomic 8 none true false false false false
        false none "setfield!" BuilderState.init =
        (typed_store_result example_ctx jl_value_t.any_type true true false false false
          false su ex
          (typed_store_barrier example_ctx (some (Value.arg 11 T_prjlvalue)) true false
            false su ex s2).2).map some id) :=
  have hbox : ∀ x t, (x = example_boxed_T1 ∨ ∃ v, x = example_ctx.update_julia_type
      (example_ctx.mark_julia_type v true jl_value_t.any_type) jl_value_t.any_type) →
      (boxed example_ctx x false t).1 ≠ none := by
    intro x t hx
    rcases hx with rfl | ⟨v, rfl⟩ <;>
      simp [boxed, example_ctx, example_boxed_T1, example_boxed, Builder.pure_apply]
  ⟨⟨by decide, by decide, hbox, fun h => absurd h (by decide)⟩, by decide, by decide,
    typed_store_write_barrier example_ctx 0 (Value.arg 10 (.ptr 0)) example_boxed_T1
      example_boxed jl_value_t.any_type false (Value.arg 11 T_prjlvalue)
      AtomicOrdering.Release AtomicOrdering.NotAtomic 8 none true false false false false
      false none "setfield!" BuilderState.init (by decide) (by decide) hbox
      (fun h => absurd h (by decide))⟩

/-! ## Shapes of emitted code -/

theorem Builder.Straight.of_pure {α : Type} (P : Inst → Prop) (a : α) :
    Builder.Straight P (Pure.pure a : Builder α) :=
  ⟨fun s => ⟨[], by simp [Builder.pure_apply], rfl, rfl, Nat.le_refl _, by simp⟩⟩

theorem Builder.Straight.of_bind {α β : Type} {P : Inst → Prop} {m : Builder α}
    {f : α → Builder β} (hm : Builder.Straight P m) (hf : ∀ a, Builder.Straight P (f a)) :
    Builder.Straight P (m >>= f) := by
  constructor
  intro s
  obtain ⟨l1, h1, c1, b1, n1, p1⟩ := hm.out s
  obtain ⟨l2, h2, c2, b2, n2, p2⟩ := (hf (m s).1).out (m s).2
  refine ⟨l1 ++ l2, ?_, ?_, ?_, ?_, ?_⟩
  · rw [Builder.bind_apply, h2, h1, c1, List.map_append, List.append_assoc]
  · rw [Builder.bind_apply, c2, c1]
  · rw [Builder.bind_apply, b2, b1]
  · rw [Builder.bind_apply]
    exact Nat.le_trans n1 n2
  · intro i hi
    rcases List.mem_append.1 hi with h | h
    · exact p1 i h
    · exact p2 i h

theorem Builder.Straight.of_insert_inst {P : Inst → Prop} (f : Nat → Inst) (h : ∀ n, P (f n)) :
    Builder.Straight P (insert_inst f) :=
  ⟨fun s => ⟨[f s.next], rfl, rfl, rfl, Nat.le_succ _, by simpa using h s.next⟩⟩

theorem Builder.Straight.of_insert_val {P : Inst → Prop} (ty : IRType) (f : Nat → Inst)
    (h : ∀ n, P (f n)) : Builder.Straight P (insert_val ty f) :=
  Builder.Straight.of_bind (Builder.Straight.of_insert_inst f h) fun _ => Builder.Straight.of_pure P _

theorem Builder.Straight.of_insert_void {P : Inst → Prop} (i : Inst) (h : P i) :
    Builder.Straight P (insert_void i) :=
  ⟨fun s => ⟨[i], rfl, rfl, rfl, Nat.le_refl _, by simpa using h⟩⟩

theorem Builder.Straight.of_ite {α : Type} {P : Inst → Prop} (c : Prop) [Decidable c]
    {a b : Builder α} (ha : Builder.Straight P a) (hb : Builder.Straight P b) :
    Builder.Straight P (if c then a else b) := by
  split
  · exact ha
  · exact hb

theorem boxed_straight (ctx : jl_codectx_t) (vinfo : jl_cgval_t) (is_promotable : Bool) :
    Builder.Straight (fun i => i.is_call = false) (boxed ctx vinfo is_promotable) := by
  unfold boxed
  simp only []
  repeat' first
    | apply Builder.Straight.of_ite
    | apply Builder.Straight.of_insert_val
    | apply Builder.Straight.of_pure
    | apply Builder.Straight.of_bind
    | intro _
    | unfold literal_pointer_val track_pjlvalue CreateAddrSpaceCast emit_helper
    | rfl

/-- A straight step followed by a call: what is appended ends in the call. -/
theorem Builder.Straight.then_call {α : Type} {P : Inst → Prop} {X : Builder α}
    (hX : Builder.Straight P X) (fn : String) (args : α → List Value) (s : BuilderState) :
    ∃ pre n, ((X >>= fun v => CreateCall .void fn (args v) >>= fun _ =>
        (Pure.pure PUnit.unit : Builder PUnit)) s).2.code =
        s.code ++ (pre ++ [Inst.call n fn (args (X s).1)]).map (fun i => (s.cur, i)) ∧
      ((X >>= fun v => CreateCall .void fn (args v) >>= fun _ =>
        (Pure.pure PUnit.unit : Builder PUnit)) s).2.cur = s.cur ∧
      ((X >>= fun v => CreateCall .void fn (args v) >>= fun _ =>
        (Pure.pure PUnit.unit : Builder PUnit)) s).2.blocks = s.blocks ∧
      s.next ≤ ((X >>= fun v => CreateCall .void fn (args v) >>= fun _ =>
        (Pure.pure PUnit.unit : Builder PUnit)) s).2.next ∧
      ∀ i ∈ pre, P i := by
  obtain ⟨l, h1, c1, b1, n1, p1⟩ := hX.out s
  refine ⟨l, (X s).2.next, ?_, ?_, ?_, ?_, p1⟩
  · simp only [Builder.bind_apply, Builder.pure_apply, CreateCall, insert_val, insert_inst,
      h1, c1, List.map_append, List.append_assoc, List.map_cons, List.map_nil]
  · simp only [Builder.bind_apply, Builder.pure_apply, CreateCall, insert_val, insert_inst, c1]
  · simp only [Builder.bind_apply, Builder.pure_apply, CreateCall, insert_val, insert_inst, b1]
  · simp only [Builder.bind_apply, Builder.pure_apply, CreateCall, insert_val, insert_inst]
    omega

theorem emit_bounds_error_arg_straight (ctx : jl_codectx_t) (ainfo : jl_cgval_t) :
    Builder.Straight (fun i => i.is_call = false) (emit_bounds_error_arg ctx ainfo) := by
  unfold emit_bounds_error_arg
  simp only []
  repeat' first
    | apply Builder.Straight.of_ite
    | apply Builder.Straight.of_insert_val
    | apply Builder.Straight.of_insert_void
    | apply Builder.Straight.of_pure
    | apply Builder.Straight.of_bind
    | intro _
    | unfold value_to_pointer CreateAlloca CreateStore emit_helper
    | rfl

/-- The fail block of `emit_bounds_check`: instructions that are not calls, then the
one call of a bounds error. -/
theorem emit_bounds_error_code (ctx : jl_codectx_t) (ainfo : jl_cgval_t) (ty : jl_value_t)
    (i len : Value) (s : BuilderState) :
    ∃ pre n fn args, (emit_bounds_error ctx ainfo ty i len s).2.code =
        s.code ++ (pre ++ [Inst.call n fn args]).map (fun i => (s.cur, i)) ∧
      (emit_bounds_error ctx ainfo ty i len s).2.cur = s.cur ∧
      (emit_bounds_error ctx ainfo ty i len s).2.blocks = s.blocks ∧
      s.next ≤ (emit_bounds_error ctx ainfo ty i len s).2.next ∧
      fn ∈ bounds_error_funcs ∧ ∀ i ∈ pre, i.is_call = false := by
  unfold emit_bounds_error
  split
  · refine ⟨[], s.next, "jlvboundserror_func",
      [ainfo.V.getD (Value.undef (.ptr 0)), len, i], ?_, rfl, rfl, ?_, by decide, by simp⟩
    · simp only [Builder.bind_apply, Builder.pure_apply, CreateCall, insert_val, insert_inst,
        List.map_cons, List.map_nil, List.nil_append]
    · simp only [Builder.bind_apply, Builder.pure_apply, CreateCall, insert_val, insert_inst]
      omega
  · split
    · have hX : Builder.Straight (fun i => i.is_call = false)
          (boxed ctx ainfo false >>= fun b =>
            mark_callee_rooted (b.getD (Value.undef T_prjlvalue))) :=
        Builder.Straight.of_bind (boxed_straight ctx ainfo false) fun _ =>
          Builder.Straight.of_insert_val _ _ fun _ => rfl
      obtain ⟨pre, n, h⟩ := hX.then_call "jlboundserror_func" (fun r => [r, i]) s
      exact ⟨pre, n, "jlboundserror_func", _, h.1, h.2.1, h.2.2.1, h.2.2.2.1, by decide,
        h.2.2.2.2⟩
    · have hX : Builder.Straight (fun i => i.is_call = false)
          (emit_bounds_error_arg ctx ainfo >>= fun a => decay_derived a >>= fun d =>
            literal_pointer_val ty >>= fun t => (Pure.pure (d, t) : Builder (Value × Value))) := by
        repeat' first
          | exact emit_bounds_error_arg_straight ctx ainfo
          | apply Builder.Straight.of_ite
          | apply Builder.Straight.of_insert_val
          | apply Builder.Straight.of_pure
          | apply Builder.Straight.of_bind
          | intro _
          | unfold decay_derived literal_pointer_val CreateAddrSpaceCast
          | rfl
      obtain ⟨pre, n, h⟩ := hX.then_call "jluboundserror_func" (fun r => [r.1, r.2, i]) s
      exact ⟨pre, n, "jluboundserror_func", _, h.1, h.2.1, h.2.2.1, h.2.2.2.1, by decide,
        h.2.2.2.2⟩

/-- The instructions of the block of the insertion point among three instructions
emitted there followed by instructions of a later block. -/
theorem block_insts_head (cur blk : Nat) (a b c : Inst) (l : List Inst) (h : cur ≠ blk) :
    block_insts ([(cur, a), (cur, b), (cur, c)] ++ l.map (fun i => (blk, i))) cur =
      [a, b, c] := by
  have hf : (l.map (fun i => (blk, i))).filter (fun x => x.1 == cur) = [] := by
    rw [List.filter_eq_nil_iff]
    intro x hx
    obtain ⟨i, -, rfl⟩ := List.mem_map.1 hx
    simpa using fun hh => h hh.symm
  simp [block_insts, List.filter_append, hf]

theorem block_insts_tail (cur blk : Nat) (a b c : Inst) (l : List Inst) (h : cur ≠ blk) :
    block_insts ([(cur, a), (cur, b), (cur, c)] ++ l.map (fun i => (blk, i))) blk = l := by
  have hf : (l.map (fun i => (blk, i))).filter (fun x => x.1 == blk) =
      l.map (fun i => (blk, i)) := by
    rw [List.filter_eq_self]
    intro x hx
    obtain ⟨i, -, rfl⟩ := List.mem_map.1 hx
    simp
  simp [block_insts, List.filter_append, hf, h]

theorem block_insts_other (cur blk other : Nat) (a b c : Inst) (l : List Inst)
    (h1 : other ≠ cur) (h2 : other ≠ blk) :
    block_insts ([(cur, a), (cur, b), (cur, c)] ++ l.map (fun i => (blk, i))) other = [] := by
  have hf : (l.map (fun i => (blk, i))).filter (fun x => x.1 == other) = [] := by
    rw [List.filter_eq_nil_iff]
    intro x hx
    obtain ⟨i, -, rfl⟩ := List.mem_map.1 hx
    simpa using fun hh => h2 hh.symm
  have h1' : cur ≠ other := fun hh => h1 hh.symm
  simp [block_insts, List.filter_append, hf, h1']

/-- The code `emit_bounds_check` emits when bounds checking is on. -/
theorem emit_bounds_check_code (ctx : jl_codectx_t) (ainfo : jl_cgval_t) (ty : jl_value_t)
    (i len : Value) (boundscheck : jl_value_t) (s : BuilderState)
    (hen : bounds_check_enabled ctx boundscheck = true) :
    ∃ pre n fn args,
      (emit_bounds_check ctx ainfo ty i len boundscheck).emitted s =
        [(s.cur, Inst.sub s.next i (Value.const_int 64 1)),
          (s.cur, Inst.icmp_ult (s.next + 1) (Value.reg s.next i.getType) len),
          (s.cur, Inst.cond_br (Value.reg (s.next + 1) (.int 1)) (s.next + 3) (s.next + 2))] ++
        (pre ++ [Inst.call n fn args, Inst.unreachable]).map (fun x => (s.next + 2, x)) ∧
      (emit_bounds_check ctx ainfo ty i len boundscheck s).1 = Value.reg s.next i.getType ∧
      (emit_bounds_check ctx ainfo ty i len boundscheck s).2.cur = s.next + 3 ∧
      fn ∈ bounds_error_funcs ∧ ∀ x ∈ pre, x.is_call = false := by
  obtain ⟨pre, n, fn, args, hc, hcur, -, -, hfn, hpre⟩ := emit_bounds_error_code ctx ainfo ty
    i len ⟨s.next + 1 + 1 + 1 + 1, s.blocks ++ [(s.next + 1 + 1, "fail")] ++
      [(s.next + 1 + 1 + 1, "pass")], s.next + 1 + 1,
      s.code ++ [(s.cur, Inst.sub s.next i (Value.const_int 64 1))] ++
        [(s.cur, Inst.icmp_ult (s.next + 1) (Value.reg s.next i.getType) len)] ++
        [(s.cur, Inst.cond_br (Value.reg (s.next + 1) (.int 1)) (s.next + 1 + 1 + 1)
          (s.next + 1 + 1))]⟩
  refine ⟨pre, n, fn, args, ?_, ?_, ?_, hfn, hpre⟩
  · simp only [Builder.emitted, emit_bounds_check, hen, if_true, Builder.bind_apply,
      Builder.pure_apply, CreateSub, CreateICmpULT, CreateCondBr, CreateUnreachable,
      BasicBlock_Create, SetInsertPoint, insert_val, insert_inst, insert_void, hc, hcur]
    simp only [List.append_assoc, List.drop_left, List.map_append, List.map_cons,
      List.map_nil, List.cons_append, List.nil_append]
  · simp only [emit_bounds_check, hen, if_true, Builder.bind_apply,
      Builder.pure_apply, CreateSub, insert_val, insert_inst]
  · simp only [emit_bounds_check, hen, if_true, Builder.bind_apply,
      Builder.pure_apply, CreateSub, CreateICmpULT, CreateCondBr, CreateUnreachable,
      BasicBlock_Create, SetInsertPoint, insert_val, insert_inst, insert_void]

/-- Setting the value of a later instruction leaves the value of an operand that
existed before. -/
theorem Value.eval_set (v : Value) (m : Machine) (n d x : Nat)
    (hv : ∀ k t, v = Value.reg k t → k < n) (hd : n ≤ d) :
    v.eval (m.set d x) = v.eval m := by
  cases v with
  | reg k t =>
    have := hv k t rfl
    have hne : k ≠ d := by omega
    simp [Value.eval, Machine.set, hne]
  | _ => rfl

theorem Value.eval_reg (m : Machine) (k : Nat) (t : IRType) :
    (Value.reg k t).eval m = m.reg k := rfl

theorem Value.eval_const_int (m : Machine) (bits v : Nat) :
    (Value.const_int bits v).eval m = v % 2 ^ bits := rfl

theorem Machine.set_reg_self (m : Machine) (d x : Nat) : (m.set d x).reg d = x := by
  simp [Machine.set]

theorem Machine.set_reg_ne (m : Machine) (d x k : Nat) (h : k ≠ d) :
    (m.set d x).reg k = m.reg k := by
  simp [Machine.set, h]

theorem Machine.set_calls (m : Machine) (d x : Nat) : (m.set d x).calls = m.calls := rfl

/-- The comparison of the bounds check: `(i - 1) mod 2^64 <u len` says `1 ≤ i ≤ len`. -/
theorem bounds_check_arith (i len : Nat) (hi : i < 2 ^ 64) (hl : len < 2 ^ 64) :
    ((i + 2 ^ 64 - 1 % 2 ^ 64) % 2 ^ 64 < len) ↔ (1 ≤ i ∧ i ≤ len) := by
  have h1 : (1 : Nat) % 2 ^ 64 = 1 := by norm_num
  rw [h1]
  rcases Nat.eq_zero_or_pos i with h0 | hpos
  · subst h0
    have : (0 + 2 ^ 64 - 1) % 2 ^ 64 = 2 ^ 64 - 1 := by norm_num
    rw [this]
    omega
  · have : (i + 2 ^ 64 - 1) % 2 ^ 64 = i - 1 := by
      have he : i + 2 ^ 64 - 1 = (i - 1) + 2 ^ 64 := by omega
      rw [he, Nat.add_mod_right, Nat.mod_eq_of_lt (by omega)]
    rw [this]
    omega

/-- C15: with bounds checking enabled, on every machine state where `i` and `len` hold
machine words, the block `emit_bounds_check` extends ends in a branch that goes to the
pass block if `1 ≤ i ≤ len` and to the fail block otherwise (`i = 0` and `i = len + 1`
included); the value returned is `(i - 1) mod 2^64`, the zero-based index when the check
passes, and then the run falls to the insertion point, the start of the pass block; the
fail block holds instructions that are no calls, then one call of a bounds error, then
`unreachable`. -/
theorem emit_bounds_check_spec (ctx : jl_codectx_t) (ainfo : jl_cgval_t) (ty : jl_value_t)
    (i len : Value) (boundscheck : jl_value_t) (s : BuilderState) (m : Machine)
    (hen : bounds_check_enabled ctx boundscheck = true)
    (hity : i.getType = T_size) (hcur : s.cur < s.next)
    (hl : ∀ k t, len = Value.reg k t → k < s.next)
    (hiv : i.eval m < 2 ^ 64) (hlv : len.eval m < 2 ^ 64) :
    (∃ m1, run_block ((emit_bounds_check ctx ainfo ty i len boundscheck).emitted s) s.cur
        (block_insts ((emit_bounds_check ctx ainfo ty i len boundscheck).emitted s) s.cur) m =
          .inr (if 1 ≤ i.eval m ∧ i.eval m ≤ len.eval m then s.next + 3 else s.next + 2, m1) ∧
      (emit_bounds_check ctx ainfo ty i len boundscheck s).1.eval m1 =
        (i.eval m + 2 ^ 64 - 1) % 2 ^ 64 ∧ m1.calls = m.calls) ∧
    (1 ≤ i.eval m ∧ i.eval m ≤ len.eval m →
      ∃ m1, run ((emit_bounds_check ctx ainfo ty i len boundscheck).emitted s) 2 s.cur m =
          Outcome.fell (s.next + 3) m1 ∧
        (emit_bounds_check ctx ainfo ty i len boundscheck s).2.cur = s.next + 3 ∧
        (emit_bounds_check ctx ainfo ty i len boundscheck s).1.eval m1 = i.eval m - 1 ∧
        m1.calls = m.calls) ∧
    ∃ pre n fn args,
      block_insts ((emit_bounds_check ctx ainfo ty i len boundscheck).emitted s)
        (s.next + 2) = pre ++ [Inst.call n fn args, Inst.unreachable] ∧
      fn ∈ bounds_error_funcs ∧ ∀ x ∈ pre, x.is_call = false := by
  obtain ⟨pre, n, fn, args, hcode, hret, hcur', hfn, hpre⟩ :=
    emit_bounds_check_code ctx ainfo ty i len boundscheck s hen
  have hne : s.cur ≠ s.next + 2 := by omega
  have hw : i.width = 64 := by simp [Value.width, hity, T_size]
  have hlen : ∀ x, len.eval (m.set s.next x) = len.eval m :=
    fun x => Value.eval_set len m s.next s.next x hl (Nat.le_refl _)
  have harith := bounds_check_arith (i.eval m) (len.eval m) hiv hlv
  have hblock : run_block ((emit_bounds_check ctx ainfo ty i len boundscheck).emitted s) s.cur
      (block_insts ((emit_bounds_check ctx ainfo ty i len boundscheck).emitted s) s.cur) m =
      .inr (if 1 ≤ i.eval m ∧ i.eval m ≤ len.eval m then s.next + 3 else s.next + 2,
        (m.set s.next ((i.eval m + 2 ^ 64 - 1 % 2 ^ 64) % 2 ^ 64)).set (s.next + 1)
          (if (i.eval m + 2 ^ 64 - 1 % 2 ^ 64) % 2 ^ 64 < len.eval m then 1 else 0)) := by
    rw [hcode, block_insts_head _ _ _ _ _ _ hne]
    simp only [run_block, Inst.exec]
    rw [hw]
    simp only [Value.eval_reg, Value.eval_const_int, hlen, Machine.set_reg_self, Nat.mod_mod]
    by_cases hb : (i.eval m + 2 ^ 64 - 1 % 2 ^ 64) % 2 ^ 64 < len.eval m
    · have := harith.1 hb
      simp only [hb, this, if_true, and_self, ne_eq, one_ne_zero, not_false_eq_true]
    · have : ¬ (1 ≤ i.eval m ∧ i.eval m ≤ len.eval m) := fun h => hb (harith.2 h)
      simp only [hb, this, if_false, ne_eq, not_true_eq_false]
  have hval : ∀ x, (emit_bounds_check ctx ainfo ty i len boundscheck s).1.eval
      ((m.set s.next ((i.eval m + 2 ^ 64 - 1 % 2 ^ 64) % 2 ^ 64)).set (s.next + 1) x) =
      (i.eval m + 2 ^ 64 - 1) % 2 ^ 64 := by
    intro x
    have h1 : (1 : Nat) % 2 ^ 64 = 1 := by norm_num
    rw [hret, Value.eval_reg, Machine.set_reg_ne _ (s.next + 1) _ s.next (by omega),
      Machine.set_reg_self, h1]
  refine ⟨⟨_, hblock, hval _, rfl⟩, ?_, ?_⟩
  · intro hin
    refine ⟨{ (m.set s.next ((i.eval m + 2 ^ 64 - 1 % 2 ^ 64) % 2 ^ 64)).set (s.next + 1)
      (if (i.eval m + 2 ^ 64 - 1 % 2 ^ 64) % 2 ^ 64 < len.eval m then 1 else 0) with
      prev := s.cur }, ?_, hcur', ?_, rfl⟩
    · have hpass : block_insts ((emit_bounds_check ctx ainfo ty i len boundscheck).emitted s)
          (s.next + 3) = [] := by
        rw [hcode]
        exact block_insts_other _ _ _ _ _ _ _ (by omega) (by omega)
      simp only [run, hblock, if_pos hin, hpass, run_block]
    · have := hval (if (i.eval m + 2 ^ 64 - 1 % 2 ^ 64) % 2 ^ 64 < len.eval m then 1 else 0)
      rw [hret, Value.eval_reg] at this ⊢
      show ((m.set s.next ((i.eval m + 2 ^ 64 - 1 % 2 ^ 64) % 2 ^ 64)).set (s.next + 1)
        (if (i.eval m + 2 ^ 64 - 1 % 2 ^ 64) % 2 ^ 64 < len.eval m then 1 else 0)).reg
          s.next = i.eval m - 1
      rw [this]
      have he : i.eval m + 2 ^ 64 - 1 = (i.eval m - 1) + 2 ^ 64 := by omega
      rw [he, Nat.add_mod_right, Nat.mod_eq_of_lt (by omega)]
  · refine ⟨pre, n, fn, args, ?_, hfn, hpre⟩
    rw [hcode]
    exact block_insts_tail _ _ _ _ _ _ hne

/-- The theorem of C15 at the index 4 into 3 fields: the branch goes to the fail
block. -/
theorem emit_bounds_check_spec_witness :
    (bounds_check_enabled example_ctx jl_true = true ∧
      (Value.arg 5 T_size).getType = T_size ∧
      BuilderState.init.cur < BuilderState.init.next ∧
      (∀ k t, Value.const_int 64 3 = Value.reg k t → k < BuilderState.init.next) ∧
      (Value.arg 5 T_size).eval (example_machine 4) < 2 ^ 64 ∧
      (Value.const_int 64 3).eval (example_machine 4) < 2 ^ 64) ∧
    ((∃ m1, run_block ((emit_bounds_check example_ctx example_boxed (jl_value_t.datatype 1)
          (Value.arg 5 T_size) (Value.const_int 64 3) jl_true).emitted BuilderState.init)
        BuilderState.init.cur
        (block_insts ((emit_bounds_check example_ctx example_boxed (jl_value_t.datatype 1)
          (Value.arg 5 T_size) (Value.const_int 64 3) jl_true).emitted BuilderState.init)
          BuilderState.init.cur) (example_machine 4) =
          .inr (if 1 ≤ (Value.arg 5 T_size).eval (example_machine 4) ∧
            (Value.arg 5 T_size).eval (example_machine 4) ≤
              (Value.const_int 64 3).eval (example_machine 4)
            then BuilderState.init.next + 3 else BuilderState.init.next + 2, m1) ∧
      (emit_bounds_check example_ctx example_boxed (jl_value_t.datatype 1)
        (Value.arg 5 T_size) (Value.const_int 64 3) jl_true BuilderState.init).1.eval m1 =
        ((Value.arg 5 T_size).eval (example_machine 4) + 2 ^ 64 - 1) % 2 ^ 64 ∧
      m1.calls = (example_machine 4).calls) ∧
    (1 ≤ (Value.arg 5 T_size).eval (example_machine 4) ∧
      (Value.arg 5 T_size).eval (example_machine 4) ≤
        (Value.const_int 64 3).eval (example_machine 4) →
      ∃ m1, run ((emit_bounds_check example_ctx example_boxed (jl_value_t.datatype 1)
          (Value.arg 5 T_size) (Value.const_int 64 3) jl_true).emitted BuilderState.init) 2
          BuilderState.init.cur (example_machine 4) =
          Outcome.fell (BuilderState.init.next + 3) m1 ∧
        (emit_bounds_check example_ctx example_boxed (jl_value_t.datatype 1)
          (Value.arg 5 T_size) (Value.const_int 64 3) jl_true BuilderState.init).2.cur =
          BuilderState.init.next + 3 ∧
        (emit_bounds_check example_ctx example_boxed (jl_value_t.datatype 1)
          (Value.arg 5 T_size) (Value.const_int 64 3) jl_true BuilderState.init).1.eval m1 =
          (Value.arg 5 T_size).eval (example_machine 4) - 1 ∧
        m1.calls = (example_machine 4).calls) ∧
    ∃ pre n fn args,
      block_insts ((emit_bounds_check example_ctx example_boxed (jl_value_t.datatype 1)
        (Value.arg 5 T_size) (Value.const_int 64 3) jl_true).emitted BuilderState.init)
        (BuilderState.init.next + 2) = pre ++ [Inst.call n fn args, Inst.unreachable] ∧
      fn ∈ bounds_error_funcs ∧ ∀ x ∈ pre, x.is_call = false) :=
  ⟨⟨by decide, rfl, by decide, fun k t h => Value.noConfusion h, by decide, by decide⟩,
    emit_bounds_check_spec example_ctx example_boxed (jl_value_t.datatype 1)
      (Value.arg 5 T_size) (Value.const_int 64 3) jl_true BuilderState.init
      (example_machine 4) (by decide) rfl (by decide) (fun k t h => Value.noConfusion h)
      (by decide) (by decide)⟩

/-! ## Steps that emit only instructions of one kind -/

theorem Builder.EmitsOnly.pure_emits {α : Type} (P : Inst → Prop) (a : α) :
    Builder.EmitsOnly P (Pure.pure a : Builder α) :=
  ⟨fun s => ⟨[], by simp [Builder.pure_apply], Nat.le_refl _, by simp⟩⟩

theorem Builder.EmitsOnly.bind_emits {α β : Type} {P : Inst → Prop} {m : Builder α}
    {f : α → Builder β} (hm : Builder.EmitsOnly P m)
    (hf : ∀ a, Builder.EmitsOnly P (f a)) : Builder.EmitsOnly P (m >>= f) := by
  constructor
  intro s
  obtain ⟨l1, h1, n1, p1⟩ := hm.out s
  obtain ⟨l2, h2, n2, p2⟩ := (hf (m s).1).out (m s).2
  refine ⟨l1 ++ l2, ?_, ?_, ?_⟩
  · rw [Builder.bind_apply, h2, h1, List.append_assoc]
  · rw [Builder.bind_apply]
    exact Nat.le_trans n1 n2
  · intro i hi
    rcases List.mem_append.1 hi with h | h
    · exact p1 i h
    · exact p2 i h

theorem Builder.EmitsOnly.of_straight {α : Type} {P : Inst → Prop} {m : Builder α}
    (hm : Builder.Straight P m) : Builder.EmitsOnly P m := by
  constructor
  intro s
  obtain ⟨l, h, -, -, n, p⟩ := hm.out s
  refine ⟨_, h, n, ?_⟩
  intro x hx
  obtain ⟨i, hi, rfl⟩ := List.mem_map.1 hx
  exact p i hi

theorem Builder.EmitsOnly.insert_val_emits {P : Inst → Prop} (ty : IRType) (f : Nat → Inst)
    (h : ∀ n, P (f n)) : Builder.EmitsOnly P (insert_val ty f) :=
  Builder.EmitsOnly.of_straight (Builder.Straight.of_insert_val ty f h)

theorem Builder.EmitsOnly.insert_void_emits {P : Inst → Prop} (i : Inst) (h : P i) :
    Builder.EmitsOnly P (insert_void i) :=
  Builder.EmitsOnly.of_straight (Builder.Straight.of_insert_void i h)

theorem Builder.EmitsOnly.of_BasicBlock_Create (P : Inst → Prop) (name : String) :
    Builder.EmitsOnly P (BasicBlock_Create name) :=
  ⟨fun s => ⟨[], by simp [BasicBlock_Create], Nat.le_succ _, by simp⟩⟩

theorem Builder.EmitsOnly.of_SetInsertPoint (P : Inst → Prop) (bb : Nat) :
    Builder.EmitsOnly P (SetInsertPoint bb) :=
  ⟨fun s => ⟨[], by simp [SetInsertPoint], Nat.le_refl _, by simp⟩⟩

theorem Builder.EmitsOnly.of_GetInsertBlock (P : Inst → Prop) :
    Builder.EmitsOnly P GetInsertBlock :=
  ⟨fun s => ⟨[], by simp [GetInsertBlock], Nat.le_refl _, by simp⟩⟩

theorem Builder.EmitsOnly.ite_emits {α : Type} {P : Inst → Prop} (c : Prop) [Decidable c]
    {a b : Builder α} (ha : Builder.EmitsOnly P a) (hb : Builder.EmitsOnly P b) :
    Builder.EmitsOnly P (if c then a else b) := by
  split
  · exact ha
  · exact hb

theorem Builder.EmitsOnly.mono {α : Type} {P Q : Inst → Prop} {m : Builder α}
    (hm : Builder.EmitsOnly P m) (h : ∀ i, P i → Q i) : Builder.EmitsOnly Q m := by
  constructor
  intro s
  obtain ⟨l, hl, n, p⟩ := hm.out s
  exact ⟨l, hl, n, fun x hx => h _ (p x hx)⟩

theorem boxed_emits (ctx : jl_codectx_t) (vinfo : jl_cgval_t) (is_promotable : Bool) :
    Builder.EmitsOnly (fun i => i.is_atomic_error = false)
      (boxed ctx vinfo is_promotable) := by
  refine Builder.EmitsOnly.mono (Builder.EmitsOnly.of_straight
    (boxed_straight ctx vinfo is_promotable)) ?_
  intro i hi
  cases i <;> simp_all [Inst.is_call, Inst.is_atomic_error]

theorem emit_getfield_union_words_emits (obj lv : Value) (st_idx align : Nat) (rem i : Nat) :
    Builder.EmitsOnly (fun i => i.is_atomic_error = false)
      (emit_getfield_union_words obj lv st_idx align rem i) := by
  induction rem generalizing i with
  | zero => exact Builder.EmitsOnly.pure_emits _ _
  | succ rem ih =>
    unfold emit_getfield_union_words
    repeat' first
      | exact ih _
      | apply Builder.EmitsOnly.insert_val_emits
      | apply Builder.EmitsOnly.insert_void_emits
      | apply Builder.EmitsOnly.pure_emits
      | apply Builder.EmitsOnly.bind_emits
      | intro _
      | unfold CreateExtractValue emit_ptrgep emit_helper CreateStore
      | rfl

theorem emit_getfield_union_bytes_emits (obj staddr : Value) (st_idx : Nat) (rem i : Nat) :
    Builder.EmitsOnly (fun i => i.is_atomic_error = false)
      (emit_getfield_union_bytes obj staddr st_idx rem i) := by
  induction rem generalizing i with
  | zero => exact Builder.EmitsOnly.pure_emits _ _
  | succ rem ih =>
    unfold emit_getfield_union_bytes
    repeat' first
      | exact ih _
      | apply Builder.EmitsOnly.insert_val_emits
      | apply Builder.EmitsOnly.insert_void_emits
      | apply Builder.EmitsOnly.pure_emits
      | apply Builder.EmitsOnly.bind_emits
      | intro _
      | unfold CreateExtractValue emit_ptrgep emit_helper CreateStore
      | rfl

theorem null_pointer_check_emits (v : Value) (has_nullcheck : Bool) :
    Builder.EmitsOnly (fun i => i.is_atomic_error = false)
      (null_pointer_check v has_nullcheck) := by
  unfold null_pointer_check
  repeat' first
    | apply Builder.EmitsOnly.ite_emits
    | apply Builder.EmitsOnly.insert_val_emits
    | apply Builder.EmitsOnly.insert_void_emits
    | apply Builder.EmitsOnly.pure_emits
    | apply Builder.EmitsOnly.of_BasicBlock_Create
    | apply Builder.EmitsOnly.of_SetInsertPoint
    | apply Builder.EmitsOnly.bind_emits
    | intro _
    | unfold null_pointer_cmp literal_pointer_val raise_exception_unless raise_exception
        mark_callee_rooted CreateAddrSpaceCast CreateICmpNE CreateCall CreateCondBr
        CreateUnreachable
    | split
    | rfl

theorem emit_getfield_knownidx_roots_emits (ctx : jl_codectx_t) (strct : jl_cgval_t)
    (idx : Nat) (jt : jl_datatype_t) (maybe_null has_nullcheck : Bool) :
    Builder.EmitsOnly (fun i => i.is_atomic_error = false)
      (emit_getfield_knownidx_roots ctx strct idx jt maybe_null has_nullcheck) := by
  unfold emit_getfield_knownidx_roots
  simp only []
  repeat (any_goals first
    | apply Builder.EmitsOnly.ite_emits
    | apply Builder.EmitsOnly.insert_val_emits
    | apply Builder.EmitsOnly.insert_void_emits
    | apply Builder.EmitsOnly.pure_emits
    | apply Builder.EmitsOnly.of_BasicBlock_Create
    | apply Builder.EmitsOnly.of_SetInsertPoint
    | apply Builder.EmitsOnly.of_GetInsertBlock
    | apply Builder.EmitsOnly.bind_emits
    | intro _
    | unfold null_pointer_check null_pointer_cmp literal_pointer_val
        raise_exception_unless raise_exception mark_callee_rooted CreateAddrSpaceCast
        CreateICmpNE CreateCall CreateCondBr CreateUnreachable emit_ptrgep emit_unionload
        typed_load emit_helper
    | split
    | rfl)

theorem emit_getfield_knownidx_pointer_emits (ctx : jl_codectx_t) (strct : jl_cgval_t)
    (idx : Nat) (jt : jl_datatype_t) (order : jl_memory_order) (needlock : Option Value)
    (maybe_null has_nullcheck : Bool) :
    Builder.EmitsOnly (fun i => i.is_atomic_error = false)
      (emit_getfield_knownidx_pointer ctx strct idx jt order needlock maybe_null
        has_nullcheck) := by
  unfold emit_getfield_knownidx_pointer
  simp only []
  repeat (any_goals first
    | apply Builder.EmitsOnly.ite_emits
    | apply Builder.EmitsOnly.insert_val_emits
    | apply Builder.EmitsOnly.insert_void_emits
    | apply Builder.EmitsOnly.pure_emits
    | apply Builder.EmitsOnly.of_BasicBlock_Create
    | apply Builder.EmitsOnly.of_SetInsertPoint
    | apply Builder.EmitsOnly.of_GetInsertBlock
    | apply Builder.EmitsOnly.bind_emits
    | intro _
    | unfold null_pointer_check null_pointer_cmp literal_pointer_val
        raise_exception_unless raise_exception mark_callee_rooted CreateAddrSpaceCast
        CreateICmpNE CreateCall CreateCondBr CreateUnreachable emit_ptrgep emit_unionload
        typed_load emit_helper data_pointer maybe_decay_tracked CreateLoad
        emit_lockstate_value
    | split
    | rfl)

theorem emit_getfield_knownidx_unboxed_emits (ctx : jl_codectx_t) (obj : Value)
    (idx : Nat) (jt : jl_datatype_t) (maybe_null has_nullcheck : Bool) :
    Builder.EmitsOnly (fun i => i.is_atomic_error = false)
      (emit_getfield_knownidx_unboxed ctx obj idx jt maybe_null has_nullcheck) := by
  unfold emit_getfield_knownidx_unboxed
  simp only []
  repeat (any_goals first
    | apply Builder.EmitsOnly.ite_emits
    | apply Builder.EmitsOnly.insert_val_emits
    | apply Builder.EmitsOnly.insert_void_emits
    | apply Builder.EmitsOnly.pure_emits
    | apply Builder.EmitsOnly.of_BasicBlock_Create
    | apply Builder.EmitsOnly.of_SetInsertPoint
    | apply Builder.EmitsOnly.of_GetInsertBlock
    | apply Builder.EmitsOnly.bind_emits
    | intro _
    | exact emit_getfield_union_words_emits _ _ _ _ _ _
    | exact emit_getfield_union_bytes_emits _ _ _ _ _
    | unfold null_pointer_check null_pointer_cmp literal_pointer_val
        raise_exception_unless raise_exception mark_callee_rooted CreateAddrSpaceCast
        CreateICmpNE CreateCall CreateCondBr CreateUnreachable emit_ptrgep emit_helper
        emit_static_alloca CreateExtractValue CreateNUWAdd CreateExtractElement
        extract_first_ptr
    | split
    | rfl)

/-- When the requested order fits the atomicity of the field, `emit_getfield_knownidx`
emits no call of the atomic-usage error. -/
theorem emit_getfield_knownidx_emits (ctx : jl_codectx_t) (strct : jl_cgval_t)
    (idx : Nat) (jt : jl_datatype_t) (order : jl_memory_order) (has_nullcheck : Bool)
    (h1 : (!jl_field_isatomic jt idx && decide (order ≠ jl_memory_order.notatomic) &&
      decide (order ≠ jl_memory_order.unspecified)) = false)
    (h2 : (jl_field_isatomic jt idx && decide (order = jl_memory_order.notatomic)) = false) :
    Builder.EmitsOnly (fun i => i.is_atomic_error = false)
      (emit_getfield_knownidx ctx strct idx jt order has_nullcheck) := by
  unfold emit_getfield_knownidx
  simp only [h1, h2, Bool.false_eq_true, if_false]
  repeat (any_goals first
    | exact boxed_emits _ _ _
    | exact emit_getfield_knownidx_roots_emits _ _ _ _ _ _
    | exact emit_getfield_knownidx_pointer_emits _ _ _ _ _ _ _ _
    | exact emit_getfield_knownidx_unboxed_emits _ _ _ _ _ _
    | apply Builder.EmitsOnly.ite_emits
    | apply Builder.EmitsOnly.insert_val_emits
    | apply Builder.EmitsOnly.insert_void_emits
    | apply Builder.EmitsOnly.pure_emits
    | apply Builder.EmitsOnly.of_BasicBlock_Create
    | apply Builder.EmitsOnly.of_SetInsertPoint
    | apply Builder.EmitsOnly.of_GetInsertBlock
    | apply Builder.EmitsOnly.bind_emits
    | intro _
    | unfold literal_pointer_val raise_exception mark_callee_rooted CreateAddrSpaceCast
        CreateCall CreateUnreachable
    | split
    | rfl)

/-- What `emit_atomic_error` does: the pointer to the message, the call of
`jlatomicerror_func`, `unreachable`, and a fresh block `after_error` to go on in. -/
theorem emit_atomic_error_run (msg : String) (s : BuilderState) :
    emit_atomic_error msg s = ((),
      { next := s.next + 3
        blocks := s.blocks ++ [(s.next + 2, "after_error")]
        cur := s.next + 2
        code := s.code ++ [
          (s.cur, Inst.addrspacecast s.next (Value.string_global msg) (.ptr 0)),
          (s.cur, Inst.call (s.next + 1) "jlatomicerror_func" [Value.reg s.next (.ptr 0)]),
          (s.cur, Inst.unreachable)] }) := by
  simp only [emit_atomic_error, emit_error, just_emit_error, stringConstPtr,
    CreateAddrSpaceCast, CreateCall, CreateUnreachable, BasicBlock_Create, SetInsertPoint,
    insert_val, insert_inst, insert_void, Builder.bind_apply, Builder.pure_apply,
    AddressSpace.Generic, List.append_assoc, List.cons_append, List.nil_append]

/-- C11: `emit_getfield_knownidx` emits a call of the atomic-usage error exactly when the
requested order does not fit the atomicity of the field: the field is not atomic and
the order is neither not-atomic nor unspecified, or the field is atomic and the order is
not-atomic. In these two cases it emits nothing but the pointer to the message (the
message of the case), the call of `jlatomicerror_func` and `unreachable`, with no
conditional branch, opens the block `after_error` and returns the empty value. An
unspecified order never gives the error. -/
theorem emit_getfield_knownidx_atomic_error (ctx : jl_codectx_t) (strct : jl_cgval_t)
    (idx : Nat) (jt : jl_datatype_t) (order : jl_memory_order) (has_nullcheck : Bool)
    (s : BuilderState) :
    ((∃ x ∈ (emit_getfield_knownidx ctx strct idx jt order has_nullcheck).emitted s,
        x.2.is_atomic_error = true) ↔
      ((jl_field_isatomic jt idx = false ∧ order ≠ jl_memory_order.notatomic ∧
          order ≠ jl_memory_order.unspecified) ∨
        (jl_field_isatomic jt idx = true ∧ order = jl_memory_order.notatomic))) ∧
    (jl_field_isatomic jt idx = false ∧ order ≠ jl_memory_order.notatomic ∧
        order ≠ jl_memory_order.unspecified →
      emit_getfield_knownidx ctx strct idx jt order has_nullcheck s =
        ((jl_cgval_empty, none),
          { next := s.next + 3
            blocks := s.blocks ++ [(s.next + 2, "after_error")]
            cur := s.next + 2
            code := s.code ++ [
              (s.cur, Inst.addrspacecast s.next (Value.string_global
                "getfield: non-atomic field cannot be accessed atomically") (.ptr 0)),
              (s.cur, Inst.call (s.next + 1) "jlatomicerror_func"
                [Value.reg s.next (.ptr 0)]),
              (s.cur, Inst.unreachable)] })) ∧
    (jl_field_isatomic jt idx = true ∧ order = jl_memory_order.notatomic →
      emit_getfield_knownidx ctx strct idx jt order has_nullcheck s =
        ((jl_cgval_empty, none),
          { next := s.next + 3
            blocks := s.blocks ++ [(s.next + 2, "after_error")]
            cur := s.next + 2
            code := s.code ++ [
              (s.cur, Inst.addrspacecast s.next (Value.string_global
                "getfield: atomic field cannot be accessed non-atomically") (.ptr 0)),
              (s.cur, Inst.call (s.next + 1) "jlatomicerror_func"
                [Value.reg s.next (.ptr 0)]),
              (s.cur, Inst.unreachable)] })) ∧
    (order = jl_memory_order.unspecified →
      ∀ x ∈ (emit_getfield_knownidx ctx strct idx jt order has_nullcheck).emitted s,
        x.2.is_atomic_error = false) := by
  have hA : jl_field_isatomic jt idx = false ∧ order ≠ jl_memory_order.notatomic ∧
      order ≠ jl_memory_order.unspecified →
      emit_getfield_knownidx ctx strct idx jt order has_nullcheck s =
        ((jl_cgval_empty, none),
          { next := s.next + 3
            blocks := s.blocks ++ [(s.next + 2, "after_error")]
            cur := s.next + 2
            code := s.code ++ [
              (s.cur, Inst.addrspacecast s.next (Value.string_global
                "getfield: non-atomic field cannot be accessed atomically") (.ptr 0)),
              (s.cur, Inst.call (s.next + 1) "jlatomicerror_func"
                [Value.reg s.next (.ptr 0)]),
              (s.cur, Inst.unreachable)] }) := by
    rintro ⟨ha, h1, h2⟩
    have hc : (!jl_field_isatomic jt idx && decide (order ≠ jl_memory_order.notatomic) &&
        decide (order ≠ jl_memory_order.unspecified)) = true := by simp [ha, h1, h2]
    simp only [emit_getfield_knownidx, hc, if_true, Builder.bind_apply, Builder.pure_apply,
      emit_atomic_error_run]
  have hB : jl_field_isatomic jt idx = true ∧ order = jl_memory_order.notatomic →
      emit_getfield_knownidx ctx strct idx jt order has_nullcheck s =
        ((jl_cgval_empty, none),
          { next := s.next + 3
            blocks := s.blocks ++ [(s.next + 2, "after_error")]
            cur := s.next + 2
            code := s.code ++ [
              (s.cur, Inst.addrspacecast s.next (Value.string_global
                "getfield: atomic field cannot be accessed non-atomically") (.ptr 0)),
              (s.cur, Inst.call (s.next + 1) "jlatomicerror_func"
                [Value.reg s.next (.ptr 0)]),
              (s.cur, Inst.unreachable)] }) := by
    rintro ⟨ha, h1⟩
    have hc1 : (!jl_field_isatomic jt idx && decide (order ≠ jl_memory_order.notatomic) &&
        decide (order ≠ jl_memory_order.unspecified)) = false := by simp [ha]
    have hc2 : (jl_field_isatomic jt idx && decide (order = jl_memory_order.notatomic)) =
        true := by simp [ha, h1]
    simp only [emit_getfield_knownidx, hc1, hc2, if_true, Bool.false_eq_true, if_false,
      Builder.bind_apply, Builder.pure_apply, emit_atomic_error_run]
  have hC : ¬ ((jl_field_isatomic jt idx = false ∧ order ≠ jl_memory_order.notatomic ∧
          order ≠ jl_memory_order.unspecified) ∨
        (jl_field_isatomic jt idx = true ∧ order = jl_memory_order.notatomic)) →
      ∀ x ∈ (emit_getfield_knownidx ctx strct idx jt order has_nullcheck).emitted s,
        x.2.is_atomic_error = false := by
    intro hno
    have h1 : (!jl_field_isatomic jt idx && decide (order ≠ jl_memory_order.notatomic) &&
        decide (order ≠ jl_memory_order.unspecified)) = false := by
      cases hf : jl_field_isatomic jt idx <;> simp_all
    have h2 : (jl_field_isatomic jt idx && decide (order = jl_memory_order.notatomic)) =
        false := by
      cases hf : jl_field_isatomic jt idx <;> simp_all
    obtain ⟨l, hl, -, hp⟩ := (emit_getfield_knownidx_emits ctx strct idx jt order
      has_nullcheck h1 h2).out s
    intro x hx
    rw [Builder.emitted, hl, List.drop_left] at hx
    exact hp x hx
  refine ⟨⟨?_, ?_⟩, hA, hB, ?_⟩
  · rintro ⟨x, hx, hxe⟩
    by_contra hno
    have := hC hno x hx
    rw [hxe] at this
    exact absurd this (by decide)
  · rintro (h | h)
    · refine ⟨(s.cur, Inst.call (s.next + 1) "jlatomicerror_func"
        [Value.reg s.next (.ptr 0)]), ?_, rfl⟩
      rw [Builder.emitted, hA h]
      simp
    · refine ⟨(s.cur, Inst.call (s.next + 1) "jlatomicerror_func"
        [Value.reg s.next (.ptr 0)]), ?_, rfl⟩
      rw [Builder.emitted, hB h]
      simp
  · intro hu
    apply hC
    rintro (⟨-, -, h⟩ | ⟨-, h⟩)
    · exact h hu
    · rw [hu] at h
      exact absurd h (by decide)

/-- What `null_pointer_check` emits when it checks at once: the comparison with null,
the branch, and in the fail block the throw of the undefined-reference error. -/
theorem null_pointer_check_run (v : Value) (s : BuilderState) :
    null_pointer_check v false s = (none,
      { next := s.next + 7
        blocks := s.blocks ++ [(s.next + 3, "fail"), (s.next + 4, "pass")]
        cur := s.next + 4
        code := s.code ++ [
          (s.cur, Inst.addrspacecast s.next (Value.null_value (.ptr 0)) v.getType),
          (s.cur, Inst.icmp_ne (s.next + 1) v (Value.reg s.next v.getType)),
          (s.cur, Inst.load_literal (s.next + 2) jl_undefref_exception),
          (s.cur, Inst.cond_br (Value.reg (s.next + 1) (.int 1)) (s.next + 4) (s.next + 3)),
          (s.next + 3, Inst.addrspacecast (s.next + 5) (Value.reg (s.next + 2) T_pjlvalue)
            (.ptr AddressSpace.CalleeRooted)),
          (s.next + 3, Inst.call (s.next + 6) "jlthrow_func"
            [Value.reg (s.next + 5) (.ptr AddressSpace.CalleeRooted)]),
          (s.next + 3, Inst.unreachable)] }) := by
  have h : jl_undefref_exception ≠ jl_value_t.null := by decide
  simp only [null_pointer_check, null_pointer_cmp, literal_pointer_val, h,
    raise_exception_unless, raise_exception, mark_callee_rooted, CreateAddrSpaceCast,
    CreateICmpNE, CreateCall, CreateCondBr, CreateUnreachable, BasicBlock_Create,
    SetInsertPoint, insert_val, insert_inst, insert_void, Builder.bind_apply,
    Builder.pure_apply, Bool.false_eq_true, if_false, List.append_assoc, List.cons_append,
    List.nil_append]

/-- The address a pointer field is read from: nothing but straight code. -/
theorem getfield_addr_straight (strct : jl_cgval_t) (byte_offset : Nat) :
    Builder.Straight (fun _ => True) (data_pointer strct >>= fun staddr0 =>
      if byte_offset = 0 then Pure.pure (staddr0.getD (Value.undef (.ptr 0)))
      else emit_ptrgep (staddr0.getD (Value.undef (.ptr 0))) byte_offset) := by
  unfold data_pointer
  repeat (any_goals first
    | apply Builder.Straight.of_ite
    | apply Builder.Straight.of_insert_val
    | apply Builder.Straight.of_pure
    | apply Builder.Straight.of_bind
    | intro _
    | unfold maybe_decay_tracked emit_ptrgep emit_helper CreateAddrSpaceCast
    | split
    | trivial)

theorem data_pointer_straight (strct : jl_cgval_t) :
    Builder.Straight (fun i => i.is_call = false ∧ i.is_cond_br = false)
      (data_pointer strct) := by
  unfold data_pointer
  repeat (any_goals first
    | apply Builder.Straight.of_ite
    | apply Builder.Straight.of_insert_val
    | apply Builder.Straight.of_pure
    | apply Builder.Straight.of_bind
    | intro _
    | unfold maybe_decay_tracked emit_helper CreateAddrSpaceCast
    | split
    | exact ⟨rfl, rfl⟩)

/-- The null check of a value `v` loaded as instruction `n` in block `cur`. -/
theorem emit_getfield_knownidx_pointer_ref (ctx : jl_codectx_t) (strct : jl_cgval_t)
    (idx : Nat) (jt : jl_datatype_t) (order : jl_memory_order) (needlock : Option Value)
    (maybe_null : Bool) (s : BuilderState) (hp : jl_field_isptr jt idx = true) :
    ∃ (pre : List Inst) (addr : Value) (n : Nat) (ord : AtomicOrdering),
      (emit_getfield_knownidx_pointer ctx strct idx jt order needlock maybe_null
        false).emitted s =
        pre.map (fun i => (s.cur, i)) ++
          (s.cur, Inst.load n T_prjlvalue addr sizeof_ptr ord) ::
          (if maybe_null = true then [
            (s.cur, Inst.addrspacecast (n + 1) (Value.null_value (.ptr 0)) T_prjlvalue),
            (s.cur, Inst.icmp_ne (n + 2) (Value.reg n T_prjlvalue)
              (Value.reg (n + 1) T_prjlvalue)),
            (s.cur, Inst.load_literal (n + 3) jl_undefref_exception),
            (s.cur, Inst.cond_br (Value.reg (n + 2) (.int 1)) (n + 5) (n + 4)),
            (n + 4, Inst.addrspacecast (n + 6) (Value.reg (n + 3) T_pjlvalue)
              (.ptr AddressSpace.CalleeRooted)),
            (n + 4, Inst.call (n + 7) "jlthrow_func"
              [Value.reg (n + 6) (.ptr AddressSpace.CalleeRooted)]),
            (n + 4, Inst.unreachable)]
          else []) ∧
      (emit_getfield_knownidx_pointer ctx strct idx jt order needlock maybe_null
        false s).1 =
        (ctx.mark_julia_type (Value.reg n T_prjlvalue) true (jl_field_type jt idx), none) ∧
      ∀ i ∈ pre, i.is_call = false ∧ i.is_cond_br = false := by
  obtain ⟨l, hl, hc, -, -, hP⟩ := (data_pointer_straight strct).out s
  by_cases h0 : jl_field_offset jt idx = 0
  · refine ⟨l, (data_pointer strct s).1.getD (Value.undef (.ptr 0)),
      (data_pointer strct s).2.next,
      (if order.toInt ≤ jl_memory_order.notatomic.toInt then AtomicOrdering.Unordered
        else (get_llvm_atomic_order order).getD AtomicOrdering.NotAtomic), ?_, ?_, hP⟩
    · cases maybe_null <;>
        simp only [Builder.emitted, emit_getfield_knownidx_pointer, hp, h0, if_true,
          Builder.bind_apply, Builder.pure_apply, CreateLoad, insert_val, insert_inst,
          Bool.false_eq_true, if_false, null_pointer_check_run, hl, hc, Value.getType,
          List.append_assoc, List.drop_left, List.cons_append, List.nil_append]
    · cases maybe_null <;>
        simp only [emit_getfield_knownidx_pointer, hp, h0, if_true,
          Builder.bind_apply, Builder.pure_apply, CreateLoad, insert_val, insert_inst,
          Bool.false_eq_true, if_false, null_pointer_check_run]
  · refine ⟨l ++ [Inst.helper (data_pointer strct s).2.next "emit_ptrgep"
        [(data_pointer strct s).1.getD (Value.undef (.ptr 0)),
          Value.const_int 64 (jl_field_offset jt idx)]],
      Value.reg (data_pointer strct s).2.next
        ((data_pointer strct s).1.getD (Value.undef (.ptr 0))).getType,
      (data_pointer strct s).2.next + 1,
      (if order.toInt ≤ jl_memory_order.notatomic.toInt then AtomicOrdering.Unordered
        else (get_llvm_atomic_order order).getD AtomicOrdering.NotAtomic), ?_, ?_, ?_⟩
    · cases maybe_null <;>
        simp only [Builder.emitted, emit_getfield_knownidx_pointer, hp, h0, if_true,
          Builder.bind_apply, Builder.pure_apply, CreateLoad, insert_val, insert_inst,
          Bool.false_eq_true, if_false, null_pointer_check_run, hl, hc, Value.getType,
          emit_ptrgep, emit_helper, List.map_append, List.map_cons, List.map_nil,
          List.append_assoc, List.drop_left, List.cons_append, List.nil_append]
    · cases maybe_null <;>
        simp only [emit_getfield_knownidx_pointer, hp, h0, if_true,
          Builder.bind_apply, Builder.pure_apply, CreateLoad, insert_val, insert_inst,
          Bool.false_eq_true, if_false, null_pointer_check_run, emit_ptrgep, emit_helper]
    · intro i hi
      rcases List.mem_append.1 hi with h | h
      · exact hP i h
      · rw [List.mem_singleton] at h
        subst h
        exact ⟨rfl, rfl⟩

/-- The read of a pointer field of a value behind a pointer goes through the pointer
branch of `emit_getfield_knownidx`, with the flag of `field_may_be_null`. -/
theorem emit_getfield_knownidx_of_pointer (ctx : jl_codectx_t) (strct : jl_cgval_t)
    (idx : Nat) (jt : jl_datatype_t) (order : jl_memory_order) (has_nullcheck : Bool)
    (s : BuilderState) (hp : jl_field_isptr jt idx = true)
    (h1 : (!jl_field_isatomic jt idx && decide (order ≠ jl_memory_order.notatomic) &&
      decide (order ≠ jl_memory_order.unspecified)) = false)
    (h2 : (jl_field_isatomic jt idx && decide (order = jl_memory_order.notatomic)) = false)
    (hb : jl_field_type jt idx ≠ jl_value_t.bottom_type)
    (hg : type_is_ghost (ctx.julia_type_to_llvm (jl_field_type jt idx)) = false)
    (hr : strct.inline_roots = []) (hptr : strct.ispointer = true) :
    emit_getfield_knownidx ctx strct idx jt order has_nullcheck s =
      emit_getfield_knownidx_pointer ctx strct idx jt
        (if order = jl_memory_order.unspecified then
          (if jl_field_isatomic jt idx = true then jl_memory_order.unordered
            else jl_memory_order.notatomic)
          else order) none (field_may_be_null ctx strct jt idx) has_nullcheck s := by
  simp only [emit_getfield_knownidx, h1, h2, hb, hg, hp, hr, hptr, Bool.false_eq_true,
    if_false, if_true, Bool.not_true, Bool.and_false, Bool.false_and, List.isEmpty_nil,
    Builder.bind_apply, Builder.pure_apply]

/-- C13: for a datatype whose count of uninitialized fields does not exceed its count of
fields, `field_may_be_null(strct, stt, idx)` is true exactly when `idx` is not below
`nfields - n_uninitialized`, the field is a pointer field or its type has pointers, and
it is not so that `strct` is a constant with field `idx` defined while the type is
immutable or the field const. A trailing uninitialized reference field of a value that
is no constant gives true; a field below the always-initialized count gives false. The
read of a pointer field through a pointer emits, after the load, the null check (the
comparison with null, the branch, and the throw of the undefined-reference error in the
fail block) when the flag is true and nothing when it is false. -/
theorem field_may_be_null_spec (ctx : jl_codectx_t) (strct : jl_cgval_t)
    (stt : jl_datatype_t) (idx : Nat) (order : jl_memory_order) (s : BuilderState)
    (hnf : jl_datatype_nfields stt < 2 ^ 32)
    (hn : stt.n_uninitialized ≤ jl_datatype_nfields stt) :
    (field_may_be_null ctx strct stt idx = true ↔
      (jl_datatype_nfields stt - stt.n_uninitialized ≤ idx ∧
        (jl_field_isptr stt idx = true ∨
          ctx.jl_type_hasptr (jl_field_type stt idx) = true) ∧
        ¬ (strct.constant ≠ jl_value_t.null ∧
          (stt.mutabl = false ∨ jl_field_isconst stt idx = true) ∧
          ctx.jl_field_isdefined strct.constant idx = true))) ∧
    (jl_datatype_nfields stt - stt.n_uninitialized ≤ idx → jl_field_isptr stt idx = true →
      strct.constant = jl_value_t.null → field_may_be_null ctx strct stt idx = true) ∧
    (idx < jl_datatype_nfields stt - stt.n_uninitialized →
      field_may_be_null ctx strct stt idx = false) ∧
    (jl_field_isptr stt idx = true →
      (!jl_field_isatomic stt idx && decide (order ≠ jl_memory_order.notatomic) &&
        decide (order ≠ jl_memory_order.unspecified)) = false →
      (jl_field_isatomic stt idx && decide (order = jl_memory_order.notatomic)) = false →
      jl_field_type stt idx ≠ jl_value_t.bottom_type →
      type_is_ghost (ctx.julia_type_to_llvm (jl_field_type stt idx)) = false →
      strct.inline_roots = [] → strct.ispointer = true →
      ∃ (pre : List Inst) (addr : Value) (n : Nat) (ord : AtomicOrdering),
        (emit_getfield_knownidx ctx strct idx stt order false).emitted s =
          pre.map (fun i => (s.cur, i)) ++
            (s.cur, Inst.load n T_prjlvalue addr sizeof_ptr ord) ::
            (if field_may_be_null ctx strct stt idx = true then [
              (s.cur, Inst.addrspacecast (n + 1) (Value.null_value (.ptr 0)) T_prjlvalue),
              (s.cur, Inst.icmp_ne (n + 2) (Value.reg n T_prjlvalue)
                (Value.reg (n + 1) T_prjlvalue)),
              (s.cur, Inst.load_literal (n + 3) jl_undefref_exception),
              (s.cur, Inst.cond_br (Value.reg (n + 2) (.int 1)) (n + 5) (n + 4)),
              (n + 4, Inst.addrspacecast (n + 6) (Value.reg (n + 3) T_pjlvalue)
                (.ptr AddressSpace.CalleeRooted)),
              (n + 4, Inst.call (n + 7) "jlthrow_func"
                [Value.reg (n + 6) (.ptr AddressSpace.CalleeRooted)]),
              (n + 4, Inst.unreachable)]
            else []) ∧
        (emit_getfield_knownidx ctx strct idx stt order false s).1 =
          (ctx.mark_julia_type (Value.reg n T_prjlvalue) true (jl_field_type stt idx),
            none) ∧
        ∀ i ∈ pre, i.is_call = false ∧ i.is_cond_br = false) := by
  have hsub : size_sub (jl_datatype_nfields stt) (stt.n_uninitialized % 2 ^ 32) =
      jl_datatype_nfields stt - stt.n_uninitialized := by
    have h32 : stt.n_uninitialized % 2 ^ 32 = stt.n_uninitialized :=
      Nat.mod_eq_of_lt (by omega)
    have h64 : stt.n_uninitialized % 2 ^ 64 = stt.n_uninitialized :=
      Nat.mod_eq_of_lt (by omega)
    rw [h32, size_sub, h64]
    have he : jl_datatype_nfields stt + (2 ^ 64 - stt.n_uninitialized) =
        (jl_datatype_nfields stt - stt.n_uninitialized) + 2 ^ 64 := by omega
    rw [he, Nat.add_mod_right, Nat.mod_eq_of_lt (by omega)]
  have hiff : field_may_be_null ctx strct stt idx = true ↔
      (jl_datatype_nfields stt - stt.n_uninitialized ≤ idx ∧
        (jl_field_isptr stt idx = true ∨
          ctx.jl_type_hasptr (jl_field_type stt idx) = true) ∧
        ¬ (strct.constant ≠ jl_value_t.null ∧
          (stt.mutabl = false ∨ jl_field_isconst stt idx = true) ∧
          ctx.jl_field_isdefined strct.constant idx = true)) := by
    simp only [field_may_be_null, hsub, jl_is_immutable]
    by_cases hlt : idx < jl_datatype_nfields stt - stt.n_uninitialized
    · simp only [hlt, if_true, Bool.false_eq_true, false_iff]
      intro h
      omega
    · have hle : jl_datatype_nfields stt - stt.n_uninitialized ≤ idx := by omega
      simp only [hlt, if_false, hle, true_and]
      simp only [Bool.and_eq_true, Bool.not_eq_true', Bool.or_eq_true, ne_eq]
      split_ifs with ha hb
      · simp only [Bool.false_eq_true, false_iff]
        rintro ⟨hor, -⟩
        rcases hor with h | h
        · rw [ha.1] at h
          exact absurd h (by decide)
        · rw [ha.2] at h
          exact absurd h (by decide)
      · simp only [Bool.false_eq_true, false_iff]
        exact fun h => h.2 hb
      · simp only [true_iff]
        refine ⟨?_, hb⟩
        by_contra hno
        apply ha
        constructor
        · cases h : jl_field_isptr stt idx
          · rfl
          · exact absurd (Or.inl h) hno
        · cases h : ctx.jl_type_hasptr (jl_field_type stt idx)
          · rfl
          · exact absurd (Or.inr h) hno
  refine ⟨hiff, ?_, ?_, ?_⟩
  · intro hle hp hc
    rw [hiff]
    exact ⟨hle, Or.inl hp, fun h => h.1 hc⟩
  · intro hlt
    cases hf : field_may_be_null ctx strct stt idx with
    | false => rfl
    | true =>
      have := (hiff.1 hf).1
      omega
  · intro hp h1 h2 hb hg hr hptr
    rw [Builder.emitted, emit_getfield_knownidx_of_pointer ctx strct idx stt order false s hp
      h1 h2 hb hg hr hptr]
    exact emit_getfield_knownidx_pointer_ref ctx strct idx stt _ none _ s hp

/-- The theorem of C13 at the one reference field of `example_mutable_ref`, read from the
boxed value `example_boxed_T1`: the flag is set and the null check follows the load. -/
theorem field_may_be_null_spec_witness :
    (jl_datatype_nfields example_mutable_ref < 2 ^ 32 ∧
      example_mutable_ref.n_uninitialized ≤ jl_datatype_nfields example_mutable_ref) ∧
    field_may_be_null example_ctx example_boxed_T1 example_mutable_ref 0 = true ∧
    ∃ (pre : List Inst) (addr : Value) (n : Nat) (ord : AtomicOrdering),
      (emit_getfield_knownidx example_ctx example_boxed_T1 0 example_mutable_ref
        jl_memory_order.notatomic false).emitted BuilderState.init =
        pre.map (fun i => (BuilderState.init.cur, i)) ++
          (BuilderState.init.cur, Inst.load n T_prjlvalue addr sizeof_ptr ord) ::
          (if field_may_be_null example_ctx example_boxed_T1 example_mutable_ref 0 = true
          then [
            (BuilderState.init.cur,
              Inst.addrspacecast (n + 1) (Value.null_value (.ptr 0)) T_prjlvalue),
            (BuilderState.init.cur, Inst.icmp_ne (n + 2) (Value.reg n T_prjlvalue)
              (Value.reg (n + 1) T_prjlvalue)),
            (BuilderState.init.cur, Inst.load_literal (n + 3) jl_undefref_exception),
            (BuilderState.init.cur,
              Inst.cond_br (Value.reg (n + 2) (.int 1)) (n + 5) (n + 4)),
            (n + 4, Inst.addrspacecast (n + 6) (Value.reg (n + 3) T_pjlvalue)
              (.ptr AddressSpace.CalleeRooted)),
            (n + 4, Inst.call (n + 7) "jlthrow_func"
              [Value.reg (n + 6) (.ptr AddressSpace.CalleeRooted)]),
            (n + 4, Inst.unreachable)]
          else []) ∧
      (emit_getfield_knownidx example_ctx example_boxed_T1 0 example_mutable_ref
        jl_memory_order.notatomic false BuilderState.init).1 =
        (example_ctx.mark_julia_type (Value.reg n T_prjlvalue) true
          (jl_field_type example_mutable_ref 0), none) ∧
      ∀ i ∈ pre, i.is_call = false ∧ i.is_cond_br = false :=
  ⟨⟨by decide, by decide⟩,
    (field_may_be_null_spec example_ctx example_boxed_T1 example_mutable_ref 0
      jl_memory_order.notatomic BuilderState.init (by decide) (by decide)).2.1
      (by decide) rfl rfl,
    (field_may_be_null_spec example_ctx example_boxed_T1 example_mutable_ref 0
      jl_memory_order.notatomic BuilderState.init (by decide) (by decide)).2.2.2
      rfl rfl rfl (by decide) rfl rfl rfl⟩

/-! ## The select chain of `emit_getfield_unknownidx` -/

theorem Value.getType_reg (k : Nat) (t : IRType) : (Value.reg k t).getType = t := rfl

theorem is_datatype_all_pointers_false (stt : jl_datatype_t) (h0 : 0 < jl_datatype_nfields stt)
    (hnp : jl_field_isptr stt 0 = false) : is_datatype_all_pointers stt = false := by
  unfold is_datatype_all_pointers
  rw [Bool.eq_false_iff]
  intro h
  rw [List.all_eq_true] at h
  have := h 0 (List.mem_range.2 h0)
  rw [hnp] at this
  exact absurd this (by decide)

/-- The code for an unboxed homogeneous array of two fields: the bounds check `B`, the
first element, and for each further element a comparison, an extraction and a select. -/
theorem emit_getfield_unknownidx_two (ctx : jl_codectx_t) (strct : jl_cgval_t)
    (idx V : Value) (stt : jl_datatype_t) (inbounds : jl_value_t) (order : jl_memory_order)
    (s : BuilderState) (B : Value × BuilderState) (hn : jl_datatype_nfields stt = 2)
    (hB : emit_bounds_check ctx strct stt.value idx (Value.const_int 64 2) inbounds s = B)
    (hroots : strct.inline_roots = []) (hptr : strct.ispointer = false)
    (hghost : strct.isghost = false) (hV : strct.V = some V)
    (harr : V.getType.isArrayTy = true)
    (hsame : is_tupletype_homogeneous ctx (jl_get_fieldtypes stt) = true)
    (hnp : jl_field_isptr stt 0 = false) :
    emit_getfield_unknownidx ctx strct idx stt inbounds order s =
      (some (ctx.mark_julia_type
          (Value.reg (B.2.next + 3) (V.getType.getElementType 1)) false
          ((jl_get_fieldtypes stt).headD jl_value_t.null)),
        { B.2 with
          next := B.2.next + 4
          code := B.2.code ++ [
            Inst.extractvalue B.2.next V 0,
            Inst.icmp_eq (B.2.next + 1) B.1 (Value.const_int B.1.width 1),
            Inst.extractvalue (B.2.next + 2) V 1,
            Inst.select (B.2.next + 3) (Value.reg (B.2.next + 1) (.int 1))
              (Value.reg (B.2.next + 2) (V.getType.getElementType 1)) (Value.reg B.2.next (V.getType.getElementType 0))].map
              (fun i => (B.2.cur, i)) }) := by
  subst hB
  have hall := is_datatype_all_pointers_false stt (by omega) hnp
  have hvec : V.getType.isVectorTy = false := by
    cases hT : V.getType <;> simp_all [IRType.isArrayTy, IRType.isVectorTy]
  simp only [emit_getfield_unknownidx, emit_getfield_unknownidx_many, hn, hroots, hptr,
    hghost, hV, harr, hvec, hsame, hall, Option.getD_some, List.isEmpty_nil,
    OfNat.ofNat_ne_zero, OfNat.ofNat_ne_one, if_false, if_true, Bool.not_false,
    Bool.and_self, Bool.and_true, Bool.and_false, Bool.true_and, Bool.false_eq_true,
    Bool.not_true, Bool.or_true, Bool.false_and, Nat.reduceSub, Nat.reduceGT,
    Nat.lt_irrefl, gt_iff_lt, Nat.reduceLT,
    decide_False, decide_True, Builder.bind_apply, Builder.pure_apply,
    emit_getfield_select_loop, CreateExtractValue, CreateICmpEQ, CreateSelect, insert_val,
    insert_inst, Value.getType_reg, List.map_cons, List.map_nil, List.append_assoc,
    List.cons_append, List.nil_append, Nat.add_assoc, Nat.reduceAdd, Nat.reduceEqDiff]

/-- The code for an unboxed homogeneous array of three fields: the bounds check `B`, the
first element, and for each further element a comparison, an extraction and a select. -/
theorem emit_getfield_unknownidx_three (ctx : jl_codectx_t) (strct : jl_cgval_t)
    (idx V : Value) (stt : jl_datatype_t) (inbounds : jl_value_t) (order : jl_memory_order)
    (s : BuilderState) (B : Value × BuilderState) (hn : jl_datatype_nfields stt = 3)
    (hB : emit_bounds_check ctx strct stt.value idx (Value.const_int 64 3) inbounds s = B)
    (hroots : strct.inline_roots = []) (hptr : strct.ispointer = false)
    (hghost : strct.isghost = false) (hV : strct.V = some V)
    (harr : V.getType.isArrayTy = true)
    (hsame : is_tupletype_homogeneous ctx (jl_get_fieldtypes stt) = true)
    (hnp : jl_field_isptr stt 0 = false) :
    emit_getfield_unknownidx ctx strct idx stt inbounds order s =
      (some (ctx.mark_julia_type
          (Value.reg (B.2.next + 6) (V.getType.getElementType 2)) false
          ((jl_get_fieldtypes stt).headD jl_value_t.null)),
        { B.2 with
          next := B.2.next + 7
          code := B.2.code ++ [
            Inst.extractvalue B.2.next V 0,
            Inst.icmp_eq (B.2.next + 1) B.1 (Value.const_int B.1.width 1),
            Inst.extractvalue (B.2.next + 2) V 1,
            Inst.select (B.2.next + 3) (Value.reg (B.2.next + 1) (.int 1))
              (Value.reg (B.2.next + 2) (V.getType.getElementType 1)) (Value.reg B.2.next (V.getType.getElementType 0)),
            Inst.icmp_eq (B.2.next + 4) B.1 (Value.const_int B.1.width 2),
            Inst.extractvalue (B.2.next + 5) V 2,
            Inst.select (B.2.next + 6) (Value.reg (B.2.next + 4) (.int 1))
              (Value.reg (B.2.next + 5) (V.getType.getElementType 2)) (Value.reg (B.2.next + 3) (V.getType.getElementType 1))].map
              (fun i => (B.2.cur, i)) }) := by
  subst hB
  have hall := is_datatype_all_pointers_false stt (by omega) hnp
  have hvec : V.getType.isVectorTy = false := by
    cases hT : V.getType <;> simp_all [IRType.isArrayTy, IRType.isVectorTy]
  simp only [emit_getfield_unknownidx, emit_getfield_unknownidx_many, hn, hroots, hptr,
    hghost, hV, harr, hvec, hsame, hall, Option.getD_some, List.isEmpty_nil,
    OfNat.ofNat_ne_zero, OfNat.ofNat_ne_one, if_false, if_true, Bool.not_false,
    Bool.and_self, Bool.and_true, Bool.and_false, Bool.true_and, Bool.false_eq_true,
    Bool.not_true, Bool.or_true, Bool.false_and, Nat.reduceSub, Nat.reduceGT,
    Nat.lt_irrefl, gt_iff_lt, Nat.reduceLT,
    decide_False, decide_True, Builder.bind_apply, Builder.pure_apply,
    emit_getfield_select_loop, CreateExtractValue, CreateICmpEQ, CreateSelect, insert_val,
    insert_inst, Value.getType_reg, List.map_cons, List.map_nil, List.append_assoc,
    List.cons_append, List.nil_append, Nat.add_assoc, Nat.reduceAdd, Nat.reduceEqDiff]

/-! ## Running the select chain -/

/-- Running the select chain over two elements: the value selected is the element at
the zero-based index that register `r` holds. -/
theorem select_chain_two_run (code : List (Nat × Inst)) (blk N r : Nat) (V : Value)
    (m : Machine) (hr : r < N) (hj : m.reg r < 2) :
    ∃ mf, run_block code blk [
        Inst.extractvalue N V 0,
        Inst.icmp_eq (N + 1) (Value.reg r T_size)
          (Value.const_int (Value.reg r T_size).width 1),
        Inst.extractvalue (N + 2) V 1,
        Inst.select (N + 3) (Value.reg (N + 1) (.int 1))
          (Value.reg (N + 2) (V.getType.getElementType 1)) (Value.reg N (V.getType.getElementType 0))] m =
        .inl (Outcome.fell blk mf) ∧
      mf.reg (N + 3) = m.aggr V (m.reg r) ∧ mf.calls = m.calls ∧ mf.mem = m.mem ∧ mf.sp = m.sp := by
  have hw : (Value.reg r T_size).width = 64 := rfl
  have hne : ∀ k, r ≠ N + k := fun k => by omega
  have hne0 : r ≠ N := by omega
  simp only [run_block, Inst.exec]
  refine ⟨_, rfl, ?_, rfl, rfl, rfl⟩
  · simp only [hw, Value.eval_reg, Value.eval_const_int]
    have hcases : m.reg r = 0 ∨ m.reg r = 1 := by omega
    rcases hcases with h0 | h1 <;>
      simp [Machine.set, hne, hne0, *]

/-- Running the select chain over three elements: the value selected is the element at
the zero-based index that register `r` holds. -/
theorem select_chain_three_run (code : List (Nat × Inst)) (blk N r : Nat) (V : Value)
    (m : Machine) (hr : r < N) (hj : m.reg r < 3) :
    ∃ mf, run_block code blk [
        Inst.extractvalue N V 0,
        Inst.icmp_eq (N + 1) (Value.reg r T_size)
          (Value.const_int (Value.reg r T_size).width 1),
        Inst.extractvalue (N + 2) V 1,
        Inst.select (N + 3) (Value.reg (N + 1) (.int 1))
          (Value.reg (N + 2) (V.getType.getElementType 1)) (Value.reg N (V.getType.getElementType 0)),
        Inst.icmp_eq (N + 4) (Value.reg r T_size)
          (Value.const_int (Value.reg r T_size).width 2),
        Inst.extractvalue (N + 5) V 2,
        Inst.select (N + 6) (Value.reg (N + 4) (.int 1))
          (Value.reg (N + 5) (V.getType.getElementType 2)) (Value.reg (N + 3) (V.getType.getElementType 1))] m =
        .inl (Outcome.fell blk mf) ∧
      mf.reg (N + 6) = m.aggr V (m.reg r) ∧ mf.calls = m.calls ∧ mf.mem = m.mem ∧ mf.sp = m.sp := by
  have hw : (Value.reg r T_size).width = 64 := rfl
  have hne : ∀ k, r ≠ N + k := fun k => by omega
  have hne0 : r ≠ N := by omega
  simp only [run_block, Inst.exec]
  refine ⟨_, rfl, ?_, rfl, rfl, rfl⟩
  · simp only [hw, Value.eval_reg, Value.eval_const_int]
    have hcases : m.reg r = 0 ∨ m.reg r = 1 ∨ m.reg r = 2 := by omega
    rcases hcases with h0 | h1 | h2 <;>
      simp [Machine.set, hne, hne0, *]


theorem block_insts_append (a b : List (Nat × Inst)) (blk : Nat) :
    block_insts (a ++ b) blk = block_insts a blk ++ block_insts b blk := by
  simp [block_insts, List.filter_append]

theorem block_insts_map_self (l : List Inst) (blk : Nat) :
    block_insts (l.map (fun i => (blk, i))) blk = l := by
  induction l with
  | nil => rfl
  | cons a t ih =>
    simp only [block_insts, List.map_cons, List.filter_cons, beq_self_eq_true, if_true] at ih ⊢
    rw [ih]

theorem block_insts_map_ne (l : List Inst) (c blk : Nat) (h : c ≠ blk) :
    block_insts (l.map (fun i => (c, i))) blk = [] := by
  induction l with
  | nil => rfl
  | cons a t ih =>
    have hb : (c == blk) = false := by simpa using h
    simp only [block_insts, List.map_cons, List.filter_cons, hb, Bool.false_eq_true,
      if_false] at ih ⊢
    exact ih

theorem Machine.set_aggr (m : Machine) (d x : Nat) : (m.set d x).aggr = m.aggr := rfl

/-- The chain of selects that `emit_getfield_unknownidx` appends to the bounds check `B`
for an unboxed homogeneous array of two or three fields, with what a run of it gives. -/
theorem emit_getfield_unknownidx_chain (ctx : jl_codectx_t) (strct : jl_cgval_t)
    (idx V : Value) (stt : jl_datatype_t) (inbounds : jl_value_t) (order : jl_memory_order)
    (s : BuilderState) (B : Value × BuilderState)
    (hn : jl_datatype_nfields stt = 2 ∨ jl_datatype_nfields stt = 3)
    (hB : emit_bounds_check ctx strct stt.value idx
      (Value.const_int 64 (jl_datatype_nfields stt)) inbounds s = B)
    (hroots : strct.inline_roots = []) (hptr : strct.ispointer = false)
    (hghost : strct.isghost = false) (hV : strct.V = some V)
    (harr : V.getType.isArrayTy = true)
    (hsame : is_tupletype_homogeneous ctx (jl_get_fieldtypes stt) = true)
    (hnp : jl_field_isptr stt 0 = false) :
    ∃ (chain : List Inst) (fld : Value),
      (emit_getfield_unknownidx ctx strct idx stt inbounds order s).1 =
        some (ctx.mark_julia_type fld false ((jl_get_fieldtypes stt).headD jl_value_t.null)) ∧
      (emit_getfield_unknownidx ctx strct idx stt inbounds order s).2.code =
        B.2.code ++ chain.map (fun i => (B.2.cur, i)) ∧
      (emit_getfield_unknownidx ctx strct idx stt inbounds order s).2.cur = B.2.cur ∧
      (chain.filter Inst.is_select).length = jl_datatype_nfields stt - 1 ∧
      (∀ i ∈ chain, i.is_select_chain = true) ∧
      ∀ (code : List (Nat × Inst)) (blk r : Nat) (m : Machine),
        B.1 = Value.reg r T_size → r < B.2.next → m.reg r < jl_datatype_nfields stt →
        ∃ mf, run_block code blk chain m = .inl (Outcome.fell blk mf) ∧
          fld.eval mf = m.aggr V (m.reg r) ∧ mf.calls = m.calls ∧ mf.mem = m.mem ∧
            mf.sp = m.sp := by
  rcases hn with hn | hn
  · rw [hn] at hB ⊢
    rw [emit_getfield_unknownidx_two ctx strct idx V stt inbounds order s B hn hB hroots
      hptr hghost hV harr hsame hnp]
    refine ⟨[Inst.extractvalue B.2.next V 0,
        Inst.icmp_eq (B.2.next + 1) B.1 (Value.const_int B.1.width 1),
        Inst.extractvalue (B.2.next + 2) V 1,
        Inst.select (B.2.next + 3) (Value.reg (B.2.next + 1) (.int 1))
          (Value.reg (B.2.next + 2) (V.getType.getElementType 1))
          (Value.reg B.2.next (V.getType.getElementType 0))],
      Value.reg (B.2.next + 3) (V.getType.getElementType 1), rfl, rfl, rfl, rfl, ?_, ?_⟩
    · intro i hi
      simp only [List.mem_cons, List.mem_singleton, List.not_mem_nil, or_false] at hi
      rcases hi with rfl | rfl | rfl | rfl <;> rfl
    · intro code blk r m hr hlt hj
      rw [hr]
      exact select_chain_two_run code blk B.2.next r V m hlt hj
  · rw [hn] at hB ⊢
    rw [emit_getfield_unknownidx_three ctx strct idx V stt inbounds order s B hn hB hroots
      hptr hghost hV harr hsame hnp]
    refine ⟨[Inst.extractvalue B.2.next V 0,
        Inst.icmp_eq (B.2.next + 1) B.1 (Value.const_int B.1.width 1),
        Inst.extractvalue (B.2.next + 2) V 1,
        Inst.select (B.2.next + 3) (Value.reg (B.2.next + 1) (.int 1))
          (Value.reg (B.2.next + 2) (V.getType.getElementType 1))
          (Value.reg B.2.next (V.getType.getElementType 0)),
        Inst.icmp_eq (B.2.next + 4) B.1 (Value.const_int B.1.width 2),
        Inst.extractvalue (B.2.next + 5) V 2,
        Inst.select (B.2.next + 6) (Value.reg (B.2.next + 4) (.int 1))
          (Value.reg (B.2.next + 5) (V.getType.getElementType 2))
          (Value.reg (B.2.next + 3) (V.getType.getElementType 1))],
      Value.reg (B.2.next + 6) (V.getType.getElementType 2), rfl, rfl, rfl, rfl, ?_, ?_⟩
    · intro i hi
      simp only [List.mem_cons, List.mem_singleton, List.not_mem_nil, or_false] at hi
      rcases hi with rfl | rfl | rfl | rfl | rfl | rfl | rfl <;> rfl
    · intro code blk r m hr hlt hj
      rw [hr]
      exact select_chain_three_run code blk B.2.next r V m hlt hj


/-- What `emit_bounds_check` emits when the check is disabled: the subtraction only. -/
theorem emit_bounds_check_off (ctx : jl_codectx_t) (ainfo : jl_cgval_t) (ty : jl_value_t)
    (i len : Value) (boundscheck : jl_value_t) (s : BuilderState)
    (hen : bounds_check_enabled ctx boundscheck = false) :
    emit_bounds_check ctx ainfo ty i len boundscheck s =
      (Value.reg s.next i.getType,
        { s with next := s.next + 1
                 code := s.code ++ [(s.cur, Inst.sub s.next i (Value.const_int 64 1))] }) := by
  simp only [emit_bounds_check, hen, Bool.false_eq_true, if_false, Builder.bind_apply,
    Builder.pure_apply, CreateSub, insert_val, insert_inst]

/-- With the check enabled, `emit_bounds_check` keeps the code before it and uses at
least four numbers. -/
theorem emit_bounds_check_on (ctx : jl_codectx_t) (ainfo : jl_cgval_t) (ty : jl_value_t)
    (i len : Value) (boundscheck : jl_value_t) (s : BuilderState)
    (hen : bounds_check_enabled ctx boundscheck = true) :
    (emit_bounds_check ctx ainfo ty i len boundscheck s).2.code =
      s.code ++ (emit_bounds_check ctx ainfo ty i len boundscheck).emitted s ∧
    s.next + 4 ≤ (emit_bounds_check ctx ainfo ty i len boundscheck s).2.next := by
  obtain ⟨pre, n, fn, args, hc, hcur, -, hnext, -, -⟩ := emit_bounds_error_code ctx ainfo ty
    i len ⟨s.next + 1 + 1 + 1 + 1, s.blocks ++ [(s.next + 1 + 1, "fail")] ++
      [(s.next + 1 + 1 + 1, "pass")], s.next + 1 + 1,
      s.code ++ [(s.cur, Inst.sub s.next i (Value.const_int 64 1))] ++
        [(s.cur, Inst.icmp_ult (s.next + 1) (Value.reg s.next i.getType) len)] ++
        [(s.cur, Inst.cond_br (Value.reg (s.next + 1) (.int 1)) (s.next + 1 + 1 + 1)
          (s.next + 1 + 1))]⟩
  constructor
  · simp only [Builder.emitted, emit_bounds_check, hen, if_true, Builder.bind_apply,
      Builder.pure_apply, CreateSub, CreateICmpULT, CreateCondBr, CreateUnreachable,
      BasicBlock_Create, SetInsertPoint, insert_val, insert_inst, insert_void, hc, hcur]
    simp only [List.append_assoc, List.drop_left]
  · simp only [emit_bounds_check, hen, if_true, Builder.bind_apply,
      Builder.pure_apply, CreateSub, CreateICmpULT, CreateCondBr, CreateUnreachable,
      BasicBlock_Create, SetInsertPoint, insert_val, insert_inst, insert_void]
    simp only [Nat.add_assoc] at hnext ⊢
    exact hnext


theorem Inst.is_select_chain_not_memory (i : Inst) (h : i.is_select_chain = true) :
    i.is_memory = false := by
  cases i <;> first | rfl | exact Bool.noConfusion h

/-- The subtraction of the bounds check gives the zero-based index when the 1-based
index is in bounds. -/
theorem bounds_arith_sub (iv n : Nat) (h1 : 1 ≤ iv) (h2 : iv ≤ n) (hn : n < 2 ^ 64) :
    (iv + 2 ^ 64 - 1 % 2 ^ 64) % 2 ^ 64 = iv - 1 := by
  have h1' : (1 : Nat) % 2 ^ 64 = 1 := by norm_num
  rw [h1']
  have he : iv + 2 ^ 64 - 1 = (iv - 1) + 2 ^ 64 := by omega
  rw [he, Nat.add_mod_right, Nat.mod_eq_of_lt (by omega)]

/-- C14, amended: for an unboxed struct held as an IR array whose two or three fields all
have one concrete non-pointer type, `emit_getfield_unknownidx` emits the bounds check and
after it a chain of exactly `n - 1` selects over extracted elements, a chain of
`extractvalue`, `icmp eq` and `select` only; the only instructions emitted that touch
memory or make a stack slot are in the fail block of an enabled bounds check; and for
every in-bounds 1-based index the run from the current block falls out of the chain with
the selected value equal to the field at that index, with memory, stack and calls as
before. -/
theorem emit_getfield_unknownidx_select_chain (ctx : jl_codectx_t) (strct : jl_cgval_t)
    (idx V : Value) (stt : jl_datatype_t) (inbounds : jl_value_t) (order : jl_memory_order)
    (s : BuilderState)
    (hn : jl_datatype_nfields stt = 2 ∨ jl_datatype_nfields stt = 3)
    (hroots : strct.inline_roots = []) (hptr : strct.ispointer = false)
    (hghost : strct.isghost = false) (hV : strct.V = some V)
    (harr : V.getType.isArrayTy = true)
    (hsame : is_tupletype_homogeneous ctx (jl_get_fieldtypes stt) = true)
    (hnp : jl_field_isptr stt 0 = false)
    (hity : idx.getType = T_size) (hcur : s.cur < s.next) :
    ∃ (chain : List Inst) (fld : Value),
      (emit_getfield_unknownidx ctx strct idx stt inbounds order s).1 =
        some (ctx.mark_julia_type fld false ((jl_get_fieldtypes stt).headD jl_value_t.null)) ∧
      (emit_getfield_unknownidx ctx strct idx stt inbounds order).emitted s =
        (emit_bounds_check ctx strct stt.value idx
          (Value.const_int 64 (jl_datatype_nfields stt)) inbounds).emitted s ++
        chain.map (fun i => ((emit_getfield_unknownidx ctx strct idx stt inbounds order s).2.cur,
          i)) ∧
      (chain.filter Inst.is_select).length = jl_datatype_nfields stt - 1 ∧
      (∀ i ∈ chain, i.is_select_chain = true) ∧
      (∀ x ∈ (emit_getfield_unknownidx ctx strct idx stt inbounds order).emitted s,
        x.2.is_memory = true → bounds_check_enabled ctx inbounds = true ∧ x.1 = s.next + 2) ∧
      ∀ m : Machine, 1 ≤ idx.eval m → idx.eval m ≤ jl_datatype_nfields stt →
        ∃ mf, run ((emit_getfield_unknownidx ctx strct idx stt inbounds order).emitted s) 2
            s.cur m =
            Outcome.fell (emit_getfield_unknownidx ctx strct idx stt inbounds order s).2.cur
              mf ∧
          fld.eval mf = m.aggr V (idx.eval m - 1) ∧
          mf.mem = m.mem ∧ mf.sp = m.sp ∧ mf.calls = m.calls := by
  have hnlt : jl_datatype_nfields stt < 2 ^ 64 := by
    rcases hn with h | h <;> rw [h] <;> norm_num
  have hw : idx.width = 64 := by simp [Value.width, hity, T_size]
  obtain ⟨chain, fld, hres, hcode, hcur2, hcount, hshape, hrun⟩ :=
    emit_getfield_unknownidx_chain ctx strct idx V stt inbounds order s
      (emit_bounds_check ctx strct stt.value idx
        (Value.const_int 64 (jl_datatype_nfields stt)) inbounds s) hn rfl hroots hptr hghost
      hV harr hsame hnp
  refine ⟨chain, fld, hres, ?_⟩
  rw [hcur2]
  by_cases hen : bounds_check_enabled ctx inbounds = true
  · obtain ⟨pre, n, fn, args, hEB, hret, hBcur, -, hpre⟩ := emit_bounds_check_code ctx strct
      stt.value idx (Value.const_int 64 (jl_datatype_nfields stt)) inbounds s hen
    obtain ⟨hBcode, hBnext⟩ := emit_bounds_check_on ctx strct stt.value idx
      (Value.const_int 64 (jl_datatype_nfields stt)) inbounds s hen
    have hE : (emit_getfield_unknownidx ctx strct idx stt inbounds order).emitted s =
        [Inst.sub s.next idx (Value.const_int 64 1),
          Inst.icmp_ult (s.next + 1) (Value.reg s.next idx.getType)
            (Value.const_int 64 (jl_datatype_nfields stt)),
          Inst.cond_br (Value.reg (s.next + 1) (.int 1)) (s.next + 3) (s.next + 2)].map
            (fun i => (s.cur, i)) ++
        ((pre ++ [Inst.call n fn args, Inst.unreachable]).map (fun x => (s.next + 2, x)) ++
          chain.map (fun i => (s.next + 3, i))) := by
      rw [Builder.emitted, hcode, hBcode, hEB, hBcur]
      simp only [List.append_assoc, List.drop_left, List.map_cons, List.map_nil,
        List.cons_append, List.nil_append]
    rw [hBcur]
    refine ⟨?_, hcount, hshape, ?_, ?_⟩
    · rw [hE, hEB]
      simp only [List.append_assoc, List.map_cons, List.map_nil, List.cons_append,
        List.nil_append]
    · intro x hx hmem
      refine ⟨hen, ?_⟩
      rw [hE] at hx
      rcases List.mem_append.1 hx with h | h
      · simp only [List.map_cons, List.map_nil, List.mem_cons, List.mem_singleton,
          List.not_mem_nil, or_false] at h
        rcases h with rfl | rfl | rfl <;> simp [Inst.is_memory] at hmem
      · rcases List.mem_append.1 h with h | h
        · obtain ⟨i, -, rfl⟩ := List.mem_map.1 h
          rfl
        · obtain ⟨i, hi, rfl⟩ := List.mem_map.1 h
          have hno := Inst.is_select_chain_not_memory i (hshape i hi)
          rw [hno] at hmem
          exact absurd hmem (by decide)
    · intro m h1 h2
      have hv := bounds_arith_sub (idx.eval m) (jl_datatype_nfields stt) h1 h2 hnlt
      have hlt : idx.eval m - 1 < jl_datatype_nfields stt % 2 ^ 64 := by
        rw [Nat.mod_eq_of_lt hnlt]
        omega
      obtain ⟨mf, hmf, hfld, hcalls, hmem, hsp⟩ := hrun
        ((emit_getfield_unknownidx ctx strct idx stt inbounds order).emitted s) (s.next + 3)
        s.next
        { (m.set s.next (idx.eval m - 1)).set (s.next + 1) 1 with prev := s.cur }
        (by rw [hret, hity]) (by omega)
        (by
          show ((m.set s.next (idx.eval m - 1)).set (s.next + 1) 1).reg s.next < _
          rw [Machine.set_reg_ne _ (s.next + 1) _ s.next (by omega), Machine.set_reg_self]
          omega)
      refine ⟨mf, ?_, ?_, hmem, hsp, hcalls⟩
      · have hblk : block_insts
            ((emit_getfield_unknownidx ctx strct idx stt inbounds order).emitted s) s.cur =
            [Inst.sub s.next idx (Value.const_int 64 1),
              Inst.icmp_ult (s.next + 1) (Value.reg s.next idx.getType)
                (Value.const_int 64 (jl_datatype_nfields stt)),
              Inst.cond_br (Value.reg (s.next + 1) (.int 1)) (s.next + 3) (s.next + 2)] := by
          rw [hE, block_insts_append, block_insts_append, block_insts_map_self,
            block_insts_map_ne _ _ _ (by omega), block_insts_map_ne _ _ _ (by omega)]
          rfl
        have hpass : block_insts
            ((emit_getfield_unknownidx ctx strct idx stt inbounds order).emitted s)
            (s.next + 3) = chain := by
          rw [hE, block_insts_append, block_insts_append, block_insts_map_self,
            block_insts_map_ne _ _ _ (by omega), block_insts_map_ne _ _ _ (by omega)]
          rfl
        simp only [run, hblk, run_block, Inst.exec, hw, Value.eval_const_int, Nat.mod_mod,
          hv, Value.eval_reg, Machine.set_reg_self, hlt, if_true, ne_eq, one_ne_zero,
          not_false_eq_true, hpass, hmf]
      · rw [hfld]
        show m.aggr V (((m.set s.next (idx.eval m - 1)).set (s.next + 1) 1).reg s.next) = _
        rw [Machine.set_reg_ne _ (s.next + 1) _ s.next (by omega), Machine.set_reg_self]
  · have hen' : bounds_check_enabled ctx inbounds = false := by simpa using hen
    have hB := emit_bounds_check_off ctx strct stt.value idx
      (Value.const_int 64 (jl_datatype_nfields stt)) inbounds s hen'
    have hEB : (emit_bounds_check ctx strct stt.value idx
        (Value.const_int 64 (jl_datatype_nfields stt)) inbounds).emitted s =
        [Inst.sub s.next idx (Value.const_int 64 1)].map (fun i => (s.cur, i)) := by
      simp only [Builder.emitted, hB, List.drop_left, List.map_cons, List.map_nil]
    have hE : (emit_getfield_unknownidx ctx strct idx stt inbounds order).emitted s =
        [Inst.sub s.next idx (Value.const_int 64 1)].map (fun i => (s.cur, i)) ++
          chain.map (fun i => (s.cur, i)) := by
      rw [Builder.emitted, hcode, hB]
      simp only [List.append_assoc, List.drop_left, List.map_cons, List.map_nil]
    rw [hEB, hB]
    refine ⟨hE, hcount, hshape, ?_, ?_⟩
    · intro x hx hmem
      rw [hE] at hx
      rcases List.mem_append.1 hx with h | h
      · simp only [List.map_cons, List.map_nil, List.mem_singleton] at h
        subst h
        simp [Inst.is_memory] at hmem
      · obtain ⟨i, hi, rfl⟩ := List.mem_map.1 h
        have hno := Inst.is_select_chain_not_memory i (hshape i hi)
        rw [hno] at hmem
        exact absurd hmem (by decide)
    · intro m h1 h2
      have hv := bounds_arith_sub (idx.eval m) (jl_datatype_nfields stt) h1 h2 hnlt
      obtain ⟨mf, hmf, hfld, hcalls, hmem, hsp⟩ := hrun
        ((emit_getfield_unknownidx ctx strct idx stt inbounds order).emitted s) s.cur s.next
        (m.set s.next (idx.eval m - 1)) (by rw [hB, hity]) (by rw [hB]; exact Nat.lt_succ_self _)
        (by rw [Machine.set_reg_self]; omega)
      refine ⟨mf, ?_, ?_, hmem, hsp, hcalls⟩
      · have hblk : block_insts
            ((emit_getfield_unknownidx ctx strct idx stt inbounds order).emitted s) s.cur =
            Inst.sub s.next idx (Value.const_int 64 1) :: chain := by
          rw [hE, block_insts_append, block_insts_map_self, block_insts_map_self]
          rfl
        simp only [run, hblk, run_block, Inst.exec, hw, Value.eval_const_int, Nat.mod_mod,
          hv, hmf]
      · rw [hfld, Machine.set_reg_self, Machine.set_aggr]


/-- The amended C14 on a tuple of three machine integers held as `[3 x i64]`: a chain of
two selects. -/
theorem emit_getfield_unknownidx_select_chain_witness :
    ((jl_datatype_nfields example_ntuple3 = 2 ∨ jl_datatype_nfields example_ntuple3 = 3) ∧
      example_unboxed3.inline_roots = [] ∧ example_unboxed3.ispointer = false ∧
      example_unboxed3.isghost = false ∧
      example_unboxed3.V = some (Value.arg 7 (.array (.int 64) 3)) ∧
      (Value.arg 7 (.array (.int 64) 3)).getType.isArrayTy = true ∧
      is_tupletype_homogeneous example_ints_ctx (jl_get_fieldtypes example_ntuple3) = true ∧
      jl_field_isptr example_ntuple3 0 = false ∧
      (Value.arg 5 T_size).getType = T_size ∧
      BuilderState.init.cur < BuilderState.init.next) ∧
    ∃ (chain : List Inst) (fld : Value),
      (emit_getfield_unknownidx example_ints_ctx example_unboxed3
          (Value.arg 5 T_size) example_ntuple3 jl_true jl_memory_order.notatomic BuilderState.init).1 =
        some (example_ints_ctx.mark_julia_type fld false ((jl_get_fieldtypes example_ntuple3).headD jl_value_t.null)) ∧
      (emit_getfield_unknownidx example_ints_ctx example_unboxed3
          (Value.arg 5 T_size) example_ntuple3 jl_true jl_memory_order.notatomic).emitted BuilderState.init =
        (emit_bounds_check example_ints_ctx example_unboxed3 example_ntuple3.value
          (Value.arg 5 T_size)
          (Value.const_int 64 (jl_datatype_nfields example_ntuple3)) jl_true).emitted BuilderState.init ++
        chain.map (fun i => ((emit_getfield_unknownidx example_ints_ctx example_unboxed3
          (Value.arg 5 T_size) example_ntuple3 jl_true jl_memory_order.notatomic BuilderState.init).2.cur,
          i)) ∧
      (chain.filter Inst.is_select).length = jl_datatype_nfields example_ntuple3 - 1 ∧
      (∀ i ∈ chain, i.is_select_chain = true) ∧
      (∀ x ∈ (emit_getfield_unknownidx example_ints_ctx example_unboxed3
          (Value.arg 5 T_size) example_ntuple3 jl_true jl_memory_order.notatomic).emitted BuilderState.init,
        x.2.is_memory = true → bounds_check_enabled example_ints_ctx jl_true = true ∧ x.1 = BuilderState.init.next + 2) ∧
      ∀ m : Machine, 1 ≤ (Value.arg 5 T_size).eval m → (Value.arg 5 T_size).eval m ≤ jl_datatype_nfields example_ntuple3 →
        ∃ mf, run ((emit_getfield_unknownidx example_ints_ctx example_unboxed3
          (Value.arg 5 T_size) example_ntuple3 jl_true jl_memory_order.notatomic).emitted BuilderState.init) 2
            BuilderState.init.cur m =
            Outcome.fell (emit_getfield_unknownidx example_ints_ctx example_unboxed3
          (Value.arg 5 T_size) example_ntuple3 jl_true jl_memory_order.notatomic BuilderState.init).2.cur
              mf ∧
          fld.eval mf = m.aggr (Value.arg 7 (.array (.int 64) 3)) ((Value.arg 5 T_size).eval m - 1) ∧
          mf.mem = m.mem ∧ mf.sp = m.sp ∧ mf.calls = m.calls :=
  ⟨⟨by decide, rfl, by decide, rfl, rfl, by decide, by decide, by decide, rfl, by decide⟩,
    emit_getfield_unknownidx_select_chain example_ints_ctx example_unboxed3
      (Value.arg 5 T_size) (Value.arg 7 (.array (.int 64) 3)) example_ntuple3 jl_true
      jl_memory_order.notatomic BuilderState.init (by decide) rfl (by decide) rfl rfl
      (by decide) (by decide) (by decide) rfl (by decide)⟩

/-- C14 as stated fails: with bounds checking enabled, the code emitted for a dynamic
index into an unboxed tuple of three machine integers held as `[3 x i64]` makes a stack
slot and stores the tuple into it, in the fail block of the bounds check. -/
theorem emit_getfield_unknownidx_errorbox :
    jl_datatype_nfields example_ntuple3 = 3 ∧
    is_tupletype_homogeneous example_ints_ctx (jl_get_fieldtypes example_ntuple3) = true ∧
    jl_field_isptr example_ntuple3 0 = false ∧
    example_unboxed3.ispointer = false ∧ example_unboxed3.inline_roots = [] ∧
    bounds_check_enabled example_ints_ctx jl_true = true ∧
    (emit_getfield_unknownidx example_ints_ctx example_unboxed3 (Value.arg 5 T_size)
      example_ntuple3 jl_true jl_memory_order.notatomic BuilderState.init).1.isSome = true ∧
    (3, Inst.alloca 5 (.array (.int 64) 3)) ∈
      (emit_getfield_unknownidx example_ints_ctx example_unboxed3 (Value.arg 5 T_size)
        example_ntuple3 jl_true jl_memory_order.notatomic).emitted BuilderState.init ∧
    (3, Inst.store (Value.arg 7 (.array (.int 64) 3)) (Value.reg 5 (.ptr 0)) 0
        AtomicOrdering.NotAtomic) ∈
      (emit_getfield_unknownidx example_ints_ctx example_unboxed3 (Value.arg 5 T_size)
        example_ntuple3 jl_true jl_memory_order.notatomic).emitted BuilderState.init := by
  decide


/-! ## The atomic error of `emit_getfield_unknownidx` -/

/-- For an unboxed tuple of three machine integers held as `[3 x i64]` the order is not
looked at: for the order sequentially-consistent `emit_getfield_unknownidx` returns true
and emits the code it emits for a not-atomic read, the select chain, with no call of the
atomic error, where `emit_getfield_knownidx` emits the error for every representation. -/
theorem emit_getfield_unknownidx_unboxed_order :
    (∀ i, jl_field_isatomic example_ntuple3 i = false) ∧
    example_ntuple3.atomicfields = false ∧
    (emit_getfield_unknownidx example_ints_ctx example_unboxed3 (Value.arg 5 T_size)
      example_ntuple3 jl_true jl_memory_order.seq_cst BuilderState.init).1.isSome = true ∧
    emit_getfield_unknownidx example_ints_ctx example_unboxed3 (Value.arg 5 T_size)
      example_ntuple3 jl_true jl_memory_order.seq_cst BuilderState.init =
    emit_getfield_unknownidx example_ints_ctx example_unboxed3 (Value.arg 5 T_size)
      example_ntuple3 jl_true jl_memory_order.notatomic BuilderState.init ∧
    (∀ x ∈ (emit_getfield_unknownidx example_ints_ctx example_unboxed3 (Value.arg 5 T_size)
      example_ntuple3 jl_true jl_memory_order.seq_cst).emitted BuilderState.init,
      x.2.is_atomic_error = false) ∧
    ∃ x ∈ (emit_getfield_knownidx example_ints_ctx example_unboxed3 0
      example_ntuple3 jl_memory_order.seq_cst false).emitted BuilderState.init,
      x.2.is_atomic_error = true :=
  ⟨fun i => by rcases i with _ | _ | _ | i <;> rfl, rfl, by decide, by decide, by decide,
    by decide⟩

/-! ## The failure ordering of the compare-exchange of `typed_store` -/

theorem boxed_cmpxchg (X : AtomicOrdering) (ctx : jl_codectx_t) (vinfo : jl_cgval_t) (is_promotable : Bool) :
    Builder.EmitsOnly (fun i => i.cmpxchg_fail_is X = true)
      (boxed ctx vinfo is_promotable) := by
  unfold boxed
  simp only []
  repeat (any_goals first
    | apply Builder.EmitsOnly.ite_emits
    | apply Builder.EmitsOnly.insert_val_emits
    | apply Builder.EmitsOnly.insert_void_emits
    | apply Builder.EmitsOnly.pure_emits
    | apply Builder.EmitsOnly.of_BasicBlock_Create
    | apply Builder.EmitsOnly.of_SetInsertPoint
    | apply Builder.EmitsOnly.of_GetInsertBlock
    | apply Builder.EmitsOnly.bind_emits
    | intro _
    | unfold CreateAddrSpaceCast CreateICmpEQ CreateICmpNE CreateAnd CreateOr CreateNot
        CreateZExt CreateTrunc CreatePtrToInt CreateCall CreatePHI addIncoming CreateBr
        CreateCondBr CreateUnreachable CreateLoad CreateStore CreateExtractValue
        CreateIsNull CreateIsNotNull CreateFence emit_helper emit_unbox emit_unbox_store
        emit_static_alloca emit_lockstate_value emit_f_is extract_first_ptr null_load_check
        emit_new_struct track_pjlvalue maybe_decay_untracked decay_derived
        mark_callee_rooted stringConstPtr literal_pointer_val emit_tagfrom emit_typeof
        emit_typeof_boxed emit_datatype_name null_pointer_cmp
    | split
    | rfl)

theorem emit_guarded_test_cmpxchg (X : AtomicOrdering) (ifnot : Option Value) (defval : Value)
    (func : Builder Value) (hf : Builder.EmitsOnly (fun i => i.cmpxchg_fail_is X = true) func) :
    Builder.EmitsOnly (fun i => i.cmpxchg_fail_is X = true)
      (emit_guarded_test ifnot defval func) := by
  unfold emit_guarded_test
  repeat (any_goals first
    | exact hf
    | apply Builder.EmitsOnly.ite_emits
    | apply Builder.EmitsOnly.insert_val_emits
    | apply Builder.EmitsOnly.insert_void_emits
    | apply Builder.EmitsOnly.pure_emits
    | apply Builder.EmitsOnly.of_BasicBlock_Create
    | apply Builder.EmitsOnly.of_SetInsertPoint
    | apply Builder.EmitsOnly.of_GetInsertBlock
    | apply Builder.EmitsOnly.bind_emits
    | intro _
    | unfold CreateAddrSpaceCast CreateICmpEQ CreateICmpNE CreateAnd CreateOr CreateNot
        CreateZExt CreateTrunc CreatePtrToInt CreateCall CreatePHI addIncoming CreateBr
        CreateCondBr CreateUnreachable CreateLoad CreateStore CreateExtractValue
        CreateIsNull CreateIsNotNull CreateFence emit_helper emit_unbox emit_unbox_store
        emit_static_alloca emit_lockstate_value emit_f_is extract_first_ptr null_load_check
        emit_new_struct track_pjlvalue maybe_decay_untracked decay_derived
        mark_callee_rooted stringConstPtr literal_pointer_val emit_tagfrom emit_typeof
        emit_typeof_boxed emit_datatype_name null_pointer_cmp
    | split
    | rfl)

theorem extract_tracked_values_cmpxchg (X : AtomicOrdering) (x : jl_cgval_t) (n : Nat) :
    Builder.EmitsOnly (fun i => i.cmpxchg_fail_is X = true)
      (extract_tracked_values x n) := by
  induction n with
  | zero => exact Builder.EmitsOnly.pure_emits _ _
  | succ n ih =>
    unfold extract_tracked_values
    repeat (any_goals first
      | exact ih
      | apply Builder.EmitsOnly.ite_emits
      | apply Builder.EmitsOnly.insert_val_emits
      | apply Builder.EmitsOnly.insert_void_emits
      | apply Builder.EmitsOnly.pure_emits
      | apply Builder.EmitsOnly.of_BasicBlock_Create
      | apply Builder.EmitsOnly.of_SetInsertPoint
      | apply Builder.EmitsOnly.of_GetInsertBlock
      | apply Builder.EmitsOnly.bind_emits
      | intro _
      | unfold CreateAddrSpaceCast CreateICmpEQ CreateICmpNE CreateAnd CreateOr CreateNot
          CreateZExt CreateTrunc CreatePtrToInt CreateCall CreatePHI addIncoming CreateBr
          CreateCondBr CreateUnreachable CreateLoad CreateStore CreateExtractValue
          CreateIsNull CreateIsNotNull CreateFence emit_helper emit_unbox emit_unbox_store
          emit_static_alloca emit_lockstate_value emit_f_is extract_first_ptr
          null_load_check emit_new_struct track_pjlvalue maybe_decay_untracked decay_derived
          mark_callee_rooted stringConstPtr literal_pointer_val emit_tagfrom emit_typeof
          emit_typeof_boxed emit_datatype_name null_pointer_cmp
      | split
      | rfl)

theorem ExtractTrackedValues_cmpxchg (X : AtomicOrdering) (agg : Value) (n : Nat) :
    Builder.EmitsOnly (fun i => i.cmpxchg_fail_is X = true)
      (ExtractTrackedValues agg n) := by
  induction n with
  | zero => exact Builder.EmitsOnly.pure_emits _ _
  | succ n ih =>
    unfold ExtractTrackedValues
    repeat (any_goals first
      | exact ih
      | apply Builder.EmitsOnly.ite_emits
      | apply Builder.EmitsOnly.insert_val_emits
      | apply Builder.EmitsOnly.insert_void_emits
      | apply Builder.EmitsOnly.pure_emits
      | apply Builder.EmitsOnly.of_BasicBlock_Create
      | apply Builder.EmitsOnly.of_SetInsertPoint
      | apply Builder.EmitsOnly.of_GetInsertBlock
      | apply Builder.EmitsOnly.bind_emits
      | intro _
      | unfold CreateAddrSpaceCast CreateICmpEQ CreateICmpNE CreateAnd CreateOr CreateNot
          CreateZExt CreateTrunc CreatePtrToInt CreateCall CreatePHI addIncoming CreateBr
          CreateCondBr CreateUnreachable CreateLoad CreateStore CreateExtractValue
          CreateIsNull CreateIsNotNull CreateFence emit_helper emit_unbox emit_unbox_store
          emit_static_alloca emit_lockstate_value emit_f_is extract_first_ptr
          null_load_check emit_new_struct track_pjlvalue maybe_decay_untracked decay_derived
          mark_callee_rooted stringConstPtr literal_pointer_val emit_tagfrom emit_typeof
          emit_typeof_boxed emit_datatype_name null_pointer_cmp
      | split
      | rfl)

theorem decay_ptrs_cmpxchg (X : AtomicOrdering) (ps : List Value) :
    Builder.EmitsOnly (fun i => i.cmpxchg_fail_is X = true)
      (decay_ptrs ps) := by
  induction ps with
  | nil => exact Builder.EmitsOnly.pure_emits _ _
  | cons p ps ih =>
    unfold decay_ptrs
    repeat (any_goals first
      | exact ih
      | apply Builder.EmitsOnly.ite_emits
      | apply Builder.EmitsOnly.insert_val_emits
      | apply Builder.EmitsOnly.insert_void_emits
      | apply Builder.EmitsOnly.pure_emits
      | apply Builder.EmitsOnly.of_BasicBlock_Create
      | apply Builder.EmitsOnly.of_SetInsertPoint
      | apply Builder.EmitsOnly.of_GetInsertBlock
      | apply Builder.EmitsOnly.bind_emits
      | intro _
      | unfold CreateAddrSpaceCast CreateICmpEQ CreateICmpNE CreateAnd CreateOr CreateNot
          CreateZExt CreateTrunc CreatePtrToInt CreateCall CreatePHI addIncoming CreateBr
          CreateCondBr CreateUnreachable CreateLoad CreateStore CreateExtractValue
          CreateIsNull CreateIsNotNull CreateFence emit_helper emit_unbox emit_unbox_store
          emit_static_alloca emit_lockstate_value emit_f_is extract_first_ptr
          null_load_check emit_new_struct track_pjlvalue maybe_decay_untracked decay_derived
          mark_callee_rooted stringConstPtr literal_pointer_val emit_tagfrom emit_typeof
          emit_typeof_boxed emit_datatype_name null_pointer_cmp
      | split
      | rfl)

theorem get_gc_roots_for_cmpxchg (X : AtomicOrdering) (ctx : jl_codectx_t) (x : jl_cgval_t) (inlined : Bool) :
    Builder.EmitsOnly (fun i => i.cmpxchg_fail_is X = true)
      (get_gc_roots_for ctx x inlined) := by
  unfold get_gc_roots_for
  repeat (any_goals first
    | simp only [extract_tracked_values_cmpxchg]
    | apply Builder.EmitsOnly.ite_emits
    | apply Builder.EmitsOnly.insert_val_emits
    | apply Builder.EmitsOnly.insert_void_emits
    | apply Builder.EmitsOnly.pure_emits
    | apply Builder.EmitsOnly.of_BasicBlock_Create
    | apply Builder.EmitsOnly.of_SetInsertPoint
    | apply Builder.EmitsOnly.of_GetInsertBlock
    | apply Builder.EmitsOnly.bind_emits
    | intro _
    | unfold CreateAddrSpaceCast CreateICmpEQ CreateICmpNE CreateAnd CreateOr CreateNot
        CreateZExt CreateTrunc CreatePtrToInt CreateCall CreatePHI addIncoming CreateBr
        CreateCondBr CreateUnreachable CreateLoad CreateStore CreateExtractValue
        CreateIsNull CreateIsNotNull CreateFence emit_helper emit_unbox emit_unbox_store
        emit_static_alloca emit_lockstate_value emit_f_is extract_first_ptr null_load_check
        emit_new_struct track_pjlvalue maybe_decay_untracked decay_derived
        mark_callee_rooted stringConstPtr literal_pointer_val emit_tagfrom emit_typeof
        emit_typeof_boxed emit_datatype_name null_pointer_cmp
    | split
    | rfl)

theorem emit_write_barrier_cmpxchg (X : AtomicOrdering) (parent : Value) (ptrs : List Value) :
    Builder.EmitsOnly (fun i => i.cmpxchg_fail_is X = true)
      (emit_write_barrier parent ptrs) := by
  unfold emit_write_barrier
  repeat (any_goals first
    | simp only [decay_ptrs_cmpxchg]
    | apply Builder.EmitsOnly.ite_emits
    | apply Builder.EmitsOnly.insert_val_emits
    | apply Builder.EmitsOnly.insert_void_emits
    | apply Builder.EmitsOnly.pure_emits
    | apply Builder.EmitsOnly.of_BasicBlock_Create
    | apply Builder.EmitsOnly.of_SetInsertPoint
    | apply Builder.EmitsOnly.of_GetInsertBlock
    | apply Builder.EmitsOnly.bind_emits
    | intro _
    | unfold CreateAddrSpaceCast CreateICmpEQ CreateICmpNE CreateAnd CreateOr CreateNot
        CreateZExt CreateTrunc CreatePtrToInt CreateCall CreatePHI addIncoming CreateBr
        CreateCondBr CreateUnreachable CreateLoad CreateStore CreateExtractValue
        CreateIsNull CreateIsNotNull CreateFence emit_helper emit_unbox emit_unbox_store
        emit_static_alloca emit_lockstate_value emit_f_is extract_first_ptr null_load_check
        emit_new_struct track_pjlvalue maybe_decay_untracked decay_derived
        mark_callee_rooted stringConstPtr literal_pointer_val emit_tagfrom emit_typeof
        emit_typeof_boxed emit_datatype_name null_pointer_cmp
    | split
    | rfl)

theorem emit_write_multibarrier_agg_cmpxchg (X : AtomicOrdering) (ctx : jl_codectx_t) (parent agg : Value) (jltype : jl_value_t) :
    Builder.EmitsOnly (fun i => i.cmpxchg_fail_is X = true)
      (emit_write_multibarrier_agg ctx parent agg jltype) := by
  unfold emit_write_multibarrier_agg
  repeat (any_goals first
    | simp only [ExtractTrackedValues_cmpxchg, emit_write_barrier_cmpxchg]
    | apply Builder.EmitsOnly.ite_emits
    | apply Builder.EmitsOnly.insert_val_emits
    | apply Builder.EmitsOnly.insert_void_emits
    | apply Builder.EmitsOnly.pure_emits
    | apply Builder.EmitsOnly.of_BasicBlock_Create
    | apply Builder.EmitsOnly.of_SetInsertPoint
    | apply Builder.EmitsOnly.of_GetInsertBlock
    | apply Builder.EmitsOnly.bind_emits
    | intro _
    | unfold CreateAddrSpaceCast CreateICmpEQ CreateICmpNE CreateAnd CreateOr CreateNot
        CreateZExt CreateTrunc CreatePtrToInt CreateCall CreatePHI addIncoming CreateBr
        CreateCondBr CreateUnreachable CreateLoad CreateStore CreateExtractValue
        CreateIsNull CreateIsNotNull CreateFence emit_helper emit_unbox emit_unbox_store
        emit_static_alloca emit_lockstate_value emit_f_is extract_first_ptr null_load_check
        emit_new_struct track_pjlvalue maybe_decay_untracked decay_derived
        mark_callee_rooted stringConstPtr literal_pointer_val emit_tagfrom emit_typeof
        emit_typeof_boxed emit_datatype_name null_pointer_cmp
    | split
    | rfl)

theorem emit_write_multibarrier_cmpxchg (X : AtomicOrdering) (ctx : jl_codectx_t) (parent : Value) (x : jl_cgval_t) :
    Builder.EmitsOnly (fun i => i.cmpxchg_fail_is X = true)
      (emit_write_multibarrier ctx parent x) := by
  unfold emit_write_multibarrier
  repeat (any_goals first
    | simp only [get_gc_roots_for_cmpxchg, emit_write_barrier_cmpxchg]
    | apply Builder.EmitsOnly.ite_emits
    | apply Builder.EmitsOnly.insert_val_emits
    | apply Builder.EmitsOnly.insert_void_emits
    | apply Builder.EmitsOnly.pure_emits
    | apply Builder.EmitsOnly.of_BasicBlock_Create
    | apply Builder.EmitsOnly.of_SetInsertPoint
    | apply Builder.EmitsOnly.of_GetInsertBlock
    | apply Builder.EmitsOnly.bind_emits
    | intro _
    | unfold CreateAddrSpaceCast CreateICmpEQ CreateICmpNE CreateAnd CreateOr CreateNot
        CreateZExt CreateTrunc CreatePtrToInt CreateCall CreatePHI addIncoming CreateBr
        CreateCondBr CreateUnreachable CreateLoad CreateStore CreateExtractValue
        CreateIsNull CreateIsNotNull CreateFence emit_helper emit_unbox emit_unbox_store
        emit_static_alloca emit_lockstate_value emit_f_is extract_first_ptr null_load_check
        emit_new_struct track_pjlvalue maybe_decay_untracked decay_derived
        mark_callee_rooted stringConstPtr literal_pointer_val emit_tagfrom emit_typeof
        emit_typeof_boxed emit_datatype_name null_pointer_cmp
    | split
    | rfl)

theorem just_emit_type_error_cmpxchg (X : AtomicOrdering) (ctx : jl_codectx_t) (x : jl_cgval_t) (type : Value) (msg : String) :
    Builder.EmitsOnly (fun i => i.cmpxchg_fail_is X = true)
      (just_emit_type_error ctx x type msg) := by
  unfold just_emit_type_error
  repeat (any_goals first
    | simp only [boxed_cmpxchg]
    | apply Builder.EmitsOnly.ite_emits
    | apply Builder.EmitsOnly.insert_val_emits
    | apply Builder.EmitsOnly.insert_void_emits
    | apply Builder.EmitsOnly.pure_emits
    | apply Builder.EmitsOnly.of_BasicBlock_Create
    | apply Builder.EmitsOnly.of_SetInsertPoint
    | apply Builder.EmitsOnly.of_GetInsertBlock
    | apply Builder.EmitsOnly.bind_emits
    | intro _
    | unfold CreateAddrSpaceCast CreateICmpEQ CreateICmpNE CreateAnd CreateOr CreateNot
        CreateZExt CreateTrunc CreatePtrToInt CreateCall CreatePHI addIncoming CreateBr
        CreateCondBr CreateUnreachable CreateLoad CreateStore CreateExtractValue
        CreateIsNull CreateIsNotNull CreateFence emit_helper emit_unbox emit_unbox_store
        emit_static_alloca emit_lockstate_value emit_f_is extract_first_ptr null_load_check
        emit_new_struct track_pjlvalue maybe_decay_untracked decay_derived
        mark_callee_rooted stringConstPtr literal_pointer_val emit_tagfrom emit_typeof
        emit_typeof_boxed emit_datatype_name null_pointer_cmp
    | split
    | rfl)

theorem emit_type_error_cmpxchg (X : AtomicOrdering) (ctx : jl_codectx_t) (x : jl_cgval_t) (type : Value) (msg : String) :
    Builder.EmitsOnly (fun i => i.cmpxchg_fail_is X = true)
      (emit_type_error ctx x type msg) := by
  unfold emit_type_error
  repeat (any_goals first
    | simp only [just_emit_type_error_cmpxchg]
    | apply Builder.EmitsOnly.ite_emits
    | apply Builder.EmitsOnly.insert_val_emits
    | apply Builder.EmitsOnly.insert_void_emits
    | apply Builder.EmitsOnly.pure_emits
    | apply Builder.EmitsOnly.of_BasicBlock_Create
    | apply Builder.EmitsOnly.of_SetInsertPoint
    | apply Builder.EmitsOnly.of_GetInsertBlock
    | apply Builder.EmitsOnly.bind_emits
    | intro _
    | unfold CreateAddrSpaceCast CreateICmpEQ CreateICmpNE CreateAnd CreateOr CreateNot
        CreateZExt CreateTrunc CreatePtrToInt CreateCall CreatePHI addIncoming CreateBr
        CreateCondBr CreateUnreachable CreateLoad CreateStore CreateExtractValue
        CreateIsNull CreateIsNotNull CreateFence emit_helper emit_unbox emit_unbox_store
        emit_static_alloca emit_lockstate_value emit_f_is extract_first_ptr null_load_check
        emit_new_struct track_pjlvalue maybe_decay_untracked decay_derived
        mark_callee_rooted stringConstPtr literal_pointer_val emit_tagfrom emit_typeof
        emit_typeof_boxed emit_datatype_name null_pointer_cmp
    | split
    | rfl)

theorem emit_exactly_isa_cmpxchg (X : AtomicOrdering) (ctx : jl_codectx_t) (arg : jl_cgval_t) (dt : jl_value_t) (could_be_null : Bool) :
    Builder.EmitsOnly (fun i => i.cmpxchg_fail_is X = true)
      (emit_exactly_isa ctx arg dt could_be_null) := by
  unfold emit_exactly_isa
  repeat (any_goals first
    | apply Builder.EmitsOnly.ite_emits
    | apply Builder.EmitsOnly.insert_val_emits
    | apply Builder.EmitsOnly.insert_void_emits
    | apply Builder.EmitsOnly.pure_emits
    | apply Builder.EmitsOnly.of_BasicBlock_Create
    | apply Builder.EmitsOnly.of_SetInsertPoint
    | apply Builder.EmitsOnly.of_GetInsertBlock
    | apply Builder.EmitsOnly.bind_emits
    | intro _
    | apply emit_guarded_test_cmpxchg
    | unfold CreateAddrSpaceCast CreateICmpEQ CreateICmpNE CreateAnd CreateOr CreateNot
        CreateZExt CreateTrunc CreatePtrToInt CreateCall CreatePHI addIncoming CreateBr
        CreateCondBr CreateUnreachable CreateLoad CreateStore CreateExtractValue
        CreateIsNull CreateIsNotNull CreateFence emit_helper emit_unbox emit_unbox_store
        emit_static_alloca emit_lockstate_value emit_f_is extract_first_ptr null_load_check
        emit_new_struct track_pjlvalue maybe_decay_untracked decay_derived
        mark_callee_rooted stringConstPtr literal_pointer_val emit_tagfrom emit_typeof
        emit_typeof_boxed emit_datatype_name null_pointer_cmp
    | split
    | rfl)

theorem emit_isa_union_cmpxchg (X : AtomicOrdering) (isa : jl_value_t → Builder IsaResult)
    (hisa : ∀ t, Builder.EmitsOnly (fun i => i.cmpxchg_fail_is X = true) (isa t))
    (type : jl_value_t) :
    Builder.EmitsOnly (fun i => i.cmpxchg_fail_is X = true)
      (emit_isa_union isa type) := by
  induction type with
  | uniontype a b iha ihb =>
    unfold emit_isa_union
    repeat (any_goals first
      | exact iha
      | exact ihb
      | apply Builder.EmitsOnly.ite_emits
      | apply Builder.EmitsOnly.insert_val_emits
      | apply Builder.EmitsOnly.insert_void_emits
      | apply Builder.EmitsOnly.pure_emits
      | apply Builder.EmitsOnly.of_BasicBlock_Create
      | apply Builder.EmitsOnly.of_SetInsertPoint
      | apply Builder.EmitsOnly.of_GetInsertBlock
      | apply Builder.EmitsOnly.bind_emits
      | intro _
      | unfold CreateAddrSpaceCast CreateICmpEQ CreateICmpNE CreateAnd CreateOr CreateNot
          CreateZExt CreateTrunc CreatePtrToInt CreateCall CreatePHI addIncoming CreateBr
          CreateCondBr CreateUnreachable CreateLoad CreateStore CreateExtractValue
          CreateIsNull CreateIsNotNull CreateFence emit_helper emit_unbox emit_unbox_store
          emit_static_alloca emit_lockstate_value emit_f_is extract_first_ptr
          null_load_check emit_new_struct track_pjlvalue maybe_decay_untracked decay_derived
          mark_callee_rooted stringConstPtr literal_pointer_val emit_tagfrom emit_typeof
          emit_typeof_boxed emit_datatype_name null_pointer_cmp
      | split
      | rfl)
  | _ =>
    unfold emit_isa_union
    repeat (any_goals first
      | exact hisa _
      | apply Builder.EmitsOnly.ite_emits
      | apply Builder.EmitsOnly.insert_val_emits
      | apply Builder.EmitsOnly.insert_void_emits
      | apply Builder.EmitsOnly.pure_emits
      | apply Builder.EmitsOnly.of_BasicBlock_Create
      | apply Builder.EmitsOnly.of_SetInsertPoint
      | apply Builder.EmitsOnly.of_GetInsertBlock
      | apply Builder.EmitsOnly.bind_emits
      | intro _
      | unfold CreateAddrSpaceCast CreateICmpEQ CreateICmpNE CreateAnd CreateOr CreateNot
          CreateZExt CreateTrunc CreatePtrToInt CreateCall CreatePHI addIncoming CreateBr
          CreateCondBr CreateUnreachable CreateLoad CreateStore CreateExtractValue
          CreateIsNull CreateIsNotNull CreateFence emit_helper emit_unbox emit_unbox_store
          emit_static_alloca emit_lockstate_value emit_f_is extract_first_ptr
          null_load_check emit_new_struct track_pjlvalue maybe_decay_untracked decay_derived
          mark_callee_rooted stringConstPtr literal_pointer_val emit_tagfrom emit_typeof
          emit_typeof_boxed emit_datatype_name null_pointer_cmp
      | split
      | rfl)

theorem emit_isa_union_branches_cmpxchg (X : AtomicOrdering) (currBB : Nat) (res : Value)
    (bbs : List ((Nat × Nat) × Value)) :
    Builder.EmitsOnly (fun i => i.cmpxchg_fail_is X = true)
      (emit_isa_union_branches currBB res bbs) := by
  induction bbs with
  | nil => exact Builder.EmitsOnly.pure_emits _ _
  | cons bb rest ih =>
    cases rest with
    | nil =>
      unfold emit_isa_union_branches
      repeat (any_goals first
        | apply Builder.EmitsOnly.ite_emits
        | apply Builder.EmitsOnly.insert_val_emits
        | apply Builder.EmitsOnly.insert_void_emits
        | apply Builder.EmitsOnly.pure_emits
        | apply Builder.EmitsOnly.of_BasicBlock_Create
        | apply Builder.EmitsOnly.of_SetInsertPoint
        | apply Builder.EmitsOnly.of_GetInsertBlock
        | apply Builder.EmitsOnly.bind_emits
        | intro _
        | unfold CreateAddrSpaceCast CreateICmpEQ CreateICmpNE CreateAnd CreateOr CreateNot
            CreateZExt CreateTrunc CreatePtrToInt CreateCall CreatePHI addIncoming CreateBr
            CreateCondBr CreateUnreachable CreateLoad CreateStore CreateExtractValue
            CreateIsNull CreateIsNotNull CreateFence emit_helper emit_unbox emit_unbox_store
            emit_static_alloca emit_lockstate_value emit_f_is extract_first_ptr
            null_load_check emit_new_struct track_pjlvalue maybe_decay_untracked
            decay_derived mark_callee_rooted stringConstPtr literal_pointer_val emit_tagfrom
            emit_typeof emit_typeof_boxed emit_datatype_name null_pointer_cmp
        | split
        | rfl)
    | cons next rest =>
      unfold emit_isa_union_branches
      repeat (any_goals first
        | exact ih
        | apply Builder.EmitsOnly.ite_emits
        | apply Builder.EmitsOnly.insert_val_emits
        | apply Builder.EmitsOnly.insert_void_emits
        | apply Builder.EmitsOnly.pure_emits
        | apply Builder.EmitsOnly.of_BasicBlock_Create
        | apply Builder.EmitsOnly.of_SetInsertPoint
        | apply Builder.EmitsOnly.of_GetInsertBlock
        | apply Builder.EmitsOnly.bind_emits
        | intro _
        | unfold CreateAddrSpaceCast CreateICmpEQ CreateICmpNE CreateAnd CreateOr CreateNot
            CreateZExt CreateTrunc CreatePtrToInt CreateCall CreatePHI addIncoming CreateBr
            CreateCondBr CreateUnreachable CreateLoad CreateStore CreateExtractValue
            CreateIsNull CreateIsNotNull CreateFence emit_helper emit_unbox emit_unbox_store
            emit_static_alloca emit_lockstate_value emit_f_is extract_first_ptr
            null_load_check emit_new_struct track_pjlvalue maybe_decay_untracked
            decay_derived mark_callee_rooted stringConstPtr literal_pointer_val emit_tagfrom
            emit_typeof emit_typeof_boxed emit_datatype_name null_pointer_cmp
        | split
        | rfl)

theorem emit_isa_body_cmpxchg (X : AtomicOrdering) (ctx : jl_codectx_t)
    (recur : Option (jl_value_t → Builder IsaResult))
    (hrecur : ∀ isa, recur = some isa →
      ∀ t, Builder.EmitsOnly (fun i => i.cmpxchg_fail_is X = true) (isa t))
    (x : jl_cgval_t) (type : jl_value_t) (msg : String) :
    Builder.EmitsOnly (fun i => i.cmpxchg_fail_is X = true)
      (emit_isa_body ctx recur x type msg) := by
  unfold emit_isa_body
  try simp only []
  repeat (any_goals first
    | simp only [boxed_cmpxchg, emit_type_error_cmpxchg, emit_exactly_isa_cmpxchg,
        emit_isa_union_branches_cmpxchg]
    | exact emit_isa_union_cmpxchg X _ (hrecur _ rfl) _
    | apply Builder.EmitsOnly.ite_emits
    | apply Builder.EmitsOnly.insert_val_emits
    | apply Builder.EmitsOnly.insert_void_emits
    | apply Builder.EmitsOnly.pure_emits
    | apply Builder.EmitsOnly.of_BasicBlock_Create
    | apply Builder.EmitsOnly.of_SetInsertPoint
    | apply Builder.EmitsOnly.of_GetInsertBlock
    | apply Builder.EmitsOnly.bind_emits
    | intro _
    | unfold CreateAddrSpaceCast CreateICmpEQ CreateICmpNE CreateAnd CreateOr CreateNot
        CreateZExt CreateTrunc CreatePtrToInt CreateCall CreatePHI addIncoming CreateBr
        CreateCondBr CreateUnreachable CreateLoad CreateStore CreateExtractValue
        CreateIsNull CreateIsNotNull CreateFence emit_helper emit_unbox emit_unbox_store
        emit_static_alloca emit_lockstate_value emit_f_is extract_first_ptr null_load_check
        emit_new_struct track_pjlvalue maybe_decay_untracked decay_derived
        mark_callee_rooted stringConstPtr literal_pointer_val emit_tagfrom emit_typeof
        emit_typeof_boxed emit_datatype_name null_pointer_cmp
    | split
    | rfl)

theorem emit_isa_cmpxchg (X : AtomicOrdering) (ctx : jl_codectx_t) (depth : Nat)
    (x : jl_cgval_t) (type : jl_value_t) (msg : String) :
    Builder.EmitsOnly (fun i => i.cmpxchg_fail_is X = true)
      (emit_isa ctx depth x type msg) := by
  induction depth generalizing type msg with
  | zero =>
    unfold emit_isa
    exact emit_isa_body_cmpxchg X ctx none (fun _ h => Option.noConfusion h) x type msg
  | succ depth ih =>
    unfold emit_isa
    refine emit_isa_body_cmpxchg X ctx _ (fun isa h => ?_) x type msg
    cases h
    exact fun t => ih t ""

theorem emit_typecheck_cmpxchg (X : AtomicOrdering) (ctx : jl_codectx_t) (depth : Nat)
    (x : jl_cgval_t) (type : jl_value_t) (msg : String) :
    Builder.EmitsOnly (fun i => i.cmpxchg_fail_is X = true)
      (emit_typecheck ctx depth x type msg) := by
  unfold emit_typecheck
  repeat (any_goals first
    | simp only [emit_isa_cmpxchg, just_emit_type_error_cmpxchg]
    | apply Builder.EmitsOnly.ite_emits
    | apply Builder.EmitsOnly.insert_val_emits
    | apply Builder.EmitsOnly.insert_void_emits
    | apply Builder.EmitsOnly.pure_emits
    | apply Builder.EmitsOnly.of_BasicBlock_Create
    | apply Builder.EmitsOnly.of_SetInsertPoint
    | apply Builder.EmitsOnly.of_GetInsertBlock
    | apply Builder.EmitsOnly.bind_emits
    | intro _
    | unfold CreateAddrSpaceCast CreateICmpEQ CreateICmpNE CreateAnd CreateOr CreateNot
        CreateZExt CreateTrunc CreatePtrToInt CreateCall CreatePHI addIncoming CreateBr
        CreateCondBr CreateUnreachable CreateLoad CreateStore CreateExtractValue
        CreateIsNull CreateIsNotNull CreateFence emit_helper emit_unbox emit_unbox_store
        emit_static_alloca emit_lockstate_value emit_f_is extract_first_ptr null_load_check
        emit_new_struct track_pjlvalue maybe_decay_untracked decay_derived
        mark_callee_rooted stringConstPtr literal_pointer_val emit_tagfrom emit_typeof
        emit_typeof_boxed emit_datatype_name null_pointer_cmp
    | split
    | rfl)

theorem typed_store_setup_cmpxchg (X : AtomicOrdering) (ctx : jl_codectx_t) (rhs : jl_cgval_t) (jltype : jl_value_t)
    (aliasscope isboxed : Bool) (Order FailOrder : AtomicOrdering) (alignment : Nat)
    (elty : IRType) (issetfield isreplacefield isswapfield issetfieldonce : Bool) :
    Builder.EmitsOnly (fun i => i.cmpxchg_fail_is X = true)
      (typed_store_setup ctx rhs jltype aliasscope isboxed Order FailOrder alignment elty
        issetfield isreplacefield isswapfield issetfieldonce) := by
  unfold typed_store_setup
  try simp only []
  repeat (any_goals first
    | simp only [boxed_cmpxchg]
    | apply Builder.EmitsOnly.ite_emits
    | apply Builder.EmitsOnly.insert_val_emits
    | apply Builder.EmitsOnly.insert_void_emits
    | apply Builder.EmitsOnly.pure_emits
    | apply Builder.EmitsOnly.of_BasicBlock_Create
    | apply Builder.EmitsOnly.of_SetInsertPoint
    | apply Builder.EmitsOnly.of_GetInsertBlock
    | apply Builder.EmitsOnly.bind_emits
    | intro _
    | unfold CreateAddrSpaceCast CreateICmpEQ CreateICmpNE CreateAnd CreateOr CreateNot
        CreateZExt CreateTrunc CreatePtrToInt CreateCall CreatePHI addIncoming CreateBr
        CreateCondBr CreateUnreachable CreateLoad CreateStore CreateExtractValue
        CreateIsNull CreateIsNotNull CreateFence emit_helper emit_unbox emit_unbox_store
        emit_static_alloca emit_lockstate_value emit_f_is extract_first_ptr null_load_check
        emit_new_struct track_pjlvalue maybe_decay_untracked decay_derived
        mark_callee_rooted stringConstPtr literal_pointer_val emit_tagfrom emit_typeof
        emit_typeof_boxed emit_datatype_name null_pointer_cmp
    | split
    | rfl)

theorem typed_store_newval_cmpxchg (X : AtomicOrdering) (ctx : jl_codectx_t) (depth : Nat) (modifyop : Option jl_cgval_t)
    (jltype : jl_value_t) (fname : String) (cmpop lhs rhs : jl_cgval_t) :
    Builder.EmitsOnly (fun i => i.cmpxchg_fail_is X = true)
      (typed_store_newval ctx depth modifyop jltype fname cmpop lhs rhs) := by
  unfold typed_store_newval
  try simp only []
  repeat (any_goals first
    | simp only [emit_typecheck_cmpxchg]
    | apply Builder.EmitsOnly.ite_emits
    | apply Builder.EmitsOnly.insert_val_emits
    | apply Builder.EmitsOnly.insert_void_emits
    | apply Builder.EmitsOnly.pure_emits
    | apply Builder.EmitsOnly.of_BasicBlock_Create
    | apply Builder.EmitsOnly.of_SetInsertPoint
    | apply Builder.EmitsOnly.of_GetInsertBlock
    | apply Builder.EmitsOnly.bind_emits
    | intro _
    | unfold CreateAddrSpaceCast CreateICmpEQ CreateICmpNE CreateAnd CreateOr CreateNot
        CreateZExt CreateTrunc CreatePtrToInt CreateCall CreatePHI addIncoming CreateBr
        CreateCondBr CreateUnreachable CreateLoad CreateStore CreateExtractValue
        CreateIsNull CreateIsNotNull CreateFence emit_helper emit_unbox emit_unbox_store
        emit_static_alloca emit_lockstate_value emit_f_is extract_first_ptr null_load_check
        emit_new_struct track_pjlvalue maybe_decay_untracked decay_derived
        mark_callee_rooted stringConstPtr literal_pointer_val emit_tagfrom emit_typeof
        emit_typeof_boxed emit_datatype_name null_pointer_cmp
    | split
    | rfl)

theorem typed_store_plain_cmpxchg (X : AtomicOrdering) (ptr : Value) (rhs : jl_cgval_t) (isboxed : Bool)
    (Order : AtomicOrdering) (alignment : Nat) (isswapfield : Bool) (su : typed_store_setup_t) :
    Builder.EmitsOnly (fun i => i.cmpxchg_fail_is X = true)
      (typed_store_plain ptr rhs isboxed Order alignment isswapfield su) := by
  unfold typed_store_plain
  try simp only []
  repeat (any_goals first
    | apply Builder.EmitsOnly.ite_emits
    | apply Builder.EmitsOnly.insert_val_emits
    | apply Builder.EmitsOnly.insert_void_emits
    | apply Builder.EmitsOnly.pure_emits
    | apply Builder.EmitsOnly.of_BasicBlock_Create
    | apply Builder.EmitsOnly.of_SetInsertPoint
    | apply Builder.EmitsOnly.of_GetInsertBlock
    | apply Builder.EmitsOnly.bind_emits
    | intro _
    | unfold CreateAddrSpaceCast CreateICmpEQ CreateICmpNE CreateAnd CreateOr CreateNot
        CreateZExt CreateTrunc CreatePtrToInt CreateCall CreatePHI addIncoming CreateBr
        CreateCondBr CreateUnreachable CreateLoad CreateStore CreateExtractValue
        CreateIsNull CreateIsNotNull CreateFence emit_helper emit_unbox emit_unbox_store
        emit_static_alloca emit_lockstate_value emit_f_is extract_first_ptr null_load_check
        emit_new_struct track_pjlvalue maybe_decay_untracked decay_derived
        mark_callee_rooted stringConstPtr literal_pointer_val emit_tagfrom emit_typeof
        emit_typeof_boxed emit_datatype_name null_pointer_cmp
    | split
    | rfl)

theorem typed_store_swap_cmpxchg (X : AtomicOrdering) (ptr : Value) (rhs : jl_cgval_t) (Order : AtomicOrdering)
    (alignment : Nat) (su : typed_store_setup_t) :
    Builder.EmitsOnly (fun i => i.cmpxchg_fail_is X = true)
      (typed_store_swap ptr rhs Order alignment su) := by
  unfold typed_store_swap
  try simp only []
  repeat (any_goals first
    | apply Builder.EmitsOnly.ite_emits
    | apply Builder.EmitsOnly.insert_val_emits
    | apply Builder.EmitsOnly.insert_void_emits
    | apply Builder.EmitsOnly.pure_emits
    | apply Builder.EmitsOnly.of_BasicBlock_Create
    | apply Builder.EmitsOnly.of_SetInsertPoint
    | apply Builder.EmitsOnly.of_GetInsertBlock
    | apply Builder.EmitsOnly.bind_emits
    | intro _
    | unfold CreateAddrSpaceCast CreateICmpEQ CreateICmpNE CreateAnd CreateOr CreateNot
        CreateZExt CreateTrunc CreatePtrToInt CreateCall CreatePHI addIncoming CreateBr
        CreateCondBr CreateUnreachable CreateLoad CreateStore CreateExtractValue
        CreateIsNull CreateIsNotNull CreateFence emit_helper emit_unbox emit_unbox_store
        emit_static_alloca emit_lockstate_value emit_f_is extract_first_ptr null_load_check
        emit_new_struct track_pjlvalue maybe_decay_untracked decay_derived
        mark_callee_rooted stringConstPtr literal_pointer_val emit_tagfrom emit_typeof
        emit_typeof_boxed emit_datatype_name null_pointer_cmp
    | split
    | rfl)

theorem typed_store_atomicmodify_cmpxchg (X : AtomicOrdering) (ctx : jl_codectx_t) (ptr : Value) (rhs cmpop : jl_cgval_t)
    (jltype : jl_value_t) (isboxed : Bool) (Order : AtomicOrdering)
    (modifyop : jl_cgval_t) (su : typed_store_setup_t) :
    Builder.EmitsOnly (fun i => i.cmpxchg_fail_is X = true)
      (typed_store_atomicmodify ctx ptr rhs cmpop jltype isboxed Order modifyop su) := by
  unfold typed_store_atomicmodify
  try simp only []
  repeat (any_goals first
    | apply Builder.EmitsOnly.ite_emits
    | apply Builder.EmitsOnly.insert_val_emits
    | apply Builder.EmitsOnly.insert_void_emits
    | apply Builder.EmitsOnly.pure_emits
    | apply Builder.EmitsOnly.of_BasicBlock_Create
    | apply Builder.EmitsOnly.of_SetInsertPoint
    | apply Builder.EmitsOnly.of_GetInsertBlock
    | apply Builder.EmitsOnly.bind_emits
    | intro _
    | unfold CreateAddrSpaceCast CreateICmpEQ CreateICmpNE CreateAnd CreateOr CreateNot
        CreateZExt CreateTrunc CreatePtrToInt CreateCall CreatePHI addIncoming CreateBr
        CreateCondBr CreateUnreachable CreateLoad CreateStore CreateExtractValue
        CreateIsNull CreateIsNotNull CreateFence emit_helper emit_unbox emit_unbox_store
        emit_static_alloca emit_lockstate_value emit_f_is extract_first_ptr null_load_check
        emit_new_struct track_pjlvalue maybe_decay_untracked decay_derived
        mark_callee_rooted stringConstPtr literal_pointer_val emit_tagfrom emit_typeof
        emit_typeof_boxed emit_datatype_name null_pointer_cmp
    | split
    | rfl)

set_option maxHeartbeats 4000000 in
theorem typed_store_cas_compare_cmpxchg (X : AtomicOrdering) (ctx : jl_codectx_t) (depth : Nat) (ptr : Value)
    (cmpop : jl_cgval_t) (jltype : jl_value_t) (isboxed : Bool) (Order : AtomicOrdering)
    (alignment : Nat) (isreplacefield isswapfield issetfieldonce : Bool)
    (su : typed_store_setup_t) (DoneBB : Nat) :
    Builder.EmitsOnly (fun i => i.cmpxchg_fail_is X = true)
      (typed_store_cas_compare ctx depth ptr cmpop jltype isboxed Order alignment
        isreplacefield isswapfield issetfieldonce su DoneBB) := by
  unfold typed_store_cas_compare
  try simp only []
  repeat (any_goals first
    | simp only [boxed_cmpxchg, emit_isa_cmpxchg]
    | apply Builder.EmitsOnly.ite_emits
    | apply Builder.EmitsOnly.insert_val_emits
    | apply Builder.EmitsOnly.insert_void_emits
    | apply Builder.EmitsOnly.pure_emits
    | apply Builder.EmitsOnly.of_BasicBlock_Create
    | apply Builder.EmitsOnly.of_SetInsertPoint
    | apply Builder.EmitsOnly.of_GetInsertBlock
    | apply Builder.EmitsOnly.bind_emits
    | intro _
    | unfold CreateAddrSpaceCast CreateICmpEQ CreateICmpNE CreateAnd CreateOr CreateNot
        CreateZExt CreateTrunc CreatePtrToInt CreateCall CreatePHI addIncoming CreateBr
        CreateCondBr CreateUnreachable CreateLoad CreateStore CreateExtractValue
        CreateIsNull CreateIsNotNull CreateFence emit_helper emit_unbox emit_unbox_store
        emit_static_alloca emit_lockstate_value emit_f_is extract_first_ptr null_load_check
        emit_new_struct track_pjlvalue maybe_decay_untracked decay_derived
        mark_callee_rooted stringConstPtr literal_pointer_val emit_tagfrom emit_typeof
        emit_typeof_boxed emit_datatype_name null_pointer_cmp
    | split
    | rfl)

theorem typed_store_cas_loop_cmpxchg (X : AtomicOrdering) (su : typed_store_setup_t) (needloop : Bool) (Compare : Option Value) :
    Builder.EmitsOnly (fun i => i.cmpxchg_fail_is X = true)
      (typed_store_cas_loop su needloop Compare) := by
  unfold typed_store_cas_loop
  try simp only []
  repeat (any_goals first
    | apply Builder.EmitsOnly.ite_emits
    | apply Builder.EmitsOnly.insert_val_emits
    | apply Builder.EmitsOnly.insert_void_emits
    | apply Builder.EmitsOnly.pure_emits
    | apply Builder.EmitsOnly.of_BasicBlock_Create
    | apply Builder.EmitsOnly.of_SetInsertPoint
    | apply Builder.EmitsOnly.of_GetInsertBlock
    | apply Builder.EmitsOnly.bind_emits
    | intro _
    | unfold CreateAddrSpaceCast CreateICmpEQ CreateICmpNE CreateAnd CreateOr CreateNot
        CreateZExt CreateTrunc CreatePtrToInt CreateCall CreatePHI addIncoming CreateBr
        CreateCondBr CreateUnreachable CreateLoad CreateStore CreateExtractValue
        CreateIsNull CreateIsNotNull CreateFence emit_helper emit_unbox emit_unbox_store
        emit_static_alloca emit_lockstate_value emit_f_is extract_first_ptr null_load_check
        emit_new_struct track_pjlvalue maybe_decay_untracked decay_derived
        mark_callee_rooted stringConstPtr literal_pointer_val emit_tagfrom emit_typeof
        emit_typeof_boxed emit_datatype_name null_pointer_cmp
    | split
    | rfl)

theorem typed_store_modify_read_cmpxchg (X : AtomicOrdering) (ctx : jl_codectx_t) (jltype : jl_value_t) (isboxed : Bool)
    (needlock : Option Value) (maybe_null_if_boxed : Bool) (su : typed_store_setup_t)
    (Compare : Option Value) :
    Builder.EmitsOnly (fun i => i.cmpxchg_fail_is X = true)
      (typed_store_modify_read ctx jltype isboxed needlock maybe_null_if_boxed su Compare) := by
  unfold typed_store_modify_read
  try simp only []
  repeat (any_goals first
    | apply Builder.EmitsOnly.ite_emits
    | apply Builder.EmitsOnly.insert_val_emits
    | apply Builder.EmitsOnly.insert_void_emits
    | apply Builder.EmitsOnly.pure_emits
    | apply Builder.EmitsOnly.of_BasicBlock_Create
    | apply Builder.EmitsOnly.of_SetInsertPoint
    | apply Builder.EmitsOnly.of_GetInsertBlock
    | apply Builder.EmitsOnly.bind_emits
    | intro _
    | unfold CreateAddrSpaceCast CreateICmpEQ CreateICmpNE CreateAnd CreateOr CreateNot
        CreateZExt CreateTrunc CreatePtrToInt CreateCall CreatePHI addIncoming CreateBr
        CreateCondBr CreateUnreachable CreateLoad CreateStore CreateExtractValue
        CreateIsNull CreateIsNotNull CreateFence emit_helper emit_unbox emit_unbox_store
        emit_static_alloca emit_lockstate_value emit_f_is extract_first_ptr null_load_check
        emit_new_struct track_pjlvalue maybe_decay_untracked decay_derived
        mark_callee_rooted stringConstPtr literal_pointer_val emit_tagfrom emit_typeof
        emit_typeof_boxed emit_datatype_name null_pointer_cmp
    | split
    | rfl)

theorem typed_store_modify_unbox_cmpxchg (X : AtomicOrdering) (ctx : jl_codectx_t) (rhs : jl_cgval_t) (isboxed : Bool)
    (Order : AtomicOrdering) (su : typed_store_setup_t) (realCompare : Value) :
    Builder.EmitsOnly (fun i => i.cmpxchg_fail_is X = true)
      (typed_store_modify_unbox ctx rhs isboxed Order su realCompare) := by
  unfold typed_store_modify_unbox
  try simp only []
  repeat (any_goals first
    | simp only [boxed_cmpxchg]
    | apply Builder.EmitsOnly.ite_emits
    | apply Builder.EmitsOnly.insert_val_emits
    | apply Builder.EmitsOnly.insert_void_emits
    | apply Builder.EmitsOnly.pure_emits
    | apply Builder.EmitsOnly.of_BasicBlock_Create
    | apply Builder.EmitsOnly.of_SetInsertPoint
    | apply Builder.EmitsOnly.of_GetInsertBlock
    | apply Builder.EmitsOnly.bind_emits
    | intro _
    | unfold CreateAddrSpaceCast CreateICmpEQ CreateICmpNE CreateAnd CreateOr CreateNot
        CreateZExt CreateTrunc CreatePtrToInt CreateCall CreatePHI addIncoming CreateBr
        CreateCondBr CreateUnreachable CreateLoad CreateStore CreateExtractValue
        CreateIsNull CreateIsNotNull CreateFence emit_helper emit_unbox emit_unbox_store
        emit_static_alloca emit_lockstate_value emit_f_is extract_first_ptr null_load_check
        emit_new_struct track_pjlvalue maybe_decay_untracked decay_derived
        mark_callee_rooted stringConstPtr literal_pointer_val emit_tagfrom emit_typeof
        emit_typeof_boxed emit_datatype_name null_pointer_cmp
    | split
    | rfl)

theorem typed_store_cas_modify_cmpxchg (X : AtomicOrdering) (ctx : jl_codectx_t) (depth : Nat) (rhs cmpop : jl_cgval_t)
    (jltype : jl_value_t) (isboxed : Bool) (Order : AtomicOrdering)
    (needlock : Option Value) (ismodifyfield maybe_null_if_boxed : Bool)
    (modifyop : Option jl_cgval_t) (fname : String) (su : typed_store_setup_t)
    (Compare : Option Value) :
    Builder.EmitsOnly (fun i => i.cmpxchg_fail_is X = true)
      (typed_store_cas_modify ctx depth rhs cmpop jltype isboxed Order needlock ismodifyfield
        maybe_null_if_boxed modifyop fname su Compare) := by
  unfold typed_store_cas_modify
  try simp only []
  repeat (any_goals first
    | simp only [typed_store_modify_read_cmpxchg, typed_store_newval_cmpxchg,
        typed_store_modify_unbox_cmpxchg]
    | apply Builder.EmitsOnly.ite_emits
    | apply Builder.EmitsOnly.insert_val_emits
    | apply Builder.EmitsOnly.insert_void_emits
    | apply Builder.EmitsOnly.pure_emits
    | apply Builder.EmitsOnly.of_BasicBlock_Create
    | apply Builder.EmitsOnly.of_SetInsertPoint
    | apply Builder.EmitsOnly.of_GetInsertBlock
    | apply Builder.EmitsOnly.bind_emits
    | intro _
    | unfold CreateAddrSpaceCast CreateICmpEQ CreateICmpNE CreateAnd CreateOr CreateNot
        CreateZExt CreateTrunc CreatePtrToInt CreateCall CreatePHI addIncoming CreateBr
        CreateCondBr CreateUnreachable CreateLoad CreateStore CreateExtractValue
        CreateIsNull CreateIsNotNull CreateFence emit_helper emit_unbox emit_unbox_store
        emit_static_alloca emit_lockstate_value emit_f_is extract_first_ptr null_load_check
        emit_new_struct track_pjlvalue maybe_decay_untracked decay_derived
        mark_callee_rooted stringConstPtr literal_pointer_val emit_tagfrom emit_typeof
        emit_typeof_boxed emit_datatype_name null_pointer_cmp
    | split
    | rfl)

theorem typed_store_barrier_cmpxchg (X : AtomicOrdering) (ctx : jl_codectx_t) (parent : Option Value) (isboxed : Bool)
    (isreplacefield issetfieldonce : Bool) (su : typed_store_setup_t)
    (ex : typed_store_exchange_t) :
    Builder.EmitsOnly (fun i => i.cmpxchg_fail_is X = true)
      (typed_store_barrier ctx parent isboxed isreplacefield issetfieldonce su ex) := by
  unfold typed_store_barrier
  try simp only []
  repeat (any_goals first
    | simp only [emit_write_multibarrier_agg_cmpxchg, emit_write_multibarrier_cmpxchg,
        emit_write_barrier_cmpxchg]
    | apply Builder.EmitsOnly.ite_emits
    | apply Builder.EmitsOnly.insert_val_emits
    | apply Builder.EmitsOnly.insert_void_emits
    | apply Builder.EmitsOnly.pure_emits
    | apply Builder.EmitsOnly.of_BasicBlock_Create
    | apply Builder.EmitsOnly.of_SetInsertPoint
    | apply Builder.EmitsOnly.of_GetInsertBlock
    | apply Builder.EmitsOnly.bind_emits
    | intro _
    | unfold CreateAddrSpaceCast CreateICmpEQ CreateICmpNE CreateAnd CreateOr CreateNot
        CreateZExt CreateTrunc CreatePtrToInt CreateCall CreatePHI addIncoming CreateBr
        CreateCondBr CreateUnreachable CreateLoad CreateStore CreateExtractValue
        CreateIsNull CreateIsNotNull CreateFence emit_helper emit_unbox emit_unbox_store
        emit_static_alloca emit_lockstate_value emit_f_is extract_first_ptr null_load_check
        emit_new_struct track_pjlvalue maybe_decay_untracked decay_derived
        mark_callee_rooted stringConstPtr literal_pointer_val emit_tagfrom emit_typeof
        emit_typeof_boxed emit_datatype_name null_pointer_cmp
    | split
    | rfl)

theorem typed_store_result_cmpxchg (X : AtomicOrdering) (ctx : jl_codectx_t) (jltype : jl_value_t) (isboxed : Bool)
    (issetfield isreplacefield ismodifyfield issetfieldonce maybe_null_if_boxed : Bool)
    (su : typed_store_setup_t) (ex : typed_store_exchange_t) :
    Builder.EmitsOnly (fun i => i.cmpxchg_fail_is X = true)
      (typed_store_result ctx jltype isboxed issetfield isreplacefield ismodifyfield
        issetfieldonce maybe_null_if_boxed su ex) := by
  unfold typed_store_result
  try simp only []
  repeat (any_goals first
    | apply Builder.EmitsOnly.ite_emits
    | apply Builder.EmitsOnly.insert_val_emits
    | apply Builder.EmitsOnly.insert_void_emits
    | apply Builder.EmitsOnly.pure_emits
    | apply Builder.EmitsOnly.of_BasicBlock_Create
    | apply Builder.EmitsOnly.of_SetInsertPoint
    | apply Builder.EmitsOnly.of_GetInsertBlock
    | apply Builder.EmitsOnly.bind_emits
    | intro _
    | unfold CreateAddrSpaceCast CreateICmpEQ CreateICmpNE CreateAnd CreateOr CreateNot
        CreateZExt CreateTrunc CreatePtrToInt CreateCall CreatePHI addIncoming CreateBr
        CreateCondBr CreateUnreachable CreateLoad CreateStore CreateExtractValue
        CreateIsNull CreateIsNotNull CreateFence emit_helper emit_unbox emit_unbox_store
        emit_static_alloca emit_lockstate_value emit_f_is extract_first_ptr null_load_check
        emit_new_struct track_pjlvalue maybe_decay_untracked decay_derived
        mark_callee_rooted stringConstPtr literal_pointer_val emit_tagfrom emit_typeof
        emit_typeof_boxed emit_datatype_name null_pointer_cmp
    | split
    | rfl)

theorem typed_store_ghost_cmpxchg (X : AtomicOrdering) (ctx : jl_codectx_t) (depth : Nat) (rhs cmpop : jl_cgval_t)
    (jltype : jl_value_t) (Order : AtomicOrdering)
    (issetfield isreplacefield isswapfield ismodifyfield : Bool)
    (modifyop : Option jl_cgval_t) (fname : String) :
    Builder.EmitsOnly (fun i => i.cmpxchg_fail_is X = true)
      (typed_store_ghost ctx depth rhs cmpop jltype Order issetfield isreplacefield
        isswapfield ismodifyfield modifyop fname) := by
  unfold typed_store_ghost
  try simp only []
  repeat (any_goals first
    | simp only [typed_store_newval_cmpxchg]
    | apply Builder.EmitsOnly.ite_emits
    | apply Builder.EmitsOnly.insert_val_emits
    | apply Builder.EmitsOnly.insert_void_emits
    | apply Builder.EmitsOnly.pure_emits
    | apply Builder.EmitsOnly.of_BasicBlock_Create
    | apply Builder.EmitsOnly.of_SetInsertPoint
    | apply Builder.EmitsOnly.of_GetInsertBlock
    | apply Builder.EmitsOnly.bind_emits
    | intro _
    | unfold CreateAddrSpaceCast CreateICmpEQ CreateICmpNE CreateAnd CreateOr CreateNot
        CreateZExt CreateTrunc CreatePtrToInt CreateCall CreatePHI addIncoming CreateBr
        CreateCondBr CreateUnreachable CreateLoad CreateStore CreateExtractValue
        CreateIsNull CreateIsNotNull CreateFence emit_helper emit_unbox emit_unbox_store
        emit_static_alloca emit_lockstate_value emit_f_is extract_first_ptr null_load_check
        emit_new_struct track_pjlvalue maybe_decay_untracked decay_derived
        mark_callee_rooted stringConstPtr literal_pointer_val emit_tagfrom emit_typeof
        emit_typeof_boxed emit_datatype_name null_pointer_cmp
    | split
    | rfl)

theorem Builder.EmitsOnly.bind_result {α β : Type} {P : Inst → Prop} {m : Builder α}
    {f : α → Builder β} (hm : Builder.EmitsOnly P m)
    (hf : ∀ s, Builder.EmitsOnly P (f (m s).1)) : Builder.EmitsOnly P (m >>= f) := by
  constructor
  intro s
  obtain ⟨l1, h1, n1, p1⟩ := hm.out s
  obtain ⟨l2, h2, n2, p2⟩ := (hf s).out (m s).2
  refine ⟨l1 ++ l2, ?_, ?_, ?_⟩
  · rw [Builder.bind_apply, h2, h1, List.append_assoc]
  · rw [Builder.bind_apply]
    exact Nat.le_trans n1 n2
  · intro i hi
    rcases List.mem_append.1 hi with h | h
    · exact p1 i h
    · exact p2 i h

theorem Builder.Returns.pure_returns {α : Type} (Q : α → Prop) (a : α) (h : Q a) :
    Builder.Returns Q (Pure.pure a : Builder α) :=
  ⟨fun _ => h⟩

theorem Builder.Returns.bind_returns {α β : Type} {Q : β → Prop} {m : Builder α}
    {f : α → Builder β} (hf : ∀ a, Builder.Returns Q (f a)) : Builder.Returns Q (m >>= f) :=
  ⟨fun s => by rw [Builder.bind_apply]; exact (hf _).out _⟩

theorem Builder.Returns.ite_returns {α : Type} {Q : α → Prop} (c : Prop) [Decidable c]
    {a b : Builder α} (ha : Builder.Returns Q a) (hb : Builder.Returns Q b) :
    Builder.Returns Q (if c then a else b) := by
  split
  · exact ha
  · exact hb

/-- The failure ordering after lines 2334 to 2337 of `typed_store`. -/
theorem typed_store_setup_FailOrder (ctx : jl_codectx_t) (rhs : jl_cgval_t)
    (jltype : jl_value_t) (aliasscope isboxed : Bool) (Order FailOrder : AtomicOrdering)
    (alignment : Nat) (elty : IRType)
    (issetfield isreplacefield isswapfield issetfieldonce : Bool) (F : AtomicOrdering)
    (hF : (if (if FailOrder = AtomicOrdering.AcquireRelease then AtomicOrdering.Acquire
          else FailOrder) = AtomicOrdering.Release then AtomicOrdering.Monotonic
        else (if FailOrder = AtomicOrdering.AcquireRelease then AtomicOrdering.Acquire
          else FailOrder)) = F) :
    Builder.Returns (fun su => su.FailOrder = F)
      (typed_store_setup ctx rhs jltype aliasscope isboxed Order FailOrder alignment elty
        issetfield isreplacefield isswapfield issetfieldonce) := by
  unfold typed_store_setup
  simp only []
  repeat (any_goals first
    | apply Builder.Returns.ite_returns
    | apply Builder.Returns.pure_returns
    | apply Builder.Returns.bind_returns
    | intro _
    | exact hF
    | split)

/-- Every compare-exchange of lines 2575 to 2667 of `typed_store` has the failure ordering
of lines 2616 to 2619, here `X`. -/
theorem typed_store_cas_xchg_cmpxchg_of (X : AtomicOrdering) (isreplacefield issetfieldonce : Bool)
    (su : typed_store_setup_t)
    (hX : (if !isreplacefield && !issetfieldonce then AtomicOrdering.Monotonic
      else if su.FailOrder = AtomicOrdering.Unordered then AtomicOrdering.Monotonic
      else su.FailOrder) = X)
    (ctx : jl_codectx_t) (ptr : Value) (jltype : jl_value_t)
    (isboxed : Bool) (Order : AtomicOrdering) (alignment : Nat)
    (ismodifyfield maybe_null_if_boxed : Bool)
    (DoneBB : Nat) (needloop : Bool) (BB : Option Nat)
    (CmpPhi Compare : Option Value) (m : typed_store_modify_t) :
    Builder.EmitsOnly (fun i => i.cmpxchg_fail_is X = true)
      (typed_store_cas_xchg ctx ptr jltype isboxed Order alignment isreplacefield
        ismodifyfield issetfieldonce maybe_null_if_boxed su DoneBB needloop BB CmpPhi
        Compare m) := by
  unfold typed_store_cas_xchg
  try simp only []
  repeat (any_goals first
    | apply Builder.EmitsOnly.ite_emits
    | apply Builder.EmitsOnly.insert_val_emits
    | apply Builder.EmitsOnly.insert_void_emits
    | apply Builder.EmitsOnly.pure_emits
    | apply Builder.EmitsOnly.of_BasicBlock_Create
    | apply Builder.EmitsOnly.of_SetInsertPoint
    | apply Builder.EmitsOnly.of_GetInsertBlock
    | apply Builder.EmitsOnly.bind_emits
    | intro _
    | apply emit_guarded_test_cmpxchg
    | exact decide_eq_true hX
    | unfold CreateAddrSpaceCast CreateICmpEQ CreateICmpNE CreateAnd CreateOr CreateNot
        CreateZExt CreateTrunc CreatePtrToInt CreateCall CreatePHI addIncoming CreateBr
        CreateCondBr CreateUnreachable CreateLoad CreateStore CreateExtractValue
        CreateIsNull CreateIsNotNull CreateFence emit_helper emit_unbox emit_unbox_store
        emit_static_alloca emit_lockstate_value emit_f_is extract_first_ptr null_load_check
        emit_new_struct track_pjlvalue maybe_decay_untracked decay_derived
        mark_callee_rooted stringConstPtr literal_pointer_val emit_tagfrom emit_typeof
        emit_typeof_boxed emit_datatype_name null_pointer_cmp
    | split
    | rfl)

theorem typed_store_cas_cmpxchg (X : AtomicOrdering) (isreplacefield issetfieldonce : Bool)
    (su : typed_store_setup_t)
    (hX : (if !isreplacefield && !issetfieldonce then AtomicOrdering.Monotonic
      else if su.FailOrder = AtomicOrdering.Unordered then AtomicOrdering.Monotonic
      else su.FailOrder) = X)
    (ctx : jl_codectx_t) (depth : Nat) (ptr : Value)
    (rhs cmpop : jl_cgval_t) (jltype : jl_value_t) (isboxed : Bool) (Order : AtomicOrdering)
    (alignment : Nat) (needlock : Option Value)
    (isswapfield ismodifyfield maybe_null_if_boxed : Bool)
    (modifyop : Option jl_cgval_t) (fname : String) :
    Builder.EmitsOnly (fun i => i.cmpxchg_fail_is X = true)
      (typed_store_cas ctx depth ptr rhs cmpop jltype isboxed Order alignment needlock
        isreplacefield isswapfield ismodifyfield issetfieldonce maybe_null_if_boxed
        modifyop fname su) := by
  unfold typed_store_cas
  try simp only []
  repeat (any_goals first
    | simp only [typed_store_cas_compare_cmpxchg, typed_store_cas_loop_cmpxchg,
        typed_store_cas_modify_cmpxchg,
        typed_store_cas_xchg_cmpxchg_of X isreplacefield issetfieldonce su hX]
    | apply Builder.EmitsOnly.ite_emits
    | apply Builder.EmitsOnly.insert_val_emits
    | apply Builder.EmitsOnly.insert_void_emits
    | apply Builder.EmitsOnly.pure_emits
    | apply Builder.EmitsOnly.of_BasicBlock_Create
    | apply Builder.EmitsOnly.of_SetInsertPoint
    | apply Builder.EmitsOnly.of_GetInsertBlock
    | apply Builder.EmitsOnly.bind_emits
    | intro _
    | unfold CreateAddrSpaceCast CreateICmpEQ CreateICmpNE CreateAnd CreateOr CreateNot
        CreateZExt CreateTrunc CreatePtrToInt CreateCall CreatePHI addIncoming CreateBr
        CreateCondBr CreateUnreachable CreateLoad CreateStore CreateExtractValue
        CreateIsNull CreateIsNotNull CreateFence emit_helper emit_unbox emit_unbox_store
        emit_static_alloca emit_lockstate_value emit_f_is extract_first_ptr null_load_check
        emit_new_struct track_pjlvalue maybe_decay_untracked decay_derived
        mark_callee_rooted stringConstPtr literal_pointer_val emit_tagfrom emit_typeof
        emit_typeof_boxed emit_datatype_name null_pointer_cmp
    | split
    | rfl)

theorem typed_store_exchange_cmpxchg (X : AtomicOrdering) (isreplacefield issetfieldonce : Bool)
    (su : typed_store_setup_t)
    (hX : (if !isreplacefield && !issetfieldonce then AtomicOrdering.Monotonic
      else if su.FailOrder = AtomicOrdering.Unordered then AtomicOrdering.Monotonic
      else su.FailOrder) = X)
    (ctx : jl_codectx_t) (depth : Nat) (ptr : Value)
    (rhs cmpop : jl_cgval_t) (jltype : jl_value_t) (isboxed : Bool) (Order : AtomicOrdering)
    (alignment : Nat) (needlock : Option Value)
    (issetfield isswapfield ismodifyfield maybe_null_if_boxed : Bool)
    (modifyop : Option jl_cgval_t) (fname : String) :
    Builder.EmitsOnly (fun i => i.cmpxchg_fail_is X = true)
      (typed_store_exchange ctx depth ptr rhs cmpop jltype isboxed Order alignment needlock
        issetfield isreplacefield isswapfield ismodifyfield issetfieldonce
        maybe_null_if_boxed modifyop fname su) := by
  unfold typed_store_exchange
  try simp only []
  repeat (any_goals first
    | simp only [typed_store_plain_cmpxchg, typed_store_swap_cmpxchg,
        typed_store_atomicmodify_cmpxchg,
        typed_store_cas_cmpxchg X isreplacefield issetfieldonce su hX]
    | apply Builder.EmitsOnly.ite_emits
    | apply Builder.EmitsOnly.insert_val_emits
    | apply Builder.EmitsOnly.insert_void_emits
    | apply Builder.EmitsOnly.pure_emits
    | apply Builder.EmitsOnly.of_BasicBlock_Create
    | apply Builder.EmitsOnly.of_SetInsertPoint
    | apply Builder.EmitsOnly.of_GetInsertBlock
    | apply Builder.EmitsOnly.bind_emits
    | intro _
    | unfold CreateAddrSpaceCast CreateICmpEQ CreateICmpNE CreateAnd CreateOr CreateNot
        CreateZExt CreateTrunc CreatePtrToInt CreateCall CreatePHI addIncoming CreateBr
        CreateCondBr CreateUnreachable CreateLoad CreateStore CreateExtractValue
        CreateIsNull CreateIsNotNull CreateFence emit_helper emit_unbox emit_unbox_store
        emit_static_alloca emit_lockstate_value emit_f_is extract_first_ptr null_load_check
        emit_new_struct track_pjlvalue maybe_decay_untracked decay_derived
        mark_callee_rooted stringConstPtr literal_pointer_val emit_tagfrom emit_typeof
        emit_typeof_boxed emit_datatype_name null_pointer_cmp
    | split
    | rfl)

/-- Every compare-exchange `typed_store` emits has the failure ordering `X` that lines
2334 to 2337 and 2616 to 2619 make of the requested one. -/
theorem typed_store_cmpxchg (X : AtomicOrdering) (ctx : jl_codectx_t) (depth : Nat) (ptr : Value)
    (rhs cmpop : jl_cgval_t) (jltype : jl_value_t) (aliasscope : Bool)
    (parent : Option Value) (isboxed : Bool) (Order FailOrder : AtomicOrdering)
    (alignment : Nat) (needlock : Option Value)
    (issetfield isreplacefield isswapfield ismodifyfield issetfieldonce
      maybe_null_if_boxed : Bool)
    (modifyop : Option jl_cgval_t) (fname : String)
    (hX : (if !isreplacefield && !issetfieldonce then AtomicOrdering.Monotonic
        else if (if (if FailOrder = AtomicOrdering.AcquireRelease then AtomicOrdering.Acquire
            else FailOrder) = AtomicOrdering.Release then AtomicOrdering.Monotonic
          else (if FailOrder = AtomicOrdering.AcquireRelease then AtomicOrdering.Acquire
            else FailOrder)) = AtomicOrdering.Unordered then AtomicOrdering.Monotonic
        else (if (if FailOrder = AtomicOrdering.AcquireRelease then AtomicOrdering.Acquire
            else FailOrder) = AtomicOrdering.Release then AtomicOrdering.Monotonic
          else (if FailOrder = AtomicOrdering.AcquireRelease then AtomicOrdering.Acquire
            else FailOrder))) = X) :
    Builder.EmitsOnly (fun i => i.cmpxchg_fail_is X = true)
      (typed_store ctx depth ptr rhs cmpop jltype aliasscope parent isboxed Order FailOrder
      alignment needlock issetfield isreplacefield isswapfield ismodifyfield issetfieldonce
      maybe_null_if_boxed modifyop fname) := by
  unfold typed_store
  simp only []
  generalize (if isboxed = true then sizeof_ptr
    else if alignment = 0 then ctx.julia_alignment jltype else alignment) = al
  generalize (if isboxed = true then T_prjlvalue else ctx.julia_type_to_llvm jltype) = elty
  apply Builder.EmitsOnly.ite_emits
  · exact typed_store_ghost_cmpxchg X ctx depth rhs cmpop jltype Order issetfield
      isreplacefield isswapfield ismodifyfield modifyop fname
  · apply Builder.EmitsOnly.bind_result
    · exact typed_store_setup_cmpxchg X _ _ _ _ _ _ _ _ _ _ _ _ _
    · intro s
      have hsu := (typed_store_setup_FailOrder ctx rhs jltype aliasscope isboxed Order FailOrder
        al elty issetfield isreplacefield isswapfield issetfieldonce _ rfl).out s
      rw [← hsu] at hX
      repeat (any_goals first
        | simp only [typed_store_barrier_cmpxchg, typed_store_result_cmpxchg]
        | exact typed_store_exchange_cmpxchg X isreplacefield issetfieldonce _ hX ctx depth ptr rhs cmpop jltype
            isboxed Order al needlock issetfield isswapfield ismodifyfield maybe_null_if_boxed
            modifyop fname
        | apply Builder.EmitsOnly.ite_emits
        | apply Builder.EmitsOnly.insert_val_emits
        | apply Builder.EmitsOnly.insert_void_emits
        | apply Builder.EmitsOnly.pure_emits
        | apply Builder.EmitsOnly.of_BasicBlock_Create
        | apply Builder.EmitsOnly.of_SetInsertPoint
        | apply Builder.EmitsOnly.of_GetInsertBlock
        | apply Builder.EmitsOnly.bind_emits
        | intro _
        | unfold CreateAddrSpaceCast CreateICmpEQ CreateICmpNE CreateAnd CreateOr CreateNot
            CreateZExt CreateTrunc CreatePtrToInt CreateCall CreatePHI addIncoming CreateBr
            CreateCondBr CreateUnreachable CreateLoad CreateStore CreateExtractValue
            CreateIsNull CreateIsNotNull CreateFence emit_helper emit_unbox emit_unbox_store
            emit_static_alloca emit_lockstate_value emit_f_is extract_first_ptr
            null_load_check emit_new_struct track_pjlvalue maybe_decay_untracked
            decay_derived mark_callee_rooted stringConstPtr literal_pointer_val emit_tagfrom
            emit_typeof emit_typeof_boxed emit_datatype_name null_pointer_cmp
        | split
        | rfl)

/-- C16, amended: a compare-exchange that `typed_store` emits has, in replacefield and
setfieldonce mode, the requested failure ordering with three exceptions, Release becomes
Monotonic, AcquireRelease becomes Acquire and Unordered becomes Monotonic; in the other
modes it has Monotonic whatever was requested. -/
theorem typed_store_cmpxchg_failorder (ctx : jl_codectx_t) (depth : Nat) (ptr : Value)
    (rhs cmpop : jl_cgval_t) (jltype : jl_value_t) (aliasscope : Bool)
    (parent : Option Value) (isboxed : Bool) (Order FailOrder : AtomicOrdering)
    (alignment : Nat) (needlock : Option Value)
    (issetfield isreplacefield isswapfield ismodifyfield issetfieldonce
      maybe_null_if_boxed : Bool)
    (modifyop : Option jl_cgval_t) (fname : String)
    (s : BuilderState) (x : Nat × Inst) (dst : Nat) (p c n : Value) (al : Nat)
    (ord fo : AtomicOrdering)
    (hx : x ∈ (typed_store ctx depth ptr rhs cmpop jltype aliasscope parent isboxed Order FailOrder
      alignment needlock issetfield isreplacefield isswapfield ismodifyfield issetfieldonce
      maybe_null_if_boxed modifyop fname).emitted s)
    (hc : x.2 = Inst.cmpxchg dst p c n al ord fo) :
    (isreplacefield = false ∧ issetfieldonce = false → fo = AtomicOrdering.Monotonic) ∧
    (isreplacefield = true ∨ issetfieldonce = true →
      (FailOrder = AtomicOrdering.Release → fo = AtomicOrdering.Monotonic) ∧
      (FailOrder = AtomicOrdering.AcquireRelease → fo = AtomicOrdering.Acquire) ∧
      (FailOrder = AtomicOrdering.Unordered → fo = AtomicOrdering.Monotonic) ∧
      (FailOrder ≠ AtomicOrdering.Release → FailOrder ≠ AtomicOrdering.AcquireRelease →
        FailOrder ≠ AtomicOrdering.Unordered → fo = FailOrder)) := by
  obtain ⟨l, hl, -, hp⟩ := (typed_store_cmpxchg _ ctx depth ptr rhs cmpop jltype aliasscope parent isboxed Order FailOrder
      alignment needlock issetfield isreplacefield isswapfield ismodifyfield issetfieldonce
      maybe_null_if_boxed modifyop fname rfl).out s
  rw [Builder.emitted, hl, List.drop_left] at hx
  have h := hp x hx
  rw [hc] at h
  have hfo : fo = _ := of_decide_eq_true h
  rw [hfo]
  cases isreplacefield <;> cases issetfieldonce <;> cases FailOrder <;> simp


/-- The amended C16 at a replacefield of a boxed field with the orderings
sequentially-consistent and Release: the compare-exchange emitted fails with
Monotonic. -/
theorem typed_store_cmpxchg_failorder_witness :
    ((2, Inst.cmpxchg 4 (Value.arg 10 (.ptr 0)) (Value.reg 3 T_prjlvalue)
        (Value.arg 0 T_prjlvalue) 8 AtomicOrdering.SequentiallyConsistent
        AtomicOrdering.Monotonic) ∈
      (typed_store example_ctx 0 (Value.arg 10 (.ptr 0)) example_boxed_T1 example_boxed
        jl_value_t.any_type false (some (Value.arg 11 T_prjlvalue)) true
        AtomicOrdering.SequentiallyConsistent AtomicOrdering.Release 8 none false true false
        false false false none "replacefield!").emitted BuilderState.init ∧
      ((2, Inst.cmpxchg 4 (Value.arg 10 (.ptr 0)) (Value.reg 3 T_prjlvalue)
        (Value.arg 0 T_prjlvalue) 8 AtomicOrdering.SequentiallyConsistent
        AtomicOrdering.Monotonic) : Nat × Inst).2 =
        Inst.cmpxchg 4 (Value.arg 10 (.ptr 0)) (Value.reg 3 T_prjlvalue)
          (Value.arg 0 T_prjlvalue) 8 AtomicOrdering.SequentiallyConsistent
          AtomicOrdering.Monotonic) ∧
    ((true = false ∧ false = false → AtomicOrdering.Monotonic = AtomicOrdering.Monotonic) ∧
    (true = true ∨ false = true →
      (AtomicOrdering.Release = AtomicOrdering.Release →
        AtomicOrdering.Monotonic = AtomicOrdering.Monotonic) ∧
      (AtomicOrdering.Release = AtomicOrdering.AcquireRelease →
        AtomicOrdering.Monotonic = AtomicOrdering.Acquire) ∧
      (AtomicOrdering.Release = AtomicOrdering.Unordered →
        AtomicOrdering.Monotonic = AtomicOrdering.Monotonic) ∧
      (AtomicOrdering.Release ≠ AtomicOrdering.Release →
        AtomicOrdering.Release ≠ AtomicOrdering.AcquireRelease →
        AtomicOrdering.Release ≠ AtomicOrdering.Unordered →
        AtomicOrdering.Monotonic = AtomicOrdering.Release))) :=
  ⟨⟨by decide, rfl⟩,
    typed_store_cmpxchg_failorder example_ctx 0 (Value.arg 10 (.ptr 0)) example_boxed_T1
      example_boxed jl_value_t.any_type false (some (Value.arg 11 T_prjlvalue)) true
      AtomicOrdering.SequentiallyConsistent AtomicOrdering.Release 8 none false true false
      false false false none "replacefield!" BuilderState.init
      (2, Inst.cmpxchg 4 (Value.arg 10 (.ptr 0)) (Value.reg 3 T_prjlvalue)
        (Value.arg 0 T_prjlvalue) 8 AtomicOrdering.SequentiallyConsistent
        AtomicOrdering.Monotonic) 4 (Value.arg 10 (.ptr 0))
      (Value.reg 3 T_prjlvalue) (Value.arg 0 T_prjlvalue) 8
      AtomicOrdering.SequentiallyConsistent AtomicOrdering.Monotonic (by decide) rfl⟩

/-- C16 as stated fails: a requested failure ordering Unordered, which is neither Release
nor AcquireRelease, reaches the compare-exchange of a replacefield as Monotonic, and a
requested failure ordering sequentially-consistent reaches the compare-exchange of a
modifyfield as Monotonic. -/
theorem typed_store_cmpxchg_failorder_unordered :
    (2, Inst.cmpxchg 4 (Value.arg 10 (.ptr 0)) (Value.reg 3 T_prjlvalue)
        (Value.arg 0 T_prjlvalue) 8 AtomicOrdering.SequentiallyConsistent
        AtomicOrdering.Monotonic) ∈
      (typed_store example_ctx 0 (Value.arg 10 (.ptr 0)) example_boxed_T1 example_boxed
        jl_value_t.any_type false (some (Value.arg 11 T_prjlvalue)) true
        AtomicOrdering.SequentiallyConsistent AtomicOrdering.Unordered 8 none false true
        false false false false none "replacefield!").emitted BuilderState.init ∧
    get_llvm_atomic_order jl_memory_order.unordered = some AtomicOrdering.Unordered ∧
    AtomicOrdering.Unordered ≠ AtomicOrdering.Monotonic ∧
    (3, Inst.cmpxchg 6 (Value.arg 10 (.ptr 0)) (Value.reg 4 T_prjlvalue)
        (Value.reg 5 T_prjlvalue) 8 AtomicOrdering.SequentiallyConsistent
        AtomicOrdering.Monotonic) ∈
      (typed_store example_ctx 0 (Value.arg 10 (.ptr 0)) example_boxed_T1 example_boxed
        jl_value_t.any_type false (some (Value.arg 11 T_prjlvalue)) true
        AtomicOrdering.SequentiallyConsistent AtomicOrdering.SequentiallyConsistent 8 none
        false false false true false false none "modifyfield!").emitted BuilderState.init ∧
    get_llvm_atomic_order jl_memory_order.seq_cst =
      some AtomicOrdering.SequentiallyConsistent := by
  decide


/-! ## The three-way classification of `_julia_type_to_llvm` -/

/-- C17: `_julia_type_to_llvm` returns the void type with `isboxed` false for the bottom
type, `typeof(Union{})`, `Type{Union{}}` and every concrete immutable type of zero bits;
it returns the tracked-pointer type with `isboxed` true for every other type that is not
concrete and immutable; and when it returns an unboxed IR type (`isboxed` false and not
void) the type is concrete, immutable and of non-zero size. The first two hold whatever
the nesting allowance and the map of known types. -/
theorem _julia_type_to_llvm_classes (ctx : jl_codectx_t) (depth : Nat)
    (llvmtypes : llvmtypes_t) (jt : jl_value_t) :
    ((jt = jl_value_t.bottom_type ∨ jt = jl_value_t.typeofbottom_type ∨
        jt = jl_value_t.typeofbottom_super ∨
        (ctx.jl_is_concrete_immutable jt = true ∧ ctx.jl_datatype_nbits jt = 0)) →
      _julia_type_to_llvm ctx depth llvmtypes jt =
        Except.ok ((IRType.void, false), llvmtypes)) ∧
    (jt ≠ jl_value_t.bottom_type → jt ≠ jl_value_t.typeofbottom_type →
      jt ≠ jl_value_t.typeofbottom_super → ctx.jl_is_concrete_immutable jt = false →
      _julia_type_to_llvm ctx depth llvmtypes jt =
        Except.ok ((T_prjlvalue, true), llvmtypes)) ∧
    (∀ t m, _julia_type_to_llvm ctx depth llvmtypes jt = Except.ok ((t, false), m) →
      t ≠ IRType.void →
      ctx.jl_is_concrete_immutable jt = true ∧ ctx.jl_datatype_nbits jt ≠ 0 ∧
        jt ≠ jl_value_t.bottom_type ∧ jt ≠ jl_value_t.typeofbottom_type ∧
        jt ≠ jl_value_t.typeofbottom_super ∧
        _julia_struct_to_llvm ctx depth llvmtypes jt false = Except.ok ((t, false), m)) := by
  refine ⟨?_, ?_, ?_⟩
  · intro h
    unfold _julia_type_to_llvm
    by_cases hb : jt = jl_value_t.bottom_type ∨ jt = jl_value_t.typeofbottom_type ∨
        jt = jl_value_t.typeofbottom_super
    · rw [if_pos hb]
      rfl
    · rw [if_neg hb]
      have hc : ctx.jl_is_concrete_immutable jt = true ∧ ctx.jl_datatype_nbits jt = 0 := by
        rcases h with h | h | h | h
        · exact absurd (Or.inl h) hb
        · exact absurd (Or.inr (Or.inl h)) hb
        · exact absurd (Or.inr (Or.inr h)) hb
        · exact h
      rw [if_pos hc.1, if_pos hc.2]
      rfl
  · intro h1 h2 h3 hc
    unfold _julia_type_to_llvm
    have hb : ¬ (jt = jl_value_t.bottom_type ∨ jt = jl_value_t.typeofbottom_type ∨
        jt = jl_value_t.typeofbottom_super) := by
      rintro (h | h | h)
      · exact h1 h
      · exact h2 h
      · exact h3 h
    rw [if_neg hb, hc]
    rfl
  · intro t m h ht
    unfold _julia_type_to_llvm at h
    by_cases hb : jt = jl_value_t.bottom_type ∨ jt = jl_value_t.typeofbottom_type ∨
        jt = jl_value_t.typeofbottom_super
    · rw [if_pos hb] at h
      cases h
      exact absurd rfl ht
    · rw [if_neg hb] at h
      by_cases hc : ctx.jl_is_concrete_immutable jt = true
      · rw [if_pos hc] at h
        by_cases hn : ctx.jl_datatype_nbits jt = 0
        · rw [if_pos hn] at h
          cases h
          exact absurd rfl ht
        · rw [if_neg hn] at h
          exact ⟨hc, hn, fun e => hb (Or.inl e), fun e => hb (Or.inr (Or.inl e)),
            fun e => hb (Or.inr (Or.inr e)), h⟩
      · rw [if_neg hc] at h
        cases h


/-! ## The members of an inline union field -/

/-- C18: for a field of inline union type that reserves `s = jl_field_size` bytes, with
the alignment `al` of the union at most `MAX_ALIGN`, one round of the loop of
`_julia_struct_to_llvm` appends `(s - 1) / al` integers of `8 * al` bits, then
`(s - 1) % al` bytes, then one `i8`, the selector: `s` bytes in all, the selector last;
the struct is then neither an array nor all ghost. -/
theorem _julia_struct_to_llvm_union_field (ctx : jl_codectx_t)
    (recur : Option (llvmtypes_t → jl_value_t → Bool →
      Except Stop ((IRType × Bool) × llvmtypes_t)))
    (jst : jl_datatype_t) (llvmcall : Bool) (st : struct_loop_t) (llvmtypes : llvmtypes_t)
    (i s al : Nat)
    (hs : jl_field_size jst i = s)
    (hal : (ctx.jl_islayout_inline (jl_field_type jst i)).2.2 = al)
    (hatomic : jl_field_isatomic jst i = false) (hptr : jl_field_isptr jst i = false)
    (hunion : jl_is_uniontype (jl_field_type jst i) = true)
    (hs1 : 1 ≤ s) (hs2 : s < 2 ^ 32) (hal0 : 0 < al) (hmax : al ≤ ctx.MAX_ALIGN) :
    ∃ st', _julia_struct_to_llvm_field ctx recur jst llvmcall st llvmtypes i =
        Except.ok (st', llvmtypes) ∧
      st'.latypes = st.latypes ++
        (List.replicate ((s - 1) / al) (IRType.int (8 * al)) ++
          List.replicate ((s - 1) % al) (IRType.int 8) ++ [IRType.int 8]) ∧
      ((List.replicate ((s - 1) / al) (IRType.int (8 * al)) ++
          List.replicate ((s - 1) % al) (IRType.int 8) ++ [IRType.int 8]).map
          IRType.int_bytes).sum = s ∧
      (List.replicate ((s - 1) / al) (IRType.int (8 * al)) ++
          List.replicate ((s - 1) % al) (IRType.int 8) ++ [IRType.int 8]).getLast? =
        some (IRType.int 8) ∧
      st'.isarray = false ∧ st'.allghost = false := by
  have hfsz1 : (s + 2 ^ 64 - 1) % 2 ^ 64 = s - 1 := by
    have he : s + 2 ^ 64 - 1 = (s - 1) + 2 ^ 64 := by omega
    rw [he, Nat.add_mod_right, Nat.mod_eq_of_lt (by omega)]
  have hnum : (s - 1) / al % 2 ^ 32 = (s - 1) / al := by
    apply Nat.mod_eq_of_lt
    exact lt_of_le_of_lt (Nat.div_le_self _ _) (by omega)
  have hrem : (s - 1) % al % 2 ^ 32 = (s - 1) % al := by
    apply Nat.mod_eq_of_lt
    exact lt_of_le_of_lt (Nat.mod_le _ _) (by omega)
  have hnot : ¬ al > ctx.MAX_ALIGN := by omega
  have hU : _julia_struct_to_llvm_union ctx s al =
      List.replicate ((s - 1) / al) (IRType.int (8 * al)) ++
        List.replicate ((s - 1) % al) (IRType.int 8) ++ [IRType.int 8] := by
    unfold _julia_struct_to_llvm_union
    simp only [hfsz1, hnot, if_false, List.nil_append, hnum, hrem]
    by_cases h0 : s - 1 > 0
    · rw [if_pos h0]
    · have hz : s - 1 = 0 := by omega
      rw [if_neg h0, hz]
      simp
  have hstep : _julia_struct_to_llvm_field ctx recur jst llvmcall st llvmtypes i =
      Except.ok ({ st with
        isvector := if st.jlasttype.isSome && st.jlasttype ≠ some (jl_field_type jst i)
          then false else st.isvector
        jlasttype := some (jl_field_type jst i)
        latypes := st.latypes ++ _julia_struct_to_llvm_union ctx s al
        isarray := false
        allghost := false }, llvmtypes) := by
    unfold _julia_struct_to_llvm_field
    simp only [hatomic, hptr, hunion, Bool.false_eq_true, if_false, if_true, hs, hal]
    rfl
  refine ⟨_, hstep, ?_, ?_, ?_, rfl, rfl⟩
  · simp only [hU]
  · simp only [List.map_append, List.map_replicate, List.sum_append, List.sum_replicate,
      IRType.int_bytes, List.map_cons, List.map_nil, List.sum_cons, List.sum_nil,
      smul_eq_mul, Nat.mul_div_cancel_left _ (by norm_num : 0 < 8)]
    have := Nat.div_add_mod (s - 1) al
    have h2 : (s - 1) / al * al = al * ((s - 1) / al) := Nat.mul_comm _ _
    norm_num
    omega
  · simp


/-- C18 on a field of type `Union{Int64, Int8}` that reserves 9 bytes with alignment 8:
one `i64` and the selector. -/
theorem _julia_struct_to_llvm_union_field_witness :
    (jl_field_size example_union_field 1 = 9 ∧
      (example_types_ctx.jl_islayout_inline (jl_field_type example_union_field 1)).2.2 = 8 ∧
      jl_field_isatomic example_union_field 1 = false ∧
      jl_field_isptr example_union_field 1 = false ∧
      jl_is_uniontype (jl_field_type example_union_field 1) = true ∧
      1 ≤ 9 ∧ 9 < 2 ^ 32 ∧ 0 < 8 ∧ 8 ≤ example_types_ctx.MAX_ALIGN) ∧
    ∃ st', _julia_struct_to_llvm_field example_types_ctx none example_union_field false
        struct_loop_t.init none 1 = Except.ok (st', none) ∧
      st'.latypes = struct_loop_t.init.latypes ++
        (List.replicate ((9 - 1) / 8) (IRType.int (8 * 8)) ++
          List.replicate ((9 - 1) % 8) (IRType.int 8) ++ [IRType.int 8]) ∧
      ((List.replicate ((9 - 1) / 8) (IRType.int (8 * 8)) ++
          List.replicate ((9 - 1) % 8) (IRType.int 8) ++ [IRType.int 8]).map
          IRType.int_bytes).sum = 9 ∧
      (List.replicate ((9 - 1) / 8) (IRType.int (8 * 8)) ++
          List.replicate ((9 - 1) % 8) (IRType.int 8) ++ [IRType.int 8]).getLast? =
        some (IRType.int 8) ∧
      st'.isarray = false ∧ st'.allghost = false :=
  ⟨⟨rfl, rfl, rfl, rfl, rfl, by decide, by decide, by decide, by decide⟩,
    _julia_struct_to_llvm_union_field example_types_ctx none example_union_field false
      struct_loop_t.init none 1 9 8 rfl rfl rfl rfl rfl (by decide) (by decide) (by decide)
      (by decide)⟩


/-- A `VecElement{Int64}`, here the type `datatype 8` of one `Int64` field, maps to
`i64`, which is neither an array, a vector nor an IR struct; and a struct found in the
map `llvmtypes` gets the type stored there, whatever it is. -/
theorem _julia_struct_to_llvm_vecelement_example :
    _julia_struct_to_llvm example_vecelement_ctx 1 none (jl_value_t.datatype 8) false =
      Except.ok ((IRType.int 64, false), none) ∧
    _julia_struct_to_llvm example_types_ctx 1 (some [(jl_value_t.datatype 3, IRType.int 1)])
        (jl_value_t.datatype 3) false =
      Except.ok ((IRType.int 1, false), some [(jl_value_t.datatype 3, IRType.int 1)]) :=
  ⟨rfl, rfl⟩

/-! ## The fan-out cap of the `isa` union lowering -/

theorem union_leaves_example_union_chain (n : Nat) :
    (union_leaves (example_union_chain n)).length = n + 1 := by
  induction n with
  | zero => rfl
  | succ n ih =>
    simp only [example_union_chain, union_leaves, List.length_append, List.length_singleton, ih]
    omega

/-- Where `_can_optimize_isa` answers true, the counter has advanced by the number of
union nodes of the type, one less than its leaves, and has stayed within 127. -/
theorem _can_optimize_isa_counter (ctx : jl_codectx_t) :
    ∀ (t : jl_value_t) (c : Nat), (_can_optimize_isa ctx t c).1 = true →
      (_can_optimize_isa ctx t c).2 + 1 = c + (union_leaves t).length ∧
        (_can_optimize_isa ctx t c).2 ≤ 127 := by
  intro t
  induction t with
  | uniontype a b iha ihb =>
    intro c h
    simp only [_can_optimize_isa] at h ⊢
    by_cases hc : c > 127
    · simp [hc] at h
    · simp only [hc, if_false] at h ⊢
      by_cases hra : (_can_optimize_isa ctx a (c + 1)).1 = true
      · simp only [hra, if_true] at h ⊢
        have ha := iha (c + 1) hra
        have hb := ihb _ h
        simp only [union_leaves, List.length_append]
        omega
      · simp [hra] at h
  | _ =>
    intro c h
    simp only [_can_optimize_isa] at h ⊢
    by_cases hc : c > 127
    · simp [hc] at h
    · simp only [hc, if_false] at h ⊢
      simp only [union_leaves, List.length_singleton]
      repeat' split
      all_goals first
        | (refine ⟨rfl, ?_⟩; dsimp only; omega)
        | (simp_all; done)

/-- On a chain of concrete types that keeps the counter within 127,
`_can_optimize_isa` answers true and counts the union nodes. -/
theorem _can_optimize_isa_example_union_chain :
    ∀ (n c : Nat), c + n ≤ 127 →
      _can_optimize_isa example_ctx (example_union_chain n) c = (true, c + n) := by
  intro n
  induction n with
  | zero => intro c h; simp [example_union_chain, _can_optimize_isa, example_ctx]; omega
  | succ n ih =>
    intro c h
    have hc : ¬ c > 127 := by omega
    have hc1 : ¬ c + 1 > 127 := by omega
    have hl : _can_optimize_isa example_ctx (.datatype (2 * (n + 1))) (c + 1) =
        (true, c + 1) := by
      simp [_can_optimize_isa, example_ctx]; omega
    rw [example_union_chain, _can_optimize_isa]
    simp only [hc, if_false, hl, if_true]
    rw [ih (c + 1) (by omega)]
    simp only [Prod.mk.injEq, true_and]
    omega

/-- C22 fails as stated: the union of the 128 concrete types `T1`, `T252`, ..., `T0` built as
`Union{T1, Union{T252, ..., Union{T2, T0}}}` has 128 leaves, more than 127, and
`can_optimize_isa_union` answers true on it: the counter starts at 1 and counts the
127 union nodes below the root, never exceeding 127. -/
theorem can_optimize_isa_union_128_leaves :
    (union_leaves (.uniontype (.datatype 1) (example_union_chain 126))).length = 128 ∧
      can_optimize_isa_union example_ctx (.datatype 1) (example_union_chain 126) = true := by
  refine ⟨?_, ?_⟩
  · simp only [union_leaves, List.length_append, List.length_singleton,
      union_leaves_example_union_chain]
  · have hl : _can_optimize_isa example_ctx (.datatype 1) 1 = (true, 1) := by
      simp [_can_optimize_isa, example_ctx]
    simp only [can_optimize_isa_union, hl, if_true]
    rw [_can_optimize_isa_example_union_chain 126 1 (by omega)]

/-- C22 (amended): `can_optimize_isa_union` returns false for every union type with
more than 128 leaf types, whatever the nesting shape of the union. -/
theorem can_optimize_isa_union_fanout (ctx : jl_codectx_t) (a b : jl_value_t)
    (h : 128 < (union_leaves (.uniontype a b)).length) :
    can_optimize_isa_union ctx a b = false := by
  simp only [union_leaves, List.length_append] at h
  by_cases hra : (_can_optimize_isa ctx a 1).1 = true
  · simp only [can_optimize_isa_union, hra, if_true]
    have ha := _can_optimize_isa_counter ctx a 1 hra
    by_cases hrb : (_can_optimize_isa ctx b (_can_optimize_isa ctx a 1).2).1 = true
    · have hb := _can_optimize_isa_counter ctx b _ hrb
      omega
    · simpa using hrb
  · simp [can_optimize_isa_union, hra]

theorem can_optimize_isa_union_fanout_witness :
    128 < (union_leaves (.uniontype (.datatype 0) (example_union_chain 127))).length ∧
      can_optimize_isa_union example_ctx (.datatype 0) (example_union_chain 127) = false :=
  ⟨by simp only [union_leaves, List.length_append, List.length_singleton,
      union_leaves_example_union_chain]; omega,
    can_optimize_isa_union_fanout example_ctx (.datatype 0) (example_union_chain 127)
      (by simp only [union_leaves, List.length_append, List.length_singleton,
        union_leaves_example_union_chain]; omega)⟩

/-! ## The discriminant index of the 128th variant -/

set_option maxRecDepth 100000 in
/-- C28, the code at the failing input: on the union of the 128 pointer-free types
`T254`, ..., `T2`, `T0` the enumeration succeeds and hands the index 128 to its callback
for the last leaf `T0`, so `get_box_tindex` returns 128 for it; 128 is the box marker
`0x80` itself and the mask `0x7f` turns it into 0. -/
theorem for_each_uniontype_small_index_128 :
    (union_leaves (example_union_chain 127)).length = 128 ∧
      (for_each_uniontype_small example_pointerfree (example_union_chain 127) 0).1 = true ∧
      (for_each_uniontype_small example_pointerfree (example_union_chain 127) 0).2.2.getLast? =
        some (128, .datatype 0) ∧
      get_box_tindex example_pointerfree (.datatype 0) (example_union_chain 127) = 128 ∧
      Nat.land 128 (0xff - UNION_BOX_MARKER) = 0 ∧
      Nat.land 128 UNION_BOX_MARKER = UNION_BOX_MARKER := by
  decide

/-! ## The agreement of `_can_optimize_isa` with `emit_isa` -/

theorem Builder.EmitsOnly.emitted_all {α : Type} {P : Inst → Prop} {m : Builder α}
    (hm : Builder.EmitsOnly P m) (s : BuilderState) : ∀ x ∈ m.emitted s, P x.2 := by
  obtain ⟨l, hl, -, p⟩ := hm.out s
  simp only [Builder.emitted, hl, List.drop_left]
  exact p

theorem Builder.EmitsSome.emitted_some {α : Type} {P : Inst → Prop} {m : Builder α}
    (hm : Builder.EmitsSome P m) (s : BuilderState) : ∃ x ∈ m.emitted s, P x.2 := by
  obtain ⟨l, hl, -, p⟩ := hm.out s
  simp only [Builder.emitted, hl, List.drop_left]
  exact p

theorem Builder.EmitsSome.bind_after {α β : Type} {P Q : Inst → Prop} {m : Builder α}
    {f : α → Builder β} (hm : Builder.EmitsOnly Q m)
    (hf : ∀ a, Builder.EmitsSome P (f a)) : Builder.EmitsSome P (m >>= f) := by
  constructor
  intro s
  obtain ⟨l1, h1, n1, -⟩ := hm.out s
  obtain ⟨l2, h2, n2, x, hx, px⟩ := (hf (m s).1).out (m s).2
  refine ⟨l1 ++ l2, ?_, ?_, x, List.mem_append_right _ hx, px⟩
  · rw [Builder.bind_apply, h2, h1, List.append_assoc]
  · rw [Builder.bind_apply]; omega

theorem Builder.EmitsSome.bind_before {α β : Type} {P : Inst → Prop} (Q : Inst → Prop)
    {m : Builder α} {f : α → Builder β} (hm : Builder.EmitsSome P m)
    (hf : ∀ a, Builder.EmitsOnly Q (f a)) : Builder.EmitsSome P (m >>= f) := by
  constructor
  intro s
  obtain ⟨l1, h1, n1, x, hx, px⟩ := hm.out s
  obtain ⟨l2, h2, n2, -⟩ := (hf (m s).1).out (m s).2
  refine ⟨l1 ++ l2, ?_, ?_, x, List.mem_append_left _ hx, px⟩
  · rw [Builder.bind_apply, h2, h1, List.append_assoc]
  · rw [Builder.bind_apply]; omega

theorem Builder.EmitsSome.insert_val_some {P : Inst → Prop} (ty : IRType) (f : Nat → Inst)
    (h : ∀ n, P (f n)) : Builder.EmitsSome P (insert_val ty f) :=
  ⟨fun s => ⟨[(s.cur, f s.next)], rfl, Nat.le_succ _, _, List.mem_singleton_self _, h _⟩⟩

theorem Builder.EmitsSome.ite_some {α : Type} {P : Inst → Prop} (c : Prop) [Decidable c]
    {a b : Builder α} (ha : Builder.EmitsSome P a) (hb : Builder.EmitsSome P b) :
    Builder.EmitsSome P (if c then a else b) := by
  split
  · exact ha
  · exact hb

theorem _can_optimize_isa_leaf_body (ctx : jl_codectx_t) (t : jl_value_t) (c : Nat)
    (hnu : ∀ a b, t ≠ .uniontype a b) :
    _can_optimize_isa ctx t c =
      if c > 127 then (false, c)
      else if t = jl_value_t.type_type then (true, c)
      else if ctx.jl_is_type_type t && ctx.jl_pointer_egal t then (true, c)
      else if ctx.jl_has_intersect_type_not_kind t then (false, c)
      else if ctx.jl_is_concrete_type t then (true, c)
      else
        if ctx.jl_is_datatype (ctx.jl_unwrap_unionall t) &&
            !ctx.name_abstract (ctx.jl_unwrap_unionall t) &&
            ctx.jl_subtype (ctx.name_wrapper (ctx.jl_unwrap_unionall t)) t then (true, c)
        else (false, c) := by
  cases t with
  | uniontype a b => exact absurd rfl (hnu a b)
  | _ => simp only [_can_optimize_isa]

theorem _can_optimize_isa_leaf (ctx : jl_codectx_t) (t : jl_value_t) (c : Nat)
    (hnu : ∀ a b, t ≠ .uniontype a b) (hc : c ≤ 127) :
    (_can_optimize_isa ctx t c).1 = emit_isa_inline ctx t := by
  have hc' : ¬ c > 127 := by omega
  rw [_can_optimize_isa_leaf_body ctx t c hnu, if_neg hc', emit_isa_inline]
  generalize (ctx.jl_is_type_type t && ctx.jl_pointer_egal t) = A
  generalize ctx.jl_has_intersect_type_not_kind t = B
  generalize ctx.jl_is_concrete_type t = C
  generalize (ctx.jl_is_datatype (ctx.jl_unwrap_unionall t) &&
            !ctx.name_abstract (ctx.jl_unwrap_unionall t) &&
            ctx.jl_subtype (ctx.name_wrapper (ctx.jl_unwrap_unionall t)) t) = D
  by_cases h : t = jl_value_t.type_type <;> cases A <;> cases B <;> cases C <;> cases D <;>
    simp [h]


theorem boxed_inline (ctx : jl_codectx_t) (vinfo : jl_cgval_t) (is_promotable : Bool) :
    Builder.EmitsOnly (fun i => i.is_runtime_isa = false) (boxed ctx vinfo is_promotable) := by
  unfold boxed
  simp only []
  repeat (any_goals first
    | apply Builder.EmitsOnly.ite_emits
    | apply Builder.EmitsOnly.insert_val_emits
    | apply Builder.EmitsOnly.insert_void_emits
    | apply Builder.EmitsOnly.pure_emits
    | apply Builder.EmitsOnly.of_BasicBlock_Create
    | apply Builder.EmitsOnly.of_SetInsertPoint
    | apply Builder.EmitsOnly.of_GetInsertBlock
    | apply Builder.EmitsOnly.bind_emits
    | intro _
    | unfold CreateAddrSpaceCast CreateICmpEQ CreateICmpNE CreateAnd CreateOr CreateNot
        CreateZExt CreateTrunc CreatePtrToInt CreateCall CreatePHI addIncoming CreateBr
        CreateCondBr CreateUnreachable CreateLoad CreateStore CreateExtractValue
        CreateIsNull CreateIsNotNull CreateFence emit_helper emit_unbox emit_unbox_store
        emit_static_alloca emit_lockstate_value emit_f_is extract_first_ptr null_load_check
        emit_new_struct track_pjlvalue maybe_decay_untracked decay_derived
        mark_callee_rooted stringConstPtr literal_pointer_val emit_tagfrom emit_typeof
        emit_typeof_boxed emit_datatype_name null_pointer_cmp
    | split
    | rfl)

theorem emit_guarded_test_inline (ifnot : Option Value) (defval : Value)
    (func : Builder Value) (hf : Builder.EmitsOnly (fun i => i.is_runtime_isa = false) func) :
    Builder.EmitsOnly (fun i => i.is_runtime_isa = false) (emit_guarded_test ifnot defval func) := by
  unfold emit_guarded_test
  repeat (any_goals first
    | exact hf
    | apply Builder.EmitsOnly.ite_emits
    | apply Builder.EmitsOnly.insert_val_emits
    | apply Builder.EmitsOnly.insert_void_emits
    | apply Builder.EmitsOnly.pure_emits
    | apply Builder.EmitsOnly.of_BasicBlock_Create
    | apply Builder.EmitsOnly.of_SetInsertPoint
    | apply Builder.EmitsOnly.of_GetInsertBlock
    | apply Builder.EmitsOnly.bind_emits
    | intro _
    | unfold CreateAddrSpaceCast CreateICmpEQ CreateICmpNE CreateAnd CreateOr CreateNot
        CreateZExt CreateTrunc CreatePtrToInt CreateCall CreatePHI addIncoming CreateBr
        CreateCondBr CreateUnreachable CreateLoad CreateStore CreateExtractValue
        CreateIsNull CreateIsNotNull CreateFence emit_helper emit_unbox emit_unbox_store
        emit_static_alloca emit_lockstate_value emit_f_is extract_first_ptr null_load_check
        emit_new_struct track_pjlvalue maybe_decay_untracked decay_derived
        mark_callee_rooted stringConstPtr literal_pointer_val emit_tagfrom emit_typeof
        emit_typeof_boxed emit_datatype_name null_pointer_cmp
    | split
    | rfl)

theorem emit_exactly_isa_inline (ctx : jl_codectx_t) (arg : jl_cgval_t) (dt : jl_value_t)
    (could_be_null : Bool) :
    Builder.EmitsOnly (fun i => i.is_runtime_isa = false) (emit_exactly_isa ctx arg dt could_be_null) := by
  unfold emit_exactly_isa
  repeat (any_goals first
    | apply emit_guarded_test_inline
    | apply Builder.EmitsOnly.ite_emits
    | apply Builder.EmitsOnly.insert_val_emits
    | apply Builder.EmitsOnly.insert_void_emits
    | apply Builder.EmitsOnly.pure_emits
    | apply Builder.EmitsOnly.of_BasicBlock_Create
    | apply Builder.EmitsOnly.of_SetInsertPoint
    | apply Builder.EmitsOnly.of_GetInsertBlock
    | apply Builder.EmitsOnly.bind_emits
    | intro _
    | unfold CreateAddrSpaceCast CreateICmpEQ CreateICmpNE CreateAnd CreateOr CreateNot
        CreateZExt CreateTrunc CreatePtrToInt CreateCall CreatePHI addIncoming CreateBr
        CreateCondBr CreateUnreachable CreateLoad CreateStore CreateExtractValue
        CreateIsNull CreateIsNotNull CreateFence emit_helper emit_unbox emit_unbox_store
        emit_static_alloca emit_lockstate_value emit_f_is extract_first_ptr null_load_check
        emit_new_struct track_pjlvalue maybe_decay_untracked decay_derived
        mark_callee_rooted stringConstPtr literal_pointer_val emit_tagfrom emit_typeof
        emit_typeof_boxed emit_datatype_name null_pointer_cmp
    | split
    | rfl)

theorem emit_typeof_inline (p : jl_cgval_t) (maybenull justtag : Bool) :
    Builder.EmitsOnly (fun i => i.is_runtime_isa = false) (emit_typeof p maybenull justtag) := by
  repeat (any_goals first
    | apply Builder.EmitsOnly.ite_emits
    | apply Builder.EmitsOnly.insert_val_emits
    | apply Builder.EmitsOnly.insert_void_emits
    | apply Builder.EmitsOnly.pure_emits
    | apply Builder.EmitsOnly.of_BasicBlock_Create
    | apply Builder.EmitsOnly.of_SetInsertPoint
    | apply Builder.EmitsOnly.of_GetInsertBlock
    | apply Builder.EmitsOnly.bind_emits
    | intro _
    | unfold CreateAddrSpaceCast CreateICmpEQ CreateICmpNE CreateAnd CreateOr CreateNot
        CreateZExt CreateTrunc CreatePtrToInt CreateCall CreatePHI addIncoming CreateBr
        CreateCondBr CreateUnreachable CreateLoad CreateStore CreateExtractValue
        CreateIsNull CreateIsNotNull CreateFence emit_helper emit_unbox emit_unbox_store
        emit_static_alloca emit_lockstate_value emit_f_is extract_first_ptr null_load_check
        emit_new_struct track_pjlvalue maybe_decay_untracked decay_derived
        mark_callee_rooted stringConstPtr literal_pointer_val emit_tagfrom emit_typeof
        emit_typeof_boxed emit_datatype_name null_pointer_cmp
    | split
    | rfl)

theorem literal_pointer_val_inline (p : jl_value_t) :
    Builder.EmitsOnly (fun i => i.is_runtime_isa = false) (literal_pointer_val p) := by
  repeat (any_goals first
    | apply Builder.EmitsOnly.ite_emits
    | apply Builder.EmitsOnly.insert_val_emits
    | apply Builder.EmitsOnly.insert_void_emits
    | apply Builder.EmitsOnly.pure_emits
    | apply Builder.EmitsOnly.of_BasicBlock_Create
    | apply Builder.EmitsOnly.of_SetInsertPoint
    | apply Builder.EmitsOnly.of_GetInsertBlock
    | apply Builder.EmitsOnly.bind_emits
    | intro _
    | unfold CreateAddrSpaceCast CreateICmpEQ CreateICmpNE CreateAnd CreateOr CreateNot
        CreateZExt CreateTrunc CreatePtrToInt CreateCall CreatePHI addIncoming CreateBr
        CreateCondBr CreateUnreachable CreateLoad CreateStore CreateExtractValue
        CreateIsNull CreateIsNotNull CreateFence emit_helper emit_unbox emit_unbox_store
        emit_static_alloca emit_lockstate_value emit_f_is extract_first_ptr null_load_check
        emit_new_struct track_pjlvalue maybe_decay_untracked decay_derived
        mark_callee_rooted stringConstPtr literal_pointer_val emit_tagfrom emit_typeof
        emit_typeof_boxed emit_datatype_name null_pointer_cmp
    | split
    | rfl)

theorem track_pjlvalue_inline (v : Value) :
    Builder.EmitsOnly (fun i => i.is_runtime_isa = false) (track_pjlvalue v) := by
  repeat (any_goals first
    | apply Builder.EmitsOnly.ite_emits
    | apply Builder.EmitsOnly.insert_val_emits
    | apply Builder.EmitsOnly.insert_void_emits
    | apply Builder.EmitsOnly.pure_emits
    | apply Builder.EmitsOnly.of_BasicBlock_Create
    | apply Builder.EmitsOnly.of_SetInsertPoint
    | apply Builder.EmitsOnly.of_GetInsertBlock
    | apply Builder.EmitsOnly.bind_emits
    | intro _
    | unfold CreateAddrSpaceCast CreateICmpEQ CreateICmpNE CreateAnd CreateOr CreateNot
        CreateZExt CreateTrunc CreatePtrToInt CreateCall CreatePHI addIncoming CreateBr
        CreateCondBr CreateUnreachable CreateLoad CreateStore CreateExtractValue
        CreateIsNull CreateIsNotNull CreateFence emit_helper emit_unbox emit_unbox_store
        emit_static_alloca emit_lockstate_value emit_f_is extract_first_ptr null_load_check
        emit_new_struct track_pjlvalue maybe_decay_untracked decay_derived
        mark_callee_rooted stringConstPtr literal_pointer_val emit_tagfrom emit_typeof
        emit_typeof_boxed emit_datatype_name null_pointer_cmp
    | split
    | rfl)

/-- Under the tests of `emit_isa_inline`, `emit_isa` with the intersected type `t` emits
no call of a runtime type test. -/
theorem emit_isa_body_inline (ctx : jl_codectx_t)
    (recur : Option (jl_value_t → Builder IsaResult))
    (x : jl_cgval_t) (t : jl_value_t) (msg : String)
    (hk : (emit_isa_known ctx x t).1 = none) (hi : (emit_isa_known ctx x t).2 = t)
    (hinl : emit_isa_inline ctx t = true) :
    Builder.EmitsOnly (fun i => i.is_runtime_isa = false) (emit_isa_body ctx recur x t msg) := by
  unfold emit_isa_body
  simp only [hk, hi]
  by_cases h1 : (ctx.jl_is_type_type t && ctx.jl_pointer_egal t) = true
  · simp only [h1, if_true]
    repeat (any_goals first
      | simp only [boxed_inline]
      | apply Builder.EmitsOnly.ite_emits
      | apply Builder.EmitsOnly.insert_val_emits
      | apply Builder.EmitsOnly.insert_void_emits
      | apply Builder.EmitsOnly.pure_emits
      | apply Builder.EmitsOnly.of_BasicBlock_Create
      | apply Builder.EmitsOnly.of_SetInsertPoint
      | apply Builder.EmitsOnly.of_GetInsertBlock
      | apply Builder.EmitsOnly.bind_emits
      | intro _
      | unfold CreateAddrSpaceCast CreateICmpEQ CreateICmpNE CreateAnd CreateOr CreateNot
          CreateZExt CreateTrunc CreatePtrToInt CreateCall CreatePHI addIncoming CreateBr
          CreateCondBr CreateUnreachable CreateLoad CreateStore CreateExtractValue
          CreateIsNull CreateIsNotNull CreateFence emit_helper emit_unbox emit_unbox_store
          emit_static_alloca emit_lockstate_value emit_f_is extract_first_ptr null_load_check
          emit_new_struct track_pjlvalue maybe_decay_untracked decay_derived
          mark_callee_rooted stringConstPtr literal_pointer_val emit_tagfrom emit_typeof
          emit_typeof_boxed emit_datatype_name null_pointer_cmp
      | split
      | rfl)
  · simp only [h1, if_false]
    by_cases h2 : t = jl_value_t.type_type
    · simp only [h2, if_true]
      repeat (any_goals first
        | apply Builder.EmitsOnly.ite_emits
        | apply Builder.EmitsOnly.insert_val_emits
        | apply Builder.EmitsOnly.insert_void_emits
        | apply Builder.EmitsOnly.pure_emits
        | apply Builder.EmitsOnly.of_BasicBlock_Create
        | apply Builder.EmitsOnly.of_SetInsertPoint
        | apply Builder.EmitsOnly.of_GetInsertBlock
        | apply Builder.EmitsOnly.bind_emits
        | intro _
        | unfold CreateAddrSpaceCast CreateICmpEQ CreateICmpNE CreateAnd CreateOr CreateNot
            CreateZExt CreateTrunc CreatePtrToInt CreateCall CreatePHI addIncoming CreateBr
            CreateCondBr CreateUnreachable CreateLoad CreateStore CreateExtractValue
            CreateIsNull CreateIsNotNull CreateFence emit_helper emit_unbox emit_unbox_store
            emit_static_alloca emit_lockstate_value emit_f_is extract_first_ptr null_load_check
            emit_new_struct track_pjlvalue maybe_decay_untracked decay_derived
            mark_callee_rooted stringConstPtr literal_pointer_val emit_tagfrom emit_typeof
            emit_typeof_boxed emit_datatype_name null_pointer_cmp
        | split
        | rfl)
    · simp only [h2, if_false]
      have h3 : ctx.jl_has_intersect_type_not_kind t = false := by
        cases h : ctx.jl_has_intersect_type_not_kind t
        · rfl
        · simp [emit_isa_inline, h, h1, h2] at hinl
      simp only [h3, Bool.or_self, Bool.false_eq_true, if_false]
      by_cases h4 : ctx.jl_is_concrete_type t = true
      · simp only [h4, if_true]
        repeat (any_goals first
          | simp only [emit_exactly_isa_inline]
          | apply Builder.EmitsOnly.ite_emits
          | apply Builder.EmitsOnly.insert_val_emits
          | apply Builder.EmitsOnly.insert_void_emits
          | apply Builder.EmitsOnly.pure_emits
          | apply Builder.EmitsOnly.of_BasicBlock_Create
          | apply Builder.EmitsOnly.of_SetInsertPoint
          | apply Builder.EmitsOnly.of_GetInsertBlock
          | apply Builder.EmitsOnly.bind_emits
          | intro _
          | unfold CreateAddrSpaceCast CreateICmpEQ CreateICmpNE CreateAnd CreateOr CreateNot
              CreateZExt CreateTrunc CreatePtrToInt CreateCall CreatePHI addIncoming CreateBr
              CreateCondBr CreateUnreachable CreateLoad CreateStore CreateExtractValue
              CreateIsNull CreateIsNotNull CreateFence emit_helper emit_unbox emit_unbox_store
              emit_static_alloca emit_lockstate_value emit_f_is extract_first_ptr null_load_check
              emit_new_struct track_pjlvalue maybe_decay_untracked decay_derived
              mark_callee_rooted stringConstPtr literal_pointer_val emit_tagfrom emit_typeof
              emit_typeof_boxed emit_datatype_name null_pointer_cmp
          | split
          | rfl)
      · simp only [h4, if_false]
        have h5 : (ctx.jl_is_datatype (ctx.jl_unwrap_unionall t) &&
            !ctx.name_abstract (ctx.jl_unwrap_unionall t) &&
            ctx.jl_subtype (ctx.name_wrapper (ctx.jl_unwrap_unionall t)) t) = true := by
          simpa [emit_isa_inline, h1, h2, h3, h4] using hinl
        simp only [h5, if_true]
        repeat (any_goals first
          | simp only [emit_exactly_isa_inline]
          | apply Builder.EmitsOnly.ite_emits
          | apply Builder.EmitsOnly.insert_val_emits
          | apply Builder.EmitsOnly.insert_void_emits
          | apply Builder.EmitsOnly.pure_emits
          | apply Builder.EmitsOnly.of_BasicBlock_Create
          | apply Builder.EmitsOnly.of_SetInsertPoint
          | apply Builder.EmitsOnly.of_GetInsertBlock
          | apply Builder.EmitsOnly.bind_emits
          | intro _
          | unfold CreateAddrSpaceCast CreateICmpEQ CreateICmpNE CreateAnd CreateOr CreateNot
              CreateZExt CreateTrunc CreatePtrToInt CreateCall CreatePHI addIncoming CreateBr
              CreateCondBr CreateUnreachable CreateLoad CreateStore CreateExtractValue
              CreateIsNull CreateIsNotNull CreateFence emit_helper emit_unbox emit_unbox_store
              emit_static_alloca emit_lockstate_value emit_f_is extract_first_ptr null_load_check
              emit_new_struct track_pjlvalue maybe_decay_untracked decay_derived
              mark_callee_rooted stringConstPtr literal_pointer_val emit_tagfrom emit_typeof
              emit_typeof_boxed emit_datatype_name null_pointer_cmp
          | split
          | rfl)

/-- Outside the tests of `emit_isa_inline`, `emit_isa` with the intersected type `t`, not
a union, emits a call of a runtime type test. -/
theorem emit_isa_body_runtime (ctx : jl_codectx_t)
    (recur : Option (jl_value_t → Builder IsaResult))
    (x : jl_cgval_t) (t : jl_value_t) (msg : String)
    (hnu : ∀ a b, t ≠ .uniontype a b)
    (hk : (emit_isa_known ctx x t).1 = none) (hi : (emit_isa_known ctx x t).2 = t)
    (hinl : emit_isa_inline ctx t = false) :
    Builder.EmitsSome (fun i => i.is_runtime_isa = true)
      (emit_isa_body ctx recur x t msg) := by
  unfold emit_isa_body
  simp only [hk, hi]
  simp only [emit_isa_inline, Bool.or_eq_false_iff] at hinl
  obtain ⟨⟨h1, h2⟩, h3⟩ := hinl
  have h2' : ¬ t = jl_value_t.type_type := of_decide_eq_false h2
  simp only [h1, Bool.false_eq_true, if_false, h2']
  by_cases hB : ctx.jl_has_intersect_type_not_kind t = true
  · simp only [hB, Bool.or_self, if_true]
    refine Builder.EmitsSome.bind_after (boxed_inline ctx x false) fun vx => ?_
    refine Builder.EmitsSome.bind_after (literal_pointer_val_inline t) fun p => ?_
    refine Builder.EmitsSome.bind_after (track_pjlvalue_inline p) fun vtyp => ?_
    apply Builder.EmitsSome.ite_some
    · refine Builder.EmitsSome.bind_before (fun i => i.is_runtime_isa = false)
        (Builder.EmitsSome.insert_val_some _ _ fun _ => rfl) fun _ => ?_
      exact Builder.EmitsOnly.pure_emits _ _
    · refine Builder.EmitsSome.bind_before (fun i => i.is_runtime_isa = false)
        (Builder.EmitsSome.insert_val_some _ _ fun _ => rfl) fun _ => ?_
      repeat (any_goals first
        | apply Builder.EmitsOnly.ite_emits
        | apply Builder.EmitsOnly.insert_val_emits
        | apply Builder.EmitsOnly.insert_void_emits
        | apply Builder.EmitsOnly.pure_emits
        | apply Builder.EmitsOnly.of_BasicBlock_Create
        | apply Builder.EmitsOnly.of_SetInsertPoint
        | apply Builder.EmitsOnly.of_GetInsertBlock
        | apply Builder.EmitsOnly.bind_emits
        | intro _
        | unfold CreateAddrSpaceCast CreateICmpEQ CreateICmpNE CreateAnd CreateOr CreateNot
            CreateZExt CreateTrunc CreatePtrToInt CreateCall CreatePHI addIncoming CreateBr
            CreateCondBr CreateUnreachable CreateLoad CreateStore CreateExtractValue
            CreateIsNull CreateIsNotNull CreateFence emit_helper emit_unbox emit_unbox_store
            emit_static_alloca emit_lockstate_value emit_f_is extract_first_ptr null_load_check
            emit_new_struct track_pjlvalue maybe_decay_untracked decay_derived
            mark_callee_rooted stringConstPtr literal_pointer_val emit_tagfrom emit_typeof
            emit_typeof_boxed emit_datatype_name null_pointer_cmp
        | split
        | rfl)
  · have hB' : ctx.jl_has_intersect_type_not_kind t = false := by simpa using hB
    have h3' : ctx.jl_is_concrete_type t = false ∧
        (ctx.jl_is_datatype (ctx.jl_unwrap_unionall t) &&
          !ctx.name_abstract (ctx.jl_unwrap_unionall t) &&
          ctx.jl_subtype (ctx.name_wrapper (ctx.jl_unwrap_unionall t)) t) = false := by
      simpa [hB'] using h3
    simp only [hB', Bool.or_self, Bool.false_eq_true, if_false, h3'.1, h3'.2]
    have hfall : Builder.EmitsSome (fun i => i.is_runtime_isa = true) (do
          let t' ← emit_typeof x false false
          let p ← literal_pointer_val t
          let vtyp ← track_pjlvalue p
          let c ← CreateCall (.int 32) "jlsubtype_func" [t', vtyp]
          let r ← CreateICmpNE c (Value.const_int 32 0)
          (return some (r, false) : Builder IsaResult)) := by
      refine Builder.EmitsSome.bind_after (emit_typeof_inline x false false) fun t' => ?_
      refine Builder.EmitsSome.bind_after (literal_pointer_val_inline t) fun p => ?_
      refine Builder.EmitsSome.bind_after (track_pjlvalue_inline p) fun vtyp => ?_
      refine Builder.EmitsSome.bind_before (fun i => i.is_runtime_isa = false)
        (Builder.EmitsSome.insert_val_some _ _ fun _ => rfl) fun _ => ?_
      repeat (any_goals first
        | apply Builder.EmitsOnly.ite_emits
        | apply Builder.EmitsOnly.insert_val_emits
        | apply Builder.EmitsOnly.insert_void_emits
        | apply Builder.EmitsOnly.pure_emits
        | apply Builder.EmitsOnly.of_BasicBlock_Create
        | apply Builder.EmitsOnly.of_SetInsertPoint
        | apply Builder.EmitsOnly.of_GetInsertBlock
        | apply Builder.EmitsOnly.bind_emits
        | intro _
        | unfold CreateAddrSpaceCast CreateICmpEQ CreateICmpNE CreateAnd CreateOr CreateNot
            CreateZExt CreateTrunc CreatePtrToInt CreateCall CreatePHI addIncoming CreateBr
            CreateCondBr CreateUnreachable CreateLoad CreateStore CreateExtractValue
            CreateIsNull CreateIsNotNull CreateFence emit_helper emit_unbox emit_unbox_store
            emit_static_alloca emit_lockstate_value emit_f_is extract_first_ptr null_load_check
            emit_new_struct track_pjlvalue maybe_decay_untracked decay_derived
            mark_callee_rooted stringConstPtr literal_pointer_val emit_tagfrom emit_typeof
            emit_typeof_boxed emit_datatype_name null_pointer_cmp
        | split
        | rfl)
    cases t with
    | uniontype a b => exact absurd rfl (hnu a b)
    | _ => exact hfall

theorem emit_isa_body_of (ctx : jl_codectx_t) (depth : Nat) (x : jl_cgval_t)
    (type : jl_value_t) (msg : String) :
    ∃ recur, emit_isa ctx depth x type msg = emit_isa_body ctx recur x type msg := by
  cases depth with
  | zero => exact ⟨none, by rw [emit_isa]⟩
  | succ d => exact ⟨some fun t => emit_isa ctx d x t "", by rw [emit_isa]⟩

/-- C23: for every non-union type `t` that `emit_isa` cannot decide at compile time
(`known_isa` stays empty) and whose intersected type is `t` itself, and for every counter
within the cap of 127, `_can_optimize_isa` answers true on `t` if and only if the code
`emit_isa` emits contains no call of `jl_isa`, `jl_typeassert` or `jl_subtype`, that is,
`emit_isa` takes one of its inline lowerings; where `_can_optimize_isa` answers false the
emitted code contains such a call. -/
theorem _can_optimize_isa_agrees (ctx : jl_codectx_t) (depth : Nat) (x : jl_cgval_t)
    (t : jl_value_t) (msg : String) (c : Nat) (s : BuilderState)
    (hnu : ∀ a b, t ≠ .uniontype a b)
    (hk : (emit_isa_known ctx x t).1 = none) (hi : (emit_isa_known ctx x t).2 = t)
    (hc : c ≤ 127) :
    ((_can_optimize_isa ctx t c).1 = true ↔
      ∀ i ∈ (emit_isa ctx depth x t msg).emitted s, i.2.is_runtime_isa = false) ∧
    ((_can_optimize_isa ctx t c).1 = false ↔
      ∃ i ∈ (emit_isa ctx depth x t msg).emitted s, i.2.is_runtime_isa = true) := by
  obtain ⟨recur, hr⟩ := emit_isa_body_of ctx depth x t msg
  rw [hr, _can_optimize_isa_leaf ctx t c hnu hc]
  cases hinl : emit_isa_inline ctx t
  · obtain ⟨i, hi1, hi2⟩ :=
      (emit_isa_body_runtime ctx recur x t msg hnu hk hi hinl).emitted_some s
    refine ⟨⟨fun h => Bool.noConfusion h, fun h => ?_⟩, fun _ => ⟨i, hi1, hi2⟩, fun _ => rfl⟩
    rw [h i hi1] at hi2
    exact Bool.noConfusion hi2
  · have hall := (emit_isa_body_inline ctx recur x t msg hk hi hinl).emitted_all s
    refine ⟨⟨fun _ => hall, fun _ => rfl⟩, fun h => Bool.noConfusion h, fun h => ?_⟩
    exfalso
    obtain ⟨i, hi1, hi2⟩ := h
    rw [hall i hi1] at hi2
    exact Bool.noConfusion hi2

theorem _can_optimize_isa_agrees_witness :
    ((∀ a b, jl_value_t.datatype 1 ≠ .uniontype a b) ∧
      (emit_isa_known example_ctx example_boxed (.datatype 1)).1 = none ∧
      (emit_isa_known example_ctx example_boxed (.datatype 1)).2 = .datatype 1 ∧
      1 ≤ 127) ∧
    (((_can_optimize_isa example_ctx (.datatype 1) 1).1 = true ↔
      ∀ i ∈ (emit_isa example_ctx 0 example_boxed (.datatype 1) "").emitted BuilderState.init,
        i.2.is_runtime_isa = false) ∧
    ((_can_optimize_isa example_ctx (.datatype 1) 1).1 = false ↔
      ∃ i ∈ (emit_isa example_ctx 0 example_boxed (.datatype 1) "").emitted BuilderState.init,
        i.2.is_runtime_isa = true)) :=
  ⟨⟨fun _ _ h => jl_value_t.noConfusion h, by decide, by decide, by decide⟩,
    _can_optimize_isa_agrees example_ctx 0 example_boxed (.datatype 1) "" 1 BuilderState.init
      (fun _ _ h => jl_value_t.noConfusion h) (by decide) (by decide) (by decide)⟩

/-! ## The `typeassert` fallback of `emit_isa` -/

/-- C24 fails as stated: on the abstract type `datatype 7`, tested on a boxed value of
type `Any` with the message "typeassert", `emit_isa` falls back to the runtime call of
`jl_subtype`; it returns the comparison of the call's result with `handled = false`, and
`emit_typecheck` adds the branch on it, the block "fail" with the call of `jl_type_error`
and the block "pass". -/
theorem emit_isa_typeassert_subtype_fallback :
    (emit_isa_known example_abstract_ctx example_boxed (.datatype 7)).1 = none ∧
    emit_isa example_abstract_ctx 0 example_boxed (.datatype 7) "typeassert"
        BuilderState.init =
      (some (Value.reg 5 (.int 1), false),
        { next := 6
          blocks := [(0, "top")]
          cur := 0
          code := [(0, Inst.helper 1 "emit_typeof"
              [Value.arg 0 T_prjlvalue, Value.arg 0 T_prjlvalue]),
            (0, Inst.load_literal 2 (.datatype 7)),
            (0, Inst.addrspacecast 3 (Value.reg 2 T_pjlvalue) T_prjlvalue),
            (0, Inst.call 4 "jlsubtype_func"
              [Value.reg 1 T_prjlvalue, Value.reg 3 T_prjlvalue]),
            (0, Inst.icmp_ne 5 (Value.reg 4 (.int 32)) (Value.const_int 32 0))] }) ∧
    emit_typecheck example_abstract_ctx 0 example_boxed (.datatype 7) "typeassert"
        BuilderState.init =
      (true,
        { next := 13
          blocks := [(0, "top"), (6, "fail"), (7, "pass")]
          cur := 7
          code := [(0, Inst.helper 1 "emit_typeof"
              [Value.arg 0 T_prjlvalue, Value.arg 0 T_prjlvalue]),
            (0, Inst.load_literal 2 (.datatype 7)),
            (0, Inst.addrspacecast 3 (Value.reg 2 T_pjlvalue) T_prjlvalue),
            (0, Inst.call 4 "jlsubtype_func"
              [Value.reg 1 T_prjlvalue, Value.reg 3 T_prjlvalue]),
            (0, Inst.icmp_ne 5 (Value.reg 4 (.int 32)) (Value.const_int 32 0)),
            (0, Inst.cond_br (Value.reg 5 (.int 1)) 7 6),
            (6, Inst.load_literal 8 (.datatype 7)),
            (6, Inst.addrspacecast 9 (Value.string_global "typeassert") (.ptr 0)),
            (6, Inst.addrspacecast 10 (Value.reg 8 T_pjlvalue) T_prjlvalue),
            (6, Inst.addrspacecast 11 (Value.arg 0 T_prjlvalue) (.ptr 12)),
            (6, Inst.call 12 "jltypeerror_func"
              [Value.reg 9 (.ptr 0), Value.reg 10 T_prjlvalue, Value.reg 11 (.ptr 12)]),
            (6, Inst.unreachable)] }) := by
  refine ⟨by decide, rfl, rfl⟩

/-- C24 (amended): whenever `emit_isa` is called with the message "typeassert" and
falls back to the runtime check of the intersection with `Type` (no compile-time answer,
neither the unique-instance compare nor the kind check applies, and
`jl_has_intersect_type_not_kind` holds of the type or of the intersected type), the code
it emits ends on a single call of `jl_typeassert` on the boxed value and the type, with
no other call of a runtime type test before it; it returns the constant true with
`handled = true`, and `emit_typecheck` adds nothing to it: no branch, no block. -/
theorem emit_isa_typeassert_fallback (ctx : jl_codectx_t) (depth : Nat) (x : jl_cgval_t)
    (type : jl_value_t) (s : BuilderState)
    (hk : (emit_isa_known ctx x type).1 = none)
    (h1 : (ctx.jl_is_type_type (emit_isa_known ctx x type).2 &&
      ctx.jl_pointer_egal (emit_isa_known ctx x type).2) = false)
    (h2 : (emit_isa_known ctx x type).2 ≠ jl_value_t.type_type)
    (h3 : (ctx.jl_has_intersect_type_not_kind type ||
      ctx.jl_has_intersect_type_not_kind (emit_isa_known ctx x type).2) = true) :
    (∃ pre blk n vtyp,
      (emit_isa ctx depth x type "typeassert").emitted s =
        pre ++ [(blk, Inst.call n "jltypeassert_func"
          [((boxed ctx x false s).1).getD (Value.undef T_prjlvalue), vtyp])] ∧
      ∀ i ∈ pre, i.2.is_runtime_isa = false) ∧
    (emit_isa ctx depth x type "typeassert" s).1 = some (Value.const_int 1 1, true) ∧
    emit_typecheck ctx depth x type "typeassert" s =
      (true, (emit_isa ctx depth x type "typeassert" s).2) := by
  obtain ⟨recur, hr⟩ := emit_isa_body_of ctx depth x type "typeassert"
  have hbody : emit_isa_body ctx recur x type "typeassert" =
      (boxed ctx x false >>= fun vx => literal_pointer_val type >>= fun p =>
        track_pjlvalue p >>= fun vtyp =>
          CreateCall .void "jltypeassert_func" [vx.getD (Value.undef T_prjlvalue), vtyp] >>=
            fun _ => (Pure.pure (some (Value.const_int 1 1, true)) : Builder IsaResult)) := by
    unfold emit_isa_body
    simp only [hk, h1, h2, h3, if_true, if_false, Bool.false_eq_true]
  have hres : (emit_isa ctx depth x type "typeassert" s).1 =
      some (Value.const_int 1 1, true) := by
    rw [hr, hbody]; rfl
  refine ⟨?_, hres, ?_⟩
  · rw [hr, hbody]
    obtain ⟨l1, e1, -, p1⟩ := (boxed_inline ctx x false).out s
    obtain ⟨l2, e2, -, p2⟩ := (literal_pointer_val_inline type).out (boxed ctx x false s).2
    obtain ⟨l3, e3, -, p3⟩ := (track_pjlvalue_inline
      (literal_pointer_val type (boxed ctx x false s).2).1).out
      (literal_pointer_val type (boxed ctx x false s).2).2
    refine ⟨l1 ++ l2 ++ l3,
      (track_pjlvalue (literal_pointer_val type (boxed ctx x false s).2).1
        (literal_pointer_val type (boxed ctx x false s).2).2).2.cur,
      (track_pjlvalue (literal_pointer_val type (boxed ctx x false s).2).1
        (literal_pointer_val type (boxed ctx x false s).2).2).2.next,
      (track_pjlvalue (literal_pointer_val type (boxed ctx x false s).2).1
        (literal_pointer_val type (boxed ctx x false s).2).2).1, ?_, ?_⟩
    · simp only [Builder.emitted, Builder.bind_apply, Builder.pure_apply, CreateCall,
        insert_val, insert_inst, e3, e2, e1, List.append_assoc, List.drop_left]
    · intro i hi
      simp only [List.mem_append] at hi
      rcases hi with (hi | hi) | hi
      · exact p1 i hi
      · exact p2 i hi
      · exact p3 i hi
  · unfold emit_typecheck
    rw [Builder.bind_apply]
    generalize emit_isa ctx depth x type "typeassert" s = r at hres ⊢
    obtain ⟨r1, r2⟩ := r
    simp only at hres
    subst hres
    rfl

theorem emit_isa_typeassert_fallback_witness :
    ((emit_isa_known example_abstract_ctx example_boxed (.datatype 9)).1 = none ∧
      (example_abstract_ctx.jl_is_type_type
          (emit_isa_known example_abstract_ctx example_boxed (.datatype 9)).2 &&
        example_abstract_ctx.jl_pointer_egal
          (emit_isa_known example_abstract_ctx example_boxed (.datatype 9)).2) = false ∧
      (emit_isa_known example_abstract_ctx example_boxed (.datatype 9)).2 ≠
        jl_value_t.type_type ∧
      (example_abstract_ctx.jl_has_intersect_type_not_kind (.datatype 9) ||
        example_abstract_ctx.jl_has_intersect_type_not_kind
          (emit_isa_known example_abstract_ctx example_boxed (.datatype 9)).2) = true) ∧
    ((∃ pre blk n vtyp,
      (emit_isa example_abstract_ctx 0 example_boxed (.datatype 9) "typeassert").emitted
          BuilderState.init =
        pre ++ [(blk, Inst.call n "jltypeassert_func"
          [((boxed example_abstract_ctx example_boxed false BuilderState.init).1).getD
            (Value.undef T_prjlvalue), vtyp])] ∧
      ∀ i ∈ pre, i.2.is_runtime_isa = false) ∧
    (emit_isa example_abstract_ctx 0 example_boxed (.datatype 9) "typeassert"
      BuilderState.init).1 = some (Value.const_int 1 1, true) ∧
    emit_typecheck example_abstract_ctx 0 example_boxed (.datatype 9) "typeassert"
        BuilderState.init =
      (true, (emit_isa example_abstract_ctx 0 example_boxed (.datatype 9) "typeassert"
        BuilderState.init).2)) :=
  ⟨⟨by decide, by decide, by decide, by decide⟩,
    emit_isa_typeassert_fallback example_abstract_ctx 0 example_boxed (.datatype 9)
      BuilderState.init (by decide) (by decide) (by decide) (by decide)⟩

/-! ## The space `split_value_into` uses -/

/-- The loop of `split_value_into` on a type with data: every write to the buffer is
inside the object and the root slots `i, i+1, ...` are filled in order. -/
theorem split_value_into_loop_data_within (typ : jl_datatype_t) (hwf : wf_layout typ) :
    ∀ (rem i off : Nat), i + rem = typ.npointers →
      (i = 0 → off = 0) →
      (0 < i → off = jl_ptr_offset typ (i - 1) * sizeof_ptr + sizeof_ptr) →
      (∀ c ∈ split_value_into_loop typ false rem i off off,
        c ≠ CopyInst.unbox_store ∧
          ∀ d n, c.dst_bytes = some (d, n) → 0 < n ∧ d + n ≤ typ.size) ∧
      (split_value_into_loop typ false rem i off off).filterMap CopyInst.root_slot =
        List.range' i rem := by
  intro rem
  induction rem with
  | zero =>
    intro i off hi h0 h1
    simp only [split_value_into_loop]
    by_cases hp : typ.size > off
    · simp only [hp, if_true, List.mem_singleton, forall_eq, CopyInst.dst_bytes,
        Option.some.injEq, Prod.mk.injEq, and_imp, List.filterMap_cons, CopyInst.root_slot,
        List.filterMap_nil, List.range'_zero, and_true, ne_eq]
      refine ⟨fun h => CopyInst.noConfusion h, ?_⟩
      intro d n hd hn
      omega
    · simp [hp]
  | succ rem ih =>
    intro i off hi h0 h1
    have hlen := hwf.npointers_eq
    have hin := hwf.slot_inside _ (jl_ptr_offset_mem typ i (by omega))
    have hle : off ≤ jl_ptr_offset typ i * sizeof_ptr := by
      rcases Nat.eq_zero_or_pos i with hz | hz
      · rw [h0 hz]; exact Nat.zero_le _
      · have := jl_ptr_offset_lt typ hwf.increasing (i - 1) i (by omega) (by omega)
        rw [h1 hz]
        simp only [sizeof_ptr]
        omega
    have hd : (if jl_ptr_offset typ i * sizeof_ptr > off
        then off + (jl_ptr_offset typ i * sizeof_ptr - off) else off) =
        jl_ptr_offset typ i * sizeof_ptr := by
      split <;> omega
    obtain ⟨ih1, ih2⟩ := ih (i + 1) (jl_ptr_offset typ i * sizeof_ptr + sizeof_ptr) (by omega)
      (by omega) (fun _ => by rw [Nat.add_sub_cancel])
    simp only [split_value_into_loop, Bool.not_false, if_true, hd]
    constructor
    · intro c hc
      simp only [List.mem_append, List.mem_cons, List.mem_singleton, List.not_mem_nil,
        or_false] at hc
      rcases hc with (hc | hc | hc) | hc
      · by_cases hp : jl_ptr_offset typ i * sizeof_ptr > off
        · simp only [hp, if_true, List.mem_singleton] at hc
          subst hc
          refine ⟨fun h => CopyInst.noConfusion h, ?_⟩
          intro d n hdn
          simp only [CopyInst.dst_bytes, Option.some.injEq, Prod.mk.injEq] at hdn
          omega
        · simp [hp] at hc
      · subst hc
        exact ⟨fun h => CopyInst.noConfusion h, fun d n hdn => by simp [CopyInst.dst_bytes] at hdn⟩
      · subst hc
        refine ⟨fun h => CopyInst.noConfusion h, ?_⟩
        intro d n hdn
        simp only [CopyInst.dst_bytes, Option.some.injEq, Prod.mk.injEq] at hdn
        simp only [sizeof_ptr] at hdn hin ⊢
        omega
      · exact ih1 c hc
    · rw [List.filterMap_append, List.filterMap_append, ih2]
      have hcp : (if jl_ptr_offset typ i * sizeof_ptr > off
          then [CopyInst.memcpy off off (jl_ptr_offset typ i * sizeof_ptr - off)]
          else []).filterMap CopyInst.root_slot = [] := by
        split <;> rfl
      rw [hcp]
      rfl

/-- The loop of `split_value_into` on a type that is nothing but pointers: nothing is
written to the buffer and the root slots `i, i+1, ...` are filled in order. -/
theorem split_value_into_loop_nodata_within (typ : jl_datatype_t) (hwf : wf_layout typ)
    (hall : allpointers typ = true) :
    ∀ (rem i : Nat), i + rem = typ.npointers →
      (∀ c ∈ split_value_into_loop typ true rem i 0 (i * sizeof_ptr),
        c ≠ CopyInst.unbox_store ∧ c.dst_bytes = none) ∧
      (split_value_into_loop typ true rem i 0 (i * sizeof_ptr)).filterMap CopyInst.root_slot =
        List.range' i rem := by
  have hsz : typ.size = typ.npointers * sizeof_ptr := by simpa [allpointers] using hall
  intro rem
  induction rem with
  | zero =>
    intro i hi
    have hin : i = typ.npointers := by omega
    simp only [split_value_into_loop]
    rw [if_neg (by rw [hsz, hin]; omega)]
    simp
  | succ rem ih =>
    intro i hi
    have hp := jl_ptr_offset_allpointers typ hwf hall i (by omega)
    obtain ⟨ih1, ih2⟩ := ih (i + 1) (by omega)
    have he : i * sizeof_ptr + sizeof_ptr = (i + 1) * sizeof_ptr := by ring
    simp only [split_value_into_loop, hp, Bool.not_true, gt_iff_lt, lt_self_iff_false,
      if_false, List.nil_append, Bool.false_eq_true, he]
    constructor
    · intro c hc
      simp only [List.singleton_append, List.mem_cons] at hc
      rcases hc with hc | hc
      · subst hc
        exact ⟨fun h => CopyInst.noConfusion h, rfl⟩
      · exact ih1 c hc
    · simp only [List.singleton_append, List.filterMap_cons, CopyInst.root_slot, ih2]
      rfl

/-- C26: for every well-formed layout with pointers, whether the source is in memory
or already split, `split_value_size(typ) = (first, second)` is the space the
instructions of `split_value_into` use: `first` is 0 when the type is all pointers and
`jl_datatype_size(typ)` otherwise, `second` is `npointers`; every write to the
destination buffer is a non-empty range inside `[0, first)`, there is no write at all
when the type is all pointers, and the root slots filled are exactly
`0, ..., second - 1`, each once. -/
theorem split_value_size_exact (typ : jl_datatype_t) (hwf : wf_layout typ) (x_nroots : Nat) :
    (split_value_size typ).1 = (if allpointers typ then 0 else typ.size) ∧
    (split_value_size typ).2 = typ.npointers ∧
    (∀ c ∈ split_value_into typ x_nroots (split_value_size typ).2,
      c ≠ CopyInst.unbox_store ∧
        ∀ d n, c.dst_bytes = some (d, n) → 0 < n ∧ d + n ≤ (split_value_size typ).1) ∧
    (allpointers typ = true →
      ∀ c ∈ split_value_into typ x_nroots (split_value_size typ).2, c.dst_bytes = none) ∧
    (split_value_into typ x_nroots (split_value_size typ).2).filterMap CopyInst.root_slot =
      List.range (split_value_size typ).2 := by
  have hfp : decide (0 ≤ typ.first_ptr) = true := by simpa using hwf.first_ptr_nonneg
  have hpos := hwf.npointers_pos
  have hne : typ.npointers ≠ 0 := by omega
  have h1 : (split_value_size typ).1 = (if allpointers typ then 0 else typ.size) := by
    simp only [split_value_size]
  have h2 : (split_value_size typ).2 = typ.npointers := by
    simp only [split_value_size, hfp, if_true]
  have hroots : ((List.range typ.npointers).map CopyInst.copy_root).filterMap
      CopyInst.root_slot = List.range typ.npointers := by
    rw [List.filterMap_map]
    have : (CopyInst.root_slot ∘ CopyInst.copy_root) = some := rfl
    rw [this, List.filterMap_some]
  refine ⟨h1, h2, ?_⟩
  rw [h2, h1]
  by_cases hx : x_nroots ≠ 0
  · cases hall : allpointers typ with
    | true =>
      have e : split_value_into typ x_nroots typ.npointers =
          (List.range typ.npointers).map CopyInst.copy_root := by
        simp [split_value_into, hx, split_value_size, hall, hfp]
      rw [e]
      refine ⟨?_, ?_, hroots⟩
      · intro c hc
        obtain ⟨j, -, rfl⟩ := List.mem_map.mp hc
        exact ⟨fun h => CopyInst.noConfusion h, fun d n hdn => by simp [CopyInst.dst_bytes] at hdn⟩
      · intro _ c hc
        obtain ⟨j, -, rfl⟩ := List.mem_map.mp hc
        rfl
    | false =>
      have e : split_value_into typ x_nroots typ.npointers =
          (if typ.size > 0 then [CopyInst.memcpy 0 0 typ.size] else []) ++
            (List.range typ.npointers).map CopyInst.copy_root := by
        simp [split_value_into, hx, split_value_size, hall, hfp]
      rw [e]
      refine ⟨?_, fun h => Bool.noConfusion h, ?_⟩
      · intro c hc
        rcases List.mem_append.mp hc with hc | hc
        · by_cases hp : typ.size > 0
          · simp only [hp, if_true, List.mem_singleton] at hc
            subst hc
            refine ⟨fun h => CopyInst.noConfusion h, ?_⟩
            intro d n hdn
            simp only [CopyInst.dst_bytes, Option.some.injEq, Prod.mk.injEq] at hdn
            simp only [Bool.false_eq_true, if_false]
            omega
          · simp [hp] at hc
        · obtain ⟨j, -, rfl⟩ := List.mem_map.mp hc
          exact ⟨fun h => CopyInst.noConfusion h,
            fun d n hdn => by simp [CopyInst.dst_bytes] at hdn⟩
      · rw [List.filterMap_append, hroots]
        have hcp : (if typ.size > 0 then [CopyInst.memcpy 0 0 typ.size]
            else []).filterMap CopyInst.root_slot = [] := by
          split <;> rfl
        rw [hcp]
        rfl
  · have hx0 : x_nroots = 0 := by simpa using hx
    have e : split_value_into typ x_nroots typ.npointers =
        split_value_into_loop typ (allpointers typ) typ.npointers 0 0 0 := by
      simp [split_value_into, hx0, hne, hfp]
    rw [e, List.range_eq_range']
    cases hall : allpointers typ with
    | true =>
      obtain ⟨a, b⟩ := split_value_into_loop_nodata_within typ hwf hall typ.npointers 0
        (by omega)
      rw [Nat.zero_mul] at a b
      refine ⟨fun c hc => ⟨(a c hc).1, fun d n hdn => ?_⟩, fun _ c hc => (a c hc).2, b⟩
      rw [(a c hc).2] at hdn
      exact Option.noConfusion hdn
    | false =>
      obtain ⟨a, b⟩ := split_value_into_loop_data_within typ hwf typ.npointers 0 0 (by omega)
        (fun _ => rfl) (fun h => absurd h (Nat.lt_irrefl 0))
      refine ⟨fun c hc => ⟨(a c hc).1, fun d n hdn => ?_⟩, fun h => Bool.noConfusion h, b⟩
      simpa using (a c hc).2 d n hdn

theorem split_value_size_exact_witness :
    wf_layout example_mixed ∧
    ((split_value_size example_mixed).1 =
      (if allpointers example_mixed then 0 else example_mixed.size) ∧
    (split_value_size example_mixed).2 = example_mixed.npointers ∧
    (∀ c ∈ split_value_into example_mixed 0 (split_value_size example_mixed).2,
      c ≠ CopyInst.unbox_store ∧
        ∀ d n, c.dst_bytes = some (d, n) →
          0 < n ∧ d + n ≤ (split_value_size example_mixed).1) ∧
    (allpointers example_mixed = true →
      ∀ c ∈ split_value_into example_mixed 0 (split_value_size example_mixed).2,
        c.dst_bytes = none) ∧
    (split_value_into example_mixed 0 (split_value_size example_mixed).2).filterMap
        CopyInst.root_slot =
      List.range (split_value_size example_mixed).2) :=
  ⟨example_mixed_wf, split_value_size_exact example_mixed example_mixed_wf 0⟩

/-! ## The cursors of `split_value_field` -/

theorem to_ssize_sub_add_self (off x : Nat) (hx : x < 2 ^ 63) :
    to_ssize (size_sub (size_add off x) off) = (x : Int) := by
  simp only [to_ssize, size_sub, size_add]
  norm_num at hx ⊢
  split <;> omega

theorem split_value_field_cursors_equal (typ : jl_datatype_t) (idx : Nat) :
    ∀ (rem i off : Nat), ∀ p ∈ split_value_field_cursors typ idx false rem i off off,
      p.1 = p.2 := by
  intro rem
  induction rem with
  | zero => intro i off p hp; simp [split_value_field_cursors] at hp
  | succ rem ih =>
    intro i off p hp
    simp only [split_value_field_cursors, List.mem_cons] at hp
    rcases hp with hp | hp
    · rw [hp]
    · split at hp
      · simp at hp
      · exact ih _ _ p hp

theorem split_value_field_loop_equal (typ : jl_datatype_t) (idx : Nat)
    (hf : jl_field_offset typ idx < 2 ^ 63) :
    ∀ (rem i off : Nat),
      (split_value_field_loop typ idx false rem i off off).1 = (jl_field_offset typ idx : Int) ∨
      ((split_value_field_loop typ idx false rem i off off).1 = -1 ∧
        (jl_field_isptr typ idx || allpointers_field typ idx) = true) := by
  intro rem
  induction rem with
  | zero =>
    intro i off
    left
    simp only [split_value_field_loop]
    exact to_ssize_sub_add_self off _ hf
  | succ rem ih =>
    intro i off
    by_cases h1 : jl_ptr_offset typ i * sizeof_ptr ≥ jl_field_offset typ idx
    · by_cases h2 : jl_ptr_offset typ i * sizeof_ptr ≥
          jl_field_offset typ idx + jl_field_size typ idx
      · left
        simp only [split_value_field_loop, h1, h2, if_true]
        exact to_ssize_sub_add_self off _ hf
      · simp only [split_value_field_loop, h1, h2, if_true, if_false]
        by_cases h3 : (jl_field_isptr typ idx || allpointers_field typ idx) = true
        · right
          exact ⟨by rw [if_pos h3], h3⟩
        · left
          rw [if_neg h3]
          exact to_ssize_sub_add_self off _ hf
    · simp only [split_value_field_loop, h1, if_false, Bool.not_false, if_true]
      exact ih (i + 1) _

/-- C27: for every datatype that is not all pointers and every field index (the field
offset a `uint32_t`), `split_value_field` keeps its two cursors equal, `dst_off = src_off`
at the head of every loop iteration, and the byte-buffer offset it returns is either the
native offset `jl_field_offset(typ, idx)` or -1, and -1 only for a pointer field or an
inline field that is all pointers. -/
theorem split_value_field_cursors_track (typ : jl_datatype_t) (idx : Nat)
    (hall : allpointers typ = false) (hf : jl_field_offset typ idx < 2 ^ 32) :
    (∀ p ∈ split_value_field_cursors typ idx (allpointers typ) typ.npointers 0 0 0,
      p.1 = p.2) ∧
    ((split_value_field typ idx).1 = -1 ∨
      (split_value_field typ idx).1 = (jl_field_offset typ idx : Int)) ∧
    ((split_value_field typ idx).1 = -1 →
      jl_field_isptr typ idx = true ∨ allpointers_field typ idx = true) := by
  have hf' : jl_field_offset typ idx < 2 ^ 63 :=
    Nat.lt_of_lt_of_le hf (Nat.pow_le_pow_right (by norm_num) (by norm_num))
  have h := split_value_field_loop_equal typ idx hf' typ.npointers 0 0
  rw [hall]
  unfold split_value_field
  rw [hall]
  refine ⟨split_value_field_cursors_equal typ idx typ.npointers 0 0, ?_, ?_⟩
  · rcases h with h | ⟨h, -⟩
    · exact Or.inr h
    · exact Or.inl h
  · intro hm
    rcases h with h | ⟨-, h⟩
    · rw [h] at hm
      omega
    · simpa using h

theorem split_value_field_cursors_track_witness :
    (allpointers example_mixed = false ∧ jl_field_offset example_mixed 1 < 2 ^ 32) ∧
    ((∀ p ∈ split_value_field_cursors example_mixed 1 (allpointers example_mixed)
        example_mixed.npointers 0 0 0, p.1 = p.2) ∧
    ((split_value_field example_mixed 1).1 = -1 ∨
      (split_value_field example_mixed 1).1 = (jl_field_offset example_mixed 1 : Int)) ∧
    ((split_value_field example_mixed 1).1 = -1 →
      jl_field_isptr example_mixed 1 = true ∨ allpointers_field example_mixed 1 = true)) :=
  ⟨⟨by decide, by decide⟩,
    split_value_field_cursors_track example_mixed 1 (by decide) (by decide)⟩

/-! ## The alignment of a field -/

/-- The lowest set bit of a 32-bit number with bit 4 set, as `al & -al` computes it, is
the lowest set bit of its five low bits. -/
theorem lowbit_32 (y : Nat) (hy : y < 2 ^ 32) (h16 : 16 ≤ y % 32) :
    y &&& ((2 ^ 32 - y) % 2 ^ 32) = (y % 32) &&& (32 - y % 32) := by
  have hz : (2 ^ 32 - y) % 2 ^ 32 = 2 ^ 32 - y := Nat.mod_eq_of_lt (by omega)
  rw [hz]
  have hm : y % 32 < 2 ^ 5 := Nat.mod_lt _ (by norm_num)
  have hm' : 32 - y % 32 < 2 ^ 5 := by omega
  have hq : y / 32 < 2 ^ 27 := by omega
  have ey : y = 2 ^ 5 * (y / 32) + y % 32 := by omega
  have ez : 2 ^ 32 - y = 2 ^ 5 * (2 ^ 27 - (y / 32 + 1)) + (32 - y % 32) := by omega
  apply Nat.eq_of_testBit_eq
  intro i
  rw [Nat.testBit_and, Nat.testBit_and, ez]
  nth_rewrite 1 [ey]
  rw [Nat.testBit_mul_pow_two_add _ hm, Nat.testBit_mul_pow_two_add _ hm']
  by_cases hi : i < 5
  · simp only [hi, if_true]
  · simp only [hi, if_false]
    rw [Nat.testBit_two_pow_sub_succ hq]
    have h1 : (y % 32).testBit i = false :=
      Nat.testBit_lt_two_pow (Nat.lt_of_lt_of_le hm (Nat.pow_le_pow_right (by norm_num) (by omega)))
    rw [h1]
    cases (y / 32).testBit (i - 5) <;> simp

/-- The five low bits of `offset | 16`, and what `al & -al` gives for them. -/
theorem lowbit_or_16 : ∀ o < 32,
    16 ≤ (o ||| 16) % 32 ∧
    (((o ||| 16) % 32) &&& (32 - (o ||| 16) % 32)) ∣ o ∧
    (((o ||| 16) % 32) &&& (32 - (o ||| 16) % 32)) ∣ 16 ∧
    (∃ j, j ≤ 4 ∧ (((o ||| 16) % 32) &&& (32 - (o ||| 16) % 32)) = 2 ^ j) ∧
    (o = 0 → (((o ||| 16) % 32) &&& (32 - (o ||| 16) % 32)) = 16) := by
  decide

theorem or_16_mod_32 (off : Nat) : ((off ||| 16) % 2 ^ 32) % 32 = ((off % 32) ||| 16) % 32 := by
  have h : ((off ||| 16) % 2 ^ 32) % 2 ^ 5 = ((off % 2 ^ 5) ||| 16) % 2 ^ 5 := by
    apply Nat.eq_of_testBit_eq
    intro i
    simp only [Nat.testBit_mod_two_pow, Nat.testBit_or]
    by_cases hi : i < 5
    · have : i < 32 := by omega
      simp [hi, this]
    · simp [hi]
  simpa using h

/-- C29: for every datatype whose alignment is a power of two (of a `uint16_t`) and every
field index `i`, `jl_field_align(dt, i)` is a power of two, is at most 16 and at most the
alignment of the datatype, and divides the byte offset of the field; an offset of 0 gives
the smaller of 16 and the alignment of the datatype. -/
theorem jl_field_align_pow2 (dt : jl_datatype_t) (i k : Nat) (hk : k < 16)
    (ha : dt.align = 2 ^ k) :
    (∃ j, jl_field_align dt i = 2 ^ j) ∧
    jl_field_align dt i ≤ 16 ∧
    jl_field_align dt i ≤ dt.align ∧
    jl_field_align dt i ∣ jl_field_offset dt i ∧
    (jl_field_offset dt i = 0 → jl_field_align dt i = min 16 dt.align) := by
  have h32 := or_16_mod_32 (jl_field_offset dt i)
  obtain ⟨h16, hdo, hd16, ⟨j, hj4, hj⟩, h0⟩ :=
    lowbit_or_16 (jl_field_offset dt i % 32) (Nat.mod_lt _ (by norm_num))
  rw [← h32] at h16 hdo hd16 hj h0
  have hlow := lowbit_32 ((jl_field_offset dt i ||| 16) % 2 ^ 32)
    (Nat.mod_lt _ (by norm_num)) h16
  have hal : dt.align % 2 ^ 32 = 2 ^ k := by
    rw [ha]
    exact Nat.mod_eq_of_lt (Nat.pow_lt_pow_right (by norm_num) (by omega))
  have hres : jl_field_align dt i = min (2 ^ j) (min (2 ^ k) 16) := by
    have h16m : (16 : Nat) % 2 ^ 32 = 16 := by norm_num
    simp only [jl_field_align, JL_HEAP_ALIGNMENT, hal, h16m]
    rw [hlow, hj]
  have hmin : min (2 ^ j) (min (2 ^ k) 16) = 2 ^ (min j (min k 4)) := by
    have e16 : (16 : Nat) = 2 ^ 4 := by norm_num
    rw [e16]
    rcases Nat.le_total k 4 with h | h
    · rw [Nat.min_eq_left (Nat.pow_le_pow_right (by norm_num) h), Nat.min_eq_left h]
      rcases Nat.le_total j k with h' | h'
      · rw [Nat.min_eq_left (Nat.pow_le_pow_right (by norm_num) h'), Nat.min_eq_left h']
      · rw [Nat.min_eq_right (Nat.pow_le_pow_right (by norm_num) h'), Nat.min_eq_right h']
    · rw [Nat.min_eq_right (Nat.pow_le_pow_right (by norm_num) h), Nat.min_eq_right h,
        Nat.min_eq_left (Nat.pow_le_pow_right (by norm_num) hj4), Nat.min_eq_left hj4]
  have hdvd : 2 ^ (min j (min k 4)) ∣ 2 ^ j := Nat.pow_dvd_pow 2 (Nat.min_le_left _ _)
  have hoff : 2 ^ j ∣ jl_field_offset dt i := by
    rw [hj] at hdo hd16
    have hm : 32 * (jl_field_offset dt i / 32) + jl_field_offset dt i % 32 =
        jl_field_offset dt i := Nat.div_add_mod _ _
    have h32d : (16 : Nat) ∣ 32 := ⟨2, by norm_num⟩
    rw [← hm]
    exact Dvd.dvd.add (Dvd.dvd.mul_right (Dvd.dvd.trans hd16 h32d) _) hdo
  refine ⟨⟨_, hres.trans hmin⟩, ?_, ?_, ?_, ?_⟩
  · rw [hres]
    exact Nat.le_trans (Nat.min_le_right _ _) (Nat.min_le_right _ _)
  · rw [hres, ha]
    exact Nat.le_trans (Nat.min_le_right _ _) (Nat.min_le_left _ _)
  · rw [hres, hmin]
    exact Dvd.dvd.trans hdvd hoff
  · intro hz
    have := h0 (by rw [hz])
    rw [this] at hj
    rw [hres, ← hj, ha, Nat.min_comm (2 ^ k) 16, ← Nat.min_assoc, Nat.min_self]

theorem jl_field_align_pow2_witness :
    (3 < 16 ∧ example_union_field.align = 2 ^ 3) ∧
    ((∃ j, jl_field_align example_union_field 1 = 2 ^ j) ∧
    jl_field_align example_union_field 1 ≤ 16 ∧
    jl_field_align example_union_field 1 ≤ example_union_field.align ∧
    jl_field_align example_union_field 1 ∣ jl_field_offset example_union_field 1 ∧
    (jl_field_offset example_union_field 1 = 0 →
      jl_field_align example_union_field 1 = min 16 example_union_field.align)) :=
  ⟨⟨by decide, by decide⟩, jl_field_align_pow2 example_union_field 1 3 (by decide) (by decide)⟩

/-! ## The element count of a new `GenericMemory` and the bound on its length -/

/-- C25, the code at the failing input: for a `GenericMemory` of 2-byte elements the
bound `genericmemoryype_maxsize` is `2^62 - 1`, and the element count `2^62 - 1`, with
`2^63 - 2` bytes, passes the size validation of `emit_memorynew` and of
`emit_const_len_memorynew`: the count is not strictly less than the bound. -/
theorem memorynew_count_reaches_maxsize :
    genericmemoryype_constelsize example_ctx example_layouts (.datatype 11) = 2 ∧
    genericmemoryype_maxsize example_ctx example_layouts (.datatype 11) = 2 ^ 62 - 1 ∧
    emit_memorynew_overflow { size := 2 } (2 ^ 62 - 1) = false ∧
    emit_const_len_memorynew_overflow { size := 2 } (2 ^ 62 - 1) = false ∧
    ¬ (((2 ^ 62 - 1 : Nat) : Int) <
      genericmemoryype_maxsize example_ctx example_layouts (.datatype 11)) := by
  decide

/-! ## The bounds check of `emit_memoryref` -/

theorem emit_memoryref_oob_code (ctx : jl_codectx_t) (ref : jl_cgval_t) (i inbound : Value)
    (failBB endBB : Nat) (s : BuilderState) :
    ∃ tail, (emit_memoryref_oob ctx ref i inbound failBB endBB s).2.code =
        s.code ++ (s.cur, Inst.cond_br inbound endBB failBB) :: tail ∧
      (emit_memoryref_oob ctx ref i inbound failBB endBB s).2.cur = endBB := by
  obtain ⟨l, hl, -, -⟩ := (boxed_inline ctx ref false).out
    ⟨s.next, s.blocks, failBB, s.code ++ [(s.cur, Inst.cond_br inbound endBB failBB)]⟩
  simp only [emit_memoryref_oob, Builder.bind_apply, CreateCondBr, insert_void, SetInsertPoint,
    mark_callee_rooted, CreateAddrSpaceCast, CreateCall, CreateUnreachable, insert_val,
    insert_inst, Builder.pure_apply, hl]
  simp only [List.append_assoc, List.singleton_append]
  exact ⟨_, rfl, trivial⟩

/-- With the bounds check enabled on a memory with stored elements,
`emit_memoryref_newdata` emits the instructions of the check into the current block, then
the branch to "idxend" or "oob", and goes on in "idxend". -/
theorem emit_memoryref_newdata_code (ctx : jl_codectx_t) (ref : jl_cgval_t)
    (data mem i elsz : Value) (inbounds : jl_value_t) (layout : jl_datatype_layout_t)
    (s : BuilderState)
    (hbc : bounds_check_enabled ctx inbounds = true)
    (hstored : ((!layout.arrayelem_isboxed && layout.arrayelem_isunion) ||
      layout.size == 0) = false)
    (hmem : mem.getType = T_prjlvalue) (hity : i.getType = T_size) :
    ∃ tail,
      (emit_memoryref_newdata ctx ref data mem i elsz inbounds layout).emitted s =
        (emit_memoryref_check_insts s.next data mem i elsz).map (fun x => (s.cur, x)) ++
          (s.cur, Inst.cond_br (Value.reg (s.next + 23) (.int 1)) (s.next + 10) (s.next + 9)) ::
            tail ∧
      (emit_memoryref_newdata ctx ref data mem i elsz inbounds layout s).2.cur = s.next + 10 ∧
      (emit_memoryref_newdata ctx ref data mem i elsz inbounds layout s).1 =
        Value.reg (s.next + 8) data.getType := by
  have hdd : decay_derived mem = CreateAddrSpaceCast mem (.ptr AddressSpace.Derived) := by
    unfold decay_derived
    rw [hmem, if_neg (by decide)]
  simp only [Builder.emitted, emit_memoryref_newdata, hbc, hstored, if_true, if_false,
    Bool.false_eq_true,
    Builder.bind_apply, Builder.pure_apply, CreateSub, CreateAdd, CreateNUWAdd, CreateICmpUGE,
    CreateMul, CreateGEP_i8, CreatePtrToInt, CreateICmpULT, CreateNot, CreateAnd,
    emit_genericmemorylen, emit_genericmemoryptr, hdd, CreateAddrSpaceCast,
    CreateStructGEP, CreateLoad, BasicBlock_Create, insert_val, insert_inst, Option.getD,
    ne_eq, not_true_eq_false, Value.getType_reg, hity]
  generalize hS : emit_memoryref_oob ctx ref i _ _ _ _ = r
  obtain ⟨tail, ht, hc⟩ : ∃ tail, r.2.code = s.code ++
      ((emit_memoryref_check_insts s.next data mem i elsz).map (fun x => (s.cur, x)) ++
        (s.cur, Inst.cond_br (Value.reg (s.next + 23) (.int 1)) (s.next + 10) (s.next + 9)) ::
          tail) ∧ r.2.cur = s.next + 10 := by
    rw [← hS]
    obtain ⟨tail, ht, hc⟩ := emit_memoryref_oob_code ctx ref i _ _ _ _
    refine ⟨tail, ?_, hc⟩
    rw [ht]
    simp only [emit_memoryref_check_insts, List.map, List.append_assoc, List.cons_append,
      List.nil_append, Nat.add_assoc, List.singleton_append]
  refine ⟨tail, ?_, hc, ?_⟩
  · rw [ht, List.drop_left]
  · simp only [Nat.add_assoc]

/-- The arithmetic of the bounds check of `emit_memoryref` on 64-bit words: with element
size `e ≥ 1`, length `L`, `L * e < 2^63`, data pointer `P + D` and index bits `I`, the
overflow test fails and the byte index is below the byte length exactly when
`0 ≤ D + (idx - 1) * e < L * e` in unbounded integers. -/
theorem memoryref_check_arith (e L P D I : Nat) (he : 1 ≤ e) (hLe : L * e < 2 ^ 63)
    (hD : D ≤ L * e) (hI : I < 2 ^ 64) :
    (¬ (((I + 2 ^ 64 - 1) % 2 ^ 64 + L) % 2 ^ 64 ≥ (L + L) % 2 ^ 64) ∧
      (((P + D) % 2 ^ 64 + (I + 2 ^ 64 - 1) % 2 ^ 64 * e % 2 ^ 64) % 2 ^ 64 + 2 ^ 64 -
        P % 2 ^ 64) % 2 ^ 64 < L * e % 2 ^ 64) ↔
    (0 ≤ (D : Int) + (to_ssize I - 1) * e ∧ (D : Int) + (to_ssize I - 1) * e < (L * e : Nat)) := by
  have hL : L ≤ L * e := Nat.le_mul_of_pos_right L he
  have h64 : (2 : Nat) ^ 64 = 18446744073709551616 := by norm_num
  have h63 : (2 : Nat) ^ 63 = 9223372036854775808 := by norm_num
  have h64i : (2 : Int) ^ 64 = 18446744073709551616 := by norm_num
  rw [h64] at hI
  rw [h63] at hLe
  simp only [h64]
  by_cases hpos : 1 ≤ I ∧ I < 9223372036854775808
  · -- the index is positive: the offset is `I - 1`
    have ho : (I + 18446744073709551616 - 1) % 18446744073709551616 = I - 1 := by omega
    have ht : to_ssize I - 1 = ((I - 1 : Nat) : Int) := by
      simp only [to_ssize, h64, h63, h64i]
      rw [Nat.mod_eq_of_lt hI, if_pos hpos.2]
      omega
    rw [ho, ht]
    have hc : ((I - 1 : Nat) : Int) * (e : Int) = (((I - 1) * e : Nat) : Int) := by push_cast; rfl
    rw [hc]
    by_cases hlt : I - 1 < L
    · have hX : (I - 1) * e + e ≤ L * e := by
        have := Nat.mul_le_mul_right e (show I - 1 + 1 ≤ L by omega)
        rw [Nat.add_mul, Nat.one_mul] at this
        exact this
      generalize (I - 1) * e = X at hX ⊢
      generalize L * e = Y at hX hLe hD hL ⊢
      omega
    · have hX : L * e ≤ (I - 1) * e := Nat.mul_le_mul_right e (by omega)
      generalize (I - 1) * e = X at hX ⊢
      generalize L * e = Y at hX hLe hD hL ⊢
      omega
  · -- the index is zero or negative: the offset is `2^64 - n`, `n = 1 - idx`
    obtain ⟨n, hn1, hn2, hon, htn⟩ : ∃ n : Nat, 1 ≤ n ∧ n ≤ 9223372036854775809 ∧
        (I + 18446744073709551616 - 1) % 18446744073709551616 + n = 18446744073709551616 ∧
        to_ssize I - 1 = -(n : Int) := by
      by_cases h0 : I = 0
      · refine ⟨1, le_refl 1, by omega, by subst h0; rfl, ?_⟩
        subst h0
        simp [to_ssize]
      · refine ⟨18446744073709551616 + 1 - I, by omega, by omega, by omega, ?_⟩
        simp only [to_ssize, h64, h63, h64i]
        rw [Nat.mod_eq_of_lt hI, if_neg (by omega)]
        omega
    rw [htn]
    have hc : -(n : Int) * (e : Int) = -((n * e : Nat) : Int) := by push_cast; ring
    rw [hc]
    have hsum : (I + 18446744073709551616 - 1) % 18446744073709551616 * e + n * e =
        18446744073709551616 * e := by
      rw [← Nat.add_mul, hon]
    have hne : e ≤ n * e := Nat.le_mul_of_pos_left e hn1
    by_cases hle : n ≤ L
    · have hX : n * e ≤ L * e := Nat.mul_le_mul_right e hle
      generalize (I + 18446744073709551616 - 1) % 18446744073709551616 = o at hon hsum ⊢
      generalize o * e = X at hsum ⊢
      generalize n * e = X' at hsum hX hne ⊢
      generalize L * e = Y at hX hLe hD hL ⊢
      omega
    · have hX : L * e + e ≤ n * e := by
        have := Nat.mul_le_mul_right e (show L + 1 ≤ n by omega)
        rw [Nat.add_mul, Nat.one_mul] at this
        exact this
      generalize (I + 18446744073709551616 - 1) % 18446744073709551616 = o at hon hsum ⊢
      generalize o * e = X at hsum ⊢
      generalize n * e = X' at hsum hX hne ⊢
      generalize L * e = Y at hX hLe hD hL ⊢
      omega

theorem Machine.set_mem (m : Machine) (d x : Nat) : (m.set d x).mem = m.mem := rfl

theorem Value.eval_set_add (v : Value) (m : Machine) (n k x : Nat)
    (hv : ∀ j t, v = Value.reg j t → j < n) :
    v.eval (m.set (n + k) x) = v.eval m :=
  Value.eval_set v m n (n + k) x hv (Nat.le_add_right n k)

theorem Value.eval_set_self (v : Value) (m : Machine) (n x : Nat)
    (hv : ∀ j t, v = Value.reg j t → j < n) :
    v.eval (m.set n x) = v.eval m :=
  Value.eval_set v m n n x hv (Nat.le_refl n)

/-- The value the branch of the bounds check tests: not zero exactly when the overflow
test fails and the byte index is below the byte length. -/
theorem memoryref_check_cond (A B : Prop) [Decidable A] [Decidable B] :
    ((2 ^ 1 - 1 - (if A then 1 else 0) % 2 ^ 1 &&& if B then 1 else 0) ≠ 0) ↔ (¬ A ∧ B) := by
  by_cases hA : A <;> by_cases hB : B <;> simp [hA, hB]

/-- The run of the instructions of the bounds check and of the branch after them. -/
theorem emit_memoryref_check_run (code : List (Nat × Inst)) (blk n : Nat)
    (data mem i elsz : Value) (t f : Nat) (rest : List Inst) (m : Machine)
    (e L P D I : Nat)
    (hdata : ∀ j ty, data = Value.reg j ty → j < n)
    (hmem : ∀ j ty, mem = Value.reg j ty → j < n)
    (hi : ∀ j ty, i = Value.reg j ty → j < n)
    (helsz : ∀ j ty, elsz = Value.reg j ty → j < n)
    (hity : i.getType = T_size)
    (he : 1 ≤ e) (hLe : L * e < 2 ^ 63) (hD : D ≤ L * e) (hI : I < 2 ^ 64)
    (vi : i.eval m = I) (ve : elsz.eval m = e) (vd : data.eval m = (P + D) % 2 ^ 64)
    (vl : m.mem (mem.eval m) = L) (vp : m.mem (mem.eval m + 1) = P) :
    ∃ m', run_block code blk (emit_memoryref_check_insts n data mem i elsz ++
        Inst.cond_br (Value.reg (n + 23) (.int 1)) t f :: rest) m =
        .inr (if 0 ≤ (D : Int) + (to_ssize I - 1) * e ∧
            (D : Int) + (to_ssize I - 1) * e < (L * e : Nat) then t else f, m') ∧
      m'.mem = m.mem ∧ m'.calls = m.calls := by
  have hw : i.width = 64 := by simp [Value.width, hity, T_size]
  have h0 : (0 : Nat) % 2 ^ 32 = 0 := by norm_num
  have h1 : (1 : Nat) % 2 ^ 32 = 1 := by norm_num
  have h1' : (1 : Nat) % 2 ^ 64 % 2 ^ 64 = 1 := by norm_num
  have hcond := (memoryref_check_cond
    (((I + 2 ^ 64 - 1) % 2 ^ 64 + L) % 2 ^ 64 ≥ (L + L) % 2 ^ 64)
    ((((P + D) % 2 ^ 64 + (I + 2 ^ 64 - 1) % 2 ^ 64 * e % 2 ^ 64) % 2 ^ 64 + 2 ^ 64 -
        P % 2 ^ 64) % 2 ^ 64 < L * e % 2 ^ 64)).trans
    (memoryref_check_arith e L P D I he hLe hD hI)
  simp only [emit_memoryref_check_insts, List.cons_append, List.nil_append, run_block,
    Inst.exec, hw, Value.eval_reg, Value.eval_const_int, Machine.set_mem]
  simp (disch := first | omega | assumption) only [Machine.set_reg_self, Machine.set_reg_ne,
    Value.eval_set_add, Value.eval_set_self, Value.width, Value.getType_reg, T_size,
    h0, h1, h1', Nat.add_zero, vi, ve, vd, vl, vp, hcond]
  exact ⟨_, rfl, rfl, rfl⟩

/-- C30: the bounds check that `emit_memoryref` emits for a memory with stored elements
is exact under 64-bit wraparound. With the check enabled, element size `e ≥ 1`, length
`L` with `L * e < 2^63`, data pointer `mptr + D` with `D ≤ L * e`, and index bits `I`
(the index is `to_ssize I`), the run of the emitted code from the current block takes
the branch to the block "idxend", where the emission goes on, if and only if
`0 ≤ D + (idx - 1) * e < L * e` in unbounded integers, and the branch to the block "oob"
otherwise; memory and calls are as before. -/
theorem emit_memoryref_bounds_exact (ctx : jl_codectx_t) (ref : jl_cgval_t)
    (data mem i elsz : Value) (inbounds : jl_value_t) (layout : jl_datatype_layout_t)
    (s : BuilderState) (m : Machine) (e L P D I : Nat)
    (hbc : bounds_check_enabled ctx inbounds = true)
    (hstored : ((!layout.arrayelem_isboxed && layout.arrayelem_isunion) ||
      layout.size == 0) = false)
    (hmemty : mem.getType = T_prjlvalue) (hity : i.getType = T_size)
    (hdata : ∀ j ty, data = Value.reg j ty → j < s.next)
    (hmem : ∀ j ty, mem = Value.reg j ty → j < s.next)
    (hi : ∀ j ty, i = Value.reg j ty → j < s.next)
    (helsz : ∀ j ty, elsz = Value.reg j ty → j < s.next)
    (he : 1 ≤ e) (hLe : L * e < 2 ^ 63) (hD : D ≤ L * e) (hI : I < 2 ^ 64)
    (vi : i.eval m = I) (ve : elsz.eval m = e) (vd : data.eval m = (P + D) % 2 ^ 64)
    (vl : m.mem (mem.eval m) = L) (vp : m.mem (mem.eval m + 1) = P) :
    (emit_memoryref_newdata ctx ref data mem i elsz inbounds layout s).2.cur = s.next + 10 ∧
    ∃ m',
      run_block ((emit_memoryref_newdata ctx ref data mem i elsz inbounds layout).emitted s)
          s.cur
          (block_insts
            ((emit_memoryref_newdata ctx ref data mem i elsz inbounds layout).emitted s) s.cur)
          m =
        .inr (if 0 ≤ (D : Int) + (to_ssize I - 1) * e ∧
            (D : Int) + (to_ssize I - 1) * e < (L * e : Nat) then s.next + 10 else s.next + 9,
          m') ∧
      m'.mem = m.mem ∧ m'.calls = m.calls := by
  obtain ⟨tail, hcode, hcur, -⟩ := emit_memoryref_newdata_code ctx ref data mem i elsz inbounds
    layout s hbc hstored hmemty hity
  refine ⟨hcur, ?_⟩
  have hblk : block_insts
      ((emit_memoryref_newdata ctx ref data mem i elsz inbounds layout).emitted s) s.cur =
      emit_memoryref_check_insts s.next data mem i elsz ++
        Inst.cond_br (Value.reg (s.next + 23) (.int 1)) (s.next + 10) (s.next + 9) ::
          block_insts tail s.cur := by
    rw [hcode, block_insts_append, block_insts_map_self]
    simp [block_insts]
  rw [hblk]
  exact emit_memoryref_check_run _ s.cur s.next data mem i elsz (s.next + 10) (s.next + 9) _ m
    e L P D I hdata hmem hi helsz hity he hLe hD hI vi ve vd vl vp

theorem emit_memoryref_bounds_exact_witness :
    (bounds_check_enabled example_ctx jl_true = true ∧
      (1 ≤ 8 ∧ 4 * 8 < 2 ^ 63 ∧ 16 ≤ 4 * 8 ∧ 2 < 2 ^ 64) ∧
      (Value.arg 3 T_size).eval example_memory_machine = 2 ∧
      (Value.const_int 64 8).eval example_memory_machine = 8 ∧
      (Value.arg 1 (.ptr 0)).eval example_memory_machine = (4096 + 16) % 2 ^ 64 ∧
      example_memory_machine.mem ((Value.arg 2 T_prjlvalue).eval example_memory_machine) = 4 ∧
      example_memory_machine.mem ((Value.arg 2 T_prjlvalue).eval example_memory_machine + 1) =
        4096) ∧
    ((emit_memoryref_newdata example_ctx example_boxed (Value.arg 1 (.ptr 0))
        (Value.arg 2 T_prjlvalue) (Value.arg 3 T_size) (Value.const_int 64 8) jl_true
        { size := 8 } BuilderState.init).2.cur = BuilderState.init.next + 10 ∧
    ∃ m',
      run_block ((emit_memoryref_newdata example_ctx example_boxed (Value.arg 1 (.ptr 0))
          (Value.arg 2 T_prjlvalue) (Value.arg 3 T_size) (Value.const_int 64 8) jl_true
          { size := 8 }).emitted BuilderState.init) BuilderState.init.cur
          (block_insts
            ((emit_memoryref_newdata example_ctx example_boxed (Value.arg 1 (.ptr 0))
              (Value.arg 2 T_prjlvalue) (Value.arg 3 T_size) (Value.const_int 64 8) jl_true
              { size := 8 }).emitted BuilderState.init) BuilderState.init.cur)
          example_memory_machine =
        .inr (if 0 ≤ ((16 : Nat) : Int) + (to_ssize 2 - 1) * (8 : Nat) ∧
            ((16 : Nat) : Int) + (to_ssize 2 - 1) * (8 : Nat) < (4 * 8 : Nat)
          then BuilderState.init.next + 10 else BuilderState.init.next + 9, m') ∧
      m'.mem = example_memory_machine.mem ∧ m'.calls = example_memory_machine.calls) :=
  ⟨⟨by decide, ⟨by decide, by norm_num, by decide, by norm_num⟩, rfl, rfl, rfl, rfl, rfl⟩,
    emit_memoryref_bounds_exact example_ctx example_boxed (Value.arg 1 (.ptr 0))
      (Value.arg 2 T_prjlvalue) (Value.arg 3 T_size) (Value.const_int 64 8) jl_true
      { size := 8 } BuilderState.init example_memory_machine 8 4 4096 16 2
      (by decide) (by decide) rfl rfl
      (fun _ _ h => Value.noConfusion h) (fun _ _ h => Value.noConfusion h)
      (fun _ _ h => Value.noConfusion h) (fun _ _ h => Value.noConfusion h)
      (by decide) (by norm_num) (by decide) (by norm_num) rfl rfl rfl rfl rfl⟩

/-! ## Boxing and unboxing give back the bits -/

/-- Putting together what `split_value_into` made of an image gives the image back. -/
theorem recombine_split_image (typ : jl_datatype_t) (hwf : wf_layout typ)
    (src dst0 out0 : Mem) (bits : Mem) (roots : List PtrVal)
    (hs : split_value typ src dst0 = some (bits, roots)) :
    ∃ out, recombine typ bits roots out0 = some out ∧
      (∀ a, a < typ.size → out a = src a) ∧
      (∀ a, typ.size ≤ a → out a = out0 a) := by
  obtain ⟨bits', roots', hs', _, hroots, _, _, hbits⟩ := split_value_spec typ hwf src dst0
  rw [hs] at hs'
  obtain ⟨rfl, rfl⟩ := Prod.mk.inj (Option.some.inj hs')
  obtain ⟨out, hr, hhi, hptr, hdata⟩ := recombine_spec typ hwf bits roots out0
  refine ⟨out, hr, ?_, hhi⟩
  intro a ha
  by_cases hslot : ∃ j, j < typ.npointers ∧ in_slot (jl_ptr_offset typ j) a
  · obtain ⟨j, hj, hin⟩ := hslot
    rw [hptr j a hj hin, hroots j hj]
    simp only [in_slot] at hin
    rw [load_ptr_getD _ _ _ (by omega)]
    congr 1
    omega
  · have hns : ∀ j, j < typ.npointers → ¬ in_slot (jl_ptr_offset typ j) a :=
      fun j hj hin => hslot ⟨j, hj, hin⟩
    cases hall : allpointers typ with
    | true =>
      obtain ⟨j, hj, hin⟩ := allpointers_in_slot typ hwf hall a ha
      exact absurd hin (hns j hj)
    | false =>
      rw [hdata a ha hns hall, hbits hall a ha hns]

/-- C21: for an unboxed value of a concrete immutable type that `boxed` neither finds
constant nor boxes through a special case or a promotion, in each representation
(register value, stack slot, split with `inline_roots`; a split type has a well-formed
layout with pointers), `boxed` emits the allocation of an object and the call of
`init_bits_cgval` on it and returns the object; after the run of `init_bits_cgval` the
object holds, byte for byte, the native image of the value, which is what `emit_unbox`
reads back, and nothing past the object is written. -/
theorem boxed_unbox_roundtrip (ctx : jl_codectx_t) (vinfo : jl_cgval_t)
    (is_promotable : Bool) (s : BuilderState) (image obj0 : Mem) (x : unboxed_repr)
    (h1 : ¬ (vinfo.typ = jl_value_t.bottom_type ∨ vinfo.typ = jl_value_t.null))
    (h2 : vinfo.constant = jl_value_t.null) (h3 : vinfo.typ ≠ jl_value_t.nothing_type)
    (h4 : vinfo.isboxed = false) (h5 : vinfo.TIndex = none)
    (h6 : ctx.boxed_special vinfo (ctx.julia_type_to_llvm vinfo.typ) = false)
    (h7 : (vinfo.promotion_point.isSome && is_promotable && vinfo.inline_roots.isEmpty) =
      false)
    (_hk : x.kind_of vinfo)
    (hx : x.holds (ctx.datatype vinfo.typ) image)
    (hwf : ∀ bits roots, x = .split bits roots → wf_layout (ctx.datatype vinfo.typ)) :
    (boxed ctx vinfo is_promotable s).1 = some (Value.reg s.next T_prjlvalue) ∧
    (boxed ctx vinfo is_promotable).emitted s =
      [(s.cur, Inst.helper s.next "emit_allocobj" []),
        (s.cur, Inst.helper (s.next + 1) "init_bits_cgval"
          (Value.reg s.next T_prjlvalue :: vinfo.operands))] ∧
    ∃ obj, init_bits_cgval_run (ctx.datatype vinfo.typ) x obj0 = some obj ∧
      emit_unbox_run (ctx.datatype vinfo.typ) obj =
        (List.range (ctx.datatype vinfo.typ).size).map image ∧
      ∀ a, (ctx.datatype vinfo.typ).size ≤ a → obj a = obj0 a := by
  have h2' : ¬ vinfo.constant ≠ jl_value_t.null := fun h => h h2
  refine ⟨?_, ?_, ?_⟩
  · simp only [boxed, h1, h2', h3, h4, h5, h6, h7, if_false, Option.isSome_none,
      Bool.false_eq_true, Builder.bind_apply, Builder.pure_apply, emit_helper, insert_val,
      insert_inst]
  · simp only [Builder.emitted, boxed, h1, h2', h3, h4, h5, h6, h7, if_false,
      Option.isSome_none, Bool.false_eq_true, Builder.bind_apply, Builder.pure_apply,
      emit_helper, insert_val, insert_inst, List.append_assoc, List.drop_left]
    rfl
  · cases x with
    | register bits =>
      refine ⟨_, rfl, ?_, ?_⟩
      · simp only [emit_unbox_run]
        apply List.map_congr_left
        intro a ha
        have ha' : a < (ctx.datatype vinfo.typ).size := List.mem_range.mp ha
        simp only [do_memcpy, Nat.zero_le, Nat.zero_add, ha', and_self, if_true, Nat.sub_zero]
        exact hx a ha'
      · intro a ha
        simp only [do_memcpy]
        rw [if_neg (by omega)]
    | slot mem =>
      refine ⟨_, rfl, ?_, ?_⟩
      · simp only [emit_unbox_run]
        apply List.map_congr_left
        intro a ha
        have ha' : a < (ctx.datatype vinfo.typ).size := List.mem_range.mp ha
        simp only [do_memcpy, Nat.zero_le, Nat.zero_add, ha', and_self, if_true, Nat.sub_zero]
        exact hx a ha'
      · intro a ha
        simp only [do_memcpy]
        rw [if_neg (by omega)]
    | split bits roots =>
      obtain ⟨dst0, hs⟩ := hx
      obtain ⟨out, hr, hlo, hhi⟩ := recombine_split_image (ctx.datatype vinfo.typ)
        (hwf bits roots rfl) image dst0 obj0 bits roots hs
      refine ⟨out, hr, ?_, hhi⟩
      simp only [emit_unbox_run]
      apply List.map_congr_left
      intro a ha
      exact hlo a (List.mem_range.mp ha)

theorem boxed_unbox_roundtrip_witness :
    (¬ (example_unboxed_register.typ = jl_value_t.bottom_type ∨
        example_unboxed_register.typ = jl_value_t.null) ∧
      example_unboxed_register.constant = jl_value_t.null ∧
      example_unboxed_register.typ ≠ jl_value_t.nothing_type ∧
      example_unboxed_register.isboxed = false ∧
      example_unboxed_register.TIndex = none ∧
      example_types_ctx.boxed_special example_unboxed_register
        (example_types_ctx.julia_type_to_llvm example_unboxed_register.typ) = false ∧
      (unboxed_repr.register example_image).kind_of example_unboxed_register ∧
      (unboxed_repr.register example_image).holds
        (example_types_ctx.datatype example_unboxed_register.typ) example_image) ∧
    ((boxed example_types_ctx example_unboxed_register false BuilderState.init).1 =
      some (Value.reg BuilderState.init.next T_prjlvalue) ∧
    (boxed example_types_ctx example_unboxed_register false).emitted BuilderState.init =
      [(BuilderState.init.cur, Inst.helper BuilderState.init.next "emit_allocobj" []),
        (BuilderState.init.cur, Inst.helper (BuilderState.init.next + 1) "init_bits_cgval"
          (Value.reg BuilderState.init.next T_prjlvalue ::
            example_unboxed_register.operands))] ∧
    ∃ obj, init_bits_cgval_run (example_types_ctx.datatype example_unboxed_register.typ)
        (unboxed_repr.register example_image) zero_mem = some obj ∧
      emit_unbox_run (example_types_ctx.datatype example_unboxed_register.typ) obj =
        (List.range (example_types_ctx.datatype example_unboxed_register.typ).size).map
          example_image ∧
      ∀ a, (example_types_ctx.datatype example_unboxed_register.typ).size ≤ a →
        obj a = zero_mem a) :=
  ⟨⟨by decide, rfl, by decide, rfl, rfl, rfl, ⟨rfl, rfl⟩, fun _ _ => rfl⟩,
    boxed_unbox_roundtrip example_types_ctx example_unboxed_register false BuilderState.init
      example_image zero_mem (unboxed_repr.register example_image)
      (by decide) rfl (by decide) rfl rfl rfl rfl ⟨rfl, rfl⟩ (fun _ _ => rfl)
      (fun _ _ h => unboxed_repr.noConfusion h)⟩

/-! ## A replacefield on a field that is not defined -/

/-- C20: evaluation at a failing input. An atomic replacefield of a boxed field of type
`Any` with an unboxed comparand that is not constant starts its retry loop with the null
pointer as comparand. When the field is not defined (holds the null pointer), the
`cmpxchg` succeeds: the code before the null check of the old value stores the new value
(the pointer 100) into the field, sets `Success` to 1 and calls the write barrier,
although the field does not hold the comparand. With a boxed comparand of a type compared
by address the same field is left unchanged, `Success` is 0 and no write barrier is
called. -/
theorem typed_store_replacefield_undef :
    example_unboxed3.isboxed = false ∧ example_unboxed3.constant = jl_value_t.null ∧
    example_undef_field_machine.mem ((Value.arg 10 (.ptr 0)).eval example_undef_field_machine)
      = 0 ∧
    (example_replacefield example_unboxed3).drop
        ((example_replacefield example_unboxed3).length - 3) =
      [(14, Inst.helper 16 "null_load_check" [Value.reg 5 T_prjlvalue]),
        (14, Inst.zext 17 (Value.reg 6 (.int 1)) (.int 8)),
        (14, Inst.helper 18 "emit_new_struct"
          [Value.reg 5 T_prjlvalue, Value.reg 5 T_prjlvalue, Value.reg 17 (.int 8)])] ∧
    (∃ m1, run ((example_replacefield example_unboxed3).take
          ((example_replacefield example_unboxed3).length - 3)) 8 0
        example_undef_field_machine = Outcome.fell 14 m1 ∧
      m1.mem 180 = 100 ∧ m1.reg 6 = 1 ∧
      m1.calls = [("jl_write_barrier_func", [188, 100])]) ∧
    (∃ m2, run ((example_replacefield example_boxed_symbol).take
          ((example_replacefield example_boxed_symbol).length - 3)) 8 0
        example_undef_field_machine = Outcome.fell 6 m2 ∧
      m2.mem 180 = 0 ∧ m2.reg 4 = 0 ∧ m2.calls = []) := by
  refine ⟨rfl, rfl, rfl, ?_, ⟨_, rfl, rfl, rfl, rfl⟩, ⟨_, rfl, rfl, rfl, rfl⟩⟩
  decide

end Cgutils
